import Mathlib

/-!
# Peridigm material utilities: a shallow embedding of `PdMaterialUtilities.cxx`

Conventions of the embedding.

* A C array reached through a raw pointer (`const double*`, `const int*`) is a total function
  from offsets to values: `ℕ → α` for `double` data and `ℕ → ℕ` for the neighbour list.  The C
  functions receive no array lengths, only base pointers, and so do the definitions below.
* A pointer into such an array (`neighPtr`, `bondDamage`, `xOwned`, ...) is the offset from the
  base pointer of the array it walks.
* `double` arithmetic is interpreted exactly, in a linearly ordered field `α`; `sqrt`, `exp`
  and the constant `M_PI` are parameters.  Rounding is therefore outside the model, except
  where a statement instantiates `sqrt` or `pow` with a rounding or underflowing function.
* In a field a quotient with divisor zero is zero, whereas the quotient of two doubles with
  divisor zero is an infinity or NaN.  A statement that depends on the value of a quotient
  carries the hypothesis that its divisor is not zero, and the `_checked` evaluators return
  `none` as soon as a division by zero is evaluated.
* Distinct pointer parameters are assumed not to alias.
* `int` values (neighbour counts, neighbour indices, `numOwnedPoints`) are natural numbers:
  they are assumed non-negative and far from overflow.
* The closed forms of a call are stated with `blockStart`, `bondStart`, `numNeighOf` and
  `neighOf`, which read the flattened neighbour list block by block.
* A `for (int i = 0; i < n; i++)` loop is `forLoop body n`, a state transformer.
-/

namespace PdMaterialUtilities

variable {α : Type} [LinearOrderedField α]

/-- The loop `for (int i = 0; i < n; i++) body(i)`: iteration `0` runs first. -/
def forLoop {σ : Type} (body : ℕ → σ → σ) : ℕ → σ → σ
  | 0, s => s
  | n + 1, s => body n (forLoop body n s)

/-- Offset in `localNeighborList` of the block of owned point `p`: the cursor `neighPtr` at the
top of outer iteration `p`, when every block is `numNeigh` followed by `numNeigh` indices. -/
def blockStart (localNeighborList : ℕ → ℕ) : ℕ → ℕ
  | 0 => 0
  | p + 1 => blockStart localNeighborList p + 1 + localNeighborList (blockStart localNeighborList p)

/-- Number of neighbours of owned point `p`: the first entry of its block. -/
def numNeighOf (localNeighborList : ℕ → ℕ) (p : ℕ) : ℕ :=
  localNeighborList (blockStart localNeighborList p)

/-- The `j`-th neighbour of owned point `p`. -/
def neighOf (localNeighborList : ℕ → ℕ) (p j : ℕ) : ℕ :=
  localNeighborList (blockStart localNeighborList p + 1 + j)

/-- Number of bonds in the blocks `0 .. p-1`: the value of a bond-indexed cursor at the top of
outer iteration `p`. -/
def bondStart (localNeighborList : ℕ → ℕ) : ℕ → ℕ
  | 0 => 0
  | p + 1 => bondStart localNeighborList p + numNeighOf localNeighborList p

/-- Euclidean distance `sqrt(dx*dx+dy*dy+dz*dz)` between the points stored at scalar offsets
`P` and `Q` of the interleaved coordinate array `a` (`dx = a[Q+0]-a[P+0]`, ...). -/
def bondLength (sqrt : α → α) (a : ℕ → α) (P Q : ℕ) : α :=
  let dx := a (Q + 0) - a (P + 0)
  let dy := a (Q + 1) - a (P + 1)
  let dz := a (Q + 2) - a (P + 2)
  sqrt (dx * dx + dy * dy + dz * dz)

/-! ## computeDilatation (lines 99-198) -/

/-- Cursors and output array of `computeDilatation`. -/
structure DilatationState (α : Type) where
  neighPtr : ℕ
  bondDamagePtr : ℕ
  dilatationOwned : ℕ → α

/-- Body of the inner loop of `computeDilatation` (both overloads, lines 125-139 and 180-194),
with the loop increments `neighPtr++, bondDamage++`.  `X`, `Y` are the scalar offsets of the
owned point in `xOverlap`, `yOverlap`; `m`, `theta` its offsets in `mOwned`, `dilatationOwned`. -/
def computeDilatation_bond (sqrt : α → α) (xOverlap yOverlap mOwned volumeOverlap bondDamage : ℕ → α)
    (localNeighborList : ℕ → ℕ) (X Y m theta : ℕ) (s : DilatationState α) : DilatationState α :=
  let OMEGA : α := 1
  let localId := localNeighborList s.neighPtr
  let cellVolume := volumeOverlap localId
  let XP := 3 * localId
  let YP := 3 * localId
  let dx := xOverlap (XP + 0) - xOverlap (X + 0)
  let dy := xOverlap (XP + 1) - xOverlap (X + 1)
  let dz := xOverlap (XP + 2) - xOverlap (X + 2)
  let zetaSqared := dx * dx + dy * dy + dz * dz
  let dx := yOverlap (YP + 0) - yOverlap (Y + 0)
  let dy := yOverlap (YP + 1) - yOverlap (Y + 1)
  let dz := yOverlap (YP + 2) - yOverlap (Y + 2)
  let dY := dx * dx + dy * dy + dz * dz
  let d := sqrt zetaSqared
  let e := sqrt dY - d
  { neighPtr := s.neighPtr + 1
    bondDamagePtr := s.bondDamagePtr + 1
    dilatationOwned := Function.update s.dilatationOwned theta
      (s.dilatationOwned theta
        + 3 * OMEGA * (1 - bondDamage s.bondDamagePtr) * d * e * cellVolume / mOwned m) }

/-- Body of the outer loop of the dense `computeDilatation` (lines 119-142): the pointers
`xOwned`, `yOwned`, `m`, `theta` have been advanced `p` times, by 3, 3, 1 and 1. -/
def computeDilatation_point (sqrt : α → α) (xOverlap yOverlap mOwned volumeOverlap bondDamage : ℕ → α)
    (localNeighborList : ℕ → ℕ) (p : ℕ) (s : DilatationState α) : DilatationState α :=
  let numNeigh := localNeighborList s.neighPtr
  let s : DilatationState α :=
    { neighPtr := s.neighPtr + 1
      bondDamagePtr := s.bondDamagePtr
      dilatationOwned := Function.update s.dilatationOwned p 0 }
  forLoop (fun _ => computeDilatation_bond sqrt xOverlap yOverlap mOwned volumeOverlap bondDamage
    localNeighborList (3 * p) (3 * p) p p) numNeigh s

/-- Dense `computeDilatation` (lines 99-143): final cursors and dilatation array. -/
def computeDilatation_run (sqrt : α → α) (xOverlap yOverlap mOwned volumeOverlap bondDamage : ℕ → α)
    (dilatationOwned : ℕ → α) (localNeighborList : ℕ → ℕ) (numOwnedPoints : ℕ) :
    DilatationState α :=
  forLoop (computeDilatation_point sqrt xOverlap yOverlap mOwned volumeOverlap bondDamage
    localNeighborList) numOwnedPoints
    { neighPtr := 0, bondDamagePtr := 0, dilatationOwned := dilatationOwned }

/-- Dense `computeDilatation` (lines 99-143): the array `dilatationOwned` after the call. -/
def computeDilatation (sqrt : α → α) (xOverlap yOverlap mOwned volumeOverlap bondDamage : ℕ → α)
    (dilatationOwned : ℕ → α) (localNeighborList : ℕ → ℕ) (numOwnedPoints : ℕ) : ℕ → α :=
  (computeDilatation_run sqrt xOverlap yOverlap mOwned volumeOverlap bondDamage dilatationOwned
    localNeighborList numOwnedPoints).dilatationOwned

/-- Body of the outer loop of the `ownedIDs` overload of `computeDilatation` (lines 167-197). -/
def computeDilatation_ownedIDs_point (sqrt : α → α)
    (xOverlap yOverlap mOwned volumeOverlap bondDamage : ℕ → α)
    (ownedIDs localNeighborList : ℕ → ℕ) (p : ℕ) (s : DilatationState α) : DilatationState α :=
  let ID := ownedIDs p
  let xOwned := 3 * ID
  let yOwned := 3 * ID
  let m := ID
  let theta := ID
  let numNeigh := localNeighborList s.neighPtr
  let s : DilatationState α :=
    { neighPtr := s.neighPtr + 1
      bondDamagePtr := s.bondDamagePtr
      dilatationOwned := Function.update s.dilatationOwned theta 0 }
  forLoop (fun _ => computeDilatation_bond sqrt xOverlap yOverlap mOwned volumeOverlap bondDamage
    localNeighborList xOwned yOwned m theta) numNeigh s

/-- The `ownedIDs` overload of `computeDilatation` (lines 146-198): the array
`dilatationOwned` after the call. -/
def computeDilatation_ownedIDs (sqrt : α → α)
    (xOverlap yOverlap mOwned volumeOverlap bondDamage : ℕ → α)
    (dilatationOwned : ℕ → α) (ownedIDs localNeighborList : ℕ → ℕ) (numOwnedPoints : ℕ) : ℕ → α :=
  (forLoop (computeDilatation_ownedIDs_point sqrt xOverlap yOverlap mOwned volumeOverlap bondDamage
    ownedIDs localNeighborList) numOwnedPoints
    { neighPtr := 0, bondDamagePtr := 0, dilatationOwned := dilatationOwned }).dilatationOwned

/-! ## Pairwise force assembly (lines 259-264, 337-342, 515-520, 704-709, 938-943) -/

/-- The compound assignment `a[i] += c`. -/
def addAt (a : ℕ → α) (i : ℕ) (c : α) : ℕ → α := Function.update a i (a i + c)

/-- The compound assignment `a[i] -= c`. -/
def subAt (a : ℕ → α) (i : ℕ) (c : α) : ℕ → α := Function.update a i (a i - c)

/-- The six assembly statements at the end of every force evaluator's inner loop:
`*(fOwned+k) += f_k*cellVolume;` for `k = 0,1,2`, then
`fInternalOverlap[3*localId+k] -= f_k*selfCellVolume;` for `k = 0,1,2`, in that order. -/
def assemblePairwiseForce (fInternalOverlap : ℕ → α) (fOwned localId : ℕ)
    (fx fy fz cellVolume selfCellVolume : α) : ℕ → α :=
  let f := fInternalOverlap
  let f := addAt f (fOwned + 0) (fx * cellVolume)
  let f := addAt f (fOwned + 1) (fy * cellVolume)
  let f := addAt f (fOwned + 2) (fz * cellVolume)
  let f := subAt f (3 * localId + 0) (fx * selfCellVolume)
  let f := subAt f (3 * localId + 1) (fy * selfCellVolume)
  let f := subAt f (3 * localId + 2) (fz * selfCellVolume)
  f

/-! ## computeInternalForceLinearElastic (lines 201-346) -/

/-- Cursors and force array of `computeInternalForceLinearElastic`. -/
structure LinearElasticState (α : Type) where
  neighPtr : ℕ
  bondDamagePtr : ℕ
  fInternalOverlap : ℕ → α

/-- Scalar bond force `t` of the linear elastic law (lines 254 and 332). -/
def linearElasticBondForce (c1 alpha zeta dY bondDamage : α) : α :=
  let OMEGA : α := 1
  (1 - bondDamage) * (c1 * zeta + (1 - bondDamage) * OMEGA * alpha * (dY - zeta))

/-- Body of the inner loop of `computeInternalForceLinearElastic` (both overloads, lines
242-264 and 320-342) with the increments `neighPtr++, bondDamage++`.  `X`, `Y`, `fOwned` are
the scalar offsets held by the pointers of the same name. -/
def computeInternalForceLinearElastic_bond (sqrt : α → α)
    (xOverlap yOverlap volumeOverlap bondDamage : ℕ → α) (localNeighborList : ℕ → ℕ)
    (X Y fOwned : ℕ) (alpha c1 selfCellVolume : α) (s : LinearElasticState α) :
    LinearElasticState α :=
  let localId := localNeighborList s.neighPtr
  let cellVolume := volumeOverlap localId
  let XP := 3 * localId
  let YP := 3 * localId
  let dx := xOverlap (XP + 0) - xOverlap (X + 0)
  let dy := xOverlap (XP + 1) - xOverlap (X + 1)
  let dz := xOverlap (XP + 2) - xOverlap (X + 2)
  let zeta := sqrt (dx * dx + dy * dy + dz * dz)
  let dx := yOverlap (YP + 0) - yOverlap (Y + 0)
  let dy := yOverlap (YP + 1) - yOverlap (Y + 1)
  let dz := yOverlap (YP + 2) - yOverlap (Y + 2)
  let dY := sqrt (dx * dx + dy * dy + dz * dz)
  let t := linearElasticBondForce c1 alpha zeta dY (bondDamage s.bondDamagePtr)
  let fx := t * dx / dY
  let fy := t * dy / dY
  let fz := t * dz / dY
  { neighPtr := s.neighPtr + 1
    bondDamagePtr := s.bondDamagePtr + 1
    fInternalOverlap :=
      assemblePairwiseForce s.fInternalOverlap fOwned localId fx fy fz cellVolume selfCellVolume }

/-- Body of the outer loop of the dense `computeInternalForceLinearElastic` (lines 233-267). -/
def computeInternalForceLinearElastic_point (sqrt : α → α)
    (xOverlap yOverlap mOwned volumeOverlap dilatationOwned bondDamage : ℕ → α)
    (localNeighborList : ℕ → ℕ) (K MU : α) (p : ℕ) (s : LinearElasticState α) :
    LinearElasticState α :=
  let OMEGA : α := 1
  let numNeigh := localNeighborList s.neighPtr
  let s : LinearElasticState α := { s with neighPtr := s.neighPtr + 1 }
  let alpha := 15 * MU / mOwned p
  let selfCellVolume := volumeOverlap p
  let c1 := OMEGA * dilatationOwned p * (9 * K - 15 * MU) / (3 * mOwned p)
  forLoop (fun _ => computeInternalForceLinearElastic_bond sqrt xOverlap yOverlap volumeOverlap
    bondDamage localNeighborList (3 * p) (3 * p) (3 * p) alpha c1 selfCellVolume) numNeigh s

/-- Dense `computeInternalForceLinearElastic` (lines 201-268): final cursors and force array. -/
def computeInternalForceLinearElastic_run (sqrt : α → α)
    (xOverlap yOverlap mOwned volumeOverlap dilatationOwned bondDamage : ℕ → α)
    (fInternalOverlap : ℕ → α) (localNeighborList : ℕ → ℕ) (numOwnedPoints : ℕ)
    (BULK_MODULUS SHEAR_MODULUS : α) : LinearElasticState α :=
  forLoop (computeInternalForceLinearElastic_point sqrt xOverlap yOverlap mOwned volumeOverlap
    dilatationOwned bondDamage localNeighborList BULK_MODULUS SHEAR_MODULUS) numOwnedPoints
    { neighPtr := 0, bondDamagePtr := 0, fInternalOverlap := fInternalOverlap }

/-- Dense `computeInternalForceLinearElastic` (lines 201-268): the force array after the call. -/
def computeInternalForceLinearElastic (sqrt : α → α)
    (xOverlap yOverlap mOwned volumeOverlap dilatationOwned bondDamage : ℕ → α)
    (fInternalOverlap : ℕ → α) (localNeighborList : ℕ → ℕ) (numOwnedPoints : ℕ)
    (BULK_MODULUS SHEAR_MODULUS : α) : ℕ → α :=
  (computeInternalForceLinearElastic_run sqrt xOverlap yOverlap mOwned volumeOverlap
    dilatationOwned bondDamage fInternalOverlap localNeighborList numOwnedPoints
    BULK_MODULUS SHEAR_MODULUS).fInternalOverlap

/-- Body of the outer loop of the `ownedIDs` overload of `computeInternalForceLinearElastic`
(lines 304-345).  Note `selfCellVolume = v[p]`, as written at line 317. -/
def computeInternalForceLinearElastic_ownedIDs_point (sqrt : α → α)
    (xOverlap yOverlap mOwned volumeOverlap dilatationOwned bondDamage : ℕ → α)
    (ownedIDs localNeighborList : ℕ → ℕ) (K MU : α) (p : ℕ) (s : LinearElasticState α) :
    LinearElasticState α :=
  let OMEGA : α := 1
  let ID := ownedIDs p
  let xOwned := 3 * ID
  let yOwned := 3 * ID
  let fOwned := 3 * ID
  let m := ID
  let theta := ID
  let numNeigh := localNeighborList s.neighPtr
  let s : LinearElasticState α := { s with neighPtr := s.neighPtr + 1 }
  let alpha := 15 * MU / mOwned m
  let selfCellVolume := volumeOverlap p
  let c1 := OMEGA * dilatationOwned theta * (9 * K - 15 * MU) / (3 * mOwned m)
  forLoop (fun _ => computeInternalForceLinearElastic_bond sqrt xOverlap yOverlap volumeOverlap
    bondDamage localNeighborList xOwned yOwned fOwned alpha c1 selfCellVolume) numNeigh s

/-- The `ownedIDs` overload of `computeInternalForceLinearElastic` (lines 271-346): the force
array after the call. -/
def computeInternalForceLinearElastic_ownedIDs (sqrt : α → α)
    (xOverlap yOverlap mOwned volumeOverlap dilatationOwned bondDamage : ℕ → α)
    (fInternalOverlap : ℕ → α) (ownedIDs localNeighborList : ℕ → ℕ) (numOwnedPoints : ℕ)
    (BULK_MODULUS SHEAR_MODULUS : α) : ℕ → α :=
  (forLoop (computeInternalForceLinearElastic_ownedIDs_point sqrt xOverlap yOverlap mOwned
    volumeOverlap dilatationOwned bondDamage ownedIDs localNeighborList BULK_MODULUS SHEAR_MODULUS)
    numOwnedPoints
    { neighPtr := 0, bondDamagePtr := 0, fInternalOverlap := fInternalOverlap }).fInternalOverlap

/-! ## computeDeviatoricForceStateNorm (lines 729-793) -/

/-- Local cursors and accumulator of `computeDeviatoricForceStateNorm`.  The three pointers
are by-value parameters of the C function: advancing them does not affect the caller. -/
structure NormState (α : Type) where
  neighPtr : ℕ
  bondDamagePtr : ℕ
  deviatoricPlasticExtensionStatePtr : ℕ
  norm : α

/-- Body of the loop of `computeDeviatoricForceStateNorm` (lines 750-783) with the increments
`neighPtr++, bondDamage++, deviatoricPlasticExtensionState++`. -/
def computeDeviatoricForceStateNorm_bond (sqrt : α → α) (theta : α)
    (localNeighborList : ℕ → ℕ) (bondDamage deviatoricPlasticExtensionState : ℕ → α)
    (X Y : ℕ) (xOverlap yOverlap volumeOverlap : ℕ → α) (alpha OMEGA : α)
    (s : NormState α) : NormState α :=
  let localId := localNeighborList s.neighPtr
  let cellVolume := volumeOverlap localId
  let XP := 3 * localId
  let YP := 3 * localId
  let dx := xOverlap (XP + 0) - xOverlap (X + 0)
  let dy := xOverlap (XP + 1) - xOverlap (X + 1)
  let dz := xOverlap (XP + 2) - xOverlap (X + 2)
  let zeta := sqrt (dx * dx + dy * dy + dz * dz)
  let dx := yOverlap (YP + 0) - yOverlap (Y + 0)
  let dy := yOverlap (YP + 1) - yOverlap (Y + 1)
  let dz := yOverlap (YP + 2) - yOverlap (Y + 2)
  let dY := sqrt (dx * dx + dy * dy + dz * dz)
  let ed := dY - zeta - theta * zeta / 3
  let edpN := deviatoricPlasticExtensionState s.deviatoricPlasticExtensionStatePtr
  let d := 1 - bondDamage s.bondDamagePtr
  let tdTrial := d * alpha * OMEGA * (ed - edpN)
  { neighPtr := s.neighPtr + 1
    bondDamagePtr := s.bondDamagePtr + 1
    deviatoricPlasticExtensionStatePtr := s.deviatoricPlasticExtensionStatePtr + 1
    norm := s.norm + tdTrial * tdTrial * cellVolume }

/-- Function `computeDeviatoricForceStateNorm` (lines 729-793).  `neighPtr`, `bondDamagePtr` and
`deviatoricPlasticExtensionStatePtr` are the offsets the caller's pointers hold at the call. -/
def computeDeviatoricForceStateNorm (sqrt : α → α) (numNeigh : ℕ) (theta : α)
    (localNeighborList : ℕ → ℕ) (neighPtr : ℕ) (bondDamage : ℕ → α) (bondDamagePtr : ℕ)
    (deviatoricPlasticExtensionState : ℕ → α) (deviatoricPlasticExtensionStatePtr : ℕ)
    (X Y : ℕ) (xOverlap yOverlap volumeOverlap : ℕ → α) (alpha OMEGA : α) : α :=
  sqrt (forLoop (fun _ => computeDeviatoricForceStateNorm_bond sqrt theta localNeighborList
    bondDamage deviatoricPlasticExtensionState X Y xOverlap yOverlap volumeOverlap alpha OMEGA)
    numNeigh
    { neighPtr := neighPtr
      bondDamagePtr := bondDamagePtr
      deviatoricPlasticExtensionStatePtr := deviatoricPlasticExtensionStatePtr
      norm := 0 }).norm

/-! ## computeInternalForceIsotropicElasticPlastic (lines 349-713) -/

/-- Cursors and output arrays of `computeInternalForceIsotropicElasticPlastic`. -/
structure ElasticPlasticState (α : Type) where
  neighPtr : ℕ
  bondDamagePtr : ℕ
  deviatoricPlasticExtensionStateNPtr : ℕ
  deviatoricPlasticExtensionStateNp1Ptr : ℕ
  deviatoricPlasticExtensionStateNp1 : ℕ → α
  lambdaNP1 : ℕ → α
  fInternalOverlap : ℕ → α

/-- Yield value of the 3d variety (lines 382 and 561):
`75.0 * yieldStress * yieldStress / 8 / M_PI / pow(DELTA,5)`. -/
def yieldValue3d (pi HORIZON yieldStress : α) : α :=
  let DELTA := HORIZON
  75 * yieldStress * yieldStress / 8 / pi / DELTA ^ 5

/-- Body of the inner loop of `computeInternalForceIsotropicElasticPlastic` (both overloads,
lines 442-520 and 631-709) with the increments `neighPtr++, bondDamage++,
deviatoricPlasticExtensionStateN++, deviatoricPlasticExtensionStateNp1++`.  `theta` is the
value `*theta` of the owned point. -/
def computeInternalForceIsotropicElasticPlastic_bond (sqrt : α → α)
    (xOverlap yOverlap volumeOverlap bondDamage deviatoricPlasticExtensionStateN : ℕ → α)
    (localNeighborList : ℕ → ℕ) (X Y fOwned : ℕ)
    (theta alpha c selfCellVolume tdNorm pointWiseYieldValue deltaLambda : α) (elastic : Bool)
    (s : ElasticPlasticState α) : ElasticPlasticState α :=
  let OMEGA : α := 1
  let localId := localNeighborList s.neighPtr
  let cellVolume := volumeOverlap localId
  let XP := 3 * localId
  let YP := 3 * localId
  let dx := xOverlap (XP + 0) - xOverlap (X + 0)
  let dy := xOverlap (XP + 1) - xOverlap (X + 1)
  let dz := xOverlap (XP + 2) - xOverlap (X + 2)
  let zeta := sqrt (dx * dx + dy * dy + dz * dz)
  let dx := yOverlap (YP + 0) - yOverlap (Y + 0)
  let dy := yOverlap (YP + 1) - yOverlap (Y + 1)
  let dz := yOverlap (YP + 2) - yOverlap (Y + 2)
  let dY := sqrt (dx * dx + dy * dy + dz * dz)
  let ed := dY - zeta - theta * zeta / 3
  let edpN := deviatoricPlasticExtensionStateN s.deviatoricPlasticExtensionStateNPtr
  let tdTrial := alpha * OMEGA * (ed - edpN)
  let td := if elastic then tdTrial else sqrt (2 * pointWiseYieldValue) * tdTrial / tdNorm
  let edpNp1 :=
    if elastic then deviatoricPlasticExtensionStateN s.deviatoricPlasticExtensionStateNPtr
    else edpN + td * deltaLambda
  let ti := c * zeta
  let d := 1 - bondDamage s.bondDamagePtr
  let t := d * (ti + d * td)
  let fx := t * dx / dY
  let fy := t * dy / dY
  let fz := t * dz / dY
  { neighPtr := s.neighPtr + 1
    bondDamagePtr := s.bondDamagePtr + 1
    deviatoricPlasticExtensionStateNPtr := s.deviatoricPlasticExtensionStateNPtr + 1
    deviatoricPlasticExtensionStateNp1Ptr := s.deviatoricPlasticExtensionStateNp1Ptr + 1
    deviatoricPlasticExtensionStateNp1 :=
      Function.update s.deviatoricPlasticExtensionStateNp1
        s.deviatoricPlasticExtensionStateNp1Ptr edpNp1
    lambdaNP1 := s.lambdaNP1
    fInternalOverlap :=
      assemblePairwiseForce s.fInternalOverlap fOwned localId fx fy fz cellVolume selfCellVolume }

/-- The part of the outer-loop body shared by both overloads of
`computeInternalForceIsotropicElasticPlastic` once the per-point pointers are set (lines
403-521 and 592-710): `X`, `Y`, `fOwned` are scalar offsets, `m`, `theta`, `lambda`, `dsf` the
offsets of the owned point in `mOwned`, `dilatationOwned`, `lambdaN`/`lambdaNP1`, `dsfOwned`,
and `selfCellVolume` the value read at lines 408 and 597. -/
def computeInternalForceIsotropicElasticPlastic_pointBody (sqrt : α → α)
    (xOverlap yOverlap mOwned volumeOverlap dilatationOwned bondDamage dsfOwned
      deviatoricPlasticExtensionStateN lambdaN : ℕ → α)
    (localNeighborList : ℕ → ℕ) (K MU yieldValue : α)
    (X Y fOwned m theta lambda dsf : ℕ) (selfCellVolume : α)
    (s : ElasticPlasticState α) : ElasticPlasticState α :=
  let OMEGA : α := 1
  let numNeigh := localNeighborList s.neighPtr
  let s : ElasticPlasticState α := { s with neighPtr := s.neighPtr + 1 }
  let weightedVol := mOwned m
  let alpha := dsfOwned dsf * 15 * MU / weightedVol
  let c := 3 * K * dilatationOwned theta * OMEGA / weightedVol
  let tdNorm := computeDeviatoricForceStateNorm sqrt numNeigh (dilatationOwned theta)
    localNeighborList s.neighPtr bondDamage s.bondDamagePtr
    deviatoricPlasticExtensionStateN s.deviatoricPlasticExtensionStateNPtr
    X Y xOverlap yOverlap volumeOverlap alpha OMEGA
  let pointWiseYieldValue := dsfOwned dsf * dsfOwned dsf * yieldValue
  let f := tdNorm * tdNorm / 2 - pointWiseYieldValue
  let elastic : Bool := if f > 0 then false else true
  let deltaLambda : α := if f > 0 then (tdNorm / sqrt (2 * pointWiseYieldValue) - 1) / alpha else 0
  let s : ElasticPlasticState α :=
    { s with lambdaNP1 := Function.update s.lambdaNP1 lambda
              (if f > 0 then lambdaN lambda + deltaLambda else lambdaN lambda) }
  forLoop (fun _ => computeInternalForceIsotropicElasticPlastic_bond sqrt xOverlap yOverlap
    volumeOverlap bondDamage deviatoricPlasticExtensionStateN localNeighborList X Y fOwned
    (dilatationOwned theta) alpha c selfCellVolume tdNorm pointWiseYieldValue deltaLambda elastic)
    numNeigh s

/-- Body of the outer loop of the dense `computeInternalForceIsotropicElasticPlastic` (lines
401-523): all per-point pointers have been advanced `p` times. -/
def computeInternalForceIsotropicElasticPlastic_point (sqrt : α → α)
    (xOverlap yOverlap mOwned volumeOverlap dilatationOwned bondDamage dsfOwned
      deviatoricPlasticExtensionStateN lambdaN : ℕ → α)
    (localNeighborList : ℕ → ℕ) (K MU yieldValue : α) (p : ℕ)
    (s : ElasticPlasticState α) : ElasticPlasticState α :=
  computeInternalForceIsotropicElasticPlastic_pointBody sqrt xOverlap yOverlap mOwned
    volumeOverlap dilatationOwned bondDamage dsfOwned deviatoricPlasticExtensionStateN lambdaN
    localNeighborList K MU yieldValue (3 * p) (3 * p) (3 * p) p p p p (volumeOverlap p) s

/-- Dense `computeInternalForceIsotropicElasticPlastic` (lines 349-524): final cursors and the
three output arrays. -/
def computeInternalForceIsotropicElasticPlastic (sqrt : α → α) (pi : α)
    (xOverlap yOverlap mOwned volumeOverlap dilatationOwned bondDamage dsfOwned
      deviatoricPlasticExtensionStateN : ℕ → α)
    (deviatoricPlasticExtensionStateNp1 : ℕ → α) (lambdaN : ℕ → α) (lambdaNP1 : ℕ → α)
    (fInternalOverlap : ℕ → α) (localNeighborList : ℕ → ℕ) (numOwnedPoints : ℕ)
    (BULK_MODULUS SHEAR_MODULUS HORIZON yieldStress : α) : ElasticPlasticState α :=
  forLoop (computeInternalForceIsotropicElasticPlastic_point sqrt xOverlap yOverlap mOwned
    volumeOverlap dilatationOwned bondDamage dsfOwned deviatoricPlasticExtensionStateN lambdaN
    localNeighborList BULK_MODULUS SHEAR_MODULUS (yieldValue3d pi HORIZON yieldStress))
    numOwnedPoints
    { neighPtr := 0
      bondDamagePtr := 0
      deviatoricPlasticExtensionStateNPtr := 0
      deviatoricPlasticExtensionStateNp1Ptr := 0
      deviatoricPlasticExtensionStateNp1 := deviatoricPlasticExtensionStateNp1
      lambdaNP1 := lambdaNP1
      fInternalOverlap := fInternalOverlap }

/-- Body of the outer loop of the `ownedIDs` overload of
`computeInternalForceIsotropicElasticPlastic` (lines 580-712): the per-point pointers are set
from `ID = ownedIDs[p]`, and `selfCellVolume = v[p]` as written at line 597. -/
def computeInternalForceIsotropicElasticPlastic_ownedIDs_point (sqrt : α → α)
    (xOverlap yOverlap mOwned volumeOverlap dilatationOwned bondDamage dsfOwned_
      deviatoricPlasticExtensionStateN lambdaN_ : ℕ → α)
    (ownedIDs localNeighborList : ℕ → ℕ) (K MU yieldValue : α) (p : ℕ)
    (s : ElasticPlasticState α) : ElasticPlasticState α :=
  let ID := ownedIDs p
  computeInternalForceIsotropicElasticPlastic_pointBody sqrt xOverlap yOverlap mOwned
    volumeOverlap dilatationOwned bondDamage dsfOwned_ deviatoricPlasticExtensionStateN lambdaN_
    localNeighborList K MU yieldValue (3 * ID) (3 * ID) (3 * ID) ID ID ID ID (volumeOverlap p) s

/-- The `ownedIDs` overload of `computeInternalForceIsotropicElasticPlastic` (lines 527-713):
final cursors and the three output arrays. -/
def computeInternalForceIsotropicElasticPlastic_ownedIDs (sqrt : α → α) (pi : α)
    (xOverlap yOverlap mOwned volumeOverlap dilatationOwned bondDamage dsfOwned_
      deviatoricPlasticExtensionStateN : ℕ → α)
    (deviatoricPlasticExtensionStateNp1 : ℕ → α) (lambdaN_ : ℕ → α) (lambdaNP1_ : ℕ → α)
    (fInternalOverlap : ℕ → α) (ownedIDs localNeighborList : ℕ → ℕ) (numOwnedPoints : ℕ)
    (BULK_MODULUS SHEAR_MODULUS HORIZON yieldStress : α) : ElasticPlasticState α :=
  forLoop (computeInternalForceIsotropicElasticPlastic_ownedIDs_point sqrt xOverlap yOverlap
    mOwned volumeOverlap dilatationOwned bondDamage dsfOwned_ deviatoricPlasticExtensionStateN
    lambdaN_ ownedIDs localNeighborList BULK_MODULUS SHEAR_MODULUS
    (yieldValue3d pi HORIZON yieldStress))
    numOwnedPoints
    { neighPtr := 0
      bondDamagePtr := 0
      deviatoricPlasticExtensionStateNPtr := 0
      deviatoricPlasticExtensionStateNp1Ptr := 0
      deviatoricPlasticExtensionStateNp1 := deviatoricPlasticExtensionStateNp1
      lambdaNP1 := lambdaNP1_
      fInternalOverlap := fInternalOverlap }

/-! ## computeInternalForceViscoelasticStandardLinearSolid (lines 796-947) -/

/-- The local struct `ViscoelasticBetaOperator` (lines 822-828): its two data members. -/
structure ViscoelasticBetaOperator (α : Type) where
  c1 : α
  c2 : α

/-- Constructor `ViscoelasticBetaOperator(tau, tau_b, delta_t)` (line 823). -/
def ViscoelasticBetaOperator.mk3 (tau tau_b delta_t : α) : ViscoelasticBetaOperator α :=
  { c1 := tau_b / tau, c2 := tau_b / delta_t }

/-- Call operator `operator()(deviatoric_extension, delta_ed)` (lines 824-826). -/
def ViscoelasticBetaOperator.apply (beta : ViscoelasticBetaOperator α)
    (deviatoric_extension delta_ed : α) : α :=
  beta.c1 * (deviatoric_extension - beta.c2 * delta_ed)

/-- Cursors and output arrays of `computeInternalForceViscoelasticStandardLinearSolid`. -/
structure ViscoelasticState (α : Type) where
  neighPtr : ℕ
  bondDamagePtr : ℕ
  edbNPtr : ℕ
  edbNP1Ptr : ℕ
  edbNP1 : ℕ → α
  fInternalOverlap : ℕ → α

/-- Body of the inner loop of `computeInternalForceViscoelasticStandardLinearSolid` (lines
867-943) with the increments `neighPtr++, bondDamage++, edbN++, edbNP1++`. -/
def computeInternalForceViscoelasticStandardLinearSolid_bond (sqrt : α → α)
    (beta : ViscoelasticBetaOperator α) (decay : α)
    (xOverlap yNOverlap yNP1Overlap volumeOverlap bondDamage edbN : ℕ → α)
    (localNeighborList : ℕ → ℕ) (X YN YNP1 fOwned : ℕ)
    (dilatationN dilatationNp1 alpha c selfCellVolume : α)
    (s : ViscoelasticState α) : ViscoelasticState α :=
  let OMEGA : α := 1
  let localId := localNeighborList s.neighPtr
  let cellVolume := volumeOverlap localId
  let XP := 3 * localId
  let YPN := 3 * localId
  let YPNP1 := 3 * localId
  let dx := xOverlap (XP + 0) - xOverlap (X + 0)
  let dy := xOverlap (XP + 1) - xOverlap (X + 1)
  let dz := xOverlap (XP + 2) - xOverlap (X + 2)
  let zeta := sqrt (dx * dx + dy * dy + dz * dz)
  let damage := 1 - bondDamage s.bondDamagePtr
  let eiN := dilatationN * zeta / 3
  let eiNp1 := dilatationNp1 * zeta / 3
  let dx := yNOverlap (YPN + 0) - yNOverlap (YN + 0)
  let dy := yNOverlap (YPN + 1) - yNOverlap (YN + 1)
  let dz := yNOverlap (YPN + 2) - yNOverlap (YN + 2)
  let dYN := sqrt (dx * dx + dy * dy + dz * dz)
  let edN := damage * (dYN - zeta) - eiN
  let dx := yNP1Overlap (YPNP1 + 0) - yNP1Overlap (YNP1 + 0)
  let dy := yNP1Overlap (YPNP1 + 1) - yNP1Overlap (YNP1 + 1)
  let dz := yNP1Overlap (YPNP1 + 2) - yNP1Overlap (YNP1 + 2)
  let dYNp1 := sqrt (dx * dx + dy * dy + dz * dz)
  let edNp1 := damage * (dYNp1 - zeta) - eiNp1
  let delta_ed := edNp1 - edN
  let beta_tN := beta.apply edN delta_ed
  let beta_tNp1 := beta.apply edNp1 delta_ed
  let edbNP1val := (edbN s.edbNPtr - beta_tN) * decay + beta_tNp1
  let td := alpha * OMEGA * (edNp1 - edbNP1val)
  let ti := c * OMEGA * zeta
  let t := damage * (ti + td)
  let fx := t * dx / dYNp1
  let fy := t * dy / dYNp1
  let fz := t * dz / dYNp1
  { neighPtr := s.neighPtr + 1
    bondDamagePtr := s.bondDamagePtr + 1
    edbNPtr := s.edbNPtr + 1
    edbNP1Ptr := s.edbNP1Ptr + 1
    edbNP1 := Function.update s.edbNP1 s.edbNP1Ptr edbNP1val
    fInternalOverlap :=
      assemblePairwiseForce s.fInternalOverlap fOwned localId fx fy fz cellVolume selfCellVolume }

/-- Body of the outer loop of `computeInternalForceViscoelasticStandardLinearSolid` (lines
854-945). -/
def computeInternalForceViscoelasticStandardLinearSolid_point (sqrt : α → α)
    (beta : ViscoelasticBetaOperator α) (decay : α)
    (xOverlap yNOverlap yNP1Overlap mOwned volumeOverlap dilatationOwnedN dilatationOwnedNp1
      bondDamage edbN : ℕ → α)
    (localNeighborList : ℕ → ℕ) (K MU : α) (p : ℕ)
    (s : ViscoelasticState α) : ViscoelasticState α :=
  let numNeigh := localNeighborList s.neighPtr
  let s : ViscoelasticState α := { s with neighPtr := s.neighPtr + 1 }
  let weightedVolume := mOwned p
  let dilatationN := dilatationOwnedN p
  let dilatationNp1 := dilatationOwnedNp1 p
  let alpha := 15 * MU / weightedVolume
  let selfCellVolume := volumeOverlap p
  let c := 3 * K * dilatationNp1 / weightedVolume
  forLoop (fun _ => computeInternalForceViscoelasticStandardLinearSolid_bond sqrt beta decay
    xOverlap yNOverlap yNP1Overlap volumeOverlap bondDamage edbN localNeighborList
    (3 * p) (3 * p) (3 * p) (3 * p) dilatationN dilatationNp1 alpha c selfCellVolume) numNeigh s

/-- Function `computeInternalForceViscoelasticStandardLinearSolid` (lines 796-947): final
cursors and the two output arrays. -/
def computeInternalForceViscoelasticStandardLinearSolid (sqrt exp : α → α) (delta_t : α)
    (xOverlap yNOverlap yNP1Overlap mOwned volumeOverlap dilatationOwnedN dilatationOwnedNp1
      bondDamage edbN : ℕ → α)
    (edbNP1 : ℕ → α) (fInternalOverlap : ℕ → α) (localNeighborList : ℕ → ℕ)
    (numOwnedPoints : ℕ) (BULK_MODULUS SHEAR_MODULUS m_tau m_tau_b : α) : ViscoelasticState α :=
  let beta := ViscoelasticBetaOperator.mk3 m_tau m_tau_b delta_t
  let decay := exp (-1 / beta.c2)
  forLoop (computeInternalForceViscoelasticStandardLinearSolid_point sqrt beta decay
    xOverlap yNOverlap yNP1Overlap mOwned volumeOverlap dilatationOwnedN dilatationOwnedNp1
    bondDamage edbN localNeighborList BULK_MODULUS SHEAR_MODULUS) numOwnedPoints
    { neighPtr := 0
      bondDamagePtr := 0
      edbNPtr := 0
      edbNP1Ptr := 0
      edbNP1 := edbNP1
      fInternalOverlap := fInternalOverlap }

/-! ## Closed forms used in the statements -/

/-- One summand of the dilatation of the point at offsets `X`, `Y`, `m`, for the neighbour
`localId` and the bond-damage value `d`. -/
def dilatationTerm (sqrt : α → α) (xOverlap yOverlap mOwned volumeOverlap : ℕ → α)
    (X Y m localId : ℕ) (d : α) : α :=
  3 * (1 - d) * bondLength sqrt xOverlap X (3 * localId)
    * (bondLength sqrt yOverlap Y (3 * localId) - bondLength sqrt xOverlap X (3 * localId))
    * volumeOverlap localId / mOwned m

/-- Closed form of the dilatation of owned point `p` (dense addressing). -/
def dilatationSum (sqrt : α → α) (xOverlap yOverlap mOwned volumeOverlap bondDamage : ℕ → α)
    (localNeighborList : ℕ → ℕ) (p : ℕ) : α :=
  ∑ j ∈ Finset.range (numNeighOf localNeighborList p),
    dilatationTerm sqrt xOverlap yOverlap mOwned volumeOverlap (3 * p) (3 * p) p
      (neighOf localNeighborList p j) (bondDamage (bondStart localNeighborList p + j))

/-- Net change of the scalar entry `i` of the force array caused by one bond: `+ f_k*cellVolume`
at the three entries of the owned point (scalar offset `fOwned`), `- f_k*selfCellVolume` at the
three entries of the neighbour `localId`. -/
def pairIncrement (fOwned localId : ℕ) (fx fy fz cellVolume selfCellVolume : α) (i : ℕ) : α :=
  (if i = fOwned + 0 then fx * cellVolume else 0)
  + (if i = fOwned + 1 then fy * cellVolume else 0)
  + (if i = fOwned + 2 then fz * cellVolume else 0)
  - (if i = 3 * localId + 0 then fx * selfCellVolume else 0)
  - (if i = 3 * localId + 1 then fy * selfCellVolume else 0)
  - (if i = 3 * localId + 2 then fz * selfCellVolume else 0)

/-- The force array `f'` arises from `f` by one bond `(p, q)`: with one vector
`F = t * (Y_q - Y_p) / |Y_q - Y_p|`, `F * volume[q]` is added at point `p` and `F * volume[p]`
is subtracted at point `q`, and nothing else changes. -/
def PairwiseUpdate (sqrt : α → α) (yOverlap volumeOverlap : ℕ → α) (p q : ℕ)
    (f f' : ℕ → α) : Prop :=
  ∃ t : α, ∀ i, f' i = f i + pairIncrement (3 * p) q
    (t * (yOverlap (3 * q + 0) - yOverlap (3 * p + 0)) / bondLength sqrt yOverlap (3 * p) (3 * q))
    (t * (yOverlap (3 * q + 1) - yOverlap (3 * p + 1)) / bondLength sqrt yOverlap (3 * p) (3 * q))
    (t * (yOverlap (3 * q + 2) - yOverlap (3 * p + 2)) / bondLength sqrt yOverlap (3 * p) (3 * q))
    (volumeOverlap q) (volumeOverlap p) i

/-- Volume-weighted total of coordinate `k` of the force array over the points `0 .. N-1`:
`Σ_i volume[i] * f[3*i+k]`. -/
def weightedForceSum (volumeOverlap f : ℕ → α) (N k : ℕ) : α :=
  ∑ i ∈ Finset.range N, volumeOverlap i * f (3 * i + k)

/-- Every neighbour index listed in the blocks of the owned points `0 .. numOwnedPoints-1` is an
index of one of the `N` points of the overlap arrays. -/
def NeighboursInRange (localNeighborList : ℕ → ℕ) (numOwnedPoints N : ℕ) : Prop :=
  ∀ p, p < numOwnedPoints → ∀ j, j < numNeighOf localNeighborList p →
    neighOf localNeighborList p j < N

/-- Net change of the scalar force entry `i` caused by one bond of the linear elastic law: the
owned point has scalar offsets `X`, `Y`, `fOwned`, the neighbour is `localId`, the bond damage
is `d`, and the scalar bond force is
`t = (1 - d) * (c1 * zeta + (1 - d) * alpha * (|Y_q - Y_p| - zeta))`, `zeta = |X_q - X_p|`. -/
def linearElasticIncrement (sqrt : α → α) (xOverlap yOverlap volumeOverlap : ℕ → α)
    (X Y fOwned : ℕ) (alpha c1 selfCellVolume : α) (localId : ℕ) (d : α) (i : ℕ) : α :=
  let zeta := bondLength sqrt xOverlap X (3 * localId)
  let dY := bondLength sqrt yOverlap Y (3 * localId)
  let t := (1 - d) * (c1 * zeta + (1 - d) * alpha * (dY - zeta))
  pairIncrement fOwned localId
    (t * (yOverlap (3 * localId + 0) - yOverlap (Y + 0)) / dY)
    (t * (yOverlap (3 * localId + 1) - yOverlap (Y + 1)) / dY)
    (t * (yOverlap (3 * localId + 2) - yOverlap (Y + 2)) / dY)
    (volumeOverlap localId) selfCellVolume i

/-- Contribution of the `j`-th bond of owned point `p` to the scalar force entry `i` in the
dense linear elastic evaluator: `c1 = theta[p] * (9K - 15MU) / (3 m[p])`,
`alpha = 15 MU / m[p]`, the neighbour is the `j`-th entry of the block of `p`, and the damage
is the bond-damage entry number `(bonds in blocks 0..p-1) + j`. -/
def linearElasticBondContribution (sqrt : α → α)
    (xOverlap yOverlap mOwned volumeOverlap dilatationOwned bondDamage : ℕ → α)
    (localNeighborList : ℕ → ℕ) (K MU : α) (p j i : ℕ) : α :=
  linearElasticIncrement sqrt xOverlap yOverlap volumeOverlap (3 * p) (3 * p) (3 * p)
    (15 * MU / mOwned p) (dilatationOwned p * (9 * K - 15 * MU) / (3 * mOwned p))
    (volumeOverlap p) (neighOf localNeighborList p j)
    (bondDamage (bondStart localNeighborList p + j)) i

/-! ## Closed form of the elastic-plastic evaluator -/

/-- Deviatoric extension `ed = dY - zeta - theta*zeta/3` of the bond from the owned point at
scalar offsets `X`, `Y` to the neighbour `localId`. -/
def deviatoricExtension (sqrt : α → α) (xOverlap yOverlap : ℕ → α) (X Y : ℕ) (theta : α)
    (localId : ℕ) : α :=
  bondLength sqrt yOverlap Y (3 * localId) - bondLength sqrt xOverlap X (3 * localId)
    - theta * bondLength sqrt xOverlap X (3 * localId) / 3

/-- Deviatoric force `td` of one bond in the elastic-plastic law: the trial value
`alpha * (ed - edpN)` on an elastic step, `sqrt(2*pointWiseYieldValue) * tdTrial / tdNorm` on
a plastic one. -/
def elasticPlasticTd (sqrt : α → α) (xOverlap yOverlap : ℕ → α) (X Y : ℕ)
    (theta alpha tdNorm pointWiseYieldValue : α) (elastic : Bool) (localId : ℕ) (edpN : α) : α :=
  if elastic then alpha * (deviatoricExtension sqrt xOverlap yOverlap X Y theta localId - edpN)
  else sqrt (2 * pointWiseYieldValue)
    * (alpha * (deviatoricExtension sqrt xOverlap yOverlap X Y theta localId - edpN)) / tdNorm

/-- Value written to `deviatoricPlasticExtensionStateNp1` for one bond: `edpN` on an elastic
step, `edpN + td * deltaLambda` on a plastic one. -/
def elasticPlasticEdpNp1 (sqrt : α → α) (xOverlap yOverlap : ℕ → α) (X Y : ℕ)
    (theta alpha tdNorm pointWiseYieldValue deltaLambda : α) (elastic : Bool) (localId : ℕ)
    (edpN : α) : α :=
  if elastic then edpN
  else edpN + elasticPlasticTd sqrt xOverlap yOverlap X Y theta alpha tdNorm
    pointWiseYieldValue elastic localId edpN * deltaLambda

/-- Net change of the scalar force entry `i` caused by one bond of the elastic-plastic law:
the scalar bond force is `t = (1-d) * (c*zeta + (1-d)*td)`. -/
def elasticPlasticIncrement (sqrt : α → α) (xOverlap yOverlap volumeOverlap : ℕ → α)
    (X Y fOwned : ℕ) (theta alpha c selfCellVolume tdNorm pointWiseYieldValue : α)
    (elastic : Bool) (localId : ℕ) (d edpN : α) (i : ℕ) : α :=
  let zeta := bondLength sqrt xOverlap X (3 * localId)
  let dY := bondLength sqrt yOverlap Y (3 * localId)
  let td := elasticPlasticTd sqrt xOverlap yOverlap X Y theta alpha tdNorm pointWiseYieldValue
    elastic localId edpN
  let t := (1 - d) * (c * zeta + (1 - d) * td)
  pairIncrement fOwned localId
    (t * (yOverlap (3 * localId + 0) - yOverlap (Y + 0)) / dY)
    (t * (yOverlap (3 * localId + 1) - yOverlap (Y + 1)) / dY)
    (t * (yOverlap (3 * localId + 2) - yOverlap (Y + 2)) / dY)
    (volumeOverlap localId) selfCellVolume i

/-- The inputs of one call of the dense `computeInternalForceIsotropicElasticPlastic`, with the
interpretation of `sqrt` and `M_PI`. -/
structure ElasticPlasticInput (α : Type) where
  sqrt : α → α
  pi : α
  xOverlap : ℕ → α
  yOverlap : ℕ → α
  mOwned : ℕ → α
  volumeOverlap : ℕ → α
  dilatationOwned : ℕ → α
  bondDamage : ℕ → α
  dsfOwned : ℕ → α
  deviatoricPlasticExtensionStateN : ℕ → α
  lambdaN : ℕ → α
  localNeighborList : ℕ → ℕ
  BULK_MODULUS : α
  SHEAR_MODULUS : α
  HORIZON : α
  yieldStress : α

/-- The call of the dense `computeInternalForceIsotropicElasticPlastic` on the inputs `I`, the
initial contents of the three output arrays and `numOwnedPoints`. -/
def ElasticPlasticInput.run (I : ElasticPlasticInput α)
    (deviatoricPlasticExtensionStateNp1 lambdaNP1 fInternalOverlap : ℕ → α)
    (numOwnedPoints : ℕ) : ElasticPlasticState α :=
  computeInternalForceIsotropicElasticPlastic I.sqrt I.pi I.xOverlap I.yOverlap I.mOwned
    I.volumeOverlap I.dilatationOwned I.bondDamage I.dsfOwned I.deviatoricPlasticExtensionStateN
    deviatoricPlasticExtensionStateNp1 I.lambdaN lambdaNP1 fInternalOverlap I.localNeighborList
    numOwnedPoints I.BULK_MODULUS I.SHEAR_MODULUS I.HORIZON I.yieldStress

/-- The same inputs with another yield stress. -/
def ElasticPlasticInput.withYieldStress (I : ElasticPlasticInput α) (yieldStress : α) :
    ElasticPlasticInput α :=
  { I with yieldStress := yieldStress }

/-- Deviatoric stiffness of owned point `p`: `alpha = dsf[p] * 15 * MU / m[p]` (line 407). -/
def ElasticPlasticInput.alpha (I : ElasticPlasticInput α) (p : ℕ) : α :=
  I.dsfOwned p * 15 * I.SHEAR_MODULUS / I.mOwned p

/-- Isotropic stiffness of owned point `p`: `c = 3 * K * theta * OMEGA / m[p]` (line 409). -/
def ElasticPlasticInput.c (I : ElasticPlasticInput α) (p : ℕ) : α :=
  3 * I.BULK_MODULUS * I.dilatationOwned p * 1 / I.mOwned p

/-- The value `tdNorm` of owned point `p` (line 416): `computeDeviatoricForceStateNorm` on the
block of `p`, the cursors standing at the first neighbour and the first bond of `p`. -/
def ElasticPlasticInput.tdNorm (I : ElasticPlasticInput α) (p : ℕ) : α :=
  computeDeviatoricForceStateNorm I.sqrt (numNeighOf I.localNeighborList p) (I.dilatationOwned p)
    I.localNeighborList (blockStart I.localNeighborList p + 1)
    I.bondDamage (bondStart I.localNeighborList p)
    I.deviatoricPlasticExtensionStateN (bondStart I.localNeighborList p)
    (3 * p) (3 * p) I.xOverlap I.yOverlap I.volumeOverlap (I.alpha p) 1

/-- The value `pointWiseYieldValue` of owned point `p` (line 421). -/
def ElasticPlasticInput.pointWiseYieldValue (I : ElasticPlasticInput α) (p : ℕ) : α :=
  I.dsfOwned p * I.dsfOwned p * yieldValue3d I.pi I.HORIZON I.yieldStress

/-- The yield function `f = tdNorm * tdNorm / 2 - pointWiseYieldValue` of owned point `p`
(line 422). -/
def ElasticPlasticInput.yieldFunction (I : ElasticPlasticInput α) (p : ℕ) : α :=
  I.tdNorm p * I.tdNorm p / 2 - I.pointWiseYieldValue p

/-- The flag `elastic` of owned point `p` (lines 423-439): false exactly when `f > 0`. -/
def ElasticPlasticInput.elastic (I : ElasticPlasticInput α) (p : ℕ) : Bool :=
  if I.yieldFunction p > 0 then false else true

/-- The value `deltaLambda` of owned point `p` (lines 410, 434). -/
def ElasticPlasticInput.deltaLambda (I : ElasticPlasticInput α) (p : ℕ) : α :=
  if I.yieldFunction p > 0 then
    (I.tdNorm p / I.sqrt (2 * I.pointWiseYieldValue p) - 1) / I.alpha p
  else 0

/-- The value written to `lambdaNP1[p]` (lines 435, 438). -/
def ElasticPlasticInput.lambdaNP1 (I : ElasticPlasticInput α) (p : ℕ) : α :=
  if I.yieldFunction p > 0 then I.lambdaN p + I.deltaLambda p else I.lambdaN p

/-- Trial deviatoric force `tdTrial = alpha * (ed - edpN)` of the `j`-th bond of owned point
`p`. -/
def ElasticPlasticInput.tdTrial (I : ElasticPlasticInput α) (p j : ℕ) : α :=
  I.alpha p * (deviatoricExtension I.sqrt I.xOverlap I.yOverlap (3 * p) (3 * p)
      (I.dilatationOwned p) (neighOf I.localNeighborList p j)
    - I.deviatoricPlasticExtensionStateN (bondStart I.localNeighborList p + j))

/-- Deviatoric force `td` of the `j`-th bond of owned point `p`. -/
def ElasticPlasticInput.td (I : ElasticPlasticInput α) (p j : ℕ) : α :=
  elasticPlasticTd I.sqrt I.xOverlap I.yOverlap (3 * p) (3 * p) (I.dilatationOwned p)
    (I.alpha p) (I.tdNorm p) (I.pointWiseYieldValue p) (I.elastic p)
    (neighOf I.localNeighborList p j)
    (I.deviatoricPlasticExtensionStateN (bondStart I.localNeighborList p + j))

/-- The value written to `deviatoricPlasticExtensionStateNp1` for the `j`-th bond of owned
point `p`. -/
def ElasticPlasticInput.edpNp1 (I : ElasticPlasticInput α) (p j : ℕ) : α :=
  elasticPlasticEdpNp1 I.sqrt I.xOverlap I.yOverlap (3 * p) (3 * p) (I.dilatationOwned p)
    (I.alpha p) (I.tdNorm p) (I.pointWiseYieldValue p) (I.deltaLambda p) (I.elastic p)
    (neighOf I.localNeighborList p j)
    (I.deviatoricPlasticExtensionStateN (bondStart I.localNeighborList p + j))

/-- Contribution of the `j`-th bond of owned point `p` to the scalar force entry `i`. -/
def ElasticPlasticInput.contribution (I : ElasticPlasticInput α) (p j i : ℕ) : α :=
  elasticPlasticIncrement I.sqrt I.xOverlap I.yOverlap I.volumeOverlap (3 * p) (3 * p) (3 * p)
    (I.dilatationOwned p) (I.alpha p) (I.c p) (I.volumeOverlap p) (I.tdNorm p)
    (I.pointWiseYieldValue p) (I.elastic p) (neighOf I.localNeighborList p j)
    (I.bondDamage (bondStart I.localNeighborList p + j))
    (I.deviatoricPlasticExtensionStateN (bondStart I.localNeighborList p + j)) i

/-- An input of the elastic-plastic evaluator with a negative horizon: one owned point without
neighbours, unit shear correction factor and unit weighted volume, `HORIZON = -1`. -/
def negativeHorizonInput (sqrt : α → α) (pi : α) : ElasticPlasticInput α :=
  { sqrt := sqrt
    pi := pi
    xOverlap := fun _ => 0
    yOverlap := fun _ => 0
    mOwned := fun _ => 1
    volumeOverlap := fun _ => 1
    dilatationOwned := fun _ => 0
    bondDamage := fun _ => 0
    dsfOwned := fun _ => 1
    deviatoricPlasticExtensionStateN := fun _ => 0
    lambdaN := fun _ => 0
    localNeighborList := fun _ => 0
    BULK_MODULUS := 1
    SHEAR_MODULUS := 1
    HORIZON := -1
    yieldStress := 1 }

/-! ## Closed form of the viscoelastic evaluator -/

/-- Damage-adjusted deviatoric extension `damage * (dY - zeta) - theta * zeta / 3` of the bond
from the owned point at scalar offsets `X`, `Y` to the neighbour `localId` (lines 891-910). -/
def viscoelasticExtension (sqrt : α → α) (xOverlap yOverlap : ℕ → α) (X Y : ℕ)
    (theta damage : α) (localId : ℕ) : α :=
  damage * (bondLength sqrt yOverlap Y (3 * localId) - bondLength sqrt xOverlap X (3 * localId))
    - theta * bondLength sqrt xOverlap X (3 * localId) / 3

/-- The back extension written for one bond (lines 912-918):
`(edbN - beta(edN, delta_ed)) * decay + beta(edNp1, delta_ed)`, `delta_ed = edNp1 - edN`. -/
def viscoelasticEdbNP1 (beta : ViscoelasticBetaOperator α) (decay edN edNp1 edbN : α) : α :=
  (edbN - beta.apply edN (edNp1 - edN)) * decay + beta.apply edNp1 (edNp1 - edN)

/-- Net change of the scalar force entry `i` caused by one bond of the viscoelastic law: the
scalar bond force is `t = damage * (c * zeta + alpha * (edNp1 - edbNP1))`, along the bond
direction of the step-N+1 configuration. -/
def viscoelasticIncrement (sqrt : α → α) (beta : ViscoelasticBetaOperator α) (decay : α)
    (xOverlap yNOverlap yNP1Overlap volumeOverlap : ℕ → α) (X YN YNP1 fOwned : ℕ)
    (dilatationN dilatationNp1 alpha c selfCellVolume : α) (localId : ℕ) (d edbN : α)
    (i : ℕ) : α :=
  let zeta := bondLength sqrt xOverlap X (3 * localId)
  let dYNp1 := bondLength sqrt yNP1Overlap YNP1 (3 * localId)
  let edN := viscoelasticExtension sqrt xOverlap yNOverlap X YN dilatationN (1 - d) localId
  let edNp1 := viscoelasticExtension sqrt xOverlap yNP1Overlap X YNP1 dilatationNp1 (1 - d)
    localId
  let td := alpha * (edNp1 - viscoelasticEdbNP1 beta decay edN edNp1 edbN)
  let t := (1 - d) * (c * zeta + td)
  pairIncrement fOwned localId
    (t * (yNP1Overlap (3 * localId + 0) - yNP1Overlap (YNP1 + 0)) / dYNp1)
    (t * (yNP1Overlap (3 * localId + 1) - yNP1Overlap (YNP1 + 1)) / dYNp1)
    (t * (yNP1Overlap (3 * localId + 2) - yNP1Overlap (YNP1 + 2)) / dYNp1)
    (volumeOverlap localId) selfCellVolume i

/-- The inputs of one call of `computeInternalForceViscoelasticStandardLinearSolid`, with the
interpretation of `sqrt` and `exp`. -/
structure ViscoelasticInput (α : Type) where
  sqrt : α → α
  exp : α → α
  delta_t : α
  xOverlap : ℕ → α
  yNOverlap : ℕ → α
  yNP1Overlap : ℕ → α
  mOwned : ℕ → α
  volumeOverlap : ℕ → α
  dilatationOwnedN : ℕ → α
  dilatationOwnedNp1 : ℕ → α
  bondDamage : ℕ → α
  edbN : ℕ → α
  localNeighborList : ℕ → ℕ
  BULK_MODULUS : α
  SHEAR_MODULUS : α
  m_tau : α
  m_tau_b : α

/-- The call of `computeInternalForceViscoelasticStandardLinearSolid` on the inputs `I`, the
initial contents of the two output arrays and `numOwnedPoints`. -/
def ViscoelasticInput.run (I : ViscoelasticInput α) (edbNP1 fInternalOverlap : ℕ → α)
    (numOwnedPoints : ℕ) : ViscoelasticState α :=
  computeInternalForceViscoelasticStandardLinearSolid I.sqrt I.exp I.delta_t I.xOverlap
    I.yNOverlap I.yNP1Overlap I.mOwned I.volumeOverlap I.dilatationOwnedN I.dilatationOwnedNp1
    I.bondDamage I.edbN edbNP1 fInternalOverlap I.localNeighborList numOwnedPoints
    I.BULK_MODULUS I.SHEAR_MODULUS I.m_tau I.m_tau_b

/-- The same inputs with another time step. -/
def ViscoelasticInput.withDeltaT (I : ViscoelasticInput α) (delta_t : α) :
    ViscoelasticInput α :=
  { I with delta_t := delta_t }

/-- The operator `beta(m_tau, m_tau_b, delta_t)` built at line 830. -/
def ViscoelasticInput.beta (I : ViscoelasticInput α) : ViscoelasticBetaOperator α :=
  ViscoelasticBetaOperator.mk3 I.m_tau I.m_tau_b I.delta_t

/-- The value `decay = exp(-1.0/beta.c2)` of line 834. -/
def ViscoelasticInput.decay (I : ViscoelasticInput α) : α :=
  I.exp (-1 / I.beta.c2)

/-- Step-N deviatoric extension `edN` of the `j`-th bond of owned point `p`. -/
def ViscoelasticInput.edN (I : ViscoelasticInput α) (p j : ℕ) : α :=
  viscoelasticExtension I.sqrt I.xOverlap I.yNOverlap (3 * p) (3 * p) (I.dilatationOwnedN p)
    (1 - I.bondDamage (bondStart I.localNeighborList p + j)) (neighOf I.localNeighborList p j)

/-- Step-N+1 deviatoric extension `edNp1` of the `j`-th bond of owned point `p`. -/
def ViscoelasticInput.edNp1 (I : ViscoelasticInput α) (p j : ℕ) : α :=
  viscoelasticExtension I.sqrt I.xOverlap I.yNP1Overlap (3 * p) (3 * p)
    (I.dilatationOwnedNp1 p) (1 - I.bondDamage (bondStart I.localNeighborList p + j))
    (neighOf I.localNeighborList p j)

/-- The value written to `edbNP1` for the `j`-th bond of owned point `p`. -/
def ViscoelasticInput.edbNP1 (I : ViscoelasticInput α) (p j : ℕ) : α :=
  viscoelasticEdbNP1 I.beta I.decay (I.edN p j) (I.edNp1 p j)
    (I.edbN (bondStart I.localNeighborList p + j))

/-- Contribution of the `j`-th bond of owned point `p` to the scalar force entry `i`. -/
def ViscoelasticInput.contribution (I : ViscoelasticInput α) (p j i : ℕ) : α :=
  viscoelasticIncrement I.sqrt I.beta I.decay I.xOverlap I.yNOverlap I.yNP1Overlap
    I.volumeOverlap (3 * p) (3 * p) (3 * p) (3 * p) (I.dilatationOwnedN p)
    (I.dilatationOwnedNp1 p) (15 * I.SHEAR_MODULUS / I.mOwned p)
    (3 * I.BULK_MODULUS * I.dilatationOwnedNp1 p / I.mOwned p) (I.volumeOverlap p)
    (neighOf I.localNeighborList p j) (I.bondDamage (bondStart I.localNeighborList p + j))
    (I.edbN (bondStart I.localNeighborList p + j)) i

/-- A one-bond viscoelastic system: owned point 0 at the origin with the single neighbour 1 at
`(1,0,0)`; the neighbour stays there at step N and sits at `(2,0,0)` at step N+1; no damage,
zero dilatation, zero previous back extension, `m_tau = 2`, `m_tau_b = 1`. -/
def oneBondInput (sqrt exp : α → α) : ViscoelasticInput α :=
  { sqrt := sqrt
    exp := exp
    delta_t := 1
    xOverlap := fun i => ([0, 0, 0, 1, 0, 0] : List α).getD i 0
    yNOverlap := fun i => ([0, 0, 0, 1, 0, 0] : List α).getD i 0
    yNP1Overlap := fun i => ([0, 0, 0, 2, 0, 0] : List α).getD i 0
    mOwned := fun _ => 1
    volumeOverlap := fun _ => 1
    dilatationOwnedN := fun _ => 0
    dilatationOwnedNp1 := fun _ => 0
    bondDamage := fun _ => 0
    edbN := fun _ => 0
    localNeighborList := fun i => ([1, 1] : List ℕ).getD i 0
    BULK_MODULUS := 1
    SHEAR_MODULUS := 1
    m_tau := 2
    m_tau_b := 1 }

/-! ## A concrete two-point configuration -/

/-- Two points, 0 at the origin and 1 at `(1,0,0)` in the reference configuration, each the
only neighbour of the other (blocks `[1, 1]` and `[1, 0]`); point 1 moves to `(2,0,0)`.  Unit
volumes, weighted volumes, shear correction factors, moduli, horizon and yield stress; zero
dilatation, damage, plastic extension and plastic multiplier. -/
def twoPointInput (sqrt : α → α) (pi : α) : ElasticPlasticInput α :=
  { sqrt := sqrt
    pi := pi
    xOverlap := fun i => ([0, 0, 0, 1, 0, 0] : List α).getD i 0
    yOverlap := fun i => ([0, 0, 0, 2, 0, 0] : List α).getD i 0
    mOwned := fun _ => 1
    volumeOverlap := fun _ => 1
    dilatationOwned := fun _ => 0
    bondDamage := fun _ => 0
    dsfOwned := fun _ => 1
    deviatoricPlasticExtensionStateN := fun _ => 0
    lambdaN := fun _ => 0
    localNeighborList := fun i => ([1, 1, 1, 0] : List ℕ).getD i 0
    BULK_MODULUS := 1
    SHEAR_MODULUS := 1
    HORIZON := 1
    yieldStress := 1 }

/-- An owned-ID list that is the identity on the two owned points. -/
def twoPointOwnedIDs (p : ℕ) : ℕ := ([0, 1, 7] : List ℕ).getD p 0

/-! ## updateGeometry (lines 58-76) -/

/-- Function `updateGeometry` (lines 58-76).  The four pointers `x`, `u`, `v`, `y` start at
their base pointers and advance together, so iteration `i` of the loop, which runs until `x`
reaches `xOverlap + length`, works at offset `i` of each array. -/
def updateGeometry (xOverlap uOverlap velocityOverlap yOverlap : ℕ → α) (overLapLength : ℕ)
    (dt : α) : ℕ → α :=
  let length := overLapLength
  forLoop (fun i y => Function.update y i (xOverlap i + uOverlap i + velocityOverlap i * dt))
    length yOverlap

/-! ## computeWeightedVolume (lines 79-96 and 1009-1034) -/

/-- Cursor and accumulator of the single-point `computeWeightedVolume`. -/
structure WeightedVolumeState (α : Type) where
  neighPtr : ℕ
  m : α

/-- Body of the loop of the single-point `computeWeightedVolume` (lines 1024-1030) with the
increment `neighPtr++`. -/
def computeWeightedVolume_bond (X : ℕ) (xOverlap volumeOverlap : ℕ → α)
    (localNeighborList : ℕ → ℕ) (s : WeightedVolumeState α) : WeightedVolumeState α :=
  let localId := localNeighborList s.neighPtr
  let cellVolume := volumeOverlap localId
  let XP := 3 * localId
  let dx := xOverlap (XP + 0) - xOverlap (X + 0)
  let dy := xOverlap (XP + 1) - xOverlap (X + 1)
  let dz := xOverlap (XP + 2) - xOverlap (X + 2)
  { neighPtr := s.neighPtr + 1
    m := s.m + (dx * dx + dy * dy + dz * dz) * cellVolume }

/-- The single-point `computeWeightedVolume(X, xOverlap, volumeOverlap, localNeighborList)`
(lines 1009-1034).  The pointer argument `localNeighborList` is the offset `neighPtr` into the
neighbour list; `X` is the scalar offset of the point in `xOverlap`. -/
def computeWeightedVolume_single (X : ℕ) (xOverlap volumeOverlap : ℕ → α)
    (localNeighborList : ℕ → ℕ) (neighPtr : ℕ) : α :=
  let numNeigh := localNeighborList neighPtr
  (forLoop (fun _ => computeWeightedVolume_bond X xOverlap volumeOverlap localNeighborList)
    numNeigh { neighPtr := neighPtr + 1, m := 0 }).m

/-- Cursor and output array of the array version of `computeWeightedVolume`. -/
structure WeightedVolumeArrayState (α : Type) where
  neighPtr : ℕ
  mOwned : ℕ → α

/-- Body of the loop of the array version of `computeWeightedVolume` (lines 90-95): `xOwned`
and `m` have been advanced `p` times, by 3 and 1. -/
def computeWeightedVolume_point (xOverlap volumeOverlap : ℕ → α) (localNeighborList : ℕ → ℕ)
    (p : ℕ) (s : WeightedVolumeArrayState α) : WeightedVolumeArrayState α :=
  let numNeigh := localNeighborList s.neighPtr
  let X := 3 * p
  { neighPtr := s.neighPtr + (numNeigh + 1)
    mOwned := Function.update s.mOwned p
      (computeWeightedVolume_single X xOverlap volumeOverlap localNeighborList s.neighPtr) }

/-- The array version of `computeWeightedVolume` (lines 79-96): final cursor and array. -/
def computeWeightedVolume (xOverlap volumeOverlap : ℕ → α) (mOwned : ℕ → α) (myNumPoints : ℕ)
    (localNeighborList : ℕ → ℕ) : WeightedVolumeArrayState α :=
  forLoop (computeWeightedVolume_point xOverlap volumeOverlap localNeighborList) myNumPoints
    { neighPtr := 0, mOwned := mOwned }

/-! ## set_pure_shear (lines 959-1006) -/

/-- Modelled from the spec: the enumeration `PURE_SHEAR` is declared in
`PdMaterialUtilities.h`, which is not among the sources; its values are the three modes `XY`,
`ZX`, `YZ` that section 4.6 names and `set_pure_shear` switches on. -/
inductive PURE_SHEAR where
  | XY
  | YZ
  | ZX

/-- Cursor and scratch array of `set_pure_shear`. -/
structure PureShearState (α : Type) where
  neighPtr : ℕ
  yOverlap : ℕ → α

/-- Body of the loop of `set_pure_shear` (lines 976-1002) with the increment `neighPtr++`. -/
def set_pure_shear_bond (X : ℕ) (xOverlap : ℕ → α) (localNeighborList : ℕ → ℕ)
    (mode : PURE_SHEAR) (gamma : α) (s : PureShearState α) : PureShearState α :=
  let localId := localNeighborList s.neighPtr
  let XP := 3 * localId
  let dx := xOverlap (XP + 0) - xOverlap (X + 0)
  let dy := xOverlap (XP + 1) - xOverlap (X + 1)
  let dz := xOverlap (XP + 2) - xOverlap (X + 2)
  let zx : α := match mode with
    | PURE_SHEAR.ZX => gamma * dx
    | _ => 0
  let xy : α := match mode with
    | PURE_SHEAR.XY => gamma * dy
    | _ => 0
  let yz : α := match mode with
    | PURE_SHEAR.YZ => gamma * dz
    | _ => 0
  let YP := 3 * localId
  let y := s.yOverlap
  let y := Function.update y (YP + 0) (xOverlap (XP + 0) + xy)
  let y := Function.update y (YP + 1) (xOverlap (XP + 1) + yz)
  let y := Function.update y (YP + 2) (xOverlap (XP + 2) + zx)
  { neighPtr := s.neighPtr + 1
    yOverlap := y }

/-- Function `set_pure_shear` (lines 959-1006): the array `yOverlap` after the call.
`neighPtr` is the offset of the block (its `numNeigh` entry), `X` the scalar offset of the
point in `xOverlap`. -/
def set_pure_shear (localNeighborList : ℕ → ℕ) (neighPtr : ℕ) (X : ℕ) (xOverlap : ℕ → α)
    (yOverlap : ℕ → α) (mode : PURE_SHEAR) (gamma : α) : ℕ → α :=
  let numNeigh := localNeighborList neighPtr
  (forLoop (fun _ => set_pure_shear_bond X xOverlap localNeighborList mode gamma) numNeigh
    { neighPtr := neighPtr + 1, yOverlap := yOverlap }).yOverlap

/-! ## Single-point computeDilatation (lines 1041-1080) -/

/-- Cursor and accumulator of the single-point `computeDilatation`. -/
structure DilatationSingleState (α : Type) where
  neighPtr : ℕ
  theta : α

/-- Body of the loop of the single-point `computeDilatation` (lines 1060-1076) with the
increment `neighPtr++`; `bondDamage` is the local constant `0.0`. -/
def computeDilatation_single_bond (sqrt : α → α) (X : ℕ) (xOverlap : ℕ → α) (Y : ℕ) (yOverlap : ℕ → α)
    (volumeOverlap : ℕ → α) (m : α) (localNeighborList : ℕ → ℕ)
    (s : DilatationSingleState α) : DilatationSingleState α :=
  let OMEGA : α := 1
  let bondDamage : α := 0
  let localId := localNeighborList s.neighPtr
  let cellVolume := volumeOverlap localId
  let XP := 3 * localId
  let dx := xOverlap (XP + 0) - xOverlap (X + 0)
  let dy := xOverlap (XP + 1) - xOverlap (X + 1)
  let dz := xOverlap (XP + 2) - xOverlap (X + 2)
  let zetaSqared := dx * dx + dy * dy + dz * dz
  let YP := 3 * localId
  let dx := yOverlap (YP + 0) - yOverlap (Y + 0)
  let dy := yOverlap (YP + 1) - yOverlap (Y + 1)
  let dz := yOverlap (YP + 2) - yOverlap (Y + 2)
  let dY := dx * dx + dy * dy + dz * dz
  let d := sqrt zetaSqared
  let e := sqrt dY - d
  { neighPtr := s.neighPtr + 1
    theta := s.theta + 3 * OMEGA * (1 - bondDamage) * d * e * cellVolume / m }

/-- The single-point `computeDilatation(neighPtr, X, xOverlap, Y, yOverlap, volumeOverlap,
weightedVolume)` (lines 1041-1080). -/
def computeDilatation_single (sqrt : α → α) (localNeighborList : ℕ → ℕ) (neighPtr : ℕ) (X : ℕ)
    (xOverlap : ℕ → α) (Y : ℕ) (yOverlap : ℕ → α) (volumeOverlap : ℕ → α)
    (weightedVolume : α) : α :=
  let m := weightedVolume
  let numNeigh := localNeighborList neighPtr
  (forLoop (fun _ => computeDilatation_single_bond sqrt X xOverlap Y yOverlap volumeOverlap m
    localNeighborList) numNeigh { neighPtr := neighPtr + 1, theta := 0 }).theta

/-! ## compute_norm_2_deviatoric_extension (lines 1140-1205) -/

/-- Cursor and accumulator of `compute_norm_2_deviatoric_extension`. -/
structure NormTwoState (α : Type) where
  neighPtr : ℕ
  ed_squared : α

/-- Body of the loop of `compute_norm_2_deviatoric_extension` (lines 1175-1200) with the
increment `neighPtr++`. -/
def compute_norm_2_deviatoric_extension_bond (sqrt : α → α) (X : ℕ) (xOverlap : ℕ → α) (Y : ℕ)
    (yOverlap : ℕ → α) (volumeOverlap : ℕ → α) (theta : α) (localNeighborList : ℕ → ℕ)
    (s : NormTwoState α) : NormTwoState α :=
  let localId := localNeighborList s.neighPtr
  let cellVolume := volumeOverlap localId
  let XP := 3 * localId
  let dx := xOverlap (XP + 0) - xOverlap (X + 0)
  let dy := xOverlap (XP + 1) - xOverlap (X + 1)
  let dz := xOverlap (XP + 2) - xOverlap (X + 2)
  let zeta := sqrt (dx * dx + dy * dy + dz * dz)
  let YP := 3 * localId
  let dx := yOverlap (YP + 0) - yOverlap (Y + 0)
  let dy := yOverlap (YP + 1) - yOverlap (Y + 1)
  let dz := yOverlap (YP + 2) - yOverlap (Y + 2)
  let dY := sqrt (dx * dx + dy * dy + dz * dz)
  let ed := dY - zeta - theta * zeta / 3
  { neighPtr := s.neighPtr + 1
    ed_squared := s.ed_squared + ed * ed * cellVolume }

/-- Function `compute_norm_2_deviatoric_extension` (lines 1140-1205). -/
def compute_norm_2_deviatoric_extension (sqrt : α → α) (localNeighborList : ℕ → ℕ) (neighPtr : ℕ) (X : ℕ)
    (xOverlap : ℕ → α) (Y : ℕ) (yOverlap : ℕ → α) (volumeOverlap : ℕ → α)
    (weighted_volume : α) : α :=
  let m := weighted_volume
  let theta := computeDilatation_single sqrt localNeighborList neighPtr X xOverlap Y yOverlap
    volumeOverlap m
  let numNeigh := localNeighborList neighPtr
  (forLoop (fun _ => compute_norm_2_deviatoric_extension_bond sqrt X xOverlap Y yOverlap
    volumeOverlap theta localNeighborList) numNeigh
    { neighPtr := neighPtr + 1, ed_squared := 0 }).ed_squared

/-! ## computeShearCorrectionFactor (lines 1083-1138) -/

/-- Cursor, scratch array and output array of `computeShearCorrectionFactor`. -/
structure ShearCorrectionState (α : Type) where
  neighPtr : ℕ
  yOverlap : ℕ → α
  shearCorrectionFactorOwned : ℕ → α

/-- The value `reference` of line 1095 for `gamma = 1.0e-6`. -/
def shearReference (pi horizon : α) : α :=
  let gamma : α := 1.0e-6
  4 * pi * gamma * gamma * horizon ^ 5 / 75

/-- The guarded quotient of lines 1128-1132 applied to `max_dsf`. -/
def shearGuard (reference max_dsf : α) : α :=
  let tolerance : α := 1.0e-15
  if max_dsf / reference < tolerance then 1 else reference / max_dsf

/-- The three probes of one owned point in `computeShearCorrectionFactor` (lines 1104-1122):
the scratch array after the probes and the value of `max_dsf` before the guard of line 1129.
`Y = yOwned` points into the scratch array, so the current position of the point is read from
the scratch array as each probe left it. -/
def computeShearCorrectionFactor_probes (sqrt : α → α)
    (xOverlap volumeOverlap owned_weighted_volume : ℕ → α) (localNeighborList : ℕ → ℕ)
    (p : ℕ) (neighPtr : ℕ) (yOverlap : ℕ → α) : (ℕ → α) × α :=
  let gamma : α := 1.0e-6
  let X := 3 * p
  let Y := 3 * p
  let m := owned_weighted_volume p
  let yOverlap := set_pure_shear localNeighborList neighPtr X xOverlap yOverlap
    PURE_SHEAR.XY gamma
  let dsf := compute_norm_2_deviatoric_extension sqrt localNeighborList neighPtr X xOverlap Y
    yOverlap volumeOverlap m
  let max_dsf := dsf
  let yOverlap := set_pure_shear localNeighborList neighPtr X xOverlap yOverlap
    PURE_SHEAR.ZX gamma
  let dsf := compute_norm_2_deviatoric_extension sqrt localNeighborList neighPtr X xOverlap Y
    yOverlap volumeOverlap m
  let max_dsf := if dsf > max_dsf then dsf else max_dsf
  let yOverlap := set_pure_shear localNeighborList neighPtr X xOverlap yOverlap
    PURE_SHEAR.YZ gamma
  let dsf := compute_norm_2_deviatoric_extension sqrt localNeighborList neighPtr X xOverlap Y
    yOverlap volumeOverlap m
  let max_dsf := if dsf > max_dsf then dsf else max_dsf
  (yOverlap, max_dsf)

/-- Body of the loop of `computeShearCorrectionFactor` (lines 1103-1135): `xOwned`, `yOwned`,
`scaleFactor` and `owned_weighted_volume` have been advanced `p` times. -/
def computeShearCorrectionFactor_point (sqrt : α → α) (reference : α)
    (xOverlap volumeOverlap owned_weighted_volume : ℕ → α) (localNeighborList : ℕ → ℕ)
    (p : ℕ) (s : ShearCorrectionState α) : ShearCorrectionState α :=
  let neighPtr := s.neighPtr
  let numNeigh := localNeighborList neighPtr
  let probes := computeShearCorrectionFactor_probes sqrt xOverlap volumeOverlap
    owned_weighted_volume localNeighborList p neighPtr s.yOverlap
  let max_dsf := shearGuard reference probes.2
  { neighPtr := neighPtr + (numNeigh + 1)
    yOverlap := probes.1
    shearCorrectionFactorOwned := Function.update s.shearCorrectionFactorOwned p max_dsf }

/-- Function `computeShearCorrectionFactor` (lines 1083-1138): final cursor, scratch array and
output array. -/
def computeShearCorrectionFactor (sqrt : α → α) (pi : α) (numOwnedPoints : ℕ)
    (xOverlap : ℕ → α) (yOverlap_scratch_required_work_space : ℕ → α)
    (volumeOverlap owned_weighted_volume : ℕ → α) (localNeighborList : ℕ → ℕ) (horizon : α)
    (shearCorrectionFactorOwned : ℕ → α) : ShearCorrectionState α :=
  forLoop (computeShearCorrectionFactor_point sqrt (shearReference pi horizon) xOverlap
    volumeOverlap owned_weighted_volume localNeighborList) numOwnedPoints
    { neighPtr := 0
      yOverlap := yOverlap_scratch_required_work_space
      shearCorrectionFactorOwned := shearCorrectionFactorOwned }

/-! ## Closed forms of the point-wise primitives -/

/-- Squared distance `dx*dx+dy*dy+dz*dz` between the points stored at scalar offsets `P` and
`Q` of the interleaved coordinate array `a`. -/
def bondLengthSquared (a : ℕ → α) (P Q : ℕ) : α :=
  let dx := a (Q + 0) - a (P + 0)
  let dy := a (Q + 1) - a (P + 1)
  let dz := a (Q + 2) - a (P + 2)
  dx * dx + dy * dy + dz * dz

/-- Displacement that `set_pure_shear` adds to component `k` of a neighbour with reference
offset `(dx, dy, dz)`: the local variables `xy`, `yz`, `zx` for `k = 0, 1, 2`. -/
def pureShearDisplacement (mode : PURE_SHEAR) (gamma dx dy dz : α) (k : ℕ) : α :=
  match mode, k with
  | PURE_SHEAR.XY, 0 => gamma * dy
  | PURE_SHEAR.YZ, 1 => gamma * dz
  | PURE_SHEAR.ZX, 2 => gamma * dx
  | _, _ => 0

/-- Component `k` of the position that `set_pure_shear` writes for the neighbour `localId` of
the point at scalar offset `X`. -/
def pureShearPosition (mode : PURE_SHEAR) (gamma : α) (xOverlap : ℕ → α) (X localId k : ℕ) :
    α :=
  xOverlap (3 * localId + k)
    + pureShearDisplacement mode gamma
        (xOverlap (3 * localId + 0) - xOverlap (X + 0))
        (xOverlap (3 * localId + 1) - xOverlap (X + 1))
        (xOverlap (3 * localId + 2) - xOverlap (X + 2)) k

/-- Reference positions of a probe with one neighbour: point 0 at the origin and its
neighbour, point 1, at `(1, 2, 3)`. -/
def shearProbeReference (i : ℕ) : α := ([0, 0, 0, 1, 2, 3] : List α).getD i 0

/-- Neighbour list of the probe: the block `[1, 1]` of point 0. -/
def shearProbeNeighborList (i : ℕ) : ℕ := ([1, 1] : List ℕ).getD i 0

/-! ## Closed form of the shear-correction calibrator -/

/-- The inputs of one call of `computeShearCorrectionFactor`, with the interpretation of
`sqrt` and `M_PI`. -/
structure ShearCorrectionInput (α : Type) where
  sqrt : α → α
  pi : α
  xOverlap : ℕ → α
  volumeOverlap : ℕ → α
  owned_weighted_volume : ℕ → α
  localNeighborList : ℕ → ℕ
  horizon : α

/-- The call of `computeShearCorrectionFactor` on the inputs `I`, the initial contents of the
scratch and output arrays and `numOwnedPoints`. -/
def ShearCorrectionInput.run (I : ShearCorrectionInput α)
    (yOverlap_scratch_required_work_space shearCorrectionFactorOwned : ℕ → α)
    (numOwnedPoints : ℕ) : ShearCorrectionState α :=
  computeShearCorrectionFactor I.sqrt I.pi numOwnedPoints I.xOverlap
    yOverlap_scratch_required_work_space I.volumeOverlap I.owned_weighted_volume
    I.localNeighborList I.horizon shearCorrectionFactorOwned

/-- The scratch array after `set_pure_shear` on the block of owned point `p` with the given
mode and `gamma = 1.0e-6`. -/
def ShearCorrectionInput.probe (I : ShearCorrectionInput α) (p : ℕ) (yOverlap : ℕ → α)
    (mode : PURE_SHEAR) : ℕ → α :=
  set_pure_shear I.localNeighborList (blockStart I.localNeighborList p) (3 * p) I.xOverlap
    yOverlap mode 1.0e-6

/-- The value of `compute_norm_2_deviatoric_extension` on the block of owned point `p` for the
scratch array `yOverlap`, the current position of `p` being read at `yOverlap[3p..3p+2]`. -/
def ShearCorrectionInput.probeNorm (I : ShearCorrectionInput α) (p : ℕ) (yOverlap : ℕ → α) :
    α :=
  compute_norm_2_deviatoric_extension I.sqrt I.localNeighborList
    (blockStart I.localNeighborList p) (3 * p) I.xOverlap (3 * p) yOverlap I.volumeOverlap
    (I.owned_weighted_volume p)

/-- The value `s_XY` of owned point `p` when the scratch array holds `yOverlap` before its
probes. -/
def ShearCorrectionInput.normXY (I : ShearCorrectionInput α) (p : ℕ) (yOverlap : ℕ → α) : α :=
  I.probeNorm p (I.probe p yOverlap PURE_SHEAR.XY)

/-- The value `s_ZX` of owned point `p`: the ZX probe is applied to the scratch array the XY
probe left. -/
def ShearCorrectionInput.normZX (I : ShearCorrectionInput α) (p : ℕ) (yOverlap : ℕ → α) : α :=
  I.probeNorm p (I.probe p (I.probe p yOverlap PURE_SHEAR.XY) PURE_SHEAR.ZX)

/-- The value `s_YZ` of owned point `p`: the YZ probe is applied to the scratch array the ZX
probe left. -/
def ShearCorrectionInput.normYZ (I : ShearCorrectionInput α) (p : ℕ) (yOverlap : ℕ → α) : α :=
  I.probeNorm p
    (I.probe p (I.probe p (I.probe p yOverlap PURE_SHEAR.XY) PURE_SHEAR.ZX) PURE_SHEAR.YZ)

/-- The scratch array when owned point `p` is reached: the initial content, passed through the
three probes of each of the points `0 .. p-1`. -/
def ShearCorrectionInput.scratchBefore (I : ShearCorrectionInput α) (yOverlap : ℕ → α) :
    ℕ → ℕ → α
  | 0 => yOverlap
  | p + 1 =>
    I.probe p (I.probe p (I.probe p (I.scratchBefore yOverlap p) PURE_SHEAR.XY) PURE_SHEAR.ZX)
      PURE_SHEAR.YZ

/-- Three collinear points for the shear-correction calibrator: the owned point 0 at the
origin with the neighbours 1 at `(1,0,0)` and 2 at `(-1,0,0)` (block `[2, 1, 2]`), unit
volumes, weighted volume `2`, unit horizon. -/
def collinearInput (sqrt : α → α) (pi : α) : ShearCorrectionInput α :=
  { sqrt := sqrt
    pi := pi
    xOverlap := fun i => ([0, 0, 0, 1, 0, 0, -1, 0, 0] : List α).getD i 0
    volumeOverlap := fun _ => 1
    owned_weighted_volume := fun _ => 2
    localNeighborList := fun i => ([2, 1, 2] : List ℕ).getD i 0
    horizon := 1 }

/-- A scratch array for `collinearInput` that holds the reference positions. -/
def collinearScratchReference (i : ℕ) : α := ([0, 0, 0, 1, 0, 0, -1, 0, 0] : List α).getD i 0

/-- A scratch array for `collinearInput` that holds the reference positions of the two
neighbours but `(1,0,0)` for the owned point 0. -/
def collinearScratchShifted (i : ℕ) : α := ([1, 0, 0, 1, 0, 0, -1, 0, 0] : List α).getD i 0

/-! ## A sparse call with a non-identity owned-ID list -/

/-- Owned-ID list `[1]`: the only owned point is the overlap point 1. -/
def sparseOwnedIDs (p : ℕ) : ℕ := ([1] : List ℕ).getD p 0

/-- Neighbour list `[1, 0]`: the owned point has the single neighbour 0. -/
def sparseNeighborList (i : ℕ) : ℕ := ([1, 0] : List ℕ).getD i 0

/-- Cell volumes `volume[0] = 1`, `volume[1] = 2`. -/
def sparseVolume (i : ℕ) : α := ([1, 2] : List α).getD i 0

/-! ## Damage loop of IsotropicElasticPlasticMaterial::updateConstitutiveData
(`Peridigm_IsotropicElasticPlasticMaterial.cpp`, lines 113-129) -/

/-- Counters and output array of the damage loop of `updateConstitutiveData` (lines 114-129):
`neighborhoodListIndex`, `bondIndex` and the array `damage`. -/
structure DamageState (α : Type) where
  neighborhoodListIndex : ℕ
  bondIndex : ℕ
  damage : ℕ → α

/-- Counter and accumulator of the inner loop (lines 120-123). -/
structure TotalDamageState (α : Type) where
  bondIndex : ℕ
  totalDamage : α

/-- Body of the inner loop (line 122): `totalDamage += bondDamage[bondIndex++];`. -/
def updateConstitutiveData_bond (bondDamage : ℕ → α) (s : TotalDamageState α) :
    TotalDamageState α :=
  { bondIndex := s.bondIndex + 1
    totalDamage := s.totalDamage + bondDamage s.bondIndex }

/-- Body of the outer loop (lines 117-128) for the counter value `iID`. -/
def updateConstitutiveData_point (bondDamage : ℕ → α) (ownedIDs neighborhoodList : ℕ → ℕ)
    (iID : ℕ) (s : DamageState α) : DamageState α :=
  let nodeID := ownedIDs iID
  let numNeighbors := neighborhoodList s.neighborhoodListIndex
  let neighborhoodListIndex := s.neighborhoodListIndex + 1
  let neighborhoodListIndex := neighborhoodListIndex + numNeighbors
  let t := forLoop (fun _ => updateConstitutiveData_bond bondDamage) numNeighbors
    { bondIndex := s.bondIndex, totalDamage := 0 }
  let totalDamage : α := if numNeighbors > 0 then t.totalDamage / (numNeighbors : α) else 0
  { neighborhoodListIndex := neighborhoodListIndex
    bondIndex := t.bondIndex
    damage := Function.update s.damage nodeID totalDamage }

/-- The damage loop of `updateConstitutiveData` (lines 114-129): final counters and the array
`damage`.  `bondDamage` holds the bond damage as it is when the loop starts, that is after the
damage model has run. -/
def updateConstitutiveData_damageLoop (bondDamage damage : ℕ → α) (ownedIDs neighborhoodList : ℕ → ℕ)
    (numOwnedPoints : ℕ) : DamageState α :=
  forLoop (updateConstitutiveData_point bondDamage ownedIDs neighborhoodList) numOwnedPoints
    { neighborhoodListIndex := 0, bondIndex := 0, damage := damage }

/-- Arithmetic mean of the bond-damage entries of the `i`-th neighbour block, `0` for an empty
block. -/
def bondDamageMean (bondDamage : ℕ → α) (neighborhoodList : ℕ → ℕ) (i : ℕ) : α :=
  if numNeighOf neighborhoodList i > 0 then
    (∑ j ∈ Finset.range (numNeighOf neighborhoodList i),
      bondDamage (bondStart neighborhoodList i + j)) / (numNeighOf neighborhoodList i : α)
  else 0

/-- Two neighbour blocks `[2, 1, 2]` and `[0]`. -/
def damageNeighborhoodList (i : ℕ) : ℕ := ([2, 1, 2, 0] : List ℕ).getD i 0

/-- Bond damage `1` and `0` on the two bonds of the first block. -/
def damageBondDamage (k : ℕ) : α := ([1, 0] : List α).getD k 0

/-- Owned-ID list `[4, 7]`. -/
def damageOwnedIDs (i : ℕ) : ℕ := ([4, 7] : List ℕ).getD i 0

/-- The one-bond viscoelastic system of `oneBondInput` with the step-N configuration equal to
the step-N+1 configuration: the bond is held at its extension over the step. -/
def heldBondInput (sqrt exp : α → α) : ViscoelasticInput α :=
  { oneBondInput sqrt exp with yNOverlap := (oneBondInput sqrt exp).yNP1Overlap }

/-- The two-point configuration of `twoPointInput` with every bond fully broken. -/
def brokenTwoPointInput (sqrt : α → α) (pi : α) : ElasticPlasticInput α :=
  { twoPointInput sqrt pi with bondDamage := fun _ => 1 }

/-- The one-bond viscoelastic system of `oneBondInput` with its bond fully broken. -/
def brokenOneBondInput (sqrt exp : α → α) : ViscoelasticInput α :=
  { oneBondInput sqrt exp with bondDamage := fun _ => 1 }

/-- The two-point configuration of `twoPointInput` with yield stress 7. -/
def elasticTwoPointInput (sqrt : α → α) (pi : α) : ElasticPlasticInput α :=
  (twoPointInput sqrt pi).withYieldStress 7

/-- The sum under the square root of `tdNorm` for owned point `p`, written with the trial
deviatoric forces: `Σ_j ((1-d_j) * tdTrial_j)^2 * volume[n_j]`. -/
def ElasticPlasticInput.trialNormSquared (I : ElasticPlasticInput α) (p : ℕ) : α :=
  ∑ j ∈ Finset.range (numNeighOf I.localNeighborList p),
    ((1 - I.bondDamage (bondStart I.localNeighborList p + j)) * I.tdTrial p j) ^ 2
      * I.volumeOverlap (neighOf I.localNeighborList p j)

/-- The same sum with the deviatoric forces `td` the call uses for the bond forces:
`Σ_j ((1-d_j) * td_j)^2 * volume[n_j]`. -/
def ElasticPlasticInput.returnedNormSquared (I : ElasticPlasticInput α) (p : ℕ) : α :=
  ∑ j ∈ Finset.range (numNeighOf I.localNeighborList p),
    ((1 - I.bondDamage (bondStart I.localNeighborList p + j)) * I.td p j) ^ 2
      * I.volumeOverlap (neighOf I.localNeighborList p j)

/-- The inputs of a second call on the same kinematics: the previous-step state
`(lambdaN, deviatoricPlasticExtensionStateN)` is replaced by the arrays
`(lambdaNP1, deviatoricPlasticExtensionStateNp1)` that the call on `I` leaves. -/
def ElasticPlasticInput.next (I : ElasticPlasticInput α)
    (deviatoricPlasticExtensionStateNp1 lambdaNP1 fInternalOverlap : ℕ → α)
    (numOwnedPoints : ℕ) : ElasticPlasticInput α :=
  { I with
    deviatoricPlasticExtensionStateN :=
      (I.run deviatoricPlasticExtensionStateNp1 lambdaNP1 fInternalOverlap
        numOwnedPoints).deviatoricPlasticExtensionStateNp1
    lambdaN :=
      (I.run deviatoricPlasticExtensionStateNp1 lambdaNP1 fInternalOverlap
        numOwnedPoints).lambdaNP1 }

/-! ## Array accesses of the dense computeInternalForceIsotropicElasticPlastic
(lines 399-523, with `computeDeviatoricForceStateNorm`, lines 749-792) -/

/-- The arrays the dense elastic-plastic evaluator receives. -/
inductive ArrayName where
  | xOverlap
  | yOverlap
  | mOwned
  | volumeOverlap
  | dilatationOwned
  | bondDamage
  | dsfOwned
  | deviatoricPlasticExtensionStateN
  | deviatoricPlasticExtensionStateNp1
  | lambdaN
  | lambdaNP1
  | fInternalOverlap
  | localNeighborList

/-- One array access: the array, the offset from its base pointer, and whether the access
stores a value. -/
structure Access where
  array : ArrayName
  index : ℕ
  store : Bool

/-- A load from `array[index]`. -/
def Access.read (array : ArrayName) (index : ℕ) : Access := ⟨array, index, false⟩

/-- A store to `array[index]`. -/
def Access.write (array : ArrayName) (index : ℕ) : Access := ⟨array, index, true⟩

/-- The twelve coordinate loads of one bond (lines 754-760 and 446-452): `XP[k]`, `X[k]` for
`k = 0,1,2`, then `YP[k]`, `Y[k]`. -/
def bondCoordinateAccesses (X Y localId : ℕ) : List Access :=
  [Access.read ArrayName.xOverlap (3 * localId + 0), Access.read ArrayName.xOverlap (X + 0),
   Access.read ArrayName.xOverlap (3 * localId + 1), Access.read ArrayName.xOverlap (X + 1),
   Access.read ArrayName.xOverlap (3 * localId + 2), Access.read ArrayName.xOverlap (X + 2),
   Access.read ArrayName.yOverlap (3 * localId + 0), Access.read ArrayName.yOverlap (Y + 0),
   Access.read ArrayName.yOverlap (3 * localId + 1), Access.read ArrayName.yOverlap (Y + 1),
   Access.read ArrayName.yOverlap (3 * localId + 2), Access.read ArrayName.yOverlap (Y + 2)]

/-- Accesses of one iteration of the loop of `computeDeviatoricForceStateNorm` (lines
750-777), in program order, the three cursors standing at `neighPtr`, `bondDamagePtr` and
`deviatoricPlasticExtensionStatePtr`. -/
def computeDeviatoricForceStateNorm_bond_accesses (localNeighborList : ℕ → ℕ) (X Y : ℕ)
    (neighPtr bondDamagePtr deviatoricPlasticExtensionStatePtr : ℕ) : List Access :=
  let localId := localNeighborList neighPtr
  [Access.read ArrayName.localNeighborList neighPtr,
   Access.read ArrayName.volumeOverlap localId]
  ++ bondCoordinateAccesses X Y localId
  ++ [Access.read ArrayName.deviatoricPlasticExtensionStateN deviatoricPlasticExtensionStatePtr,
      Access.read ArrayName.bondDamage bondDamagePtr]

/-- Local cursors of `computeDeviatoricForceStateNorm` and the accesses made so far. -/
structure NormAccessState where
  neighPtr : ℕ
  bondDamagePtr : ℕ
  deviatoricPlasticExtensionStatePtr : ℕ
  log : List Access

/-- Body of the loop of `computeDeviatoricForceStateNorm` (lines 749-790) as it acts on the
cursors and the access log. -/
def computeDeviatoricForceStateNorm_bond_log (localNeighborList : ℕ → ℕ) (X Y : ℕ)
    (s : NormAccessState) : NormAccessState :=
  { neighPtr := s.neighPtr + 1
    bondDamagePtr := s.bondDamagePtr + 1
    deviatoricPlasticExtensionStatePtr := s.deviatoricPlasticExtensionStatePtr + 1
    log := s.log ++ computeDeviatoricForceStateNorm_bond_accesses localNeighborList X Y
      s.neighPtr s.bondDamagePtr s.deviatoricPlasticExtensionStatePtr }

/-- The accesses of one call of `computeDeviatoricForceStateNorm`, the caller's cursors
standing at `neighPtr`, `bondDamagePtr`, `deviatoricPlasticExtensionStatePtr`. -/
def computeDeviatoricForceStateNorm_log (localNeighborList : ℕ → ℕ) (numNeigh : ℕ)
    (neighPtr bondDamagePtr deviatoricPlasticExtensionStatePtr X Y : ℕ) : List Access :=
  (forLoop (fun _ => computeDeviatoricForceStateNorm_bond_log localNeighborList X Y) numNeigh
    { neighPtr := neighPtr
      bondDamagePtr := bondDamagePtr
      deviatoricPlasticExtensionStatePtr := deviatoricPlasticExtensionStatePtr
      log := [] }).log

/-- Accesses of one iteration of the bond loop of the dense elastic-plastic evaluator (lines
442-520), in program order.  `p` is the offset of the per-point pointers, `elastic` the flag
set at lines 423-439. -/
def computeInternalForceIsotropicElasticPlastic_bond_accesses (localNeighborList : ℕ → ℕ)
    (X Y fOwned p : ℕ) (elastic : Bool)
    (neighPtr bondDamagePtr deviatoricPlasticExtensionStateNPtr
      deviatoricPlasticExtensionStateNp1Ptr : ℕ) : List Access :=
  let localId := localNeighborList neighPtr
  [Access.read ArrayName.localNeighborList neighPtr,
   Access.read ArrayName.volumeOverlap localId]
  ++ bondCoordinateAccesses X Y localId
  ++ [Access.read ArrayName.dilatationOwned p,
      Access.read ArrayName.deviatoricPlasticExtensionStateN
        deviatoricPlasticExtensionStateNPtr]
  ++ (if elastic then
        [Access.read ArrayName.deviatoricPlasticExtensionStateN
           deviatoricPlasticExtensionStateNPtr,
         Access.write ArrayName.deviatoricPlasticExtensionStateNp1
           deviatoricPlasticExtensionStateNp1Ptr]
      else
        [Access.write ArrayName.deviatoricPlasticExtensionStateNp1
           deviatoricPlasticExtensionStateNp1Ptr])
  ++ [Access.read ArrayName.bondDamage bondDamagePtr,
      Access.read ArrayName.fInternalOverlap (fOwned + 0),
      Access.write ArrayName.fInternalOverlap (fOwned + 0),
      Access.read ArrayName.fInternalOverlap (fOwned + 1),
      Access.write ArrayName.fInternalOverlap (fOwned + 1),
      Access.read ArrayName.fInternalOverlap (fOwned + 2),
      Access.write ArrayName.fInternalOverlap (fOwned + 2),
      Access.read ArrayName.fInternalOverlap (3 * localId + 0),
      Access.write ArrayName.fInternalOverlap (3 * localId + 0),
      Access.read ArrayName.fInternalOverlap (3 * localId + 1),
      Access.write ArrayName.fInternalOverlap (3 * localId + 1),
      Access.read ArrayName.fInternalOverlap (3 * localId + 2),
      Access.write ArrayName.fInternalOverlap (3 * localId + 2)]

/-- Cursors of the dense elastic-plastic evaluator and the accesses made so far. -/
structure ElasticPlasticAccessState where
  neighPtr : ℕ
  bondDamagePtr : ℕ
  deviatoricPlasticExtensionStateNPtr : ℕ
  deviatoricPlasticExtensionStateNp1Ptr : ℕ
  log : List Access

/-- Body of the bond loop of the dense elastic-plastic evaluator (lines 441-521) as it acts on
the cursors and the access log. -/
def computeInternalForceIsotropicElasticPlastic_bond_log (localNeighborList : ℕ → ℕ)
    (X Y fOwned p : ℕ) (elastic : Bool) (s : ElasticPlasticAccessState) :
    ElasticPlasticAccessState :=
  { neighPtr := s.neighPtr + 1
    bondDamagePtr := s.bondDamagePtr + 1
    deviatoricPlasticExtensionStateNPtr := s.deviatoricPlasticExtensionStateNPtr + 1
    deviatoricPlasticExtensionStateNp1Ptr := s.deviatoricPlasticExtensionStateNp1Ptr + 1
    log := s.log ++ computeInternalForceIsotropicElasticPlastic_bond_accesses localNeighborList
      X Y fOwned p elastic s.neighPtr s.bondDamagePtr s.deviatoricPlasticExtensionStateNPtr
      s.deviatoricPlasticExtensionStateNp1Ptr }

/-- Accesses of the head of the outer-loop body (lines 403-416): `*neighPtr`, `*m`,
`*dsfOwned`, `v[p]` and `*theta` twice (line 409 and the argument of line 416). -/
def computeInternalForceIsotropicElasticPlastic_head_accesses (p neighPtr : ℕ) : List Access :=
  [Access.read ArrayName.localNeighborList neighPtr,
   Access.read ArrayName.mOwned p,
   Access.read ArrayName.dsfOwned p,
   Access.read ArrayName.volumeOverlap p,
   Access.read ArrayName.dilatationOwned p,
   Access.read ArrayName.dilatationOwned p]

/-- Accesses of the yield test (lines 421-439): `*dsfOwned` twice, then `*lambdaN` and the
store to `*lambdaNP1`, which both branches make. -/
def computeInternalForceIsotropicElasticPlastic_yield_accesses (p : ℕ) : List Access :=
  [Access.read ArrayName.dsfOwned p,
   Access.read ArrayName.dsfOwned p,
   Access.read ArrayName.lambdaN p,
   Access.write ArrayName.lambdaNP1 p]

/-- Body of the outer loop of the dense elastic-plastic evaluator (lines 401-523) as it acts
on the cursors and the access log; `elastic p` is the outcome of the yield test at point
`p`. -/
def computeInternalForceIsotropicElasticPlastic_point_log (localNeighborList : ℕ → ℕ)
    (elastic : ℕ → Bool) (p : ℕ) (s : ElasticPlasticAccessState) :
    ElasticPlasticAccessState :=
  let numNeigh := localNeighborList s.neighPtr
  let s : ElasticPlasticAccessState :=
    { s with
      neighPtr := s.neighPtr + 1
      log := s.log ++ computeInternalForceIsotropicElasticPlastic_head_accesses p s.neighPtr }
  let s : ElasticPlasticAccessState :=
    { s with
      log := s.log
        ++ computeDeviatoricForceStateNorm_log localNeighborList numNeigh s.neighPtr
            s.bondDamagePtr s.deviatoricPlasticExtensionStateNPtr (3 * p) (3 * p)
        ++ computeInternalForceIsotropicElasticPlastic_yield_accesses p }
  forLoop (fun _ => computeInternalForceIsotropicElasticPlastic_bond_log localNeighborList
    (3 * p) (3 * p) (3 * p) p (elastic p)) numNeigh s

/-- The cursors and the accesses of one call of the dense elastic-plastic evaluator, given
the outcome `elastic p` of the yield test at each owned point. -/
def computeInternalForceIsotropicElasticPlastic_log (localNeighborList : ℕ → ℕ)
    (elastic : ℕ → Bool) (numOwnedPoints : ℕ) : ElasticPlasticAccessState :=
  forLoop (computeInternalForceIsotropicElasticPlastic_point_log localNeighborList elastic)
    numOwnedPoints
    { neighPtr := 0
      bondDamagePtr := 0
      deviatoricPlasticExtensionStateNPtr := 0
      deviatoricPlasticExtensionStateNp1Ptr := 0
      log := [] }

/-- The accesses of the call on the inputs `I`: the yield test at point `p` has the outcome
`I.elastic p`. -/
def ElasticPlasticInput.accesses (I : ElasticPlasticInput α) (numOwnedPoints : ℕ) :
    List Access :=
  (computeInternalForceIsotropicElasticPlastic_log I.localNeighborList (fun p => I.elastic p)
    numOwnedPoints).log

/-- Concatenation `f 0 ++ f 1 ++ ... ++ f (n-1)`. -/
def appendLoop (f : ℕ → List Access) : ℕ → List Access
  | 0 => []
  | n + 1 => appendLoop f n ++ f n

/-- Lengths of the arrays of a call with `numOwnedPoints` well-formed blocks in the neighbour
list and overlap arrays of `N` points: `3*N` scalars for positions and forces, `N` volumes,
`numOwnedPoints` entries for each per-point array, the total bond count for each bond-indexed
array, and the total length of the blocks for the neighbour list. -/
def arrayLength (localNeighborList : ℕ → ℕ) (numOwnedPoints N : ℕ) : ArrayName → ℕ
  | ArrayName.xOverlap => 3 * N
  | ArrayName.yOverlap => 3 * N
  | ArrayName.fInternalOverlap => 3 * N
  | ArrayName.volumeOverlap => N
  | ArrayName.mOwned => numOwnedPoints
  | ArrayName.dilatationOwned => numOwnedPoints
  | ArrayName.dsfOwned => numOwnedPoints
  | ArrayName.lambdaN => numOwnedPoints
  | ArrayName.lambdaNP1 => numOwnedPoints
  | ArrayName.bondDamage => bondStart localNeighborList numOwnedPoints
  | ArrayName.deviatoricPlasticExtensionStateN => bondStart localNeighborList numOwnedPoints
  | ArrayName.deviatoricPlasticExtensionStateNp1 => bondStart localNeighborList numOwnedPoints
  | ArrayName.localNeighborList => blockStart localNeighborList numOwnedPoints

/-- The access stores to `deviatoricPlasticExtensionStateNp1`. -/
def Access.storesNp1 (a : Access) : Bool :=
  match a.array, a.store with
  | ArrayName.deviatoricPlasticExtensionStateNp1, true => true
  | _, _ => false

/-- Indices of the stores to `deviatoricPlasticExtensionStateNp1` in a log, in program
order. -/
def storesNp1 (log : List Access) : List ℕ :=
  (log.filter Access.storesNp1).map Access.index

/-- Accesses of the owned point `p` in closed form: the head, the norm pre-pass over the
bonds `j` of the block, the yield test, and the force loop over the same bonds.  In both
loops bond `j` is visited with the neighbour cursor at `blockStart p + 1 + j` and every bond
cursor at `bondStart p + j`. -/
def pointAccesses (localNeighborList : ℕ → ℕ) (elastic : ℕ → Bool) (p : ℕ) : List Access :=
  computeInternalForceIsotropicElasticPlastic_head_accesses p (blockStart localNeighborList p)
  ++ appendLoop (fun j => computeDeviatoricForceStateNorm_bond_accesses localNeighborList
      (3 * p) (3 * p) (blockStart localNeighborList p + 1 + j)
      (bondStart localNeighborList p + j) (bondStart localNeighborList p + j))
      (numNeighOf localNeighborList p)
  ++ computeInternalForceIsotropicElasticPlastic_yield_accesses p
  ++ appendLoop (fun j => computeInternalForceIsotropicElasticPlastic_bond_accesses
      localNeighborList (3 * p) (3 * p) (3 * p) p (elastic p)
      (blockStart localNeighborList p + 1 + j) (bondStart localNeighborList p + j)
      (bondStart localNeighborList p + j) (bondStart localNeighborList p + j))
      (numNeighOf localNeighborList p)

/-- The three collinear points of `collinearInput` with weighted volume `0` at every point. -/
def zeroWeightedVolumeInput (sqrt : α → α) (pi : α) : ShearCorrectionInput α :=
  { collinearInput sqrt pi with owned_weighted_volume := fun _ => 0 }

/-! ## Evaluation that records division by zero

In the field `α` a quotient with divisor zero is zero; the quotient of two doubles with divisor
zero is an infinity or NaN.  The evaluators of this section follow their source statement by
statement like the ones above, but every quotient whose divisor is not a nonzero literal is a
`checkedDiv`: the result is `none` as soon as a division by zero is evaluated, and the number
the evaluator above computes otherwise. -/

/-- The quotient `a / b` of two doubles when the divisor is not zero, and `none` when it is. -/
def checkedDiv (a b : α) : Option α := if b = 0 then none else some (a / b)

/-- The loop `for (int i = 0; i < n; i++) body(i)` for a body that may divide by zero: the
result is `none` as soon as one iteration is. -/
def forLoopChecked {σ : Type} (body : ℕ → σ → Option σ) : ℕ → σ → Option σ
  | 0, s => some s
  | n + 1, s => (forLoopChecked body n s).bind (body n)

/-- Body of the inner loop of `computeInternalForceLinearElastic` (lines 242-264) with the
quotients `t * dx / dY`, `t * dy / dY`, `t * dz / dY` of lines 255-257 checked. -/
def computeInternalForceLinearElastic_bond_checked (sqrt : α → α)
    (xOverlap yOverlap volumeOverlap bondDamage : ℕ → α) (localNeighborList : ℕ → ℕ)
    (X Y fOwned : ℕ) (alpha c1 selfCellVolume : α) (s : LinearElasticState α) :
    Option (LinearElasticState α) := do
  let localId := localNeighborList s.neighPtr
  let cellVolume := volumeOverlap localId
  let XP := 3 * localId
  let YP := 3 * localId
  let dx := xOverlap (XP + 0) - xOverlap (X + 0)
  let dy := xOverlap (XP + 1) - xOverlap (X + 1)
  let dz := xOverlap (XP + 2) - xOverlap (X + 2)
  let zeta := sqrt (dx * dx + dy * dy + dz * dz)
  let dx := yOverlap (YP + 0) - yOverlap (Y + 0)
  let dy := yOverlap (YP + 1) - yOverlap (Y + 1)
  let dz := yOverlap (YP + 2) - yOverlap (Y + 2)
  let dY := sqrt (dx * dx + dy * dy + dz * dz)
  let t := linearElasticBondForce c1 alpha zeta dY (bondDamage s.bondDamagePtr)
  let fx ← checkedDiv (t * dx) dY
  let fy ← checkedDiv (t * dy) dY
  let fz ← checkedDiv (t * dz) dY
  pure
    { neighPtr := s.neighPtr + 1
      bondDamagePtr := s.bondDamagePtr + 1
      fInternalOverlap :=
        assemblePairwiseForce s.fInternalOverlap fOwned localId fx fy fz cellVolume
          selfCellVolume }

/-- Body of the outer loop of the dense `computeInternalForceLinearElastic` (lines 233-267)
with the quotients of lines 238 and 240, whose divisors are `*m` and `3.0*(*m)`, checked. -/
def computeInternalForceLinearElastic_point_checked (sqrt : α → α)
    (xOverlap yOverlap mOwned volumeOverlap dilatationOwned bondDamage : ℕ → α)
    (localNeighborList : ℕ → ℕ) (K MU : α) (p : ℕ) (s : LinearElasticState α) :
    Option (LinearElasticState α) := do
  let OMEGA : α := 1
  let numNeigh := localNeighborList s.neighPtr
  let s : LinearElasticState α := { s with neighPtr := s.neighPtr + 1 }
  let alpha ← checkedDiv (15 * MU) (mOwned p)
  let selfCellVolume := volumeOverlap p
  let c1 ← checkedDiv (OMEGA * dilatationOwned p * (9 * K - 15 * MU)) (3 * mOwned p)
  forLoopChecked (fun _ => computeInternalForceLinearElastic_bond_checked sqrt xOverlap yOverlap
    volumeOverlap bondDamage localNeighborList (3 * p) (3 * p) (3 * p) alpha c1 selfCellVolume)
    numNeigh s

/-- Dense `computeInternalForceLinearElastic` (lines 201-268) with every quotient checked: the
force array after the call, or `none` when the call evaluates a division by zero. -/
def computeInternalForceLinearElastic_checked (sqrt : α → α)
    (xOverlap yOverlap mOwned volumeOverlap dilatationOwned bondDamage : ℕ → α)
    (fInternalOverlap : ℕ → α) (localNeighborList : ℕ → ℕ) (numOwnedPoints : ℕ)
    (BULK_MODULUS SHEAR_MODULUS : α) : Option (ℕ → α) :=
  (forLoopChecked (computeInternalForceLinearElastic_point_checked sqrt xOverlap yOverlap mOwned
    volumeOverlap dilatationOwned bondDamage localNeighborList BULK_MODULUS SHEAR_MODULUS)
    numOwnedPoints
    { neighPtr := 0, bondDamagePtr := 0, fInternalOverlap := fInternalOverlap }).map
    LinearElasticState.fInternalOverlap

/-- The two-point configuration of `twoPointInput` with both points at the origin in the
current configuration: the bond between them has current length `0`. -/
def coincidentInput (sqrt : α → α) (pi : α) : ElasticPlasticInput α :=
  { twoPointInput sqrt pi with yOverlap := fun _ => 0 }

/-- The configuration of `coincidentInput` with every bond fully broken. -/
def brokenCoincidentInput (sqrt : α → α) (pi : α) : ElasticPlasticInput α :=
  { coincidentInput sqrt pi with bondDamage := fun _ => 1 }

/-- Body of the loop of the single-point `computeDilatation` (lines 1060-1076) with the
quotient of line 1076, whose divisor is `m`, checked. -/
def computeDilatation_single_bond_checked (sqrt : α → α) (X : ℕ) (xOverlap : ℕ → α) (Y : ℕ)
    (yOverlap : ℕ → α) (volumeOverlap : ℕ → α) (m : α) (localNeighborList : ℕ → ℕ)
    (s : DilatationSingleState α) : Option (DilatationSingleState α) := do
  let OMEGA : α := 1
  let bondDamage : α := 0
  let localId := localNeighborList s.neighPtr
  let cellVolume := volumeOverlap localId
  let XP := 3 * localId
  let dx := xOverlap (XP + 0) - xOverlap (X + 0)
  let dy := xOverlap (XP + 1) - xOverlap (X + 1)
  let dz := xOverlap (XP + 2) - xOverlap (X + 2)
  let zetaSqared := dx * dx + dy * dy + dz * dz
  let YP := 3 * localId
  let dx := yOverlap (YP + 0) - yOverlap (Y + 0)
  let dy := yOverlap (YP + 1) - yOverlap (Y + 1)
  let dz := yOverlap (YP + 2) - yOverlap (Y + 2)
  let dY := dx * dx + dy * dy + dz * dz
  let d := sqrt zetaSqared
  let e := sqrt dY - d
  let q ← checkedDiv (3 * OMEGA * (1 - bondDamage) * d * e * cellVolume) m
  pure
    { neighPtr := s.neighPtr + 1
      theta := s.theta + q }

/-- The single-point `computeDilatation` (lines 1041-1080) with the quotient of line 1076
checked. -/
def computeDilatation_single_checked (sqrt : α → α) (localNeighborList : ℕ → ℕ) (neighPtr : ℕ)
    (X : ℕ) (xOverlap : ℕ → α) (Y : ℕ) (yOverlap : ℕ → α) (volumeOverlap : ℕ → α)
    (weightedVolume : α) : Option α :=
  let m := weightedVolume
  let numNeigh := localNeighborList neighPtr
  (forLoopChecked (fun _ => computeDilatation_single_bond_checked sqrt X xOverlap Y yOverlap
    volumeOverlap m localNeighborList) numNeigh { neighPtr := neighPtr + 1, theta := 0 }).map
    DilatationSingleState.theta

/-- Function `compute_norm_2_deviatoric_extension` (lines 1140-1205) with the checked
`computeDilatation` of line 1165; the only quotient of its own loop, `theta*zeta/3` at line
1195, has the literal divisor `3`. -/
def compute_norm_2_deviatoric_extension_checked (sqrt : α → α) (localNeighborList : ℕ → ℕ)
    (neighPtr : ℕ) (X : ℕ) (xOverlap : ℕ → α) (Y : ℕ) (yOverlap : ℕ → α)
    (volumeOverlap : ℕ → α) (weighted_volume : α) : Option α := do
  let m := weighted_volume
  let theta ← computeDilatation_single_checked sqrt localNeighborList neighPtr X xOverlap Y
    yOverlap volumeOverlap m
  let numNeigh := localNeighborList neighPtr
  pure (forLoop (fun _ => compute_norm_2_deviatoric_extension_bond sqrt X xOverlap Y yOverlap
    volumeOverlap theta localNeighborList) numNeigh
    { neighPtr := neighPtr + 1, ed_squared := 0 }).ed_squared

/-- The three probes of one owned point in `computeShearCorrectionFactor` (lines 1104-1122)
with the checked `compute_norm_2_deviatoric_extension`: the scratch array after the probes,
which involves no quotient, and the value of `max_dsf` before the guard of line 1129. -/
def computeShearCorrectionFactor_probes_checked (sqrt : α → α)
    (xOverlap volumeOverlap owned_weighted_volume : ℕ → α) (localNeighborList : ℕ → ℕ)
    (p : ℕ) (neighPtr : ℕ) (yOverlap : ℕ → α) : (ℕ → α) × Option α :=
  let gamma : α := 1.0e-6
  let X := 3 * p
  let Y := 3 * p
  let m := owned_weighted_volume p
  let yOverlap := set_pure_shear localNeighborList neighPtr X xOverlap yOverlap
    PURE_SHEAR.XY gamma
  let dsf := compute_norm_2_deviatoric_extension_checked sqrt localNeighborList neighPtr X
    xOverlap Y yOverlap volumeOverlap m
  let max_dsf := dsf
  let yOverlap := set_pure_shear localNeighborList neighPtr X xOverlap yOverlap
    PURE_SHEAR.ZX gamma
  let dsf := compute_norm_2_deviatoric_extension_checked sqrt localNeighborList neighPtr X
    xOverlap Y yOverlap volumeOverlap m
  let max_dsf : Option α := do
    let a ← dsf
    let b ← max_dsf
    pure (if a > b then a else b)
  let yOverlap := set_pure_shear localNeighborList neighPtr X xOverlap yOverlap
    PURE_SHEAR.YZ gamma
  let dsf := compute_norm_2_deviatoric_extension_checked sqrt localNeighborList neighPtr X
    xOverlap Y yOverlap volumeOverlap m
  let max_dsf : Option α := do
    let a ← dsf
    let b ← max_dsf
    pure (if a > b then a else b)
  (yOverlap, max_dsf)

/-- The guard of lines 1128-1132 with its two quotients, `max_dsf/reference` and
`reference/max_dsf`, checked. -/
def shearGuard_checked (reference max_dsf : α) : Option α := do
  let tolerance : α := 1.0e-15
  let q ← checkedDiv max_dsf reference
  if q < tolerance then pure 1 else checkedDiv reference max_dsf

/-- Cursor, scratch array and output array of the checked `computeShearCorrectionFactor`: an
entry of the output array is `none` when a division by zero was evaluated on the way to the
value stored there. -/
structure ShearCorrectionCheckedState (α : Type) where
  neighPtr : ℕ
  yOverlap : ℕ → α
  shearCorrectionFactorOwned : ℕ → Option α

/-- Body of the loop of `computeShearCorrectionFactor` (lines 1103-1135) with every quotient
checked. -/
def computeShearCorrectionFactor_point_checked (sqrt : α → α) (reference : α)
    (xOverlap volumeOverlap owned_weighted_volume : ℕ → α) (localNeighborList : ℕ → ℕ)
    (p : ℕ) (s : ShearCorrectionCheckedState α) : ShearCorrectionCheckedState α :=
  let neighPtr := s.neighPtr
  let numNeigh := localNeighborList neighPtr
  let probes := computeShearCorrectionFactor_probes_checked sqrt xOverlap volumeOverlap
    owned_weighted_volume localNeighborList p neighPtr s.yOverlap
  let max_dsf := probes.2.bind (shearGuard_checked reference)
  { neighPtr := neighPtr + (numNeigh + 1)
    yOverlap := probes.1
    shearCorrectionFactorOwned := Function.update s.shearCorrectionFactorOwned p max_dsf }

/-- The value `reference` of line 1095 for `gamma = 1.0e-6`, with the library function `pow`
a parameter as `sqrt` and `exp` are: `pow x n` stands for `pow(x, n)`. -/
def shearReferenceOf (pow : α → ℕ → α) (pi horizon : α) : α :=
  let gamma : α := 1.0e-6
  4 * pi * gamma * gamma * pow horizon 5 / 75

/-- Function `computeShearCorrectionFactor` (lines 1083-1138) with every quotient checked and
`pow` a parameter: final cursor, scratch array and output array. -/
def computeShearCorrectionFactor_checked (sqrt : α → α) (pow : α → ℕ → α) (pi : α)
    (numOwnedPoints : ℕ) (xOverlap : ℕ → α) (yOverlap_scratch_required_work_space : ℕ → α)
    (volumeOverlap owned_weighted_volume : ℕ → α) (localNeighborList : ℕ → ℕ) (horizon : α)
    (shearCorrectionFactorOwned : ℕ → α) : ShearCorrectionCheckedState α :=
  forLoop (computeShearCorrectionFactor_point_checked sqrt (shearReferenceOf pow pi horizon)
    xOverlap volumeOverlap owned_weighted_volume localNeighborList) numOwnedPoints
    { neighPtr := 0
      yOverlap := yOverlap_scratch_required_work_space
      shearCorrectionFactorOwned := fun i => some (shearCorrectionFactorOwned i) }

/-- The checked call of `computeShearCorrectionFactor` on the inputs `I` with the power
function `pow`. -/
def ShearCorrectionInput.runChecked (I : ShearCorrectionInput α) (pow : α → ℕ → α)
    (yOverlap_scratch_required_work_space shearCorrectionFactorOwned : ℕ → α)
    (numOwnedPoints : ℕ) : ShearCorrectionCheckedState α :=
  computeShearCorrectionFactor_checked I.sqrt pow I.pi numOwnedPoints I.xOverlap
    yOverlap_scratch_required_work_space I.volumeOverlap I.owned_weighted_volume
    I.localNeighborList I.horizon shearCorrectionFactorOwned

/-- The value `max_dsf` of owned point `p` before the guard, when the scratch array holds
`yOverlap` before its probes: the largest of `s_XY`, `s_ZX`, `s_YZ`. -/
def ShearCorrectionInput.maxNorm (I : ShearCorrectionInput α) (p : ℕ) (yOverlap : ℕ → α) : α :=
  max (I.normXY p yOverlap) (max (I.normZX p yOverlap) (I.normYZ p yOverlap))

/-- The exact power `x^n`. -/
def exactPow (x : α) (n : ℕ) : α := x ^ n

/-- A power function that underflows as the double `pow` does: a power of magnitude below
`2^-1075`, half the smallest positive double, is returned as `0`. -/
def underflowingPow (x : α) (n : ℕ) : α := if |x ^ n| < 1 / 2 ^ 1075 then 0 else x ^ n

/-- The three collinear points of `collinearInput` with the horizon `1.0e-70`, whose fifth
power lies below the smallest positive double. -/
def tinyHorizonInput (sqrt : α → α) (pi : α) : ShearCorrectionInput α :=
  { collinearInput sqrt pi with horizon := 1.0e-70 }

/-! ## A rounding square root -/

/-- The square root `sqrt` rounded to the nearest multiple of `2^-k`.  The doubles in
`[64, 128)` are the multiples of `2^-46`, so for `k = 46` and a result in that interval this is
the rounding of the double `sqrt`; a root that is itself a multiple of `2^-k` is returned
as it is. -/
def roundedSqrt [FloorRing α] (sqrt : α → α) (k : ℕ) (x : α) : α :=
  (round (sqrt x * 2 ^ k) : α) / 2 ^ k

/-- The two-point configuration of `twoPointInput` with shear modulus `5` and the yield stress
`8641225838598903 / 2^48`, the double that the literal `30.699801238394652` denotes: the point
yield value lies just below `tdNorm^2/2 = 2812.5`. -/
def nearlyYieldingInput (sqrt : α → α) (pi : α) : ElasticPlasticInput α :=
  { twoPointInput sqrt pi with
    SHEAR_MODULUS := 5
    yieldStress := 8641225838598903 / 2 ^ 48 }

/-! ## Loops -/

theorem forLoop_zero {σ : Type} (body : ℕ → σ → σ) (s : σ) : forLoop body 0 s = s := rfl

theorem forLoop_succ {σ : Type} (body : ℕ → σ → σ) (n : ℕ) (s : σ) :
    forLoop body (n + 1) s = body n (forLoop body n s) := rfl

/-- Two loops whose bodies agree at every iteration index below the bound agree. -/
theorem forLoop_congr {σ : Type} (body₁ body₂ : ℕ → σ → σ) (n : ℕ)
    (h : ∀ i, i < n → ∀ s, body₁ i s = body₂ i s) (s : σ) :
    forLoop body₁ n s = forLoop body₂ n s := by
  induction n with
  | zero => rfl
  | succ k ih =>
    rw [forLoop_succ, forLoop_succ, ih (fun i hi => h i (Nat.lt_succ_of_lt hi)),
      h k (Nat.lt_succ_self k)]

/-- Loop invariant rule: an invariant `P i` that holds before iteration `0` and is carried from
`i` to `i + 1` by iteration `i` holds as `P n` after the loop. -/
theorem forLoop_invariant {σ : Type} (body : ℕ → σ → σ) (P : ℕ → σ → Prop) (n : ℕ) (s : σ)
    (h0 : P 0 s) (hstep : ∀ i, i < n → ∀ t, P i t → P (i + 1) (body i t)) :
    P n (forLoop body n s) := by
  induction n with
  | zero => exact h0
  | succ k ih =>
    rw [forLoop_succ]
    exact hstep k (Nat.lt_succ_self k) _ (ih (fun i hi => hstep i (Nat.lt_succ_of_lt hi)))

/-! ## Dense and sparse addressing -/

theorem computeDilatation_ownedIDs_point_eq (sqrt : α → α)
    (xOverlap yOverlap mOwned volumeOverlap bondDamage : ℕ → α)
    (ownedIDs localNeighborList : ℕ → ℕ) (p : ℕ) (hp : ownedIDs p = p)
    (s : DilatationState α) :
    computeDilatation_ownedIDs_point sqrt xOverlap yOverlap mOwned volumeOverlap bondDamage
      ownedIDs localNeighborList p s
    = computeDilatation_point sqrt xOverlap yOverlap mOwned volumeOverlap bondDamage
      localNeighborList p s := by
  simp only [computeDilatation_ownedIDs_point, computeDilatation_point, hp]

theorem computeInternalForceLinearElastic_ownedIDs_point_eq (sqrt : α → α)
    (xOverlap yOverlap mOwned volumeOverlap dilatationOwned bondDamage : ℕ → α)
    (ownedIDs localNeighborList : ℕ → ℕ) (K MU : α) (p : ℕ) (hp : ownedIDs p = p)
    (s : LinearElasticState α) :
    computeInternalForceLinearElastic_ownedIDs_point sqrt xOverlap yOverlap mOwned volumeOverlap
      dilatationOwned bondDamage ownedIDs localNeighborList K MU p s
    = computeInternalForceLinearElastic_point sqrt xOverlap yOverlap mOwned volumeOverlap
      dilatationOwned bondDamage localNeighborList K MU p s := by
  simp only [computeInternalForceLinearElastic_ownedIDs_point,
    computeInternalForceLinearElastic_point, hp]

theorem computeInternalForceIsotropicElasticPlastic_ownedIDs_point_eq (sqrt : α → α)
    (xOverlap yOverlap mOwned volumeOverlap dilatationOwned bondDamage dsfOwned
      deviatoricPlasticExtensionStateN lambdaN : ℕ → α)
    (ownedIDs localNeighborList : ℕ → ℕ) (K MU yieldValue : α) (p : ℕ) (hp : ownedIDs p = p)
    (s : ElasticPlasticState α) :
    computeInternalForceIsotropicElasticPlastic_ownedIDs_point sqrt xOverlap yOverlap mOwned
      volumeOverlap dilatationOwned bondDamage dsfOwned deviatoricPlasticExtensionStateN lambdaN
      ownedIDs localNeighborList K MU yieldValue p s
    = computeInternalForceIsotropicElasticPlastic_point sqrt xOverlap yOverlap mOwned
      volumeOverlap dilatationOwned bondDamage dsfOwned deviatoricPlasticExtensionStateN lambdaN
      localNeighborList K MU yieldValue p s := by
  simp only [computeInternalForceIsotropicElasticPlastic_ownedIDs_point,
    computeInternalForceIsotropicElasticPlastic_point, hp]

/-- C9: with `ownedIDs[p] = p` for every `p < numOwnedPoints`, the `ownedIDs` overload of
`computeDilatation` leaves exactly the dilatation array the dense overload leaves, for every
neighbour list, every array contents and every interpretation of `sqrt`. -/
theorem computeDilatation_ownedIDs_identity (sqrt : α → α)
    (xOverlap yOverlap mOwned volumeOverlap bondDamage dilatationOwned : ℕ → α)
    (ownedIDs localNeighborList : ℕ → ℕ) (numOwnedPoints : ℕ)
    (hID : ∀ p, p < numOwnedPoints → ownedIDs p = p) :
    computeDilatation_ownedIDs sqrt xOverlap yOverlap mOwned volumeOverlap bondDamage
      dilatationOwned ownedIDs localNeighborList numOwnedPoints
    = computeDilatation sqrt xOverlap yOverlap mOwned volumeOverlap bondDamage
      dilatationOwned localNeighborList numOwnedPoints := by
  unfold computeDilatation_ownedIDs computeDilatation computeDilatation_run
  rw [forLoop_congr _ _ numOwnedPoints (fun p hp s =>
    computeDilatation_ownedIDs_point_eq sqrt xOverlap yOverlap mOwned volumeOverlap bondDamage
      ownedIDs localNeighborList p (hID p hp) s)]

/-- C10: with `ownedIDs[p] = p` for every `p < numOwnedPoints`, the `ownedIDs` overloads of
`computeInternalForceLinearElastic` and `computeInternalForceIsotropicElasticPlastic` leave
exactly the outputs of the dense overloads: the force array, and for the plastic law the whole
final state, which holds `lambdaNP1`, `deviatoricPlasticExtensionStateNp1` and the force. -/
theorem computeInternalForce_ownedIDs_identity (sqrt : α → α) (pi : α)
    (xOverlap yOverlap mOwned volumeOverlap dilatationOwned bondDamage dsfOwned
      deviatoricPlasticExtensionStateN deviatoricPlasticExtensionStateNp1 lambdaN lambdaNP1
      fInternalOverlap : ℕ → α)
    (ownedIDs localNeighborList : ℕ → ℕ) (numOwnedPoints : ℕ)
    (BULK_MODULUS SHEAR_MODULUS HORIZON yieldStress : α)
    (hID : ∀ p, p < numOwnedPoints → ownedIDs p = p) :
    computeInternalForceLinearElastic_ownedIDs sqrt xOverlap yOverlap mOwned volumeOverlap
        dilatationOwned bondDamage fInternalOverlap ownedIDs localNeighborList numOwnedPoints
        BULK_MODULUS SHEAR_MODULUS
      = computeInternalForceLinearElastic sqrt xOverlap yOverlap mOwned volumeOverlap
        dilatationOwned bondDamage fInternalOverlap localNeighborList numOwnedPoints
        BULK_MODULUS SHEAR_MODULUS
    ∧ computeInternalForceIsotropicElasticPlastic_ownedIDs sqrt pi xOverlap yOverlap mOwned
        volumeOverlap dilatationOwned bondDamage dsfOwned deviatoricPlasticExtensionStateN
        deviatoricPlasticExtensionStateNp1 lambdaN lambdaNP1 fInternalOverlap ownedIDs
        localNeighborList numOwnedPoints BULK_MODULUS SHEAR_MODULUS HORIZON yieldStress
      = computeInternalForceIsotropicElasticPlastic sqrt pi xOverlap yOverlap mOwned
        volumeOverlap dilatationOwned bondDamage dsfOwned deviatoricPlasticExtensionStateN
        deviatoricPlasticExtensionStateNp1 lambdaN lambdaNP1 fInternalOverlap
        localNeighborList numOwnedPoints BULK_MODULUS SHEAR_MODULUS HORIZON yieldStress := by
  constructor
  · unfold computeInternalForceLinearElastic_ownedIDs computeInternalForceLinearElastic
      computeInternalForceLinearElastic_run
    rw [forLoop_congr _ _ numOwnedPoints (fun p hp s =>
      computeInternalForceLinearElastic_ownedIDs_point_eq sqrt xOverlap yOverlap mOwned
        volumeOverlap dilatationOwned bondDamage ownedIDs localNeighborList
        BULK_MODULUS SHEAR_MODULUS p (hID p hp) s)]
  · unfold computeInternalForceIsotropicElasticPlastic_ownedIDs
      computeInternalForceIsotropicElasticPlastic
    rw [forLoop_congr _ _ numOwnedPoints (fun p hp s =>
      computeInternalForceIsotropicElasticPlastic_ownedIDs_point_eq sqrt xOverlap yOverlap mOwned
        volumeOverlap dilatationOwned bondDamage dsfOwned deviatoricPlasticExtensionStateN
        lambdaN ownedIDs localNeighborList BULK_MODULUS SHEAR_MODULUS
        (yieldValue3d pi HORIZON yieldStress) p (hID p hp) s)]

/-! ## Closed form of the dilatation -/

theorem computeDilatation_bond_eq (sqrt : α → α)
    (xOverlap yOverlap mOwned volumeOverlap bondDamage : ℕ → α)
    (localNeighborList : ℕ → ℕ) (X Y m theta : ℕ) (s : DilatationState α) :
    computeDilatation_bond sqrt xOverlap yOverlap mOwned volumeOverlap bondDamage
      localNeighborList X Y m theta s
    = { neighPtr := s.neighPtr + 1
        bondDamagePtr := s.bondDamagePtr + 1
        dilatationOwned := Function.update s.dilatationOwned theta
          (s.dilatationOwned theta + dilatationTerm sqrt xOverlap yOverlap mOwned volumeOverlap
            X Y m (localNeighborList s.neighPtr) (bondDamage s.bondDamagePtr)) } := by
  simp only [computeDilatation_bond, dilatationTerm, bondLength, mul_one]

theorem computeDilatation_bondLoop (sqrt : α → α)
    (xOverlap yOverlap mOwned volumeOverlap bondDamage : ℕ → α)
    (localNeighborList : ℕ → ℕ) (X Y m theta : ℕ) (n : ℕ) (s : DilatationState α) :
    forLoop (fun _ => computeDilatation_bond sqrt xOverlap yOverlap mOwned volumeOverlap
      bondDamage localNeighborList X Y m theta) n s
    = { neighPtr := s.neighPtr + n
        bondDamagePtr := s.bondDamagePtr + n
        dilatationOwned := Function.update s.dilatationOwned theta
          (s.dilatationOwned theta + ∑ j ∈ Finset.range n,
            dilatationTerm sqrt xOverlap yOverlap mOwned volumeOverlap X Y m
              (localNeighborList (s.neighPtr + j)) (bondDamage (s.bondDamagePtr + j))) } := by
  induction n with
  | zero => simp [forLoop]
  | succ k ih =>
    rw [forLoop_succ, ih, computeDilatation_bond_eq]
    simp only [Function.update_same, Function.update_idem, Finset.sum_range_succ, add_assoc]

theorem computeDilatation_point_eq (sqrt : α → α)
    (xOverlap yOverlap mOwned volumeOverlap bondDamage : ℕ → α)
    (localNeighborList : ℕ → ℕ) (p : ℕ) (s : DilatationState α)
    (h1 : s.neighPtr = blockStart localNeighborList p)
    (h2 : s.bondDamagePtr = bondStart localNeighborList p) :
    computeDilatation_point sqrt xOverlap yOverlap mOwned volumeOverlap bondDamage
      localNeighborList p s
    = { neighPtr := blockStart localNeighborList (p + 1)
        bondDamagePtr := bondStart localNeighborList (p + 1)
        dilatationOwned := Function.update s.dilatationOwned p
          (dilatationSum sqrt xOverlap yOverlap mOwned volumeOverlap bondDamage
            localNeighborList p) } := by
  simp only [computeDilatation_point, computeDilatation_bondLoop, Function.update_same,
    Function.update_idem, zero_add, h1, h2, dilatationSum, numNeighOf, neighOf, blockStart,
    bondStart]

theorem computeDilatation_run_invariant (sqrt : α → α)
    (xOverlap yOverlap mOwned volumeOverlap bondDamage dilatationOwned : ℕ → α)
    (localNeighborList : ℕ → ℕ) (n : ℕ) :
    (computeDilatation_run sqrt xOverlap yOverlap mOwned volumeOverlap bondDamage
        dilatationOwned localNeighborList n).neighPtr = blockStart localNeighborList n
    ∧ (computeDilatation_run sqrt xOverlap yOverlap mOwned volumeOverlap bondDamage
        dilatationOwned localNeighborList n).bondDamagePtr = bondStart localNeighborList n
    ∧ (∀ q, q < n → (computeDilatation_run sqrt xOverlap yOverlap mOwned volumeOverlap bondDamage
        dilatationOwned localNeighborList n).dilatationOwned q
          = dilatationSum sqrt xOverlap yOverlap mOwned volumeOverlap bondDamage
              localNeighborList q)
    ∧ (∀ q, n ≤ q → (computeDilatation_run sqrt xOverlap yOverlap mOwned volumeOverlap bondDamage
        dilatationOwned localNeighborList n).dilatationOwned q = dilatationOwned q) := by
  unfold computeDilatation_run
  induction n with
  | zero => simp [forLoop, blockStart, bondStart]
  | succ k ih =>
    obtain ⟨h1, h2, h3, h4⟩ := ih
    rw [forLoop_succ, computeDilatation_point_eq _ _ _ _ _ _ _ _ _ h1 h2]
    refine ⟨rfl, rfl, ?_, ?_⟩
    · intro q hq
      by_cases hqk : q = k
      · subst hqk; simp
      · have : q < k := by omega
        simp [Function.update_noteq hqk, h3 q this]
    · intro q hq
      have hqk : q ≠ k := by omega
      simp [Function.update_noteq hqk, h4 q (by omega)]

/-- C8: dense `computeDilatation` writes, for every owned point `p` with nonzero weighted volume,
`theta[p] = Σ_j 3 (1 - bondDamage[k_j]) |X_n - X_p| (|Y_n - Y_p| - |X_n - X_p|) volume[n] / m[p]`
over the bonds `j` of the block of `p`, `n` the `j`-th neighbour and `k_j` the number of bonds
in the earlier blocks plus `j`; an empty block gives `theta[p] = 0`; and the bond-damage cursor
ends at the total bond count, the neighbour cursor at the end of the last block. -/
theorem computeDilatation_closed_form (sqrt : α → α)
    (xOverlap yOverlap mOwned volumeOverlap bondDamage dilatationOwned : ℕ → α)
    (localNeighborList : ℕ → ℕ) (numOwnedPoints p : ℕ)
    (hp : p < numOwnedPoints) (hm : mOwned p ≠ 0) :
    computeDilatation sqrt xOverlap yOverlap mOwned volumeOverlap bondDamage dilatationOwned
        localNeighborList numOwnedPoints p
      = ∑ j ∈ Finset.range (numNeighOf localNeighborList p),
          3 * (1 - bondDamage (bondStart localNeighborList p + j))
            * bondLength sqrt xOverlap (3 * p) (3 * neighOf localNeighborList p j)
            * (bondLength sqrt yOverlap (3 * p) (3 * neighOf localNeighborList p j)
                - bondLength sqrt xOverlap (3 * p) (3 * neighOf localNeighborList p j))
            * volumeOverlap (neighOf localNeighborList p j) / mOwned p
    ∧ (numNeighOf localNeighborList p = 0 →
        computeDilatation sqrt xOverlap yOverlap mOwned volumeOverlap bondDamage dilatationOwned
          localNeighborList numOwnedPoints p = 0)
    ∧ (computeDilatation_run sqrt xOverlap yOverlap mOwned volumeOverlap bondDamage
        dilatationOwned localNeighborList numOwnedPoints).bondDamagePtr
          = bondStart localNeighborList numOwnedPoints
    ∧ (computeDilatation_run sqrt xOverlap yOverlap mOwned volumeOverlap bondDamage
        dilatationOwned localNeighborList numOwnedPoints).neighPtr
          = blockStart localNeighborList numOwnedPoints := by
  have _ := hm
  obtain ⟨h1, h2, h3, _⟩ := computeDilatation_run_invariant sqrt xOverlap yOverlap mOwned
    volumeOverlap bondDamage dilatationOwned localNeighborList numOwnedPoints
  have h := h3 p hp
  refine ⟨?_, ?_, h2, h1⟩
  · unfold computeDilatation
    rw [h]
    rfl
  · intro h0
    unfold computeDilatation
    rw [h]
    simp [dilatationSum, h0]

/-! ## Pairwise assembly and the volume-weighted force total -/

theorem addAt_apply (f : ℕ → α) (a : ℕ) (c : α) (i : ℕ) :
    addAt f a c i = f i + (if i = a then c else 0) := by
  unfold addAt
  by_cases h : i = a
  · subst h; simp
  · simp [Function.update_noteq h, h]

theorem subAt_apply (f : ℕ → α) (a : ℕ) (c : α) (i : ℕ) :
    subAt f a c i = f i - (if i = a then c else 0) := by
  unfold subAt
  by_cases h : i = a
  · subst h; simp
  · simp [Function.update_noteq h, h]

theorem assemblePairwiseForce_apply (f : ℕ → α) (fOwned localId : ℕ)
    (fx fy fz cellVolume selfCellVolume : α) (i : ℕ) :
    assemblePairwiseForce f fOwned localId fx fy fz cellVolume selfCellVolume i
      = f i + pairIncrement fOwned localId fx fy fz cellVolume selfCellVolume i := by
  simp only [assemblePairwiseForce, pairIncrement, addAt_apply, subAt_apply]
  ring

theorem scalarIndex_eq_iff (a b c d : ℕ) (hc : c < 3) (hd : d < 3) :
    3 * a + c = 3 * b + d ↔ a = b ∧ c = d := by omega

theorem pairIncrement_point (p q : ℕ) (fx fy fz cv scv : α) (i k : ℕ) (hk : k < 3) :
    pairIncrement (3 * p) q fx fy fz cv scv (3 * i + k)
      = (if i = p then (if k = 0 then fx else if k = 1 then fy else fz) * cv else 0)
        - (if i = q then (if k = 0 then fx else if k = 1 then fy else fz) * scv else 0) := by
  unfold pairIncrement
  have h0 : (0 : ℕ) < 3 := by norm_num
  have h1 : (1 : ℕ) < 3 := by norm_num
  have h2 : (2 : ℕ) < 3 := by norm_num
  interval_cases k
  · simp only [scalarIndex_eq_iff _ _ _ _ h0 h0, scalarIndex_eq_iff _ _ _ _ h0 h1,
      scalarIndex_eq_iff _ _ _ _ h0 h2]
    simp
  · simp only [scalarIndex_eq_iff _ _ _ _ h1 h0, scalarIndex_eq_iff _ _ _ _ h1 h1,
      scalarIndex_eq_iff _ _ _ _ h1 h2]
    simp
  · simp only [scalarIndex_eq_iff _ _ _ _ h2 h0, scalarIndex_eq_iff _ _ _ _ h2 h1,
      scalarIndex_eq_iff _ _ _ _ h2 h2]
    simp

theorem weightedForceSum_assemble (v f : ℕ → α) (N k p q : ℕ) (hk : k < 3) (hp : p < N)
    (hq : q < N) (fx fy fz : α) :
    weightedForceSum v (assemblePairwiseForce f (3 * p) q fx fy fz (v q) (v p)) N k
      = weightedForceSum v f N k := by
  unfold weightedForceSum
  simp only [assemblePairwiseForce_apply, pairIncrement_point _ _ _ _ _ _ _ _ _ hk, mul_add,
    mul_sub, Finset.sum_add_distrib, Finset.sum_sub_distrib, mul_ite, mul_zero,
    Finset.sum_ite_eq', Finset.mem_range, hp, hq, if_true]
  ring

theorem pairIncrement_balance (v : ℕ → α) (p q k : ℕ) (hk : k < 3) (fx fy fz : α) :
    v p * pairIncrement (3 * p) q fx fy fz (v q) (v p) (3 * p + k)
      + v q * pairIncrement (3 * p) q fx fy fz (v q) (v p) (3 * q + k) = 0 := by
  rw [pairIncrement_point _ _ _ _ _ _ _ _ _ hk, pairIncrement_point _ _ _ _ _ _ _ _ _ hk]
  by_cases h : p = q
  · subst h; simp
  · have h' : ¬ q = p := fun e => h e.symm
    simp only [h, h', if_true, if_false]
    ring

/-- A loop of bond bodies, each of which advances the neighbour cursor by one and assembles one
pair force between the owned point `p` and the neighbour under the cursor, advances the cursor
by the trip count and keeps the volume-weighted force total. -/
theorem bondLoop_weightedForceSum {σ : Type} (body : σ → σ) (np : σ → ℕ) (fo : σ → ℕ → α)
    (v : ℕ → α) (nl : ℕ → ℕ) (N k p : ℕ) (hk : k < 3) (hp : p < N)
    (hnp : ∀ s, np (body s) = np s + 1)
    (hf : ∀ s, ∃ fx fy fz, fo (body s)
      = assemblePairwiseForce (fo s) (3 * p) (nl (np s)) fx fy fz (v (nl (np s))) (v p))
    (n : ℕ) (s : σ) (hr : ∀ j, j < n → nl (np s + j) < N) :
    np (forLoop (fun _ => body) n s) = np s + n
    ∧ weightedForceSum v (fo (forLoop (fun _ => body) n s)) N k
        = weightedForceSum v (fo s) N k := by
  induction n with
  | zero => exact ⟨rfl, rfl⟩
  | succ m ih =>
    obtain ⟨h1, h2⟩ := ih (fun j hj => hr j (Nat.lt_succ_of_lt hj))
    rw [forLoop_succ]
    refine ⟨by rw [hnp, h1]; omega, ?_⟩
    obtain ⟨fx, fy, fz, hfx⟩ := hf (forLoop (fun _ => body) m s)
    rw [hfx, weightedForceSum_assemble v _ N k p _ hk hp (by rw [h1]; exact hr m (Nat.lt_succ_self m)),
      h2]

/-- An outer loop over owned points whose bodies keep the volume-weighted force total, when
started on a block boundary with all neighbours in range, keeps it over the whole call. -/
theorem pointLoop_weightedForceSum {σ : Type} (point : ℕ → σ → σ) (np : σ → ℕ)
    (fo : σ → ℕ → α) (v : ℕ → α) (nl : ℕ → ℕ) (N k : ℕ)
    (hpoint : ∀ p s, p < N → np s = blockStart nl p →
      (∀ j, j < numNeighOf nl p → neighOf nl p j < N) →
      np (point p s) = blockStart nl (p + 1)
      ∧ weightedForceSum v (fo (point p s)) N k = weightedForceSum v (fo s) N k)
    (n : ℕ) (hn : n ≤ N) (hr : NeighboursInRange nl n N) (s : σ) (h0 : np s = 0) :
    weightedForceSum v (fo (forLoop point n s)) N k = weightedForceSum v (fo s) N k := by
  have key : ∀ m, m ≤ n → np (forLoop point m s) = blockStart nl m
      ∧ weightedForceSum v (fo (forLoop point m s)) N k = weightedForceSum v (fo s) N k := by
    intro m
    induction m with
    | zero => intro _; exact ⟨h0, rfl⟩
    | succ i ih =>
      intro hi
      obtain ⟨h1, h2⟩ := ih (Nat.le_of_succ_le hi)
      obtain ⟨h3, h4⟩ := hpoint i (forLoop point i s) (by omega) h1 (hr i (by omega))
      rw [forLoop_succ]
      exact ⟨h3, h4.trans h2⟩
  exact (key n le_rfl).2

/-! ## Balance of the pairwise forces -/

theorem computeInternalForceLinearElastic_bondLoop_balance (sqrt : α → α)
    (xOverlap yOverlap volumeOverlap bondDamage : ℕ → α) (localNeighborList : ℕ → ℕ)
    (N k p : ℕ) (hk : k < 3) (hp : p < N) (alpha c1 : α) (n : ℕ) (s : LinearElasticState α)
    (hr : ∀ j, j < n → localNeighborList (s.neighPtr + j) < N) :
    (forLoop (fun _ => computeInternalForceLinearElastic_bond sqrt xOverlap yOverlap volumeOverlap
        bondDamage localNeighborList (3 * p) (3 * p) (3 * p) alpha c1 (volumeOverlap p))
        n s).neighPtr = s.neighPtr + n
    ∧ weightedForceSum volumeOverlap
        (forLoop (fun _ => computeInternalForceLinearElastic_bond sqrt xOverlap yOverlap
          volumeOverlap bondDamage localNeighborList (3 * p) (3 * p) (3 * p) alpha c1
          (volumeOverlap p)) n s).fInternalOverlap N k
      = weightedForceSum volumeOverlap s.fInternalOverlap N k :=
  bondLoop_weightedForceSum
    (computeInternalForceLinearElastic_bond sqrt xOverlap yOverlap volumeOverlap bondDamage
      localNeighborList (3 * p) (3 * p) (3 * p) alpha c1 (volumeOverlap p))
    LinearElasticState.neighPtr LinearElasticState.fInternalOverlap volumeOverlap
    localNeighborList N k p hk hp (fun _ => rfl) (fun _ => ⟨_, _, _, rfl⟩) n s hr

theorem computeInternalForceIsotropicElasticPlastic_bondLoop_balance (sqrt : α → α)
    (xOverlap yOverlap volumeOverlap bondDamage deviatoricPlasticExtensionStateN : ℕ → α)
    (localNeighborList : ℕ → ℕ) (N k p : ℕ) (hk : k < 3) (hp : p < N)
    (theta alpha c tdNorm pointWiseYieldValue deltaLambda : α) (elastic : Bool)
    (n : ℕ) (s : ElasticPlasticState α)
    (hr : ∀ j, j < n → localNeighborList (s.neighPtr + j) < N) :
    (forLoop (fun _ => computeInternalForceIsotropicElasticPlastic_bond sqrt xOverlap yOverlap
        volumeOverlap bondDamage deviatoricPlasticExtensionStateN localNeighborList
        (3 * p) (3 * p) (3 * p) theta alpha c (volumeOverlap p) tdNorm pointWiseYieldValue
        deltaLambda elastic) n s).neighPtr = s.neighPtr + n
    ∧ weightedForceSum volumeOverlap
        (forLoop (fun _ => computeInternalForceIsotropicElasticPlastic_bond sqrt xOverlap yOverlap
          volumeOverlap bondDamage deviatoricPlasticExtensionStateN localNeighborList
          (3 * p) (3 * p) (3 * p) theta alpha c (volumeOverlap p) tdNorm pointWiseYieldValue
          deltaLambda elastic) n s).fInternalOverlap N k
      = weightedForceSum volumeOverlap s.fInternalOverlap N k :=
  bondLoop_weightedForceSum
    (computeInternalForceIsotropicElasticPlastic_bond sqrt xOverlap yOverlap
      volumeOverlap bondDamage deviatoricPlasticExtensionStateN localNeighborList
      (3 * p) (3 * p) (3 * p) theta alpha c (volumeOverlap p) tdNorm pointWiseYieldValue
      deltaLambda elastic)
    ElasticPlasticState.neighPtr ElasticPlasticState.fInternalOverlap volumeOverlap
    localNeighborList N k p hk hp (fun _ => rfl) (fun _ => ⟨_, _, _, rfl⟩) n s hr

theorem computeInternalForceViscoelasticStandardLinearSolid_bondLoop_balance (sqrt : α → α)
    (beta : ViscoelasticBetaOperator α) (decay : α)
    (xOverlap yNOverlap yNP1Overlap volumeOverlap bondDamage edbN : ℕ → α)
    (localNeighborList : ℕ → ℕ) (N k p : ℕ) (hk : k < 3) (hp : p < N)
    (dilatationN dilatationNp1 alpha c : α) (n : ℕ) (s : ViscoelasticState α)
    (hr : ∀ j, j < n → localNeighborList (s.neighPtr + j) < N) :
    (forLoop (fun _ => computeInternalForceViscoelasticStandardLinearSolid_bond sqrt beta decay
        xOverlap yNOverlap yNP1Overlap volumeOverlap bondDamage edbN localNeighborList
        (3 * p) (3 * p) (3 * p) (3 * p) dilatationN dilatationNp1 alpha c (volumeOverlap p))
        n s).neighPtr = s.neighPtr + n
    ∧ weightedForceSum volumeOverlap
        (forLoop (fun _ => computeInternalForceViscoelasticStandardLinearSolid_bond sqrt beta
          decay xOverlap yNOverlap yNP1Overlap volumeOverlap bondDamage edbN localNeighborList
          (3 * p) (3 * p) (3 * p) (3 * p) dilatationN dilatationNp1 alpha c (volumeOverlap p))
          n s).fInternalOverlap N k
      = weightedForceSum volumeOverlap s.fInternalOverlap N k :=
  bondLoop_weightedForceSum
    (computeInternalForceViscoelasticStandardLinearSolid_bond sqrt beta decay
      xOverlap yNOverlap yNP1Overlap volumeOverlap bondDamage edbN localNeighborList
      (3 * p) (3 * p) (3 * p) (3 * p) dilatationN dilatationNp1 alpha c (volumeOverlap p))
    ViscoelasticState.neighPtr ViscoelasticState.fInternalOverlap volumeOverlap
    localNeighborList N k p hk hp (fun _ => rfl) (fun _ => ⟨_, _, _, rfl⟩) n s hr

theorem blockStart_succ_eq (localNeighborList : ℕ → ℕ) (p : ℕ) :
    blockStart localNeighborList p + 1 + localNeighborList (blockStart localNeighborList p)
      = blockStart localNeighborList (p + 1) := rfl

theorem computeInternalForceLinearElastic_point_balance (sqrt : α → α)
    (xOverlap yOverlap mOwned volumeOverlap dilatationOwned bondDamage : ℕ → α)
    (localNeighborList : ℕ → ℕ) (K MU : α) (N k : ℕ) (hk : k < 3)
    (p : ℕ) (s : LinearElasticState α) (hp : p < N)
    (h1 : s.neighPtr = blockStart localNeighborList p)
    (hr : ∀ j, j < numNeighOf localNeighborList p → neighOf localNeighborList p j < N) :
    (computeInternalForceLinearElastic_point sqrt xOverlap yOverlap mOwned volumeOverlap
        dilatationOwned bondDamage localNeighborList K MU p s).neighPtr
      = blockStart localNeighborList (p + 1)
    ∧ weightedForceSum volumeOverlap
        (computeInternalForceLinearElastic_point sqrt xOverlap yOverlap mOwned volumeOverlap
          dilatationOwned bondDamage localNeighborList K MU p s).fInternalOverlap N k
      = weightedForceSum volumeOverlap s.fInternalOverlap N k := by
  have hr' : ∀ j, j < localNeighborList s.neighPtr →
      localNeighborList (s.neighPtr + 1 + j) < N := by
    intro j hj
    rw [h1] at hj ⊢
    exact hr j hj
  unfold computeInternalForceLinearElastic_point
  constructor
  · rw [(computeInternalForceLinearElastic_bondLoop_balance sqrt xOverlap yOverlap volumeOverlap
      bondDamage localNeighborList N k p hk hp _ _ _ _ hr').1, h1]
    rfl
  · rw [(computeInternalForceLinearElastic_bondLoop_balance sqrt xOverlap yOverlap volumeOverlap
      bondDamage localNeighborList N k p hk hp _ _ _ _ hr').2]

theorem computeInternalForceIsotropicElasticPlastic_point_balance (sqrt : α → α)
    (xOverlap yOverlap mOwned volumeOverlap dilatationOwned bondDamage dsfOwned
      deviatoricPlasticExtensionStateN lambdaN : ℕ → α)
    (localNeighborList : ℕ → ℕ) (K MU yieldValue : α) (N k : ℕ) (hk : k < 3)
    (p : ℕ) (s : ElasticPlasticState α) (hp : p < N)
    (h1 : s.neighPtr = blockStart localNeighborList p)
    (hr : ∀ j, j < numNeighOf localNeighborList p → neighOf localNeighborList p j < N) :
    (computeInternalForceIsotropicElasticPlastic_point sqrt xOverlap yOverlap mOwned
        volumeOverlap dilatationOwned bondDamage dsfOwned deviatoricPlasticExtensionStateN
        lambdaN localNeighborList K MU yieldValue p s).neighPtr
      = blockStart localNeighborList (p + 1)
    ∧ weightedForceSum volumeOverlap
        (computeInternalForceIsotropicElasticPlastic_point sqrt xOverlap yOverlap mOwned
          volumeOverlap dilatationOwned bondDamage dsfOwned deviatoricPlasticExtensionStateN
          lambdaN localNeighborList K MU yieldValue p s).fInternalOverlap N k
      = weightedForceSum volumeOverlap s.fInternalOverlap N k := by
  have hr' : ∀ j, j < localNeighborList s.neighPtr →
      localNeighborList (s.neighPtr + 1 + j) < N := by
    intro j hj
    rw [h1] at hj ⊢
    exact hr j hj
  unfold computeInternalForceIsotropicElasticPlastic_point
    computeInternalForceIsotropicElasticPlastic_pointBody
  constructor
  · rw [(computeInternalForceIsotropicElasticPlastic_bondLoop_balance sqrt xOverlap yOverlap
      volumeOverlap bondDamage deviatoricPlasticExtensionStateN localNeighborList N k p hk hp
      _ _ _ _ _ _ _ _ _ hr').1, h1]
    rfl
  · rw [(computeInternalForceIsotropicElasticPlastic_bondLoop_balance sqrt xOverlap yOverlap
      volumeOverlap bondDamage deviatoricPlasticExtensionStateN localNeighborList N k p hk hp
      _ _ _ _ _ _ _ _ _ hr').2]

theorem computeInternalForceViscoelasticStandardLinearSolid_point_balance (sqrt : α → α)
    (beta : ViscoelasticBetaOperator α) (decay : α)
    (xOverlap yNOverlap yNP1Overlap mOwned volumeOverlap dilatationOwnedN dilatationOwnedNp1
      bondDamage edbN : ℕ → α)
    (localNeighborList : ℕ → ℕ) (K MU : α) (N k : ℕ) (hk : k < 3)
    (p : ℕ) (s : ViscoelasticState α) (hp : p < N)
    (h1 : s.neighPtr = blockStart localNeighborList p)
    (hr : ∀ j, j < numNeighOf localNeighborList p → neighOf localNeighborList p j < N) :
    (computeInternalForceViscoelasticStandardLinearSolid_point sqrt beta decay xOverlap yNOverlap
        yNP1Overlap mOwned volumeOverlap dilatationOwnedN dilatationOwnedNp1 bondDamage edbN
        localNeighborList K MU p s).neighPtr
      = blockStart localNeighborList (p + 1)
    ∧ weightedForceSum volumeOverlap
        (computeInternalForceViscoelasticStandardLinearSolid_point sqrt beta decay xOverlap
          yNOverlap yNP1Overlap mOwned volumeOverlap dilatationOwnedN dilatationOwnedNp1
          bondDamage edbN localNeighborList K MU p s).fInternalOverlap N k
      = weightedForceSum volumeOverlap s.fInternalOverlap N k := by
  have hr' : ∀ j, j < localNeighborList s.neighPtr →
      localNeighborList (s.neighPtr + 1 + j) < N := by
    intro j hj
    rw [h1] at hj ⊢
    exact hr j hj
  unfold computeInternalForceViscoelasticStandardLinearSolid_point
  constructor
  · rw [(computeInternalForceViscoelasticStandardLinearSolid_bondLoop_balance sqrt beta decay
      xOverlap yNOverlap yNP1Overlap volumeOverlap bondDamage edbN localNeighborList N k p hk hp
      _ _ _ _ _ _ hr').1, h1]
    rfl
  · rw [(computeInternalForceViscoelasticStandardLinearSolid_bondLoop_balance sqrt beta decay
      xOverlap yNOverlap yNP1Overlap volumeOverlap bondDamage edbN localNeighborList N k p hk hp
      _ _ _ _ _ _ hr').2]

/-! ## Closed form of the linear elastic force -/

theorem computeInternalForceLinearElastic_bond_eq (sqrt : α → α)
    (xOverlap yOverlap volumeOverlap bondDamage : ℕ → α) (localNeighborList : ℕ → ℕ)
    (X Y fOwned : ℕ) (alpha c1 selfCellVolume : α) (s : LinearElasticState α) :
    computeInternalForceLinearElastic_bond sqrt xOverlap yOverlap volumeOverlap bondDamage
      localNeighborList X Y fOwned alpha c1 selfCellVolume s
    = { neighPtr := s.neighPtr + 1
        bondDamagePtr := s.bondDamagePtr + 1
        fInternalOverlap := fun i => s.fInternalOverlap i
          + linearElasticIncrement sqrt xOverlap yOverlap volumeOverlap X Y fOwned alpha c1
              selfCellVolume (localNeighborList s.neighPtr) (bondDamage s.bondDamagePtr) i } := by
  simp only [computeInternalForceLinearElastic_bond]
  congr 1
  funext i
  rw [assemblePairwiseForce_apply]
  simp only [linearElasticIncrement, linearElasticBondForce, bondLength, mul_one]

theorem computeInternalForceLinearElastic_bondLoop (sqrt : α → α)
    (xOverlap yOverlap volumeOverlap bondDamage : ℕ → α) (localNeighborList : ℕ → ℕ)
    (X Y fOwned : ℕ) (alpha c1 selfCellVolume : α) (n : ℕ) (s : LinearElasticState α) :
    forLoop (fun _ => computeInternalForceLinearElastic_bond sqrt xOverlap yOverlap volumeOverlap
      bondDamage localNeighborList X Y fOwned alpha c1 selfCellVolume) n s
    = { neighPtr := s.neighPtr + n
        bondDamagePtr := s.bondDamagePtr + n
        fInternalOverlap := fun i => s.fInternalOverlap i
          + ∑ j ∈ Finset.range n,
              linearElasticIncrement sqrt xOverlap yOverlap volumeOverlap X Y fOwned alpha c1
                selfCellVolume (localNeighborList (s.neighPtr + j))
                (bondDamage (s.bondDamagePtr + j)) i } := by
  induction n with
  | zero => simp [forLoop]
  | succ k ih =>
    rw [forLoop_succ, ih, computeInternalForceLinearElastic_bond_eq]
    simp only [Finset.sum_range_succ, add_assoc]

theorem computeInternalForceLinearElastic_point_eq (sqrt : α → α)
    (xOverlap yOverlap mOwned volumeOverlap dilatationOwned bondDamage : ℕ → α)
    (localNeighborList : ℕ → ℕ) (K MU : α) (p : ℕ) (s : LinearElasticState α)
    (h1 : s.neighPtr = blockStart localNeighborList p)
    (h2 : s.bondDamagePtr = bondStart localNeighborList p) :
    computeInternalForceLinearElastic_point sqrt xOverlap yOverlap mOwned volumeOverlap
      dilatationOwned bondDamage localNeighborList K MU p s
    = { neighPtr := blockStart localNeighborList (p + 1)
        bondDamagePtr := bondStart localNeighborList (p + 1)
        fInternalOverlap := fun i => s.fInternalOverlap i
          + ∑ j ∈ Finset.range (numNeighOf localNeighborList p),
              linearElasticBondContribution sqrt xOverlap yOverlap mOwned volumeOverlap
                dilatationOwned bondDamage localNeighborList K MU p j i } := by
  simp only [computeInternalForceLinearElastic_point, computeInternalForceLinearElastic_bondLoop,
    h1, h2, linearElasticBondContribution, numNeighOf, neighOf, blockStart, bondStart, one_mul]

theorem computeInternalForceLinearElastic_run_eq (sqrt : α → α)
    (xOverlap yOverlap mOwned volumeOverlap dilatationOwned bondDamage fInternalOverlap : ℕ → α)
    (localNeighborList : ℕ → ℕ) (n : ℕ) (K MU : α) :
    computeInternalForceLinearElastic_run sqrt xOverlap yOverlap mOwned volumeOverlap
      dilatationOwned bondDamage fInternalOverlap localNeighborList n K MU
    = { neighPtr := blockStart localNeighborList n
        bondDamagePtr := bondStart localNeighborList n
        fInternalOverlap := fun i => fInternalOverlap i
          + ∑ p ∈ Finset.range n, ∑ j ∈ Finset.range (numNeighOf localNeighborList p),
              linearElasticBondContribution sqrt xOverlap yOverlap mOwned volumeOverlap
                dilatationOwned bondDamage localNeighborList K MU p j i } := by
  unfold computeInternalForceLinearElastic_run
  induction n with
  | zero => simp [forLoop, blockStart, bondStart]
  | succ k ih =>
    rw [forLoop_succ, ih, computeInternalForceLinearElastic_point_eq _ _ _ _ _ _ _ _ _ _ _ _ rfl rfl]
    simp only [Finset.sum_range_succ, add_assoc]

/-- C2: dense `computeInternalForceLinearElastic` adds to the force array, for every owned
point `p` and every bond `j` of its block to neighbour `q`, the pair force of scalar magnitude
`t = (1-d) * (c1*zeta + (1-d)*alpha*(|Y_q-Y_p| - zeta))` with
`c1 = theta[p]*(9K-15MU)/(3 m[p])`, `alpha = 15 MU/m[p]`, `d` the bond's damage entry and
`zeta = |X_q-X_p|`.  For an owned point `p` whose block is the single neighbour `q ≠ p`, that
is the neighbour of no other owned point, with zero damage on its bond and zero initial force,
the call leaves `f[p] = (c1*zeta + alpha*(|Y_q-Y_p| - zeta)) * (Y_q-Y_p)/|Y_q-Y_p| * volume[q]`. -/
theorem computeInternalForceLinearElastic_bond_force (sqrt : α → α)
    (xOverlap yOverlap mOwned volumeOverlap dilatationOwned bondDamage fInternalOverlap : ℕ → α)
    (localNeighborList : ℕ → ℕ) (numOwnedPoints : ℕ) (K MU : α) :
    (∀ i, computeInternalForceLinearElastic sqrt xOverlap yOverlap mOwned volumeOverlap
        dilatationOwned bondDamage fInternalOverlap localNeighborList numOwnedPoints K MU i
      = fInternalOverlap i
        + ∑ p ∈ Finset.range numOwnedPoints,
            ∑ j ∈ Finset.range (numNeighOf localNeighborList p),
              linearElasticBondContribution sqrt xOverlap yOverlap mOwned volumeOverlap
                dilatationOwned bondDamage localNeighborList K MU p j i)
    ∧ (∀ p j i, linearElasticBondContribution sqrt xOverlap yOverlap mOwned volumeOverlap
        dilatationOwned bondDamage localNeighborList K MU p j i
      = let q := neighOf localNeighborList p j
        let d := bondDamage (bondStart localNeighborList p + j)
        let zeta := bondLength sqrt xOverlap (3 * p) (3 * q)
        let dY := bondLength sqrt yOverlap (3 * p) (3 * q)
        let c1 := dilatationOwned p * (9 * K - 15 * MU) / (3 * mOwned p)
        let alpha := 15 * MU / mOwned p
        let t := (1 - d) * (c1 * zeta + (1 - d) * alpha * (dY - zeta))
        pairIncrement (3 * p) q
          (t * (yOverlap (3 * q + 0) - yOverlap (3 * p + 0)) / dY)
          (t * (yOverlap (3 * q + 1) - yOverlap (3 * p + 1)) / dY)
          (t * (yOverlap (3 * q + 2) - yOverlap (3 * p + 2)) / dY)
          (volumeOverlap q) (volumeOverlap p) i)
    ∧ (∀ p q, p < numOwnedPoints → numNeighOf localNeighborList p = 1 →
        neighOf localNeighborList p 0 = q → q ≠ p →
        (∀ p', p' < numOwnedPoints → p' ≠ p → ∀ j, j < numNeighOf localNeighborList p' →
          neighOf localNeighborList p' j ≠ p) →
        bondDamage (bondStart localNeighborList p) = 0 →
        (∀ k, k < 3 → fInternalOverlap (3 * p + k) = 0) →
        ∀ k, k < 3 →
          computeInternalForceLinearElastic sqrt xOverlap yOverlap mOwned volumeOverlap
            dilatationOwned bondDamage fInternalOverlap localNeighborList numOwnedPoints K MU
            (3 * p + k)
          = (dilatationOwned p * (9 * K - 15 * MU) / (3 * mOwned p)
                * bondLength sqrt xOverlap (3 * p) (3 * q)
              + 15 * MU / mOwned p
                * (bondLength sqrt yOverlap (3 * p) (3 * q)
                    - bondLength sqrt xOverlap (3 * p) (3 * q)))
            * (yOverlap (3 * q + k) - yOverlap (3 * p + k))
            / bondLength sqrt yOverlap (3 * p) (3 * q) * volumeOverlap q) := by
  have hclosed : ∀ i, computeInternalForceLinearElastic sqrt xOverlap yOverlap mOwned
        volumeOverlap dilatationOwned bondDamage fInternalOverlap localNeighborList
        numOwnedPoints K MU i
      = fInternalOverlap i
        + ∑ p ∈ Finset.range numOwnedPoints,
            ∑ j ∈ Finset.range (numNeighOf localNeighborList p),
              linearElasticBondContribution sqrt xOverlap yOverlap mOwned volumeOverlap
                dilatationOwned bondDamage localNeighborList K MU p j i := by
    intro i
    unfold computeInternalForceLinearElastic
    rw [computeInternalForceLinearElastic_run_eq]
  refine ⟨hclosed, fun _ _ _ => rfl, ?_⟩
  intro p q hp hn hq hqp hiso hd hf k hk
  have hpq : ¬ p = q := fun e => hqp e.symm
  rw [hclosed, hf k hk, zero_add, Finset.sum_eq_single p]
  · rw [hn, Finset.sum_range_one]
    unfold linearElasticBondContribution linearElasticIncrement
    rw [pairIncrement_point _ _ _ _ _ _ _ _ _ hk, hq, Nat.add_zero, hd]
    simp only [if_true, hpq, if_false, sub_zero, one_mul]
    interval_cases k <;> simp
  · intro p' hp' hne
    apply Finset.sum_eq_zero
    intro j hj
    have hj' := hiso p' (Finset.mem_range.mp hp') hne j (Finset.mem_range.mp hj)
    unfold linearElasticBondContribution linearElasticIncrement
    rw [pairIncrement_point _ _ _ _ _ _ _ _ _ hk]
    have h1 : ¬ p = p' := fun e => hne e.symm
    have h2 : ¬ p = neighOf localNeighborList p' j := fun e => hj' e.symm
    simp only [h1, h2, if_false, sub_zero]
  · intro hnot
    exact absurd (Finset.mem_range.mpr hp) hnot

/-! ## Closed form of the elastic-plastic evaluator -/

theorem computeInternalForceIsotropicElasticPlastic_bond_eq (sqrt : α → α)
    (xOverlap yOverlap volumeOverlap bondDamage deviatoricPlasticExtensionStateN : ℕ → α)
    (localNeighborList : ℕ → ℕ) (X Y fOwned : ℕ)
    (theta alpha c selfCellVolume tdNorm pointWiseYieldValue deltaLambda : α) (elastic : Bool)
    (s : ElasticPlasticState α) :
    computeInternalForceIsotropicElasticPlastic_bond sqrt xOverlap yOverlap volumeOverlap
      bondDamage deviatoricPlasticExtensionStateN localNeighborList X Y fOwned theta alpha c
      selfCellVolume tdNorm pointWiseYieldValue deltaLambda elastic s
    = { neighPtr := s.neighPtr + 1
        bondDamagePtr := s.bondDamagePtr + 1
        deviatoricPlasticExtensionStateNPtr := s.deviatoricPlasticExtensionStateNPtr + 1
        deviatoricPlasticExtensionStateNp1Ptr := s.deviatoricPlasticExtensionStateNp1Ptr + 1
        deviatoricPlasticExtensionStateNp1 :=
          Function.update s.deviatoricPlasticExtensionStateNp1
            s.deviatoricPlasticExtensionStateNp1Ptr
            (elasticPlasticEdpNp1 sqrt xOverlap yOverlap X Y theta alpha tdNorm
              pointWiseYieldValue deltaLambda elastic (localNeighborList s.neighPtr)
              (deviatoricPlasticExtensionStateN s.deviatoricPlasticExtensionStateNPtr))
        lambdaNP1 := s.lambdaNP1
        fInternalOverlap := fun i => s.fInternalOverlap i
          + elasticPlasticIncrement sqrt xOverlap yOverlap volumeOverlap X Y fOwned theta alpha
              c selfCellVolume tdNorm pointWiseYieldValue elastic (localNeighborList s.neighPtr)
              (bondDamage s.bondDamagePtr)
              (deviatoricPlasticExtensionStateN s.deviatoricPlasticExtensionStateNPtr) i } := by
  simp only [computeInternalForceIsotropicElasticPlastic_bond]
  congr 1
  · simp only [elasticPlasticEdpNp1, elasticPlasticTd, deviatoricExtension, bondLength, mul_one]
  · funext i
    rw [assemblePairwiseForce_apply]
    simp only [elasticPlasticIncrement, elasticPlasticTd, deviatoricExtension, bondLength,
      mul_one]

theorem update_window {β : Type} (a : ℕ → β) (V : ℕ → β) (start n : ℕ) :
    Function.update (fun k => if start ≤ k ∧ k < start + n then V (k - start) else a k)
      (start + n) (V n)
    = fun k => if start ≤ k ∧ k < start + (n + 1) then V (k - start) else a k := by
  funext k
  by_cases h : k = start + n
  · subst h
    simp
  · rw [Function.update_noteq h]
    have : (start ≤ k ∧ k < start + (n + 1)) ↔ (start ≤ k ∧ k < start + n) := by omega
    simp only [this]

theorem computeInternalForceIsotropicElasticPlastic_bondLoop (sqrt : α → α)
    (xOverlap yOverlap volumeOverlap bondDamage deviatoricPlasticExtensionStateN : ℕ → α)
    (localNeighborList : ℕ → ℕ) (X Y fOwned : ℕ)
    (theta alpha c selfCellVolume tdNorm pointWiseYieldValue deltaLambda : α) (elastic : Bool)
    (n : ℕ) (s : ElasticPlasticState α) :
    forLoop (fun _ => computeInternalForceIsotropicElasticPlastic_bond sqrt xOverlap yOverlap
      volumeOverlap bondDamage deviatoricPlasticExtensionStateN localNeighborList X Y fOwned
      theta alpha c selfCellVolume tdNorm pointWiseYieldValue deltaLambda elastic) n s
    = { neighPtr := s.neighPtr + n
        bondDamagePtr := s.bondDamagePtr + n
        deviatoricPlasticExtensionStateNPtr := s.deviatoricPlasticExtensionStateNPtr + n
        deviatoricPlasticExtensionStateNp1Ptr := s.deviatoricPlasticExtensionStateNp1Ptr + n
        deviatoricPlasticExtensionStateNp1 := fun k =>
          if s.deviatoricPlasticExtensionStateNp1Ptr ≤ k
              ∧ k < s.deviatoricPlasticExtensionStateNp1Ptr + n then
            (fun j => elasticPlasticEdpNp1 sqrt xOverlap yOverlap X Y theta alpha tdNorm
              pointWiseYieldValue deltaLambda elastic (localNeighborList (s.neighPtr + j))
              (deviatoricPlasticExtensionStateN (s.deviatoricPlasticExtensionStateNPtr + j)))
              (k - s.deviatoricPlasticExtensionStateNp1Ptr)
          else s.deviatoricPlasticExtensionStateNp1 k
        lambdaNP1 := s.lambdaNP1
        fInternalOverlap := fun i => s.fInternalOverlap i
          + ∑ j ∈ Finset.range n,
              elasticPlasticIncrement sqrt xOverlap yOverlap volumeOverlap X Y fOwned theta
                alpha c selfCellVolume tdNorm pointWiseYieldValue elastic
                (localNeighborList (s.neighPtr + j)) (bondDamage (s.bondDamagePtr + j))
                (deviatoricPlasticExtensionStateN (s.deviatoricPlasticExtensionStateNPtr + j))
                i } := by
  induction n with
  | zero =>
    simp only [forLoop, Nat.add_zero, Finset.range_zero, Finset.sum_empty, add_zero]
    have : ∀ k, ¬ (s.deviatoricPlasticExtensionStateNp1Ptr ≤ k
        ∧ k < s.deviatoricPlasticExtensionStateNp1Ptr) := by
      intro k; omega
    simp only [this, if_false]
  | succ k ih =>
    rw [forLoop_succ, ih, computeInternalForceIsotropicElasticPlastic_bond_eq]
    simp only [Finset.sum_range_succ, add_assoc]
    congr 1
    exact update_window s.deviatoricPlasticExtensionStateNp1
      (fun j => elasticPlasticEdpNp1 sqrt xOverlap yOverlap X Y theta alpha tdNorm
        pointWiseYieldValue deltaLambda elastic (localNeighborList (s.neighPtr + j))
        (deviatoricPlasticExtensionStateN (s.deviatoricPlasticExtensionStateNPtr + j)))
      s.deviatoricPlasticExtensionStateNp1Ptr k

theorem ElasticPlasticInput.plastic_point_eq (I : ElasticPlasticInput α) (p : ℕ)
    (s : ElasticPlasticState α)
    (h1 : s.neighPtr = blockStart I.localNeighborList p)
    (h2 : s.bondDamagePtr = bondStart I.localNeighborList p)
    (h3 : s.deviatoricPlasticExtensionStateNPtr = bondStart I.localNeighborList p)
    (h4 : s.deviatoricPlasticExtensionStateNp1Ptr = bondStart I.localNeighborList p) :
    computeInternalForceIsotropicElasticPlastic_point I.sqrt I.xOverlap I.yOverlap I.mOwned
      I.volumeOverlap I.dilatationOwned I.bondDamage I.dsfOwned
      I.deviatoricPlasticExtensionStateN I.lambdaN I.localNeighborList I.BULK_MODULUS
      I.SHEAR_MODULUS (yieldValue3d I.pi I.HORIZON I.yieldStress) p s
    = { neighPtr := blockStart I.localNeighborList (p + 1)
        bondDamagePtr := bondStart I.localNeighborList (p + 1)
        deviatoricPlasticExtensionStateNPtr := bondStart I.localNeighborList (p + 1)
        deviatoricPlasticExtensionStateNp1Ptr := bondStart I.localNeighborList (p + 1)
        deviatoricPlasticExtensionStateNp1 := fun k =>
          if bondStart I.localNeighborList p ≤ k
              ∧ k < bondStart I.localNeighborList p + numNeighOf I.localNeighborList p then
            I.edpNp1 p (k - bondStart I.localNeighborList p)
          else s.deviatoricPlasticExtensionStateNp1 k
        lambdaNP1 := Function.update s.lambdaNP1 p (I.lambdaNP1 p)
        fInternalOverlap := fun i => s.fInternalOverlap i
          + ∑ j ∈ Finset.range (numNeighOf I.localNeighborList p), I.contribution p j i } := by
  simp only [computeInternalForceIsotropicElasticPlastic_point,
    computeInternalForceIsotropicElasticPlastic_pointBody,
    computeInternalForceIsotropicElasticPlastic_bondLoop, h1, h2, h3, h4,
    ElasticPlasticInput.edpNp1, ElasticPlasticInput.lambdaNP1, ElasticPlasticInput.contribution,
    ElasticPlasticInput.deltaLambda, ElasticPlasticInput.elastic,
    ElasticPlasticInput.yieldFunction, ElasticPlasticInput.pointWiseYieldValue,
    ElasticPlasticInput.tdNorm, ElasticPlasticInput.alpha, ElasticPlasticInput.c,
    numNeighOf, neighOf, blockStart, bondStart]

theorem bondStart_mono (localNeighborList : ℕ → ℕ) (p q : ℕ) (h : p ≤ q) :
    bondStart localNeighborList p ≤ bondStart localNeighborList q := by
  induction q with
  | zero =>
    have : p = 0 := Nat.le_zero.mp h
    subst this
    exact le_rfl
  | succ k ih =>
    by_cases hk : p = k + 1
    · subst hk; exact le_rfl
    · have := ih (by omega)
      simp only [bondStart]
      omega

/-- Closed form of the dense elastic-plastic evaluator: cursors, `lambdaNP1`,
`deviatoricPlasticExtensionStateNp1` and force array after `n` owned points. -/
theorem ElasticPlasticInput.plastic_run_closed_form (I : ElasticPlasticInput α)
    (deviatoricPlasticExtensionStateNp1 lambdaNP1 fInternalOverlap : ℕ → α) (n : ℕ) :
    (I.run deviatoricPlasticExtensionStateNp1 lambdaNP1 fInternalOverlap n).neighPtr
        = blockStart I.localNeighborList n
    ∧ (I.run deviatoricPlasticExtensionStateNp1 lambdaNP1 fInternalOverlap n).bondDamagePtr
        = bondStart I.localNeighborList n
    ∧ (I.run deviatoricPlasticExtensionStateNp1 lambdaNP1 fInternalOverlap
        n).deviatoricPlasticExtensionStateNPtr = bondStart I.localNeighborList n
    ∧ (I.run deviatoricPlasticExtensionStateNp1 lambdaNP1 fInternalOverlap
        n).deviatoricPlasticExtensionStateNp1Ptr = bondStart I.localNeighborList n
    ∧ (∀ p, p < n →
        (I.run deviatoricPlasticExtensionStateNp1 lambdaNP1 fInternalOverlap n).lambdaNP1 p
          = I.lambdaNP1 p)
    ∧ (∀ p, n ≤ p →
        (I.run deviatoricPlasticExtensionStateNp1 lambdaNP1 fInternalOverlap n).lambdaNP1 p
          = lambdaNP1 p)
    ∧ (∀ p, p < n → ∀ j, j < numNeighOf I.localNeighborList p →
        (I.run deviatoricPlasticExtensionStateNp1 lambdaNP1 fInternalOverlap
          n).deviatoricPlasticExtensionStateNp1 (bondStart I.localNeighborList p + j)
          = I.edpNp1 p j)
    ∧ (∀ k, bondStart I.localNeighborList n ≤ k →
        (I.run deviatoricPlasticExtensionStateNp1 lambdaNP1 fInternalOverlap
          n).deviatoricPlasticExtensionStateNp1 k = deviatoricPlasticExtensionStateNp1 k)
    ∧ (∀ i, (I.run deviatoricPlasticExtensionStateNp1 lambdaNP1 fInternalOverlap
          n).fInternalOverlap i
        = fInternalOverlap i
          + ∑ p ∈ Finset.range n, ∑ j ∈ Finset.range (numNeighOf I.localNeighborList p),
              I.contribution p j i) := by
  unfold ElasticPlasticInput.run computeInternalForceIsotropicElasticPlastic
  induction n with
  | zero => simp [forLoop, blockStart, bondStart]
  | succ m ih =>
    obtain ⟨h1, h2, h3, h4, h5, h6, h7, h8, h9⟩ := ih
    rw [forLoop_succ, I.plastic_point_eq m _ h1 h2 h3 h4]
    refine ⟨rfl, rfl, rfl, rfl, ?_, ?_, ?_, ?_, ?_⟩
    · intro p hp
      by_cases hpm : p = m
      · subst hpm; simp
      · simp only [Function.update_noteq hpm]
        exact h5 p (by omega)
    · intro p hp
      have hpm : p ≠ m := by omega
      simp only [Function.update_noteq hpm]
      exact h6 p (by omega)
    · intro p hp j hj
      by_cases hpm : p = m
      · subst hpm
        have : bondStart I.localNeighborList p ≤ bondStart I.localNeighborList p + j
            ∧ bondStart I.localNeighborList p + j
              < bondStart I.localNeighborList p + numNeighOf I.localNeighborList p := by omega
        simp only [this, and_self, if_true, Nat.add_sub_cancel_left]
      · have hlt : p < m := by omega
        have hmono := bondStart_mono I.localNeighborList (p + 1) m (by omega)
        simp only [bondStart] at hmono
        have : ¬ (bondStart I.localNeighborList m ≤ bondStart I.localNeighborList p + j
            ∧ bondStart I.localNeighborList p + j
              < bondStart I.localNeighborList m + numNeighOf I.localNeighborList m) := by omega
        simp only [this, if_false]
        exact h7 p hlt j hj
    · intro k hk
      simp only [bondStart] at hk
      have : ¬ (bondStart I.localNeighborList m ≤ k
            ∧ k < bondStart I.localNeighborList m + numNeighOf I.localNeighborList m) := by omega
      simp only [this, if_false]
      exact h8 k (by omega)
    · intro i
      simp only [h9 i, Finset.sum_range_succ, add_assoc]

/-! ## Elastic and plastic steps -/

theorem ElasticPlasticInput.pointWiseYieldValue_eq (I : ElasticPlasticInput α) (p : ℕ) :
    I.pointWiseYieldValue p
      = I.dsfOwned p ^ 2 * (75 * I.yieldStress ^ 2 / (8 * I.pi * I.HORIZON ^ 5)) := by
  simp only [ElasticPlasticInput.pointWiseYieldValue, yieldValue3d, div_div]
  ring

theorem ElasticPlasticInput.yieldFunction_eq (I : ElasticPlasticInput α) (p : ℕ) :
    I.yieldFunction p
      = I.tdNorm p ^ 2 / 2
        - I.dsfOwned p ^ 2 * (75 * I.yieldStress ^ 2 / (8 * I.pi * I.HORIZON ^ 5)) := by
  simp only [ElasticPlasticInput.yieldFunction, I.pointWiseYieldValue_eq]
  ring

theorem ElasticPlasticInput.contribution_eq (I : ElasticPlasticInput α) (p j i : ℕ) :
    I.contribution p j i
      = pairIncrement (3 * p) (neighOf I.localNeighborList p j)
          ((1 - I.bondDamage (bondStart I.localNeighborList p + j))
              * (I.c p * bondLength I.sqrt I.xOverlap (3 * p)
                    (3 * neighOf I.localNeighborList p j)
                + (1 - I.bondDamage (bondStart I.localNeighborList p + j)) * I.td p j)
            * (I.yOverlap (3 * neighOf I.localNeighborList p j + 0) - I.yOverlap (3 * p + 0))
            / bondLength I.sqrt I.yOverlap (3 * p) (3 * neighOf I.localNeighborList p j))
          ((1 - I.bondDamage (bondStart I.localNeighborList p + j))
              * (I.c p * bondLength I.sqrt I.xOverlap (3 * p)
                    (3 * neighOf I.localNeighborList p j)
                + (1 - I.bondDamage (bondStart I.localNeighborList p + j)) * I.td p j)
            * (I.yOverlap (3 * neighOf I.localNeighborList p j + 1) - I.yOverlap (3 * p + 1))
            / bondLength I.sqrt I.yOverlap (3 * p) (3 * neighOf I.localNeighborList p j))
          ((1 - I.bondDamage (bondStart I.localNeighborList p + j))
              * (I.c p * bondLength I.sqrt I.xOverlap (3 * p)
                    (3 * neighOf I.localNeighborList p j)
                + (1 - I.bondDamage (bondStart I.localNeighborList p + j)) * I.td p j)
            * (I.yOverlap (3 * neighOf I.localNeighborList p j + 2) - I.yOverlap (3 * p + 2))
            / bondLength I.sqrt I.yOverlap (3 * p) (3 * neighOf I.localNeighborList p j))
          (I.volumeOverlap (neighOf I.localNeighborList p j)) (I.volumeOverlap p) i := rfl

theorem ElasticPlasticInput.tdTrial_eq (I : ElasticPlasticInput α) (p j : ℕ) :
    I.tdTrial p j
      = I.alpha p
        * (bondLength I.sqrt I.yOverlap (3 * p) (3 * neighOf I.localNeighborList p j)
            - bondLength I.sqrt I.xOverlap (3 * p) (3 * neighOf I.localNeighborList p j)
            - I.dilatationOwned p
              * bondLength I.sqrt I.xOverlap (3 * p) (3 * neighOf I.localNeighborList p j) / 3
            - I.deviatoricPlasticExtensionStateN (bondStart I.localNeighborList p + j)) := rfl

theorem ElasticPlasticInput.c_eq (I : ElasticPlasticInput α) (p : ℕ) :
    I.c p = 3 * I.BULK_MODULUS * I.dilatationOwned p / I.mOwned p := by
  simp only [ElasticPlasticInput.c, mul_one]

theorem ElasticPlasticInput.elastic_of_not_pos (I : ElasticPlasticInput α) (p : ℕ)
    (h : ¬ I.yieldFunction p > 0) :
    I.elastic p = true ∧ I.deltaLambda p = 0 ∧ I.lambdaNP1 p = I.lambdaN p
    ∧ ∀ j, I.td p j = I.tdTrial p j
        ∧ I.edpNp1 p j
          = I.deviatoricPlasticExtensionStateN (bondStart I.localNeighborList p + j) := by
  have he : I.elastic p = true := by simp only [ElasticPlasticInput.elastic, h, if_false]
  refine ⟨he, ?_, ?_, ?_⟩
  · simp only [ElasticPlasticInput.deltaLambda, h, if_false]
  · simp only [ElasticPlasticInput.lambdaNP1, h, if_false]
  · intro j
    constructor
    · simp only [ElasticPlasticInput.td, elasticPlasticTd, he, if_true,
        ElasticPlasticInput.tdTrial]
    · simp only [ElasticPlasticInput.edpNp1, elasticPlasticEdpNp1, he, if_true]

theorem ElasticPlasticInput.plastic_of_pos (I : ElasticPlasticInput α) (p : ℕ)
    (h : I.yieldFunction p > 0) :
    I.elastic p = false
    ∧ I.deltaLambda p
        = (I.tdNorm p / I.sqrt (2 * I.pointWiseYieldValue p) - 1) / I.alpha p
    ∧ I.lambdaNP1 p = I.lambdaN p + I.deltaLambda p
    ∧ ∀ j, I.td p j = I.sqrt (2 * I.pointWiseYieldValue p) * I.tdTrial p j / I.tdNorm p
        ∧ I.edpNp1 p j
          = I.deviatoricPlasticExtensionStateN (bondStart I.localNeighborList p + j)
            + I.td p j * I.deltaLambda p := by
  have he : I.elastic p = false := by simp only [ElasticPlasticInput.elastic, h, if_true]
  refine ⟨he, ?_, ?_, ?_⟩
  · simp only [ElasticPlasticInput.deltaLambda, h, if_true]
  · simp only [ElasticPlasticInput.lambdaNP1, h, if_true]
  · intro j
    constructor
    · simp only [ElasticPlasticInput.td, elasticPlasticTd, he, Bool.false_eq_true, if_false,
        ElasticPlasticInput.tdTrial]
    · simp only [ElasticPlasticInput.edpNp1, elasticPlasticEdpNp1, he, Bool.false_eq_true,
        if_false, ElasticPlasticInput.td]

/-- C4: at an owned point `p` with `f = tdNorm^2/2 - pointYield > 0`, where
`pointYield = dsf[p]^2 * 75*yieldStress^2/(8*pi*HORIZON^5)` and `tdNorm` is
`computeDeviatoricForceStateNorm` on the block of `p` with the previous-step plastic extension
state, the dense evaluator sets `lambdaNP1[p] = lambdaN[p] + deltaLambda` with
`deltaLambda = (tdNorm/sqrt(2*pointYield) - 1)/alpha`, and for every bond of `p`
`td = sqrt(2*pointYield)*tdTrial/tdNorm`, `edpNp1 = edpN + td*deltaLambda`, and the bond force
is `t = (1-d)*(c*zeta + (1-d)*td)` with `c = 3K*theta/m`, `alpha = dsf[p]*15*MU/m[p]`. -/
theorem computeInternalForceIsotropicElasticPlastic_plastic_step (I : ElasticPlasticInput α)
    (deviatoricPlasticExtensionStateNp1 lambdaNP1 fInternalOverlap : ℕ → α)
    (numOwnedPoints p : ℕ) (hp : p < numOwnedPoints)
    (hf : I.tdNorm p ^ 2 / 2
      - I.dsfOwned p ^ 2 * (75 * I.yieldStress ^ 2 / (8 * I.pi * I.HORIZON ^ 5)) > 0) :
    I.tdNorm p
        = computeDeviatoricForceStateNorm I.sqrt (numNeighOf I.localNeighborList p)
            (I.dilatationOwned p) I.localNeighborList (blockStart I.localNeighborList p + 1)
            I.bondDamage (bondStart I.localNeighborList p)
            I.deviatoricPlasticExtensionStateN (bondStart I.localNeighborList p)
            (3 * p) (3 * p) I.xOverlap I.yOverlap I.volumeOverlap (I.alpha p) 1
    ∧ I.pointWiseYieldValue p
        = I.dsfOwned p ^ 2 * (75 * I.yieldStress ^ 2 / (8 * I.pi * I.HORIZON ^ 5))
    ∧ I.alpha p = I.dsfOwned p * 15 * I.SHEAR_MODULUS / I.mOwned p
    ∧ I.c p = 3 * I.BULK_MODULUS * I.dilatationOwned p / I.mOwned p
    ∧ (I.run deviatoricPlasticExtensionStateNp1 lambdaNP1 fInternalOverlap
          numOwnedPoints).lambdaNP1 p
        = I.lambdaN p + (I.tdNorm p / I.sqrt (2 * I.pointWiseYieldValue p) - 1) / I.alpha p
    ∧ (∀ j, j < numNeighOf I.localNeighborList p →
        I.tdTrial p j
          = I.alpha p
            * (bondLength I.sqrt I.yOverlap (3 * p) (3 * neighOf I.localNeighborList p j)
                - bondLength I.sqrt I.xOverlap (3 * p) (3 * neighOf I.localNeighborList p j)
                - I.dilatationOwned p
                  * bondLength I.sqrt I.xOverlap (3 * p) (3 * neighOf I.localNeighborList p j)
                  / 3
                - I.deviatoricPlasticExtensionStateN (bondStart I.localNeighborList p + j))
        ∧ I.td p j = I.sqrt (2 * I.pointWiseYieldValue p) * I.tdTrial p j / I.tdNorm p
        ∧ (I.run deviatoricPlasticExtensionStateNp1 lambdaNP1 fInternalOverlap
              numOwnedPoints).deviatoricPlasticExtensionStateNp1
              (bondStart I.localNeighborList p + j)
            = I.deviatoricPlasticExtensionStateN (bondStart I.localNeighborList p + j)
              + I.td p j
                * ((I.tdNorm p / I.sqrt (2 * I.pointWiseYieldValue p) - 1) / I.alpha p)
        ∧ ∀ i, I.contribution p j i
            = pairIncrement (3 * p) (neighOf I.localNeighborList p j)
                ((1 - I.bondDamage (bondStart I.localNeighborList p + j))
                    * (I.c p * bondLength I.sqrt I.xOverlap (3 * p)
                          (3 * neighOf I.localNeighborList p j)
                      + (1 - I.bondDamage (bondStart I.localNeighborList p + j)) * I.td p j)
                  * (I.yOverlap (3 * neighOf I.localNeighborList p j + 0)
                      - I.yOverlap (3 * p + 0))
                  / bondLength I.sqrt I.yOverlap (3 * p) (3 * neighOf I.localNeighborList p j))
                ((1 - I.bondDamage (bondStart I.localNeighborList p + j))
                    * (I.c p * bondLength I.sqrt I.xOverlap (3 * p)
                          (3 * neighOf I.localNeighborList p j)
                      + (1 - I.bondDamage (bondStart I.localNeighborList p + j)) * I.td p j)
                  * (I.yOverlap (3 * neighOf I.localNeighborList p j + 1)
                      - I.yOverlap (3 * p + 1))
                  / bondLength I.sqrt I.yOverlap (3 * p) (3 * neighOf I.localNeighborList p j))
                ((1 - I.bondDamage (bondStart I.localNeighborList p + j))
                    * (I.c p * bondLength I.sqrt I.xOverlap (3 * p)
                          (3 * neighOf I.localNeighborList p j)
                      + (1 - I.bondDamage (bondStart I.localNeighborList p + j)) * I.td p j)
                  * (I.yOverlap (3 * neighOf I.localNeighborList p j + 2)
                      - I.yOverlap (3 * p + 2))
                  / bondLength I.sqrt I.yOverlap (3 * p) (3 * neighOf I.localNeighborList p j))
                (I.volumeOverlap (neighOf I.localNeighborList p j)) (I.volumeOverlap p) i)
    ∧ (∀ i, (I.run deviatoricPlasticExtensionStateNp1 lambdaNP1 fInternalOverlap
          numOwnedPoints).fInternalOverlap i
        = fInternalOverlap i
          + ∑ q ∈ Finset.range numOwnedPoints,
              ∑ j ∈ Finset.range (numNeighOf I.localNeighborList q), I.contribution q j i) := by
  have hpos : I.yieldFunction p > 0 := by rw [I.yieldFunction_eq]; exact hf
  obtain ⟨_, hdl, hlam, hbond⟩ := I.plastic_of_pos p hpos
  obtain ⟨_, _, _, _, h5, _, h7, _, h9⟩ := I.plastic_run_closed_form
    deviatoricPlasticExtensionStateNp1 lambdaNP1 fInternalOverlap numOwnedPoints
  refine ⟨rfl, I.pointWiseYieldValue_eq p, rfl, I.c_eq p, ?_, ?_, h9⟩
  · rw [h5 p hp, hlam, hdl]
  · intro j hj
    refine ⟨I.tdTrial_eq p j, (hbond j).1, ?_, fun i => I.contribution_eq p j i⟩
    rw [h7 p hp j hj, (hbond j).2, hdl]

theorem ElasticPlasticInput.withYieldStress_tdNorm (I : ElasticPlasticInput α) (ys : α)
    (p : ℕ) : (I.withYieldStress ys).tdNorm p = I.tdNorm p := rfl

/-- Above some yield stress every owned point satisfies the elastic condition, when `M_PI`
and the horizon are positive and the shear correction factors are nonzero. -/
theorem ElasticPlasticInput.elastic_threshold (I : ElasticPlasticInput α) (n : ℕ)
    (hpi : 0 < I.pi) (hH : 0 < I.HORIZON) (hdsf : ∀ p, p < n → I.dsfOwned p ≠ 0) :
    ∃ Y0 : α, ∀ ys, Y0 ≤ ys → ∀ p, p < n →
      I.tdNorm p ^ 2 / 2 ≤ I.dsfOwned p ^ 2 * (75 * ys ^ 2 / (8 * I.pi * I.HORIZON ^ 5)) := by
  refine ⟨1 + ∑ p ∈ Finset.range n,
    |I.tdNorm p ^ 2 / 2 / (I.dsfOwned p ^ 2 * (75 / (8 * I.pi * I.HORIZON ^ 5)))|, ?_⟩
  intro ys hys p hp
  have hk : 0 < I.dsfOwned p ^ 2 * (75 / (8 * I.pi * I.HORIZON ^ 5)) := by
    have h1 : 0 < I.dsfOwned p ^ 2 := by
      have := hdsf p hp
      positivity
    have h2 : 0 < 8 * I.pi * I.HORIZON ^ 5 := by positivity
    have h3 : 0 < 75 / (8 * I.pi * I.HORIZON ^ 5) := div_pos (by norm_num) h2
    exact mul_pos h1 h3
  have hsum : |I.tdNorm p ^ 2 / 2 / (I.dsfOwned p ^ 2 * (75 / (8 * I.pi * I.HORIZON ^ 5)))|
      ≤ ∑ p ∈ Finset.range n,
        |I.tdNorm p ^ 2 / 2 / (I.dsfOwned p ^ 2 * (75 / (8 * I.pi * I.HORIZON ^ 5)))| :=
    Finset.single_le_sum
      (f := fun p => |I.tdNorm p ^ 2 / 2 / (I.dsfOwned p ^ 2 * (75 / (8 * I.pi * I.HORIZON ^ 5)))|)
      (fun q _ => abs_nonneg _) (Finset.mem_range.mpr hp)
  have hnn : 0 ≤ ∑ p ∈ Finset.range n,
      |I.tdNorm p ^ 2 / 2 / (I.dsfOwned p ^ 2 * (75 / (8 * I.pi * I.HORIZON ^ 5)))| :=
    Finset.sum_nonneg (fun q _ => abs_nonneg _)
  have hys1 : 1 ≤ ys := by linarith
  have hys2 : ys ≤ ys ^ 2 := by nlinarith
  have hA : I.tdNorm p ^ 2 / 2 / (I.dsfOwned p ^ 2 * (75 / (8 * I.pi * I.HORIZON ^ 5)))
      ≤ ys ^ 2 := by
    have := le_abs_self
      (I.tdNorm p ^ 2 / 2 / (I.dsfOwned p ^ 2 * (75 / (8 * I.pi * I.HORIZON ^ 5))))
    linarith
  have hB := (div_le_iff₀ hk).mp hA
  calc I.tdNorm p ^ 2 / 2
      ≤ ys ^ 2 * (I.dsfOwned p ^ 2 * (75 / (8 * I.pi * I.HORIZON ^ 5))) := hB
    _ = I.dsfOwned p ^ 2 * (75 * ys ^ 2 / (8 * I.pi * I.HORIZON ^ 5)) := by ring

theorem ElasticPlasticInput.elastic_step_point (I : ElasticPlasticInput α)
    (deviatoricPlasticExtensionStateNp1 lambdaNP1 fInternalOverlap : ℕ → α)
    (numOwnedPoints p : ℕ) (hp : p < numOwnedPoints)
    (hf : I.tdNorm p ^ 2 / 2
      ≤ I.dsfOwned p ^ 2 * (75 * I.yieldStress ^ 2 / (8 * I.pi * I.HORIZON ^ 5))) :
    (I.run deviatoricPlasticExtensionStateNp1 lambdaNP1 fInternalOverlap
        numOwnedPoints).lambdaNP1 p = I.lambdaN p
    ∧ ∀ j, j < numNeighOf I.localNeighborList p →
        (I.run deviatoricPlasticExtensionStateNp1 lambdaNP1 fInternalOverlap
            numOwnedPoints).deviatoricPlasticExtensionStateNp1
            (bondStart I.localNeighborList p + j)
          = I.deviatoricPlasticExtensionStateN (bondStart I.localNeighborList p + j)
        ∧ I.td p j = I.tdTrial p j := by
  have hnot : ¬ I.yieldFunction p > 0 := by
    rw [I.yieldFunction_eq]
    exact not_lt.mpr (sub_nonpos.mpr hf)
  obtain ⟨_, _, hlam, hbond⟩ := I.elastic_of_not_pos p hnot
  obtain ⟨_, _, _, _, h5, _, h7, _, _⟩ := I.plastic_run_closed_form
    deviatoricPlasticExtensionStateNp1 lambdaNP1 fInternalOverlap numOwnedPoints
  refine ⟨by rw [h5 p hp, hlam], ?_⟩
  intro j hj
  exact ⟨by rw [h7 p hp j hj, (hbond j).2], (hbond j).1⟩

/-- C3, as amended: at every owned point `p` with
`tdNorm^2/2 <= dsf[p]^2 * 75*yieldStress^2/(8*pi*HORIZON^5)` the dense evaluator sets
`lambdaNP1[p] = lambdaN[p]`, copies `deviatoricPlasticExtensionStateNp1 =
deviatoricPlasticExtensionStateN` on every bond of `p` and uses `td = tdTrial =
alpha*(ed - edpN)`, so that the bond force is `t = (1-d)*(c*zeta + (1-d)*tdTrial)`,
`c = 3K*theta/m`; the force array the call leaves is the initial one plus, for every bond of
every owned point, the pair force of that bond, which for the bonds of `p` is the one with this
`t`.  When moreover `HORIZON > 0` (and `M_PI > 0`) and `dsf` is nonzero at every owned point,
there is a yield-stress threshold above which every owned point satisfies that condition, so
`lambdaNP1 = lambdaN` at every owned point. -/
theorem computeInternalForceIsotropicElasticPlastic_elastic_step (I : ElasticPlasticInput α)
    (deviatoricPlasticExtensionStateNp1 lambdaNP1 fInternalOverlap : ℕ → α)
    (numOwnedPoints : ℕ) :
    (∀ p, p < numOwnedPoints →
      I.tdNorm p ^ 2 / 2
        ≤ I.dsfOwned p ^ 2 * (75 * I.yieldStress ^ 2 / (8 * I.pi * I.HORIZON ^ 5)) →
      (I.run deviatoricPlasticExtensionStateNp1 lambdaNP1 fInternalOverlap
          numOwnedPoints).lambdaNP1 p = I.lambdaN p
      ∧ I.c p = 3 * I.BULK_MODULUS * I.dilatationOwned p / I.mOwned p
      ∧ ∀ j, j < numNeighOf I.localNeighborList p →
          (I.run deviatoricPlasticExtensionStateNp1 lambdaNP1 fInternalOverlap
              numOwnedPoints).deviatoricPlasticExtensionStateNp1
              (bondStart I.localNeighborList p + j)
            = I.deviatoricPlasticExtensionStateN (bondStart I.localNeighborList p + j)
          ∧ I.td p j = I.tdTrial p j
          ∧ I.tdTrial p j
            = I.alpha p
              * (bondLength I.sqrt I.yOverlap (3 * p) (3 * neighOf I.localNeighborList p j)
                  - bondLength I.sqrt I.xOverlap (3 * p) (3 * neighOf I.localNeighborList p j)
                  - I.dilatationOwned p
                    * bondLength I.sqrt I.xOverlap (3 * p)
                        (3 * neighOf I.localNeighborList p j) / 3
                  - I.deviatoricPlasticExtensionStateN (bondStart I.localNeighborList p + j))
          ∧ ∀ i, I.contribution p j i
              = pairIncrement (3 * p) (neighOf I.localNeighborList p j)
                  ((1 - I.bondDamage (bondStart I.localNeighborList p + j))
                      * (I.c p * bondLength I.sqrt I.xOverlap (3 * p)
                            (3 * neighOf I.localNeighborList p j)
                        + (1 - I.bondDamage (bondStart I.localNeighborList p + j))
                          * I.tdTrial p j)
                    * (I.yOverlap (3 * neighOf I.localNeighborList p j + 0)
                        - I.yOverlap (3 * p + 0))
                    / bondLength I.sqrt I.yOverlap (3 * p)
                        (3 * neighOf I.localNeighborList p j))
                  ((1 - I.bondDamage (bondStart I.localNeighborList p + j))
                      * (I.c p * bondLength I.sqrt I.xOverlap (3 * p)
                            (3 * neighOf I.localNeighborList p j)
                        + (1 - I.bondDamage (bondStart I.localNeighborList p + j))
                          * I.tdTrial p j)
                    * (I.yOverlap (3 * neighOf I.localNeighborList p j + 1)
                        - I.yOverlap (3 * p + 1))
                    / bondLength I.sqrt I.yOverlap (3 * p)
                        (3 * neighOf I.localNeighborList p j))
                  ((1 - I.bondDamage (bondStart I.localNeighborList p + j))
                      * (I.c p * bondLength I.sqrt I.xOverlap (3 * p)
                            (3 * neighOf I.localNeighborList p j)
                        + (1 - I.bondDamage (bondStart I.localNeighborList p + j))
                          * I.tdTrial p j)
                    * (I.yOverlap (3 * neighOf I.localNeighborList p j + 2)
                        - I.yOverlap (3 * p + 2))
                    / bondLength I.sqrt I.yOverlap (3 * p)
                        (3 * neighOf I.localNeighborList p j))
                  (I.volumeOverlap (neighOf I.localNeighborList p j)) (I.volumeOverlap p) i)
    ∧ (∀ i, (I.run deviatoricPlasticExtensionStateNp1 lambdaNP1 fInternalOverlap
          numOwnedPoints).fInternalOverlap i
        = fInternalOverlap i
          + ∑ q ∈ Finset.range numOwnedPoints,
              ∑ j ∈ Finset.range (numNeighOf I.localNeighborList q), I.contribution q j i)
    ∧ (0 < I.pi → 0 < I.HORIZON → (∀ p, p < numOwnedPoints → I.dsfOwned p ≠ 0) →
        ∃ Y0 : α, ∀ ys, Y0 ≤ ys → ∀ p, p < numOwnedPoints →
          (I.withYieldStress ys).tdNorm p ^ 2 / 2
            ≤ I.dsfOwned p ^ 2 * (75 * ys ^ 2 / (8 * I.pi * I.HORIZON ^ 5))
          ∧ ((I.withYieldStress ys).run deviatoricPlasticExtensionStateNp1 lambdaNP1
              fInternalOverlap numOwnedPoints).lambdaNP1 p = I.lambdaN p) := by
  obtain ⟨_, _, _, _, _, _, _, _, h9⟩ := I.plastic_run_closed_form
    deviatoricPlasticExtensionStateNp1 lambdaNP1 fInternalOverlap numOwnedPoints
  refine ⟨?_, h9, ?_⟩
  · intro p hp hf
    obtain ⟨h1, h2⟩ := I.elastic_step_point deviatoricPlasticExtensionStateNp1 lambdaNP1
      fInternalOverlap numOwnedPoints p hp hf
    refine ⟨h1, I.c_eq p, ?_⟩
    intro j hj
    refine ⟨(h2 j hj).1, (h2 j hj).2, I.tdTrial_eq p j, ?_⟩
    intro i
    rw [I.contribution_eq p j i, (h2 j hj).2]
  · intro hpi hH hdsf
    obtain ⟨Y0, hY0⟩ := I.elastic_threshold numOwnedPoints hpi hH hdsf
    refine ⟨Y0, ?_⟩
    intro ys hys p hp
    have h := hY0 ys hys p hp
    exact ⟨h, ((I.withYieldStress ys).elastic_step_point deviatoricPlasticExtensionStateNp1
      lambdaNP1 fInternalOverlap numOwnedPoints p hp h).1⟩

/-- C3, counterexample to the threshold as stated (no sign condition on the horizon): for one
owned point with `dsf = 1` and `HORIZON = -1` the point yield value is negative for every
nonzero yield stress, so no yield-stress threshold makes the elastic condition hold. -/
theorem elastic_threshold_negative_horizon :
    (∀ p, p < 1 → (negativeHorizonInput Real.sqrt Real.pi).dsfOwned p ≠ 0)
    ∧ ¬ ∃ Y0 : ℝ, ∀ ys, Y0 ≤ ys → ∀ p, p < 1 →
        ((negativeHorizonInput Real.sqrt Real.pi).withYieldStress ys).tdNorm p ^ 2 / 2
          ≤ (negativeHorizonInput Real.sqrt Real.pi).dsfOwned p ^ 2
            * (75 * ys ^ 2 / (8 * (negativeHorizonInput Real.sqrt Real.pi).pi
                * (negativeHorizonInput Real.sqrt Real.pi).HORIZON ^ 5)) := by
  constructor
  · intro p _
    simp [negativeHorizonInput]
  · rintro ⟨Y0, h⟩
    have h1 := h (max Y0 1) (le_max_left _ _) 0 (by norm_num)
    have htd : ((negativeHorizonInput Real.sqrt Real.pi).withYieldStress (max Y0 1)).tdNorm 0
        = 0 := by
      simp [ElasticPlasticInput.tdNorm, ElasticPlasticInput.withYieldStress,
        negativeHorizonInput, computeDeviatoricForceStateNorm, numNeighOf, blockStart, forLoop]
    rw [htd] at h1
    simp only [negativeHorizonInput] at h1
    have hy : (1 : ℝ) ≤ max Y0 1 := le_max_right _ _
    have hpi := Real.pi_pos
    have hneg : 75 * (max Y0 1) ^ 2 / (8 * Real.pi * (-1 : ℝ) ^ 5) < 0 := by
      apply div_neg_of_pos_of_neg
      · positivity
      · have : (-1 : ℝ) ^ 5 = -1 := by norm_num
        rw [this]
        linarith
    norm_num at h1
    norm_num at hneg
    linarith

/-- For a square root that is non-negative and exact on non-negative arguments,
`sqrt x * sqrt x = x`, which the rounded double `sqrt` is not: with `m[p] > 0`,
`SHEAR_MODULUS > 0`, `yieldStress > 0`, `HORIZON > 0`, `dsf[p] > 0` and `M_PI > 0` the plastic
multiplier increases strictly exactly at the owned points where the yield function is
positive. -/
theorem lambda_strict_increase_of_exact_sqrt
    (I : ElasticPlasticInput α)
    (deviatoricPlasticExtensionStateNp1 lambdaNP1 fInternalOverlap : ℕ → α)
    (numOwnedPoints p : ℕ) (hp : p < numOwnedPoints)
    (hsqrt0 : ∀ x, 0 ≤ I.sqrt x) (hsqrt : ∀ x, 0 ≤ x → I.sqrt x * I.sqrt x = x)
    (hpi : 0 < I.pi) (hm : 0 < I.mOwned p) (hMU : 0 < I.SHEAR_MODULUS)
    (hys : 0 < I.yieldStress) (hH : 0 < I.HORIZON) (hdsf : 0 < I.dsfOwned p) :
    (I.run deviatoricPlasticExtensionStateNp1 lambdaNP1 fInternalOverlap
        numOwnedPoints).lambdaNP1 p ≥ I.lambdaN p
    ∧ ((I.run deviatoricPlasticExtensionStateNp1 lambdaNP1 fInternalOverlap
          numOwnedPoints).lambdaNP1 p > I.lambdaN p
        ↔ I.tdNorm p ^ 2 / 2
          - I.dsfOwned p ^ 2 * (75 * I.yieldStress ^ 2 / (8 * I.pi * I.HORIZON ^ 5)) > 0) := by
  obtain ⟨_, _, _, _, h5, _, _, _, _⟩ := I.plastic_run_closed_form
    deviatoricPlasticExtensionStateNp1 lambdaNP1 fInternalOverlap numOwnedPoints
  rw [h5 p hp, ← I.yieldFunction_eq p]
  by_cases hf : I.yieldFunction p > 0
  · obtain ⟨_, hdl, hlam, _⟩ := I.plastic_of_pos p hf
    have hY : 0 < I.pointWiseYieldValue p := by
      rw [I.pointWiseYieldValue_eq]
      positivity
    have h2Y : 0 < 2 * I.pointWiseYieldValue p := by linarith
    have hr2 := hsqrt (2 * I.pointWiseYieldValue p) h2Y.le
    have hr0 := hsqrt0 (2 * I.pointWiseYieldValue p)
    have hrpos : 0 < I.sqrt (2 * I.pointWiseYieldValue p) := by
      rcases hr0.lt_or_eq with h | h
      · exact h
      · rw [← h] at hr2
        linarith
    have ht0 : 0 ≤ I.tdNorm p := by
      unfold ElasticPlasticInput.tdNorm computeDeviatoricForceStateNorm
      exact hsqrt0 _
    have hgt : I.sqrt (2 * I.pointWiseYieldValue p) < I.tdNorm p := by
      have hf' : I.tdNorm p * I.tdNorm p / 2 - I.pointWiseYieldValue p > 0 := hf
      by_contra hle
      have hle' : I.tdNorm p ≤ I.sqrt (2 * I.pointWiseYieldValue p) := not_lt.mp hle
      have := mul_le_mul hle' hle' ht0 hr0
      linarith
    have halpha : 0 < I.alpha p := by
      unfold ElasticPlasticInput.alpha
      positivity
    have hdlpos : 0 < I.deltaLambda p := by
      rw [hdl]
      apply div_pos _ halpha
      have : 1 < I.tdNorm p / I.sqrt (2 * I.pointWiseYieldValue p) :=
        (one_lt_div hrpos).mpr hgt
      linarith
    rw [hlam]
    constructor
    · linarith
    · constructor
      · intro _; exact hf
      · intro _; linarith
  · obtain ⟨_, _, hlam, _⟩ := I.elastic_of_not_pos p hf
    rw [hlam]
    constructor
    · exact le_rfl
    · constructor
      · intro h; exact absurd h (lt_irrefl _)
      · intro h; exact absurd h hf

/-! ## Closed form of the viscoelastic evaluator -/

theorem computeInternalForceViscoelasticStandardLinearSolid_bond_eq (sqrt : α → α)
    (beta : ViscoelasticBetaOperator α) (decay : α)
    (xOverlap yNOverlap yNP1Overlap volumeOverlap bondDamage edbN : ℕ → α)
    (localNeighborList : ℕ → ℕ) (X YN YNP1 fOwned : ℕ)
    (dilatationN dilatationNp1 alpha c selfCellVolume : α) (s : ViscoelasticState α) :
    computeInternalForceViscoelasticStandardLinearSolid_bond sqrt beta decay xOverlap yNOverlap
      yNP1Overlap volumeOverlap bondDamage edbN localNeighborList X YN YNP1 fOwned dilatationN
      dilatationNp1 alpha c selfCellVolume s
    = { neighPtr := s.neighPtr + 1
        bondDamagePtr := s.bondDamagePtr + 1
        edbNPtr := s.edbNPtr + 1
        edbNP1Ptr := s.edbNP1Ptr + 1
        edbNP1 := Function.update s.edbNP1 s.edbNP1Ptr
          (viscoelasticEdbNP1 beta decay
            (viscoelasticExtension sqrt xOverlap yNOverlap X YN dilatationN
              (1 - bondDamage s.bondDamagePtr) (localNeighborList s.neighPtr))
            (viscoelasticExtension sqrt xOverlap yNP1Overlap X YNP1 dilatationNp1
              (1 - bondDamage s.bondDamagePtr) (localNeighborList s.neighPtr))
            (edbN s.edbNPtr))
        fInternalOverlap := fun i => s.fInternalOverlap i
          + viscoelasticIncrement sqrt beta decay xOverlap yNOverlap yNP1Overlap volumeOverlap
              X YN YNP1 fOwned dilatationN dilatationNp1 alpha c selfCellVolume
              (localNeighborList s.neighPtr) (bondDamage s.bondDamagePtr) (edbN s.edbNPtr) i } := by
  simp only [computeInternalForceViscoelasticStandardLinearSolid_bond]
  congr 1
  funext i
  rw [assemblePairwiseForce_apply]
  simp only [viscoelasticIncrement, viscoelasticEdbNP1, viscoelasticExtension, bondLength,
    mul_one]

theorem computeInternalForceViscoelasticStandardLinearSolid_bondLoop (sqrt : α → α)
    (beta : ViscoelasticBetaOperator α) (decay : α)
    (xOverlap yNOverlap yNP1Overlap volumeOverlap bondDamage edbN : ℕ → α)
    (localNeighborList : ℕ → ℕ) (X YN YNP1 fOwned : ℕ)
    (dilatationN dilatationNp1 alpha c selfCellVolume : α) (n : ℕ) (s : ViscoelasticState α) :
    forLoop (fun _ => computeInternalForceViscoelasticStandardLinearSolid_bond sqrt beta decay
      xOverlap yNOverlap yNP1Overlap volumeOverlap bondDamage edbN localNeighborList X YN YNP1
      fOwned dilatationN dilatationNp1 alpha c selfCellVolume) n s
    = { neighPtr := s.neighPtr + n
        bondDamagePtr := s.bondDamagePtr + n
        edbNPtr := s.edbNPtr + n
        edbNP1Ptr := s.edbNP1Ptr + n
        edbNP1 := fun k =>
          if s.edbNP1Ptr ≤ k ∧ k < s.edbNP1Ptr + n then
            (fun j => viscoelasticEdbNP1 beta decay
              (viscoelasticExtension sqrt xOverlap yNOverlap X YN dilatationN
                (1 - bondDamage (s.bondDamagePtr + j)) (localNeighborList (s.neighPtr + j)))
              (viscoelasticExtension sqrt xOverlap yNP1Overlap X YNP1 dilatationNp1
                (1 - bondDamage (s.bondDamagePtr + j)) (localNeighborList (s.neighPtr + j)))
              (edbN (s.edbNPtr + j))) (k - s.edbNP1Ptr)
          else s.edbNP1 k
        fInternalOverlap := fun i => s.fInternalOverlap i
          + ∑ j ∈ Finset.range n,
              viscoelasticIncrement sqrt beta decay xOverlap yNOverlap yNP1Overlap
                volumeOverlap X YN YNP1 fOwned dilatationN dilatationNp1 alpha c selfCellVolume
                (localNeighborList (s.neighPtr + j)) (bondDamage (s.bondDamagePtr + j))
                (edbN (s.edbNPtr + j)) i } := by
  induction n with
  | zero =>
    simp only [forLoop, Nat.add_zero, Finset.range_zero, Finset.sum_empty, add_zero]
    have : ∀ k, ¬ (s.edbNP1Ptr ≤ k ∧ k < s.edbNP1Ptr) := by
      intro k; omega
    simp only [this, if_false]
  | succ k ih =>
    rw [forLoop_succ, ih, computeInternalForceViscoelasticStandardLinearSolid_bond_eq]
    simp only [Finset.sum_range_succ, add_assoc]
    congr 1
    exact update_window s.edbNP1
      (fun j => viscoelasticEdbNP1 beta decay
        (viscoelasticExtension sqrt xOverlap yNOverlap X YN dilatationN
          (1 - bondDamage (s.bondDamagePtr + j)) (localNeighborList (s.neighPtr + j)))
        (viscoelasticExtension sqrt xOverlap yNP1Overlap X YNP1 dilatationNp1
          (1 - bondDamage (s.bondDamagePtr + j)) (localNeighborList (s.neighPtr + j)))
        (edbN (s.edbNPtr + j)))
      s.edbNP1Ptr k

theorem ViscoelasticInput.viscoelastic_point_eq (I : ViscoelasticInput α) (p : ℕ)
    (s : ViscoelasticState α)
    (h1 : s.neighPtr = blockStart I.localNeighborList p)
    (h2 : s.bondDamagePtr = bondStart I.localNeighborList p)
    (h3 : s.edbNPtr = bondStart I.localNeighborList p)
    (h4 : s.edbNP1Ptr = bondStart I.localNeighborList p) :
    computeInternalForceViscoelasticStandardLinearSolid_point I.sqrt I.beta I.decay I.xOverlap
      I.yNOverlap I.yNP1Overlap I.mOwned I.volumeOverlap I.dilatationOwnedN
      I.dilatationOwnedNp1 I.bondDamage I.edbN I.localNeighborList I.BULK_MODULUS
      I.SHEAR_MODULUS p s
    = { neighPtr := blockStart I.localNeighborList (p + 1)
        bondDamagePtr := bondStart I.localNeighborList (p + 1)
        edbNPtr := bondStart I.localNeighborList (p + 1)
        edbNP1Ptr := bondStart I.localNeighborList (p + 1)
        edbNP1 := fun k =>
          if bondStart I.localNeighborList p ≤ k
              ∧ k < bondStart I.localNeighborList p + numNeighOf I.localNeighborList p then
            I.edbNP1 p (k - bondStart I.localNeighborList p)
          else s.edbNP1 k
        fInternalOverlap := fun i => s.fInternalOverlap i
          + ∑ j ∈ Finset.range (numNeighOf I.localNeighborList p), I.contribution p j i } := by
  simp only [computeInternalForceViscoelasticStandardLinearSolid_point,
    computeInternalForceViscoelasticStandardLinearSolid_bondLoop, h1, h2, h3, h4,
    ViscoelasticInput.edbNP1, ViscoelasticInput.edN, ViscoelasticInput.edNp1,
    ViscoelasticInput.contribution, numNeighOf, neighOf, blockStart, bondStart]

/-- Closed form of the viscoelastic evaluator: cursors, `edbNP1` and force array after `n`
owned points. -/
theorem ViscoelasticInput.viscoelastic_run_closed_form (I : ViscoelasticInput α)
    (edbNP1 fInternalOverlap : ℕ → α) (n : ℕ) :
    (I.run edbNP1 fInternalOverlap n).neighPtr = blockStart I.localNeighborList n
    ∧ (I.run edbNP1 fInternalOverlap n).bondDamagePtr = bondStart I.localNeighborList n
    ∧ (I.run edbNP1 fInternalOverlap n).edbNPtr = bondStart I.localNeighborList n
    ∧ (I.run edbNP1 fInternalOverlap n).edbNP1Ptr = bondStart I.localNeighborList n
    ∧ (∀ p, p < n → ∀ j, j < numNeighOf I.localNeighborList p →
        (I.run edbNP1 fInternalOverlap n).edbNP1 (bondStart I.localNeighborList p + j)
          = I.edbNP1 p j)
    ∧ (∀ k, bondStart I.localNeighborList n ≤ k →
        (I.run edbNP1 fInternalOverlap n).edbNP1 k = edbNP1 k)
    ∧ (∀ i, (I.run edbNP1 fInternalOverlap n).fInternalOverlap i
        = fInternalOverlap i
          + ∑ p ∈ Finset.range n, ∑ j ∈ Finset.range (numNeighOf I.localNeighborList p),
              I.contribution p j i) := by
  have hrun : ∀ m, I.run edbNP1 fInternalOverlap m
      = forLoop (computeInternalForceViscoelasticStandardLinearSolid_point I.sqrt I.beta
          I.decay I.xOverlap I.yNOverlap I.yNP1Overlap I.mOwned I.volumeOverlap
          I.dilatationOwnedN I.dilatationOwnedNp1 I.bondDamage I.edbN I.localNeighborList
          I.BULK_MODULUS I.SHEAR_MODULUS) m
          { neighPtr := 0, bondDamagePtr := 0, edbNPtr := 0, edbNP1Ptr := 0,
            edbNP1 := edbNP1, fInternalOverlap := fInternalOverlap } := fun _ => rfl
  induction n with
  | zero => simp [hrun, forLoop, blockStart, bondStart]
  | succ m ih =>
    obtain ⟨h1, h2, h3, h4, h7, h8, h9⟩ := ih
    rw [hrun] at h1 h2 h3 h4 h7 h8 h9 ⊢
    rw [forLoop_succ, I.viscoelastic_point_eq m _ h1 h2 h3 h4]
    refine ⟨rfl, rfl, rfl, rfl, ?_, ?_, ?_⟩
    · intro p hp j hj
      by_cases hpm : p = m
      · subst hpm
        have : bondStart I.localNeighborList p ≤ bondStart I.localNeighborList p + j
            ∧ bondStart I.localNeighborList p + j
              < bondStart I.localNeighborList p + numNeighOf I.localNeighborList p := by omega
        simp only [this, and_self, if_true, Nat.add_sub_cancel_left]
      · have hlt : p < m := by omega
        have hmono := bondStart_mono I.localNeighborList (p + 1) m (by omega)
        simp only [bondStart] at hmono
        have : ¬ (bondStart I.localNeighborList m ≤ bondStart I.localNeighborList p + j
            ∧ bondStart I.localNeighborList p + j
              < bondStart I.localNeighborList m + numNeighOf I.localNeighborList m) := by omega
        simp only [this, if_false]
        exact h7 p hlt j hj
    · intro k hk
      simp only [bondStart] at hk
      have : ¬ (bondStart I.localNeighborList m ≤ k
            ∧ k < bondStart I.localNeighborList m + numNeighOf I.localNeighborList m) := by omega
      simp only [this, if_false]
      exact h8 k (by omega)
    · intro i
      simp only [h9 i, Finset.sum_range_succ, add_assoc]

/-! ## Back-extension update of the viscoelastic law -/

theorem ViscoelasticInput.edbNP1_eq (I : ViscoelasticInput α) (p j : ℕ) :
    I.edbNP1 p j
      = (I.edbN (bondStart I.localNeighborList p + j)
          - I.m_tau_b / I.m_tau
            * (I.edN p j - I.m_tau_b / I.delta_t * (I.edNp1 p j - I.edN p j)))
          * I.exp (-I.delta_t / I.m_tau_b)
        + I.m_tau_b / I.m_tau
          * (I.edNp1 p j - I.m_tau_b / I.delta_t * (I.edNp1 p j - I.edN p j)) := by
  have h : (-1 : α) / (I.m_tau_b / I.delta_t) = -I.delta_t / I.m_tau_b := by
    rw [neg_div, neg_div, one_div, inv_div]
  simp only [ViscoelasticInput.edbNP1, viscoelasticEdbNP1, ViscoelasticBetaOperator.apply,
    ViscoelasticInput.beta, ViscoelasticInput.decay, ViscoelasticBetaOperator.mk3, h]

/-- C6: for every bond (the `j`-th bond of owned point `p`), with nonzero `delta_t`, `m_tau`,
`m_tau_b`, the evaluator writes
`edbNP1 = (edbN - beta(edN)) * exp(-delta_t/m_tau_b) + beta(edNp1)`,
`beta(e) = (m_tau_b/m_tau) * (e - (m_tau_b/delta_t) * (edNp1 - edN))`, where
`edN = (1-d)*(|YN_q-YN_p| - zeta) - thetaN*zeta/3` and
`edNp1 = (1-d)*(|YNP1_q-YNP1_p| - zeta) - thetaNp1*zeta/3`; the entry written is the one of
that bond in neighbour-list order, the cursor ends at the total bond count and later entries
are untouched. -/
theorem computeInternalForceViscoelasticStandardLinearSolid_back_state
    (I : ViscoelasticInput α) (edbNP1 fInternalOverlap : ℕ → α) (numOwnedPoints p j : ℕ)
    (hp : p < numOwnedPoints) (hj : j < numNeighOf I.localNeighborList p)
    (hdt : I.delta_t ≠ 0) (htau : I.m_tau ≠ 0) (htaub : I.m_tau_b ≠ 0) :
    I.edN p j
        = (1 - I.bondDamage (bondStart I.localNeighborList p + j))
            * (bondLength I.sqrt I.yNOverlap (3 * p) (3 * neighOf I.localNeighborList p j)
                - bondLength I.sqrt I.xOverlap (3 * p) (3 * neighOf I.localNeighborList p j))
          - I.dilatationOwnedN p
            * bondLength I.sqrt I.xOverlap (3 * p) (3 * neighOf I.localNeighborList p j) / 3
    ∧ I.edNp1 p j
        = (1 - I.bondDamage (bondStart I.localNeighborList p + j))
            * (bondLength I.sqrt I.yNP1Overlap (3 * p) (3 * neighOf I.localNeighborList p j)
                - bondLength I.sqrt I.xOverlap (3 * p) (3 * neighOf I.localNeighborList p j))
          - I.dilatationOwnedNp1 p
            * bondLength I.sqrt I.xOverlap (3 * p) (3 * neighOf I.localNeighborList p j) / 3
    ∧ (I.run edbNP1 fInternalOverlap numOwnedPoints).edbNP1
          (bondStart I.localNeighborList p + j)
        = (I.edbN (bondStart I.localNeighborList p + j)
            - I.m_tau_b / I.m_tau
              * (I.edN p j - I.m_tau_b / I.delta_t * (I.edNp1 p j - I.edN p j)))
            * I.exp (-I.delta_t / I.m_tau_b)
          + I.m_tau_b / I.m_tau
            * (I.edNp1 p j - I.m_tau_b / I.delta_t * (I.edNp1 p j - I.edN p j))
    ∧ (I.run edbNP1 fInternalOverlap numOwnedPoints).edbNP1Ptr
        = bondStart I.localNeighborList numOwnedPoints
    ∧ (∀ k, bondStart I.localNeighborList numOwnedPoints ≤ k →
        (I.run edbNP1 fInternalOverlap numOwnedPoints).edbNP1 k = edbNP1 k) := by
  have _ := hdt
  have _ := htau
  have _ := htaub
  obtain ⟨_, _, _, h4, h7, h8, _⟩ := I.viscoelastic_run_closed_form edbNP1 fInternalOverlap numOwnedPoints
  refine ⟨rfl, rfl, ?_, h4, h8⟩
  rw [h7 p hp j hj, I.edbNP1_eq]

/-! ## Long-step limit of the back extension -/

theorem ViscoelasticInput.edbNP1_tendsto (I : ViscoelasticInput ℝ) (hexp : I.exp = Real.exp)
    (htaub : 0 < I.m_tau_b) (p j : ℕ) :
    Filter.Tendsto (fun dt => (I.withDeltaT dt).edbNP1 p j) Filter.atTop
      (nhds (I.m_tau_b / I.m_tau * I.edNp1 p j)) := by
  have hform : ∀ dt : ℝ, (I.withDeltaT dt).edbNP1 p j
      = (I.edbN (bondStart I.localNeighborList p + j)
          - I.m_tau_b / I.m_tau
            * (I.edN p j - I.m_tau_b / dt * (I.edNp1 p j - I.edN p j)))
          * Real.exp (-(dt / I.m_tau_b))
        + I.m_tau_b / I.m_tau
          * (I.edNp1 p j - I.m_tau_b / dt * (I.edNp1 p j - I.edN p j)) := by
    intro dt
    rw [(I.withDeltaT dt).edbNP1_eq p j]
    simp only [ViscoelasticInput.withDeltaT, hexp, neg_div]
    rfl
  simp only [hform]
  have h1 : Filter.Tendsto (fun dt : ℝ => I.m_tau_b / dt) Filter.atTop (nhds 0) :=
    tendsto_const_nhds.div_atTop Filter.tendsto_id
  have h2 : Filter.Tendsto (fun dt : ℝ => Real.exp (-(dt / I.m_tau_b))) Filter.atTop (nhds 0) :=
    Real.tendsto_exp_neg_atTop_nhds_zero.comp (Filter.tendsto_id.atTop_div_const htaub)
  have h3 : Filter.Tendsto
      (fun dt : ℝ => I.m_tau_b / I.m_tau
        * (I.edNp1 p j - I.m_tau_b / dt * (I.edNp1 p j - I.edN p j))) Filter.atTop
      (nhds (I.m_tau_b / I.m_tau * (I.edNp1 p j - 0 * (I.edNp1 p j - I.edN p j)))) :=
    (tendsto_const_nhds.sub (h1.mul tendsto_const_nhds)).const_mul _
  have h4 : Filter.Tendsto
      (fun dt : ℝ => I.edbN (bondStart I.localNeighborList p + j)
        - I.m_tau_b / I.m_tau
          * (I.edN p j - I.m_tau_b / dt * (I.edNp1 p j - I.edN p j))) Filter.atTop
      (nhds (I.edbN (bondStart I.localNeighborList p + j)
        - I.m_tau_b / I.m_tau * (I.edN p j - 0 * (I.edNp1 p j - I.edN p j)))) :=
    tendsto_const_nhds.sub ((tendsto_const_nhds.sub (h1.mul tendsto_const_nhds)).const_mul _)
  have h5 := (h4.mul h2).add h3
  have e : (I.edbN (bondStart I.localNeighborList p + j)
        - I.m_tau_b / I.m_tau * (I.edN p j - 0 * (I.edNp1 p j - I.edN p j))) * 0
      + I.m_tau_b / I.m_tau * (I.edNp1 p j - 0 * (I.edNp1 p j - I.edN p j))
      = I.m_tau_b / I.m_tau * I.edNp1 p j := by ring
  rw [e] at h5
  exact h5

theorem ViscoelasticInput.run_edbNP1_tendsto (I : ViscoelasticInput ℝ)
    (edbNP1 fInternalOverlap : ℕ → ℝ) (numOwnedPoints p j : ℕ)
    (hp : p < numOwnedPoints) (hj : j < numNeighOf I.localNeighborList p)
    (hexp : I.exp = Real.exp) (htaub : 0 < I.m_tau_b) :
    Filter.Tendsto
      (fun dt => ((I.withDeltaT dt).run edbNP1 fInternalOverlap numOwnedPoints).edbNP1
        (bondStart I.localNeighborList p + j)) Filter.atTop
      (nhds (I.m_tau_b / I.m_tau * I.edNp1 p j)) := by
  have h : ∀ dt : ℝ,
      ((I.withDeltaT dt).run edbNP1 fInternalOverlap numOwnedPoints).edbNP1
        (bondStart I.localNeighborList p + j) = (I.withDeltaT dt).edbNP1 p j := by
    intro dt
    obtain ⟨_, _, _, _, h7, _, _⟩ :=
      (I.withDeltaT dt).viscoelastic_run_closed_form edbNP1 fInternalOverlap numOwnedPoints
    exact h7 p hp j hj
  simp only [h]
  exact I.edbNP1_tendsto hexp htaub p j

/-- C7, as amended: for fixed step-N and step-N+1 kinematics, fixed `edbN` and positive
`m_tau`, `m_tau_b`, the value `edbNP1` written for a bond tends to
`(m_tau_b/m_tau) * edNp1` as `delta_t` tends to infinity (`exp` being the real
exponential). -/
theorem computeInternalForceViscoelasticStandardLinearSolid_decay_limit
    (I : ViscoelasticInput ℝ) (edbNP1 fInternalOverlap : ℕ → ℝ) (numOwnedPoints p j : ℕ)
    (hp : p < numOwnedPoints) (hj : j < numNeighOf I.localNeighborList p)
    (hexp : I.exp = Real.exp) (htau : 0 < I.m_tau) (htaub : 0 < I.m_tau_b) :
    Filter.Tendsto
      (fun dt => ((I.withDeltaT dt).run edbNP1 fInternalOverlap numOwnedPoints).edbNP1
        (bondStart I.localNeighborList p + j)) Filter.atTop
      (nhds (I.m_tau_b / I.m_tau * I.edNp1 p j)) := by
  have _ := htau
  exact I.run_edbNP1_tendsto edbNP1 fInternalOverlap numOwnedPoints p j hp hj hexp htaub

theorem oneBondInput_edNp1 : (oneBondInput Real.sqrt Real.exp).edNp1 0 0 = 1 := by
  have h4 : Real.sqrt (2 * 2) = 2 := Real.sqrt_mul_self (by norm_num)
  simp [ViscoelasticInput.edNp1, viscoelasticExtension, bondLength, oneBondInput, neighOf,
    blockStart, bondStart, h4]
  norm_num

/-- C7, counterexample: in the one-bond system with `m_tau = 2`, `m_tau_b = 1` and
`edNp1 = 1`, the written `edbNP1` tends to `1/2` as `delta_t` tends to infinity, hence not to
`edNp1`. -/
theorem decay_limit_one_bond :
    (oneBondInput Real.sqrt Real.exp).edNp1 0 0 = 1
    ∧ Filter.Tendsto
        (fun dt => (((oneBondInput Real.sqrt Real.exp).withDeltaT dt).run (fun _ => 0)
          (fun _ => 0) 1).edbNP1 0) Filter.atTop (nhds (1 / 2))
    ∧ ¬ Filter.Tendsto
        (fun dt => (((oneBondInput Real.sqrt Real.exp).withDeltaT dt).run (fun _ => 0)
          (fun _ => 0) 1).edbNP1 0) Filter.atTop
        (nhds ((oneBondInput Real.sqrt Real.exp).edNp1 0 0)) := by
  have hlim := (oneBondInput Real.sqrt Real.exp).run_edbNP1_tendsto (fun _ => 0) (fun _ => 0)
    1 0 0 (by norm_num) (by simp [numNeighOf, blockStart, oneBondInput]) rfl
    (by simp [oneBondInput])
  rw [oneBondInput_edNp1] at hlim
  have hhalf : (oneBondInput Real.sqrt Real.exp).m_tau_b
      / (oneBondInput Real.sqrt Real.exp).m_tau * 1 = 1 / 2 := by
    simp [oneBondInput]
  rw [hhalf] at hlim
  have hidx : bondStart (oneBondInput Real.sqrt Real.exp).localNeighborList 0 + 0 = 0 := rfl
  rw [hidx] at hlim
  refine ⟨oneBondInput_edNp1, hlim, ?_⟩
  rw [oneBondInput_edNp1]
  intro hone
  have := tendsto_nhds_unique hlim hone
  norm_num at this

/-! ## The statements at the two-point configuration -/

theorem twoPoint_neighboursInRange :
    NeighboursInRange (twoPointInput Real.sqrt Real.pi).localNeighborList 2 2 := by
  unfold NeighboursInRange
  decide

theorem twoPointOwnedIDs_identity : ∀ p, p < 2 → twoPointOwnedIDs p = p := by
  decide

theorem computeDilatation_closed_form_witness :
    0 < 2 ∧ (twoPointInput Real.sqrt Real.pi).mOwned 0 ≠ 0
    ∧ computeDilatation Real.sqrt (twoPointInput Real.sqrt Real.pi).xOverlap
        (twoPointInput Real.sqrt Real.pi).yOverlap (twoPointInput Real.sqrt Real.pi).mOwned
        (twoPointInput Real.sqrt Real.pi).volumeOverlap
        (twoPointInput Real.sqrt Real.pi).bondDamage (fun _ => 0)
        (twoPointInput Real.sqrt Real.pi).localNeighborList 2 0 = 3 := by
  have hm : (twoPointInput Real.sqrt Real.pi).mOwned 0 ≠ 0 := by
    simp [twoPointInput]
  refine ⟨by norm_num, hm, ?_⟩
  rw [(computeDilatation_closed_form Real.sqrt (twoPointInput Real.sqrt Real.pi).xOverlap
    (twoPointInput Real.sqrt Real.pi).yOverlap (twoPointInput Real.sqrt Real.pi).mOwned
    (twoPointInput Real.sqrt Real.pi).volumeOverlap
    (twoPointInput Real.sqrt Real.pi).bondDamage (fun _ => 0)
    (twoPointInput Real.sqrt Real.pi).localNeighborList 2 0 (by norm_num) hm).1]
  have h4 : Real.sqrt (2 * 2) = 2 := Real.sqrt_mul_self (by norm_num)
  simp [numNeighOf, neighOf, blockStart, bondStart, bondLength, twoPointInput, h4]
  norm_num

theorem computeDilatation_ownedIDs_identity_witness :
    (∀ p, p < 2 → twoPointOwnedIDs p = p)
    ∧ computeDilatation_ownedIDs Real.sqrt (twoPointInput Real.sqrt Real.pi).xOverlap
        (twoPointInput Real.sqrt Real.pi).yOverlap (twoPointInput Real.sqrt Real.pi).mOwned
        (twoPointInput Real.sqrt Real.pi).volumeOverlap
        (twoPointInput Real.sqrt Real.pi).bondDamage (fun _ => 0) twoPointOwnedIDs
        (twoPointInput Real.sqrt Real.pi).localNeighborList 2
      = computeDilatation Real.sqrt (twoPointInput Real.sqrt Real.pi).xOverlap
        (twoPointInput Real.sqrt Real.pi).yOverlap (twoPointInput Real.sqrt Real.pi).mOwned
        (twoPointInput Real.sqrt Real.pi).volumeOverlap
        (twoPointInput Real.sqrt Real.pi).bondDamage (fun _ => 0)
        (twoPointInput Real.sqrt Real.pi).localNeighborList 2 :=
  ⟨twoPointOwnedIDs_identity,
    computeDilatation_ownedIDs_identity Real.sqrt (twoPointInput Real.sqrt Real.pi).xOverlap
      (twoPointInput Real.sqrt Real.pi).yOverlap (twoPointInput Real.sqrt Real.pi).mOwned
      (twoPointInput Real.sqrt Real.pi).volumeOverlap
      (twoPointInput Real.sqrt Real.pi).bondDamage (fun _ => 0) twoPointOwnedIDs
      (twoPointInput Real.sqrt Real.pi).localNeighborList 2 twoPointOwnedIDs_identity⟩

theorem computeInternalForce_ownedIDs_identity_witness :
    (∀ p, p < 2 → twoPointOwnedIDs p = p)
    ∧ computeInternalForceIsotropicElasticPlastic_ownedIDs Real.sqrt Real.pi
        (twoPointInput Real.sqrt Real.pi).xOverlap (twoPointInput Real.sqrt Real.pi).yOverlap
        (twoPointInput Real.sqrt Real.pi).mOwned (twoPointInput Real.sqrt Real.pi).volumeOverlap
        (twoPointInput Real.sqrt Real.pi).dilatationOwned
        (twoPointInput Real.sqrt Real.pi).bondDamage (twoPointInput Real.sqrt Real.pi).dsfOwned
        (twoPointInput Real.sqrt Real.pi).deviatoricPlasticExtensionStateN (fun _ => 0)
        (twoPointInput Real.sqrt Real.pi).lambdaN (fun _ => 0) (fun _ => 0) twoPointOwnedIDs
        (twoPointInput Real.sqrt Real.pi).localNeighborList 2 1 1 1 1
      = computeInternalForceIsotropicElasticPlastic Real.sqrt Real.pi
        (twoPointInput Real.sqrt Real.pi).xOverlap (twoPointInput Real.sqrt Real.pi).yOverlap
        (twoPointInput Real.sqrt Real.pi).mOwned (twoPointInput Real.sqrt Real.pi).volumeOverlap
        (twoPointInput Real.sqrt Real.pi).dilatationOwned
        (twoPointInput Real.sqrt Real.pi).bondDamage (twoPointInput Real.sqrt Real.pi).dsfOwned
        (twoPointInput Real.sqrt Real.pi).deviatoricPlasticExtensionStateN (fun _ => 0)
        (twoPointInput Real.sqrt Real.pi).lambdaN (fun _ => 0) (fun _ => 0)
        (twoPointInput Real.sqrt Real.pi).localNeighborList 2 1 1 1 1 :=
  ⟨twoPointOwnedIDs_identity,
    (computeInternalForce_ownedIDs_identity Real.sqrt Real.pi
      (twoPointInput Real.sqrt Real.pi).xOverlap (twoPointInput Real.sqrt Real.pi).yOverlap
      (twoPointInput Real.sqrt Real.pi).mOwned (twoPointInput Real.sqrt Real.pi).volumeOverlap
      (twoPointInput Real.sqrt Real.pi).dilatationOwned
      (twoPointInput Real.sqrt Real.pi).bondDamage (twoPointInput Real.sqrt Real.pi).dsfOwned
      (twoPointInput Real.sqrt Real.pi).deviatoricPlasticExtensionStateN (fun _ => 0)
      (twoPointInput Real.sqrt Real.pi).lambdaN (fun _ => 0) (fun _ => 0) twoPointOwnedIDs
      (twoPointInput Real.sqrt Real.pi).localNeighborList 2 1 1 1 1
      twoPointOwnedIDs_identity).2⟩

theorem computeInternalForceLinearElastic_bond_force_witness :
    numNeighOf (twoPointInput Real.sqrt Real.pi).localNeighborList 0 = 1
    ∧ neighOf (twoPointInput Real.sqrt Real.pi).localNeighborList 0 0 = 1
    ∧ ∀ k, k < 3 →
      computeInternalForceLinearElastic Real.sqrt (twoPointInput Real.sqrt Real.pi).xOverlap
        (twoPointInput Real.sqrt Real.pi).yOverlap (twoPointInput Real.sqrt Real.pi).mOwned
        (twoPointInput Real.sqrt Real.pi).volumeOverlap
        (twoPointInput Real.sqrt Real.pi).dilatationOwned
        (twoPointInput Real.sqrt Real.pi).bondDamage (fun _ => 0)
        (twoPointInput Real.sqrt Real.pi).localNeighborList 1 1 1 (3 * 0 + k)
      = ((twoPointInput Real.sqrt Real.pi).dilatationOwned 0 * (9 * 1 - 15 * 1)
              / (3 * (twoPointInput Real.sqrt Real.pi).mOwned 0)
            * bondLength Real.sqrt (twoPointInput Real.sqrt Real.pi).xOverlap (3 * 0) (3 * 1)
          + 15 * 1 / (twoPointInput Real.sqrt Real.pi).mOwned 0
            * (bondLength Real.sqrt (twoPointInput Real.sqrt Real.pi).yOverlap (3 * 0) (3 * 1)
              - bondLength Real.sqrt (twoPointInput Real.sqrt Real.pi).xOverlap (3 * 0) (3 * 1)))
        * ((twoPointInput Real.sqrt Real.pi).yOverlap (3 * 1 + k)
            - (twoPointInput Real.sqrt Real.pi).yOverlap (3 * 0 + k))
        / bondLength Real.sqrt (twoPointInput Real.sqrt Real.pi).yOverlap (3 * 0) (3 * 1)
        * (twoPointInput Real.sqrt Real.pi).volumeOverlap 1 :=
  ⟨rfl, rfl,
    (computeInternalForceLinearElastic_bond_force Real.sqrt
      (twoPointInput Real.sqrt Real.pi).xOverlap (twoPointInput Real.sqrt Real.pi).yOverlap
      (twoPointInput Real.sqrt Real.pi).mOwned (twoPointInput Real.sqrt Real.pi).volumeOverlap
      (twoPointInput Real.sqrt Real.pi).dilatationOwned
      (twoPointInput Real.sqrt Real.pi).bondDamage (fun _ => 0)
      (twoPointInput Real.sqrt Real.pi).localNeighborList 1 1 1).2.2 0 1 (by norm_num) rfl rfl
      (by norm_num) (fun p' hp' hne => absurd (Nat.lt_one_iff.mp hp') hne) rfl
      (fun _ _ => rfl)⟩

theorem twoPoint_dsf_ne_zero :
    ∀ p, p < 2 → (twoPointInput Real.sqrt Real.pi).dsfOwned p ≠ 0 := by
  intro p _
  simp [twoPointInput]

theorem computeInternalForceIsotropicElasticPlastic_elastic_step_witness :
    0 < (twoPointInput Real.sqrt Real.pi).pi
    ∧ 0 < (twoPointInput Real.sqrt Real.pi).HORIZON
    ∧ (∀ p, p < 2 → (twoPointInput Real.sqrt Real.pi).dsfOwned p ≠ 0)
    ∧ ∃ Y0 : ℝ, ∀ ys, Y0 ≤ ys → ∀ p, p < 2 →
        (((twoPointInput Real.sqrt Real.pi).withYieldStress ys).run (fun _ => 0) (fun _ => 0)
          (fun _ => 0) 2).lambdaNP1 p = (twoPointInput Real.sqrt Real.pi).lambdaN p := by
  have hpi : 0 < (twoPointInput Real.sqrt Real.pi).pi := Real.pi_pos
  have hH : 0 < (twoPointInput Real.sqrt Real.pi).HORIZON := by simp [twoPointInput]
  obtain ⟨Y0, hY⟩ := (computeInternalForceIsotropicElasticPlastic_elastic_step
    (twoPointInput Real.sqrt Real.pi) (fun _ => 0) (fun _ => 0) (fun _ => 0) 2).2.2 hpi hH
    twoPoint_dsf_ne_zero
  exact ⟨hpi, hH, twoPoint_dsf_ne_zero, Y0, fun ys hys p hp => (hY ys hys p hp).2⟩

theorem twoPoint_tdNorm : (twoPointInput Real.sqrt Real.pi).tdNorm 0 = 15 := by
  have h4 : Real.sqrt (2 * 2) = 2 := Real.sqrt_mul_self (by norm_num)
  simp [ElasticPlasticInput.tdNorm, ElasticPlasticInput.alpha, computeDeviatoricForceStateNorm,
    computeDeviatoricForceStateNorm_bond, forLoop, numNeighOf, blockStart, bondStart,
    twoPointInput, h4]
  norm_num

theorem twoPoint_yields :
    (twoPointInput Real.sqrt Real.pi).tdNorm 0 ^ 2 / 2
      - (twoPointInput Real.sqrt Real.pi).dsfOwned 0 ^ 2
        * (75 * (twoPointInput Real.sqrt Real.pi).yieldStress ^ 2
          / (8 * (twoPointInput Real.sqrt Real.pi).pi
            * (twoPointInput Real.sqrt Real.pi).HORIZON ^ 5)) > 0 := by
  rw [twoPoint_tdNorm]
  simp only [twoPointInput]
  have hpi := Real.pi_gt_three
  have h1 : 75 / (8 * Real.pi) < 75 / (8 * 3) :=
    div_lt_div_of_pos_left (by norm_num) (by norm_num) (by linarith)
  norm_num
  norm_num at h1
  linarith

theorem computeInternalForceIsotropicElasticPlastic_plastic_step_witness :
    0 < 2
    ∧ (twoPointInput Real.sqrt Real.pi).tdNorm 0 ^ 2 / 2
      - (twoPointInput Real.sqrt Real.pi).dsfOwned 0 ^ 2
        * (75 * (twoPointInput Real.sqrt Real.pi).yieldStress ^ 2
          / (8 * (twoPointInput Real.sqrt Real.pi).pi
            * (twoPointInput Real.sqrt Real.pi).HORIZON ^ 5)) > 0
    ∧ ((twoPointInput Real.sqrt Real.pi).run (fun _ => 0) (fun _ => 0) (fun _ => 0)
          2).lambdaNP1 0
      = (twoPointInput Real.sqrt Real.pi).lambdaN 0
        + ((twoPointInput Real.sqrt Real.pi).tdNorm 0
            / Real.sqrt (2 * (twoPointInput Real.sqrt Real.pi).pointWiseYieldValue 0) - 1)
          / (twoPointInput Real.sqrt Real.pi).alpha 0 :=
  ⟨by norm_num, twoPoint_yields,
    (computeInternalForceIsotropicElasticPlastic_plastic_step (twoPointInput Real.sqrt Real.pi)
      (fun _ => 0) (fun _ => 0) (fun _ => 0) 2 0 (by norm_num) twoPoint_yields).2.2.2.2.1⟩

theorem computeInternalForceViscoelasticStandardLinearSolid_back_state_witness :
    (oneBondInput Real.sqrt Real.exp).delta_t ≠ 0
    ∧ (oneBondInput Real.sqrt Real.exp).m_tau ≠ 0
    ∧ (oneBondInput Real.sqrt Real.exp).m_tau_b ≠ 0
    ∧ ((oneBondInput Real.sqrt Real.exp).run (fun _ => 0) (fun _ => 0) 1).edbNP1
          (bondStart (oneBondInput Real.sqrt Real.exp).localNeighborList 0 + 0)
        = ((oneBondInput Real.sqrt Real.exp).edbN
              (bondStart (oneBondInput Real.sqrt Real.exp).localNeighborList 0 + 0)
            - (oneBondInput Real.sqrt Real.exp).m_tau_b / (oneBondInput Real.sqrt Real.exp).m_tau
              * ((oneBondInput Real.sqrt Real.exp).edN 0 0
                - (oneBondInput Real.sqrt Real.exp).m_tau_b
                  / (oneBondInput Real.sqrt Real.exp).delta_t
                  * ((oneBondInput Real.sqrt Real.exp).edNp1 0 0
                    - (oneBondInput Real.sqrt Real.exp).edN 0 0)))
            * Real.exp (-(oneBondInput Real.sqrt Real.exp).delta_t
                / (oneBondInput Real.sqrt Real.exp).m_tau_b)
          + (oneBondInput Real.sqrt Real.exp).m_tau_b / (oneBondInput Real.sqrt Real.exp).m_tau
            * ((oneBondInput Real.sqrt Real.exp).edNp1 0 0
              - (oneBondInput Real.sqrt Real.exp).m_tau_b
                / (oneBondInput Real.sqrt Real.exp).delta_t
                * ((oneBondInput Real.sqrt Real.exp).edNp1 0 0
                  - (oneBondInput Real.sqrt Real.exp).edN 0 0)) := by
  have h1 : (oneBondInput Real.sqrt Real.exp).delta_t ≠ 0 := by simp [oneBondInput]
  have h2 : (oneBondInput Real.sqrt Real.exp).m_tau ≠ 0 := by simp [oneBondInput]
  have h3 : (oneBondInput Real.sqrt Real.exp).m_tau_b ≠ 0 := by simp [oneBondInput]
  exact ⟨h1, h2, h3,
    (computeInternalForceViscoelasticStandardLinearSolid_back_state
      (oneBondInput Real.sqrt Real.exp) (fun _ => 0) (fun _ => 0) 1 0 0 (by norm_num)
      (by simp [numNeighOf, blockStart, oneBondInput]) h1 h2 h3).2.2.1⟩

theorem computeInternalForceViscoelasticStandardLinearSolid_decay_limit_witness :
    (oneBondInput Real.sqrt Real.exp).exp = Real.exp
    ∧ 0 < (oneBondInput Real.sqrt Real.exp).m_tau
    ∧ 0 < (oneBondInput Real.sqrt Real.exp).m_tau_b
    ∧ Filter.Tendsto
        (fun dt => (((oneBondInput Real.sqrt Real.exp).withDeltaT dt).run (fun _ => 0)
          (fun _ => 0) 1).edbNP1
          (bondStart (oneBondInput Real.sqrt Real.exp).localNeighborList 0 + 0)) Filter.atTop
        (nhds ((oneBondInput Real.sqrt Real.exp).m_tau_b
          / (oneBondInput Real.sqrt Real.exp).m_tau
          * (oneBondInput Real.sqrt Real.exp).edNp1 0 0)) := by
  have h2 : 0 < (oneBondInput Real.sqrt Real.exp).m_tau := by simp [oneBondInput]
  have h3 : 0 < (oneBondInput Real.sqrt Real.exp).m_tau_b := by simp [oneBondInput]
  exact ⟨rfl, h2, h3,
    computeInternalForceViscoelasticStandardLinearSolid_decay_limit
      (oneBondInput Real.sqrt Real.exp) (fun _ => 0) (fun _ => 0) 1 0 0 (by norm_num)
      (by simp [numNeighOf, blockStart, oneBondInput]) rfl h2 h3⟩

/-! ## updateGeometry -/

theorem updateGeometry_loop (xOverlap uOverlap velocityOverlap yOverlap : ℕ → α) (dt : α)
    (n : ℕ) :
    forLoop (fun i y => Function.update y i (xOverlap i + uOverlap i + velocityOverlap i * dt))
      n yOverlap
    = fun i => if i < n then xOverlap i + uOverlap i + velocityOverlap i * dt
        else yOverlap i := by
  induction n with
  | zero => simp [forLoop]
  | succ k ih =>
    rw [forLoop_succ, ih]
    funext i
    by_cases h : i = k
    · subst h; simp
    · rw [Function.update_noteq h]
      have : i < k + 1 ↔ i < k := by omega
      simp only [this]

/-- C19: after `updateGeometry`, `y[i] = x[i] + u[i] + v[i]*dt` for every scalar index
`i < overLapLength` and `y[i]` is unchanged for `i >= overLapLength`; the length is used as a
number of scalars, so with `overLapLength = 3*N` every coordinate of each of the `N` points is
updated, and with `overLapLength = N` the scalars from `N` on are left as they were. -/
theorem updateGeometry_spec (xOverlap uOverlap velocityOverlap yOverlap : ℕ → α)
    (overLapLength : ℕ) (dt : α) :
    (∀ i, i < overLapLength →
      updateGeometry xOverlap uOverlap velocityOverlap yOverlap overLapLength dt i
        = xOverlap i + uOverlap i + velocityOverlap i * dt)
    ∧ (∀ i, overLapLength ≤ i →
      updateGeometry xOverlap uOverlap velocityOverlap yOverlap overLapLength dt i
        = yOverlap i)
    ∧ (∀ N q k, q < N → k < 3 →
      updateGeometry xOverlap uOverlap velocityOverlap yOverlap (3 * N) dt (3 * q + k)
        = xOverlap (3 * q + k) + uOverlap (3 * q + k) + velocityOverlap (3 * q + k) * dt)
    ∧ (∀ N i, N ≤ i →
      updateGeometry xOverlap uOverlap velocityOverlap yOverlap N dt i = yOverlap i) := by
  have h : ∀ L, updateGeometry xOverlap uOverlap velocityOverlap yOverlap L dt
      = fun i => if i < L then xOverlap i + uOverlap i + velocityOverlap i * dt
          else yOverlap i := by
    intro L
    unfold updateGeometry
    exact updateGeometry_loop xOverlap uOverlap velocityOverlap yOverlap dt L
  refine ⟨?_, ?_, ?_, ?_⟩
  · intro i hi
    simp only [h, hi, if_true]
  · intro i hi
    have : ¬ i < overLapLength := by omega
    simp only [h, this, if_false]
  · intro N q k hq hk
    have : 3 * q + k < 3 * N := by omega
    simp only [h, this, if_true]
  · intro N i hi
    have : ¬ i < N := by omega
    simp only [h, this, if_false]

/-! ## computeWeightedVolume -/

theorem computeWeightedVolume_bondLoop (X : ℕ) (xOverlap volumeOverlap : ℕ → α)
    (localNeighborList : ℕ → ℕ) (n : ℕ) (s : WeightedVolumeState α) :
    forLoop (fun _ => computeWeightedVolume_bond X xOverlap volumeOverlap localNeighborList) n s
    = { neighPtr := s.neighPtr + n
        m := s.m + ∑ j ∈ Finset.range n,
          bondLengthSquared xOverlap X (3 * localNeighborList (s.neighPtr + j))
            * volumeOverlap (localNeighborList (s.neighPtr + j)) } := by
  induction n with
  | zero => simp [forLoop]
  | succ k ih =>
    rw [forLoop_succ, ih]
    simp only [computeWeightedVolume_bond, bondLengthSquared, Finset.sum_range_succ, add_assoc]

theorem computeWeightedVolume_single_eq (X : ℕ) (xOverlap volumeOverlap : ℕ → α)
    (localNeighborList : ℕ → ℕ) (neighPtr : ℕ) :
    computeWeightedVolume_single X xOverlap volumeOverlap localNeighborList neighPtr
      = ∑ j ∈ Finset.range (localNeighborList neighPtr),
          bondLengthSquared xOverlap X (3 * localNeighborList (neighPtr + 1 + j))
            * volumeOverlap (localNeighborList (neighPtr + 1 + j)) := by
  simp only [computeWeightedVolume_single, computeWeightedVolume_bondLoop, zero_add]

theorem computeWeightedVolume_run (xOverlap volumeOverlap mOwned : ℕ → α)
    (localNeighborList : ℕ → ℕ) (n : ℕ) :
    (computeWeightedVolume xOverlap volumeOverlap mOwned n localNeighborList).neighPtr
        = blockStart localNeighborList n
    ∧ (∀ p, p < n →
        (computeWeightedVolume xOverlap volumeOverlap mOwned n localNeighborList).mOwned p
          = computeWeightedVolume_single (3 * p) xOverlap volumeOverlap localNeighborList
              (blockStart localNeighborList p))
    ∧ (∀ p, n ≤ p →
        (computeWeightedVolume xOverlap volumeOverlap mOwned n localNeighborList).mOwned p
          = mOwned p) := by
  unfold computeWeightedVolume
  induction n with
  | zero => simp [forLoop, blockStart]
  | succ k ih =>
    obtain ⟨h1, h2, h3⟩ := ih
    rw [forLoop_succ]
    simp only [computeWeightedVolume_point, h1]
    refine ⟨?_, ?_, ?_⟩
    · simp only [blockStart]
      omega
    · intro p hp
      by_cases hpk : p = k
      · subst hpk; simp
      · rw [Function.update_noteq hpk]
        exact h2 p (by omega)
    · intro p hp
      have hpk : p ≠ k := by omega
      rw [Function.update_noteq hpk]
      exact h3 p (by omega)

/-- C12: the array version of `computeWeightedVolume` writes, for every owned point
`p < myNumPoints`, `m[p] = Σ_n |X_n - X_p|^2 * volume[n]` over the neighbours of the block of
`p`; this is the value the single-point `computeWeightedVolume` returns for `X_p` and a pointer
to the block of `p` (no bond damage enters); an empty block gives `m[p] = 0`; and the block
cursor advances by `numNeigh + 1` per point. -/
theorem computeWeightedVolume_spec (xOverlap volumeOverlap mOwned : ℕ → α)
    (localNeighborList : ℕ → ℕ) (myNumPoints p : ℕ) (hp : p < myNumPoints) :
    (computeWeightedVolume xOverlap volumeOverlap mOwned myNumPoints localNeighborList).mOwned p
        = ∑ j ∈ Finset.range (numNeighOf localNeighborList p),
            bondLengthSquared xOverlap (3 * p) (3 * neighOf localNeighborList p j)
              * volumeOverlap (neighOf localNeighborList p j)
    ∧ (computeWeightedVolume xOverlap volumeOverlap mOwned myNumPoints
          localNeighborList).mOwned p
        = computeWeightedVolume_single (3 * p) xOverlap volumeOverlap localNeighborList
            (blockStart localNeighborList p)
    ∧ (numNeighOf localNeighborList p = 0 →
        (computeWeightedVolume xOverlap volumeOverlap mOwned myNumPoints
          localNeighborList).mOwned p = 0)
    ∧ (computeWeightedVolume xOverlap volumeOverlap mOwned (p + 1) localNeighborList).neighPtr
        = (computeWeightedVolume xOverlap volumeOverlap mOwned p localNeighborList).neighPtr
          + (numNeighOf localNeighborList p + 1) := by
  obtain ⟨_, h2, _⟩ := computeWeightedVolume_run xOverlap volumeOverlap mOwned
    localNeighborList myNumPoints
  have hsum : computeWeightedVolume_single (3 * p) xOverlap volumeOverlap localNeighborList
      (blockStart localNeighborList p)
      = ∑ j ∈ Finset.range (numNeighOf localNeighborList p),
            bondLengthSquared xOverlap (3 * p) (3 * neighOf localNeighborList p j)
              * volumeOverlap (neighOf localNeighborList p j) := by
    rw [computeWeightedVolume_single_eq]
    rfl
  refine ⟨by rw [h2 p hp, hsum], h2 p hp, ?_, ?_⟩
  · intro h0
    rw [h2 p hp, hsum, h0, Finset.sum_range_zero]
  · rw [(computeWeightedVolume_run xOverlap volumeOverlap mOwned localNeighborList (p + 1)).1,
      (computeWeightedVolume_run xOverlap volumeOverlap mOwned localNeighborList p).1]
    simp only [blockStart, numNeighOf]
    omega

/-! ## Single-point computeDilatation -/

theorem computeDilatation_single_bondLoop (sqrt : α → α) (X : ℕ) (xOverlap : ℕ → α) (Y : ℕ)
    (yOverlap volumeOverlap : ℕ → α) (m : α) (localNeighborList : ℕ → ℕ) (n : ℕ)
    (s : DilatationSingleState α) :
    forLoop (fun _ => computeDilatation_single_bond sqrt X xOverlap Y yOverlap volumeOverlap m
      localNeighborList) n s
    = { neighPtr := s.neighPtr + n
        theta := s.theta + ∑ j ∈ Finset.range n,
          3 * (1 - 0) * bondLength sqrt xOverlap X (3 * localNeighborList (s.neighPtr + j))
            * (bondLength sqrt yOverlap Y (3 * localNeighborList (s.neighPtr + j))
                - bondLength sqrt xOverlap X (3 * localNeighborList (s.neighPtr + j)))
            * volumeOverlap (localNeighborList (s.neighPtr + j)) / m } := by
  induction n with
  | zero => simp [forLoop]
  | succ k ih =>
    rw [forLoop_succ, ih]
    simp only [computeDilatation_single_bond, bondLength, Finset.sum_range_succ, add_assoc,
      mul_one]

theorem computeDilatation_single_eq (sqrt : α → α) (localNeighborList : ℕ → ℕ) (neighPtr X : ℕ)
    (xOverlap : ℕ → α) (Y : ℕ) (yOverlap volumeOverlap : ℕ → α) (weightedVolume : α) :
    computeDilatation_single sqrt localNeighborList neighPtr X xOverlap Y yOverlap
        volumeOverlap weightedVolume
      = ∑ j ∈ Finset.range (localNeighborList neighPtr),
          3 * (1 - 0) * bondLength sqrt xOverlap X (3 * localNeighborList (neighPtr + 1 + j))
            * (bondLength sqrt yOverlap Y (3 * localNeighborList (neighPtr + 1 + j))
                - bondLength sqrt xOverlap X (3 * localNeighborList (neighPtr + 1 + j)))
            * volumeOverlap (localNeighborList (neighPtr + 1 + j)) / weightedVolume := by
  simp only [computeDilatation_single, computeDilatation_single_bondLoop, zero_add]

/-- C18: for every owned point `p` all of whose bond-damage entries are zero, the single-point
`computeDilatation` called with `X = X_p`, `Y = Y_p`, `weightedVolume = m[p]` and `neighPtr`
at the start of the block of `p` returns the `theta[p]` that the dense array version writes on
the same arrays. -/
theorem computeDilatation_single_eq_dense (sqrt : α → α)
    (xOverlap yOverlap mOwned volumeOverlap bondDamage dilatationOwned : ℕ → α)
    (localNeighborList : ℕ → ℕ) (numOwnedPoints p : ℕ) (hp : p < numOwnedPoints)
    (hd : ∀ j, j < numNeighOf localNeighborList p →
      bondDamage (bondStart localNeighborList p + j) = 0) :
    computeDilatation_single sqrt localNeighborList (blockStart localNeighborList p) (3 * p)
        xOverlap (3 * p) yOverlap volumeOverlap (mOwned p)
      = computeDilatation sqrt xOverlap yOverlap mOwned volumeOverlap bondDamage
          dilatationOwned localNeighborList numOwnedPoints p := by
  obtain ⟨_, _, h3, _⟩ := computeDilatation_run_invariant sqrt xOverlap yOverlap mOwned
    volumeOverlap bondDamage dilatationOwned localNeighborList numOwnedPoints
  unfold computeDilatation
  rw [h3 p hp, computeDilatation_single_eq]
  unfold dilatationSum dilatationTerm
  apply Finset.sum_congr rfl
  intro j hj
  rw [hd j (Finset.mem_range.mp hj)]
  rfl

/-! ## computeDeviatoricForceStateNorm -/

theorem computeDeviatoricForceStateNorm_bondLoop (sqrt : α → α) (theta : α)
    (localNeighborList : ℕ → ℕ) (bondDamage deviatoricPlasticExtensionState : ℕ → α)
    (X Y : ℕ) (xOverlap yOverlap volumeOverlap : ℕ → α) (alpha OMEGA : α) (n : ℕ)
    (s : NormState α) :
    forLoop (fun _ => computeDeviatoricForceStateNorm_bond sqrt theta localNeighborList
      bondDamage deviatoricPlasticExtensionState X Y xOverlap yOverlap volumeOverlap alpha
      OMEGA) n s
    = { neighPtr := s.neighPtr + n
        bondDamagePtr := s.bondDamagePtr + n
        deviatoricPlasticExtensionStatePtr := s.deviatoricPlasticExtensionStatePtr + n
        norm := s.norm + ∑ j ∈ Finset.range n,
          ((1 - bondDamage (s.bondDamagePtr + j)) * alpha * OMEGA
              * (deviatoricExtension sqrt xOverlap yOverlap X Y theta
                    (localNeighborList (s.neighPtr + j))
                  - deviatoricPlasticExtensionState
                      (s.deviatoricPlasticExtensionStatePtr + j))) ^ 2
            * volumeOverlap (localNeighborList (s.neighPtr + j)) } := by
  induction n with
  | zero => simp [forLoop]
  | succ k ih =>
    rw [forLoop_succ, ih]
    simp only [computeDeviatoricForceStateNorm_bond, deviatoricExtension, bondLength,
      Finset.sum_range_succ, add_assoc, pow_two]

/-- C20: `computeDeviatoricForceStateNorm` returns
`sqrt(Σ_n ((1-d_n)*alpha*OMEGA*(ed_n - edp_n))^2 * volume[n])` over the `numNeigh` bonds of the
block, `ed_n = |Y_n-Y| - zeta_n - theta*zeta_n/3`; the value is non-negative and is `0` for an
empty block (for a `sqrt` that is non-negative with `sqrt 0 = 0`); it is a function of its
arguments only, and a call from the elastic-plastic evaluator leaves the caller's cursors
where they were: the body of owned point `p` advances the neighbour cursor by `1 + numNeigh`
and the three bond cursors by `numNeigh` in total. -/
theorem computeDeviatoricForceStateNorm_spec (sqrt : α → α) (numNeigh : ℕ) (theta : α)
    (localNeighborList : ℕ → ℕ) (neighPtr : ℕ) (bondDamage : ℕ → α) (bondDamagePtr : ℕ)
    (deviatoricPlasticExtensionState : ℕ → α) (deviatoricPlasticExtensionStatePtr : ℕ)
    (X Y : ℕ) (xOverlap yOverlap volumeOverlap : ℕ → α) (alpha OMEGA : α)
    (I : ElasticPlasticInput α) (p : ℕ) (s : ElasticPlasticState α)
    (hsqrt0 : ∀ x, 0 ≤ sqrt x) (hzero : sqrt 0 = 0)
    (h1 : s.neighPtr = blockStart I.localNeighborList p)
    (h2 : s.bondDamagePtr = bondStart I.localNeighborList p)
    (h3 : s.deviatoricPlasticExtensionStateNPtr = bondStart I.localNeighborList p)
    (h4 : s.deviatoricPlasticExtensionStateNp1Ptr = bondStart I.localNeighborList p) :
    computeDeviatoricForceStateNorm sqrt numNeigh theta localNeighborList neighPtr bondDamage
        bondDamagePtr deviatoricPlasticExtensionState deviatoricPlasticExtensionStatePtr X Y
        xOverlap yOverlap volumeOverlap alpha OMEGA
      = sqrt (∑ j ∈ Finset.range numNeigh,
          ((1 - bondDamage (bondDamagePtr + j)) * alpha * OMEGA
              * (bondLength sqrt yOverlap Y (3 * localNeighborList (neighPtr + j))
                  - bondLength sqrt xOverlap X (3 * localNeighborList (neighPtr + j))
                  - theta * bondLength sqrt xOverlap X (3 * localNeighborList (neighPtr + j)) / 3
                  - deviatoricPlasticExtensionState (deviatoricPlasticExtensionStatePtr + j)))
              ^ 2
            * volumeOverlap (localNeighborList (neighPtr + j)))
    ∧ 0 ≤ computeDeviatoricForceStateNorm sqrt numNeigh theta localNeighborList neighPtr
        bondDamage bondDamagePtr deviatoricPlasticExtensionState
        deviatoricPlasticExtensionStatePtr X Y xOverlap yOverlap volumeOverlap alpha OMEGA
    ∧ computeDeviatoricForceStateNorm sqrt 0 theta localNeighborList neighPtr
        bondDamage bondDamagePtr deviatoricPlasticExtensionState
        deviatoricPlasticExtensionStatePtr X Y xOverlap yOverlap volumeOverlap alpha OMEGA = 0
    ∧ (computeInternalForceIsotropicElasticPlastic_point I.sqrt I.xOverlap I.yOverlap I.mOwned
        I.volumeOverlap I.dilatationOwned I.bondDamage I.dsfOwned
        I.deviatoricPlasticExtensionStateN I.lambdaN I.localNeighborList I.BULK_MODULUS
        I.SHEAR_MODULUS (yieldValue3d I.pi I.HORIZON I.yieldStress) p s).neighPtr
      = s.neighPtr + 1 + numNeighOf I.localNeighborList p
    ∧ (computeInternalForceIsotropicElasticPlastic_point I.sqrt I.xOverlap I.yOverlap I.mOwned
        I.volumeOverlap I.dilatationOwned I.bondDamage I.dsfOwned
        I.deviatoricPlasticExtensionStateN I.lambdaN I.localNeighborList I.BULK_MODULUS
        I.SHEAR_MODULUS (yieldValue3d I.pi I.HORIZON I.yieldStress) p s).bondDamagePtr
      = s.bondDamagePtr + numNeighOf I.localNeighborList p
    ∧ (computeInternalForceIsotropicElasticPlastic_point I.sqrt I.xOverlap I.yOverlap I.mOwned
        I.volumeOverlap I.dilatationOwned I.bondDamage I.dsfOwned
        I.deviatoricPlasticExtensionStateN I.lambdaN I.localNeighborList I.BULK_MODULUS
        I.SHEAR_MODULUS (yieldValue3d I.pi I.HORIZON I.yieldStress) p
        s).deviatoricPlasticExtensionStateNPtr
      = s.deviatoricPlasticExtensionStateNPtr + numNeighOf I.localNeighborList p
    ∧ (computeInternalForceIsotropicElasticPlastic_point I.sqrt I.xOverlap I.yOverlap I.mOwned
        I.volumeOverlap I.dilatationOwned I.bondDamage I.dsfOwned
        I.deviatoricPlasticExtensionStateN I.lambdaN I.localNeighborList I.BULK_MODULUS
        I.SHEAR_MODULUS (yieldValue3d I.pi I.HORIZON I.yieldStress) p
        s).deviatoricPlasticExtensionStateNp1Ptr
      = s.deviatoricPlasticExtensionStateNp1Ptr + numNeighOf I.localNeighborList p := by
  refine ⟨?_, ?_, ?_, ?_, ?_, ?_, ?_⟩
  · simp only [computeDeviatoricForceStateNorm, computeDeviatoricForceStateNorm_bondLoop,
      zero_add, deviatoricExtension]
  · unfold computeDeviatoricForceStateNorm
    exact hsqrt0 _
  · simp only [computeDeviatoricForceStateNorm, forLoop, hzero]
  · rw [I.plastic_point_eq p s h1 h2 h3 h4, h1]
    rfl
  · rw [I.plastic_point_eq p s h1 h2 h3 h4, h2]
    rfl
  · rw [I.plastic_point_eq p s h1 h2 h3 h4, h3]
    rfl
  · rw [I.plastic_point_eq p s h1 h2 h3 h4, h4]
    rfl

/-! ## set_pure_shear -/

theorem set_pure_shear_bond_eq (X : ℕ) (xOverlap : ℕ → α) (localNeighborList : ℕ → ℕ)
    (mode : PURE_SHEAR) (gamma : α) (s : PureShearState α) :
    set_pure_shear_bond X xOverlap localNeighborList mode gamma s
    = { neighPtr := s.neighPtr + 1
        yOverlap := Function.update (Function.update (Function.update s.yOverlap
            (3 * localNeighborList s.neighPtr + 0)
              (pureShearPosition mode gamma xOverlap X (localNeighborList s.neighPtr) 0))
            (3 * localNeighborList s.neighPtr + 1)
              (pureShearPosition mode gamma xOverlap X (localNeighborList s.neighPtr) 1))
            (3 * localNeighborList s.neighPtr + 2)
              (pureShearPosition mode gamma xOverlap X (localNeighborList s.neighPtr) 2) } := by
  cases mode <;>
    simp only [set_pure_shear_bond, pureShearPosition, pureShearDisplacement]

theorem set_pure_shear_bond_apply (X : ℕ) (xOverlap : ℕ → α) (localNeighborList : ℕ → ℕ)
    (mode : PURE_SHEAR) (gamma : α) (s : PureShearState α) (i : ℕ) :
    (set_pure_shear_bond X xOverlap localNeighborList mode gamma s).yOverlap i
      = if 3 * localNeighborList s.neighPtr ≤ i ∧ i < 3 * localNeighborList s.neighPtr + 3 then
          pureShearPosition mode gamma xOverlap X (localNeighborList s.neighPtr)
            (i - 3 * localNeighborList s.neighPtr)
        else s.yOverlap i := by
  rw [set_pure_shear_bond_eq]
  simp only [Function.update_apply]
  by_cases h2 : i = 3 * localNeighborList s.neighPtr + 2
  · subst h2; simp
  · by_cases h1 : i = 3 * localNeighborList s.neighPtr + 1
    · subst h1; simp
    · by_cases h0 : i = 3 * localNeighborList s.neighPtr + 0
      · subst h0; simp
      · have : ¬ (3 * localNeighborList s.neighPtr ≤ i
            ∧ i < 3 * localNeighborList s.neighPtr + 3) := by omega
        simp only [h2, h1, h0, this, if_false]

/-- Closed form of `set_pure_shear`: after the loop over `n` neighbours starting at cursor
`c`, the three entries of each of these neighbours hold the sheared reference position, and
every other entry is as before. -/
theorem set_pure_shear_loop (X : ℕ) (xOverlap : ℕ → α) (localNeighborList : ℕ → ℕ)
    (mode : PURE_SHEAR) (gamma : α) (n : ℕ) (s : PureShearState α) :
    (forLoop (fun _ => set_pure_shear_bond X xOverlap localNeighborList mode gamma) n
        s).neighPtr = s.neighPtr + n
    ∧ (∀ j k, j < n → k < 3 →
        (forLoop (fun _ => set_pure_shear_bond X xOverlap localNeighborList mode gamma) n
          s).yOverlap (3 * localNeighborList (s.neighPtr + j) + k)
          = pureShearPosition mode gamma xOverlap X (localNeighborList (s.neighPtr + j)) k)
    ∧ (∀ i, (∀ j k, j < n → k < 3 → i ≠ 3 * localNeighborList (s.neighPtr + j) + k) →
        (forLoop (fun _ => set_pure_shear_bond X xOverlap localNeighborList mode gamma) n
          s).yOverlap i = s.yOverlap i) := by
  induction n with
  | zero =>
    refine ⟨rfl, ?_, ?_⟩
    · intro j k hj; omega
    · intro i _; rfl
  | succ m ih =>
    obtain ⟨h1, h2, h3⟩ := ih
    rw [forLoop_succ]
    refine ⟨?_, ?_, ?_⟩
    · rw [set_pure_shear_bond_eq, h1]
      simp only []
      omega
    · intro j k hj hk
      rw [set_pure_shear_bond_apply, h1]
      by_cases hc : 3 * localNeighborList (s.neighPtr + m)
            ≤ 3 * localNeighborList (s.neighPtr + j) + k
          ∧ 3 * localNeighborList (s.neighPtr + j) + k
            < 3 * localNeighborList (s.neighPtr + m) + 3
      · have he : localNeighborList (s.neighPtr + j) = localNeighborList (s.neighPtr + m) := by
          omega
        have hk' : 3 * localNeighborList (s.neighPtr + j) + k
            - 3 * localNeighborList (s.neighPtr + m) = k := by omega
        rw [if_pos hc, hk', he]
      · simp only [hc, if_false]
        have hjm : j < m := by
          by_contra hnot
          have : j = m := by omega
          subst this
          apply hc
          omega
        exact h2 j k hjm hk
    · intro i hi
      rw [set_pure_shear_bond_apply, h1]
      have hc : ¬ (3 * localNeighborList (s.neighPtr + m) ≤ i
          ∧ i < 3 * localNeighborList (s.neighPtr + m) + 3) := by
        intro hcon
        have h0 := hi m (i - 3 * localNeighborList (s.neighPtr + m)) (Nat.lt_succ_self m)
          (by omega)
        apply h0
        omega
      simp only [hc, if_false]
      exact h3 i (fun j k hj hk => hi j k (Nat.lt_succ_of_lt hj) hk)

theorem set_pure_shear_eq (localNeighborList : ℕ → ℕ) (neighPtr X : ℕ)
    (xOverlap yOverlap : ℕ → α) (mode : PURE_SHEAR) (gamma : α) :
    (∀ j k, j < localNeighborList neighPtr → k < 3 →
        set_pure_shear localNeighborList neighPtr X xOverlap yOverlap mode gamma
          (3 * localNeighborList (neighPtr + 1 + j) + k)
          = pureShearPosition mode gamma xOverlap X (localNeighborList (neighPtr + 1 + j)) k)
    ∧ (∀ i, (∀ j k, j < localNeighborList neighPtr → k < 3 →
          i ≠ 3 * localNeighborList (neighPtr + 1 + j) + k) →
        set_pure_shear localNeighborList neighPtr X xOverlap yOverlap mode gamma i
          = yOverlap i) := by
  obtain ⟨_, h2, h3⟩ := set_pure_shear_loop X xOverlap localNeighborList mode gamma
    (localNeighborList neighPtr) { neighPtr := neighPtr + 1, yOverlap := yOverlap }
  exact ⟨h2, h3⟩

/-- C15, as amended: for every neighbour `n` of the block, `set_pure_shear` writes the
reference position `X_n` with one component shifted per mode: mode XY adds `gamma*dy` to the
x-component, mode ZX adds `gamma*dx` to the z-component, mode YZ adds `gamma*dz` to the
y-component, `(dx,dy,dz) = X_n - X`; the other two components equal those of `X_n`. -/
theorem set_pure_shear_axis_mapping (localNeighborList : ℕ → ℕ) (neighPtr X : ℕ)
    (xOverlap yOverlap : ℕ → α) (gamma : α) (j : ℕ) (hj : j < localNeighborList neighPtr) :
    (set_pure_shear localNeighborList neighPtr X xOverlap yOverlap PURE_SHEAR.XY gamma
          (3 * localNeighborList (neighPtr + 1 + j) + 0)
        = xOverlap (3 * localNeighborList (neighPtr + 1 + j) + 0)
          + gamma * (xOverlap (3 * localNeighborList (neighPtr + 1 + j) + 1) - xOverlap (X + 1))
      ∧ set_pure_shear localNeighborList neighPtr X xOverlap yOverlap PURE_SHEAR.XY gamma
          (3 * localNeighborList (neighPtr + 1 + j) + 1)
        = xOverlap (3 * localNeighborList (neighPtr + 1 + j) + 1)
      ∧ set_pure_shear localNeighborList neighPtr X xOverlap yOverlap PURE_SHEAR.XY gamma
          (3 * localNeighborList (neighPtr + 1 + j) + 2)
        = xOverlap (3 * localNeighborList (neighPtr + 1 + j) + 2))
    ∧ (set_pure_shear localNeighborList neighPtr X xOverlap yOverlap PURE_SHEAR.ZX gamma
          (3 * localNeighborList (neighPtr + 1 + j) + 0)
        = xOverlap (3 * localNeighborList (neighPtr + 1 + j) + 0)
      ∧ set_pure_shear localNeighborList neighPtr X xOverlap yOverlap PURE_SHEAR.ZX gamma
          (3 * localNeighborList (neighPtr + 1 + j) + 1)
        = xOverlap (3 * localNeighborList (neighPtr + 1 + j) + 1)
      ∧ set_pure_shear localNeighborList neighPtr X xOverlap yOverlap PURE_SHEAR.ZX gamma
          (3 * localNeighborList (neighPtr + 1 + j) + 2)
        = xOverlap (3 * localNeighborList (neighPtr + 1 + j) + 2)
          + gamma * (xOverlap (3 * localNeighborList (neighPtr + 1 + j) + 0) - xOverlap (X + 0)))
    ∧ (set_pure_shear localNeighborList neighPtr X xOverlap yOverlap PURE_SHEAR.YZ gamma
          (3 * localNeighborList (neighPtr + 1 + j) + 0)
        = xOverlap (3 * localNeighborList (neighPtr + 1 + j) + 0)
      ∧ set_pure_shear localNeighborList neighPtr X xOverlap yOverlap PURE_SHEAR.YZ gamma
          (3 * localNeighborList (neighPtr + 1 + j) + 1)
        = xOverlap (3 * localNeighborList (neighPtr + 1 + j) + 1)
          + gamma * (xOverlap (3 * localNeighborList (neighPtr + 1 + j) + 2) - xOverlap (X + 2))
      ∧ set_pure_shear localNeighborList neighPtr X xOverlap yOverlap PURE_SHEAR.YZ gamma
          (3 * localNeighborList (neighPtr + 1 + j) + 2)
        = xOverlap (3 * localNeighborList (neighPtr + 1 + j) + 2)) := by
  have hXY := (set_pure_shear_eq localNeighborList neighPtr X xOverlap yOverlap
    PURE_SHEAR.XY gamma).1 j
  have hZX := (set_pure_shear_eq localNeighborList neighPtr X xOverlap yOverlap
    PURE_SHEAR.ZX gamma).1 j
  have hYZ := (set_pure_shear_eq localNeighborList neighPtr X xOverlap yOverlap
    PURE_SHEAR.YZ gamma).1 j
  refine ⟨⟨?_, ?_, ?_⟩, ⟨?_, ?_, ?_⟩, ⟨?_, ?_, ?_⟩⟩
  · rw [hXY 0 hj (by norm_num)]; simp [pureShearPosition, pureShearDisplacement]
  · rw [hXY 1 hj (by norm_num)]; simp [pureShearPosition, pureShearDisplacement]
  · rw [hXY 2 hj (by norm_num)]; simp [pureShearPosition, pureShearDisplacement]
  · rw [hZX 0 hj (by norm_num)]; simp [pureShearPosition, pureShearDisplacement]
  · rw [hZX 1 hj (by norm_num)]; simp [pureShearPosition, pureShearDisplacement]
  · rw [hZX 2 hj (by norm_num)]; simp [pureShearPosition, pureShearDisplacement]
  · rw [hYZ 0 hj (by norm_num)]; simp [pureShearPosition, pureShearDisplacement]
  · rw [hYZ 1 hj (by norm_num)]; simp [pureShearPosition, pureShearDisplacement]
  · rw [hYZ 2 hj (by norm_num)]; simp [pureShearPosition, pureShearDisplacement]

/-- C15, counterexample to the mapping as section 4.7 states it: for the neighbour at
`(1, 2, 3)` of the point at the origin and `gamma = 1`, mode XY leaves the y-component at `2`
(it is not `2 + gamma*dx = 3`) and moves the x-component from `1` to `1 + gamma*dy = 3`; mode
YZ leaves the x-component at `1` (it is not `1 + gamma*dz = 4`) and moves the y-component from
`2` to `2 + gamma*dz = 5`. -/
theorem pure_shear_stated_mapping_fails :
    (set_pure_shear shearProbeNeighborList 0 0 (shearProbeReference : ℕ → ℚ) (fun _ => 0)
        PURE_SHEAR.XY 1 (3 * 1 + 1) = 2
      ∧ set_pure_shear shearProbeNeighborList 0 0 (shearProbeReference : ℕ → ℚ) (fun _ => 0)
          PURE_SHEAR.XY 1 (3 * 1 + 1)
        ≠ shearProbeReference (3 * 1 + 1)
          + 1 * (shearProbeReference (3 * 1 + 0) - shearProbeReference (0 + 0)))
    ∧ (set_pure_shear shearProbeNeighborList 0 0 (shearProbeReference : ℕ → ℚ) (fun _ => 0)
        PURE_SHEAR.XY 1 (3 * 1 + 0) = 3
      ∧ set_pure_shear shearProbeNeighborList 0 0 (shearProbeReference : ℕ → ℚ) (fun _ => 0)
          PURE_SHEAR.XY 1 (3 * 1 + 0)
        ≠ shearProbeReference (3 * 1 + 0))
    ∧ (set_pure_shear shearProbeNeighborList 0 0 (shearProbeReference : ℕ → ℚ) (fun _ => 0)
        PURE_SHEAR.YZ 1 (3 * 1 + 0) = 1
      ∧ set_pure_shear shearProbeNeighborList 0 0 (shearProbeReference : ℕ → ℚ) (fun _ => 0)
          PURE_SHEAR.YZ 1 (3 * 1 + 0)
        ≠ shearProbeReference (3 * 1 + 0)
          + 1 * (shearProbeReference (3 * 1 + 2) - shearProbeReference (0 + 2)))
    ∧ (set_pure_shear shearProbeNeighborList 0 0 (shearProbeReference : ℕ → ℚ) (fun _ => 0)
        PURE_SHEAR.YZ 1 (3 * 1 + 1) = 5
      ∧ set_pure_shear shearProbeNeighborList 0 0 (shearProbeReference : ℕ → ℚ) (fun _ => 0)
          PURE_SHEAR.YZ 1 (3 * 1 + 1)
        ≠ shearProbeReference (3 * 1 + 1)) := by
  have hXY := (set_pure_shear_eq shearProbeNeighborList 0 0 (shearProbeReference : ℕ → ℚ)
    (fun _ => 0) PURE_SHEAR.XY 1).1 0
  have hYZ := (set_pure_shear_eq shearProbeNeighborList 0 0 (shearProbeReference : ℕ → ℚ)
    (fun _ => 0) PURE_SHEAR.YZ 1).1 0
  have hn : shearProbeNeighborList (0 + 1 + 0) = 1 := rfl
  have h0 : 0 < shearProbeNeighborList 0 := by decide
  rw [hn] at hXY hYZ
  have a1 : set_pure_shear shearProbeNeighborList 0 0 (shearProbeReference : ℕ → ℚ)
      (fun _ => 0) PURE_SHEAR.XY 1 (3 * 1 + 1) = 2 := by
    rw [hXY 1 h0 (by norm_num)]
    simp [pureShearPosition, pureShearDisplacement, shearProbeReference]
  have a2 : set_pure_shear shearProbeNeighborList 0 0 (shearProbeReference : ℕ → ℚ)
      (fun _ => 0) PURE_SHEAR.XY 1 (3 * 1 + 0) = 3 := by
    rw [hXY 0 h0 (by norm_num)]
    simp [pureShearPosition, pureShearDisplacement, shearProbeReference]
    norm_num
  have a3 : set_pure_shear shearProbeNeighborList 0 0 (shearProbeReference : ℕ → ℚ)
      (fun _ => 0) PURE_SHEAR.YZ 1 (3 * 1 + 0) = 1 := by
    rw [hYZ 0 h0 (by norm_num)]
    simp [pureShearPosition, pureShearDisplacement, shearProbeReference]
  have a4 : set_pure_shear shearProbeNeighborList 0 0 (shearProbeReference : ℕ → ℚ)
      (fun _ => 0) PURE_SHEAR.YZ 1 (3 * 1 + 1) = 5 := by
    rw [hYZ 1 h0 (by norm_num)]
    simp [pureShearPosition, pureShearDisplacement, shearProbeReference]
    norm_num
  refine ⟨⟨a1, ?_⟩, ⟨a2, ?_⟩, ⟨a3, ?_⟩, ⟨a4, ?_⟩⟩
  · rw [a1]
    simp [shearProbeReference]
  · rw [a2]
    simp [shearProbeReference]
  · rw [a3]
    simp [shearProbeReference]
  · rw [a4]
    simp [shearProbeReference]

/-- C16: in mode XY `set_pure_shear` writes, for every neighbour `n` of the block,
`YP[0] = XP[0] + gamma*dy` with `dy = XP[1] - X[1]`, `YP[1] = XP[1]` and `YP[2] = XP[2]`; the
entries of every point that is not in the block are unchanged; and the written values are the
same for every previous content of `yOverlap`. -/
theorem set_pure_shear_XY (localNeighborList : ℕ → ℕ) (neighPtr X : ℕ)
    (xOverlap yOverlap : ℕ → α) (gamma : α) (j : ℕ) (hj : j < localNeighborList neighPtr) :
    set_pure_shear localNeighborList neighPtr X xOverlap yOverlap PURE_SHEAR.XY gamma
          (3 * localNeighborList (neighPtr + 1 + j) + 0)
        = xOverlap (3 * localNeighborList (neighPtr + 1 + j) + 0)
          + gamma * (xOverlap (3 * localNeighborList (neighPtr + 1 + j) + 1) - xOverlap (X + 1))
    ∧ set_pure_shear localNeighborList neighPtr X xOverlap yOverlap PURE_SHEAR.XY gamma
          (3 * localNeighborList (neighPtr + 1 + j) + 1)
        = xOverlap (3 * localNeighborList (neighPtr + 1 + j) + 1)
    ∧ set_pure_shear localNeighborList neighPtr X xOverlap yOverlap PURE_SHEAR.XY gamma
          (3 * localNeighborList (neighPtr + 1 + j) + 2)
        = xOverlap (3 * localNeighborList (neighPtr + 1 + j) + 2)
    ∧ (∀ q, (∀ j', j' < localNeighborList neighPtr →
          localNeighborList (neighPtr + 1 + j') ≠ q) →
        ∀ k, k < 3 →
          set_pure_shear localNeighborList neighPtr X xOverlap yOverlap PURE_SHEAR.XY gamma
            (3 * q + k) = yOverlap (3 * q + k))
    ∧ (∀ (yOther : ℕ → α) k, k < 3 →
        set_pure_shear localNeighborList neighPtr X xOverlap yOverlap PURE_SHEAR.XY gamma
            (3 * localNeighborList (neighPtr + 1 + j) + k)
          = set_pure_shear localNeighborList neighPtr X xOverlap yOther PURE_SHEAR.XY gamma
            (3 * localNeighborList (neighPtr + 1 + j) + k)) := by
  obtain ⟨hw, hu⟩ := set_pure_shear_eq localNeighborList neighPtr X xOverlap yOverlap
    PURE_SHEAR.XY gamma
  refine ⟨?_, ?_, ?_, ?_, ?_⟩
  · rw [hw j 0 hj (by norm_num)]; simp [pureShearPosition, pureShearDisplacement]
  · rw [hw j 1 hj (by norm_num)]; simp [pureShearPosition, pureShearDisplacement]
  · rw [hw j 2 hj (by norm_num)]; simp [pureShearPosition, pureShearDisplacement]
  · intro q hq k hk
    apply hu
    intro j' k' hj' hk' heq
    apply hq j' hj'
    omega
  · intro yOther k hk
    rw [hw j k hj hk, (set_pure_shear_eq localNeighborList neighPtr X xOverlap yOther
      PURE_SHEAR.XY gamma).1 j k hj hk]

/-! ## computeShearCorrectionFactor -/

theorem ShearCorrectionInput.probes_eq (I : ShearCorrectionInput α) (p : ℕ)
    (yOverlap : ℕ → α) :
    computeShearCorrectionFactor_probes I.sqrt I.xOverlap I.volumeOverlap
        I.owned_weighted_volume I.localNeighborList p (blockStart I.localNeighborList p)
        yOverlap
      = (I.probe p (I.probe p (I.probe p yOverlap PURE_SHEAR.XY) PURE_SHEAR.ZX) PURE_SHEAR.YZ,
          max (I.normXY p yOverlap) (max (I.normZX p yOverlap) (I.normYZ p yOverlap))) := by
  have hmax : ∀ a b c : α,
      (if c > (if b > a then b else a) then c else (if b > a then b else a))
        = max a (max b c) := by
    intro a b c
    by_cases h1 : b > a
    · by_cases h2 : c > b
      · rw [if_pos h1, if_pos h2, max_eq_right (le_of_lt h2), max_eq_right]
        exact le_of_lt (lt_trans h1 h2)
      · rw [if_pos h1, if_neg h2, max_eq_left (not_lt.mp h2), max_eq_right (le_of_lt h1)]
    · by_cases h2 : c > a
      · rw [if_neg h1, if_pos h2]
        have hba : b ≤ a := not_lt.mp h1
        rw [max_eq_right (le_trans hba (le_of_lt h2)), max_eq_right (le_of_lt h2)]
      · rw [if_neg h1, if_neg h2]
        have hba : b ≤ a := not_lt.mp h1
        have hca : c ≤ a := not_lt.mp h2
        rw [max_eq_left (max_le hba hca)]
  simp only [computeShearCorrectionFactor_probes, ShearCorrectionInput.probe,
    ShearCorrectionInput.normXY, ShearCorrectionInput.normZX, ShearCorrectionInput.normYZ,
    ShearCorrectionInput.probeNorm, hmax]

theorem ShearCorrectionInput.shear_point_eq (I : ShearCorrectionInput α) (p : ℕ)
    (s : ShearCorrectionState α) (h1 : s.neighPtr = blockStart I.localNeighborList p) :
    computeShearCorrectionFactor_point I.sqrt (shearReference I.pi I.horizon) I.xOverlap
        I.volumeOverlap I.owned_weighted_volume I.localNeighborList p s
      = { neighPtr := blockStart I.localNeighborList (p + 1)
          yOverlap :=
            I.probe p (I.probe p (I.probe p s.yOverlap PURE_SHEAR.XY) PURE_SHEAR.ZX)
              PURE_SHEAR.YZ
          shearCorrectionFactorOwned := Function.update s.shearCorrectionFactorOwned p
            (shearGuard (shearReference I.pi I.horizon)
              (max (I.normXY p s.yOverlap)
                (max (I.normZX p s.yOverlap) (I.normYZ p s.yOverlap)))) } := by
  simp only [computeShearCorrectionFactor_point, h1, I.probes_eq, blockStart]
  congr 1
  omega

/-- Closed form of `computeShearCorrectionFactor` after `n` owned points. -/
theorem ShearCorrectionInput.shear_run_closed_form (I : ShearCorrectionInput α)
    (yOverlap shearCorrectionFactorOwned : ℕ → α) (n : ℕ) :
    (I.run yOverlap shearCorrectionFactorOwned n).neighPtr = blockStart I.localNeighborList n
    ∧ (I.run yOverlap shearCorrectionFactorOwned n).yOverlap = I.scratchBefore yOverlap n
    ∧ (∀ p, p < n →
        (I.run yOverlap shearCorrectionFactorOwned n).shearCorrectionFactorOwned p
          = shearGuard (shearReference I.pi I.horizon)
              (max (I.normXY p (I.scratchBefore yOverlap p))
                (max (I.normZX p (I.scratchBefore yOverlap p))
                  (I.normYZ p (I.scratchBefore yOverlap p)))))
    ∧ (∀ p, n ≤ p →
        (I.run yOverlap shearCorrectionFactorOwned n).shearCorrectionFactorOwned p
          = shearCorrectionFactorOwned p) := by
  unfold ShearCorrectionInput.run computeShearCorrectionFactor
  induction n with
  | zero => simp [forLoop, blockStart, ShearCorrectionInput.scratchBefore]
  | succ k ih =>
    obtain ⟨h1, h2, h3, h4⟩ := ih
    rw [forLoop_succ, I.shear_point_eq k _ h1, h2]
    refine ⟨rfl, rfl, ?_, ?_⟩
    · intro p hp
      by_cases hpk : p = k
      · subst hpk; simp
      · simp only [Function.update_noteq hpk]
        exact h3 p (by omega)
    · intro p hp
      have hpk : p ≠ k := by omega
      simp only [Function.update_noteq hpk]
      exact h4 p (by omega)

/-- C13: for every owned point `p`, with `s_XY`, `s_ZX`, `s_YZ` the values of
`compute_norm_2_deviatoric_extension` on the block of `p` after `set_pure_shear` in mode XY,
ZX, YZ (`gamma = 1e-6`, each probe applied to the scratch array as the previous one left it),
`M = max(s_XY, s_ZX, s_YZ)` and `reference = 4*pi*gamma^2*horizon^5/75`, the value written to
`shearCorrectionFactorOwned[p]` is `1` if `M/reference < 1e-15` and `reference/M`
otherwise. -/
theorem computeShearCorrectionFactor_spec (I : ShearCorrectionInput α)
    (yOverlap shearCorrectionFactorOwned : ℕ → α) (numOwnedPoints p : ℕ)
    (hp : p < numOwnedPoints) :
    (I.run yOverlap shearCorrectionFactorOwned numOwnedPoints).shearCorrectionFactorOwned p
        = (if max (I.normXY p (I.scratchBefore yOverlap p))
                (max (I.normZX p (I.scratchBefore yOverlap p))
                  (I.normYZ p (I.scratchBefore yOverlap p)))
              / (4 * I.pi * (1.0e-6) ^ 2 * I.horizon ^ 5 / 75) < 1.0e-15
          then 1
          else 4 * I.pi * (1.0e-6) ^ 2 * I.horizon ^ 5 / 75
            / max (I.normXY p (I.scratchBefore yOverlap p))
                (max (I.normZX p (I.scratchBefore yOverlap p))
                  (I.normYZ p (I.scratchBefore yOverlap p))))
    ∧ I.scratchBefore yOverlap p = (I.run yOverlap shearCorrectionFactorOwned p).yOverlap
    ∧ (∀ y : ℕ → α, I.normXY p y
        = compute_norm_2_deviatoric_extension I.sqrt I.localNeighborList
            (blockStart I.localNeighborList p) (3 * p) I.xOverlap (3 * p)
            (set_pure_shear I.localNeighborList (blockStart I.localNeighborList p) (3 * p)
              I.xOverlap y PURE_SHEAR.XY 1.0e-6)
            I.volumeOverlap (I.owned_weighted_volume p))
    ∧ (∀ y : ℕ → α, I.normZX p y
        = compute_norm_2_deviatoric_extension I.sqrt I.localNeighborList
            (blockStart I.localNeighborList p) (3 * p) I.xOverlap (3 * p)
            (set_pure_shear I.localNeighborList (blockStart I.localNeighborList p) (3 * p)
              I.xOverlap
              (set_pure_shear I.localNeighborList (blockStart I.localNeighborList p) (3 * p)
                I.xOverlap y PURE_SHEAR.XY 1.0e-6)
              PURE_SHEAR.ZX 1.0e-6)
            I.volumeOverlap (I.owned_weighted_volume p))
    ∧ (∀ y : ℕ → α, I.normYZ p y
        = compute_norm_2_deviatoric_extension I.sqrt I.localNeighborList
            (blockStart I.localNeighborList p) (3 * p) I.xOverlap (3 * p)
            (set_pure_shear I.localNeighborList (blockStart I.localNeighborList p) (3 * p)
              I.xOverlap
              (set_pure_shear I.localNeighborList (blockStart I.localNeighborList p) (3 * p)
                I.xOverlap
                (set_pure_shear I.localNeighborList (blockStart I.localNeighborList p) (3 * p)
                  I.xOverlap y PURE_SHEAR.XY 1.0e-6)
                PURE_SHEAR.ZX 1.0e-6)
              PURE_SHEAR.YZ 1.0e-6)
            I.volumeOverlap (I.owned_weighted_volume p)) := by
  obtain ⟨_, _, h3, _⟩ := I.shear_run_closed_form yOverlap shearCorrectionFactorOwned
    numOwnedPoints
  obtain ⟨_, h2, _, _⟩ := I.shear_run_closed_form yOverlap shearCorrectionFactorOwned p
  have href : shearReference I.pi I.horizon
      = 4 * I.pi * (1.0e-6) ^ 2 * I.horizon ^ 5 / 75 := by
    unfold shearReference
    ring
  refine ⟨?_, h2.symm, fun _ => rfl, fun _ => rfl, fun _ => rfl⟩
  rw [h3 p hp, href]
  rfl

theorem ShearCorrectionInput.probeNorm_empty (I : ShearCorrectionInput α) (p : ℕ)
    (h0 : numNeighOf I.localNeighborList p = 0) (y : ℕ → α) : I.probeNorm p y = 0 := by
  have h : I.localNeighborList (blockStart I.localNeighborList p) = 0 := h0
  simp only [ShearCorrectionInput.probeNorm, compute_norm_2_deviatoric_extension, h, forLoop]

theorem shearReference_pos (pi horizon : α) (hpi : 0 < pi) (hh : 0 < horizon) :
    0 < shearReference pi horizon := by
  unfold shearReference
  have hg : (0 : α) < 1.0e-6 := by norm_num
  positivity

theorem shearGuard_zero (reference : α) : shearGuard reference 0 = 1 := by
  unfold shearGuard
  have : (0 : α) / reference < 1.0e-15 := by
    rw [zero_div]
    norm_num
  simp only [this, if_true]

/-! ## The calibrator reads the probed point from the scratch array -/

theorem collinear_probe (sqrt : α → α) (pi : α) (y : ℕ → α) (mode : PURE_SHEAR) (i : ℕ) :
    (collinearInput sqrt pi).probe 0 y mode i
      = if 6 ≤ i ∧ i < 9 then
          pureShearPosition mode 1.0e-6 (collinearInput sqrt pi).xOverlap 0 2 (i - 6)
        else if 3 ≤ i ∧ i < 6 then
          pureShearPosition mode 1.0e-6 (collinearInput sqrt pi).xOverlap 0 1 (i - 3)
        else y i := by
  have h0 : (collinearInput sqrt pi).localNeighborList 0 = 2 := rfl
  have h1 : (collinearInput sqrt pi).localNeighborList 1 = 1 := rfl
  have h2 : (collinearInput sqrt pi).localNeighborList 2 = 2 := rfl
  simp only [ShearCorrectionInput.probe, set_pure_shear, blockStart, h0, forLoop,
    set_pure_shear_bond_apply, set_pure_shear_bond_eq, Nat.zero_add, Nat.reduceAdd, h1, h2,
    Nat.reduceMul, Nat.mul_zero, Function.update_apply]
  split_ifs <;> first | omega | (subst_vars; rfl)

theorem collinear_normXY_shifted :
    (collinearInput Real.sqrt Real.pi).normXY 0 collinearScratchShifted = 2 := by
  have h0 : (collinearInput Real.sqrt Real.pi).localNeighborList 0 = 2 := rfl
  have h1 : (collinearInput Real.sqrt Real.pi).localNeighborList 1 = 1 := rfl
  have h2 : (collinearInput Real.sqrt Real.pi).localNeighborList 2 = 2 := rfl
  have h4 : Real.sqrt 4 = 2 := by
    rw [show (4 : ℝ) = 2 * 2 by norm_num]
    exact Real.sqrt_mul_self (by norm_num)
  simp only [ShearCorrectionInput.normXY, ShearCorrectionInput.probeNorm,
    compute_norm_2_deviatoric_extension, computeDilatation_single, blockStart, h0, forLoop,
    compute_norm_2_deviatoric_extension_bond, computeDilatation_single_bond, collinear_probe,
    Nat.zero_add, Nat.reduceAdd, h1, h2, Nat.reduceMul, Nat.mul_zero]
  simp [pureShearPosition, pureShearDisplacement, collinearInput, collinearScratchShifted]
  norm_num [h4]

theorem collinear_norms_reference :
    (collinearInput Real.sqrt Real.pi).normXY 0 collinearScratchReference = 0
    ∧ (collinearInput Real.sqrt Real.pi).normZX 0 collinearScratchReference = 0
    ∧ (collinearInput Real.sqrt Real.pi).normYZ 0 collinearScratchReference = 0 := by
  have h0 : (collinearInput Real.sqrt Real.pi).localNeighborList 0 = 2 := rfl
  have h1 : (collinearInput Real.sqrt Real.pi).localNeighborList 1 = 1 := rfl
  have h2 : (collinearInput Real.sqrt Real.pi).localNeighborList 2 = 2 := rfl
  refine ⟨?_, ?_, ?_⟩
  · simp only [ShearCorrectionInput.normXY, ShearCorrectionInput.probeNorm,
      compute_norm_2_deviatoric_extension, computeDilatation_single, blockStart, h0, forLoop,
      compute_norm_2_deviatoric_extension_bond, computeDilatation_single_bond, collinear_probe,
      Nat.zero_add, Nat.reduceAdd, h1, h2, Nat.reduceMul, Nat.mul_zero]
    simp [pureShearPosition, pureShearDisplacement, collinearInput, collinearScratchReference]
  · simp only [ShearCorrectionInput.normZX, ShearCorrectionInput.probeNorm,
      compute_norm_2_deviatoric_extension, computeDilatation_single, blockStart, h0, forLoop,
      compute_norm_2_deviatoric_extension_bond, computeDilatation_single_bond, collinear_probe,
      Nat.zero_add, Nat.reduceAdd, h1, h2, Nat.reduceMul, Nat.mul_zero]
    simp [pureShearPosition, pureShearDisplacement, collinearInput, collinearScratchReference]
  · simp only [ShearCorrectionInput.normYZ, ShearCorrectionInput.probeNorm,
      compute_norm_2_deviatoric_extension, computeDilatation_single, blockStart, h0, forLoop,
      compute_norm_2_deviatoric_extension_bond, computeDilatation_single_bond, collinear_probe,
      Nat.zero_add, Nat.reduceAdd, h1, h2, Nat.reduceMul, Nat.mul_zero]
    simp [pureShearPosition, pureShearDisplacement, collinearInput, collinearScratchReference]

/-- C17, the code at a failing input: for the three collinear points of `collinearInput` the
factor written for the owned point 0 is `1` when the scratch array holds the reference
positions, and is smaller than `1` when the scratch array holds `(1,0,0)` instead of the
reference position `(0,0,0)` at point 0: the current position of the probed point is read
from the scratch array and is not its reference position. -/
theorem computeShearCorrectionFactor_reads_scratch :
    ((collinearInput Real.sqrt Real.pi).run collinearScratchReference (fun _ => 0)
        1).shearCorrectionFactorOwned 0 = 1
    ∧ ((collinearInput Real.sqrt Real.pi).run collinearScratchShifted (fun _ => 0)
        1).shearCorrectionFactorOwned 0 < 1
    ∧ (collinearScratchShifted (3 * 0 + 0) : ℝ)
        ≠ (collinearInput Real.sqrt Real.pi).xOverlap (3 * 0 + 0) := by
  refine ⟨?_, ?_, ?_⟩
  · obtain ⟨_, _, h3, _⟩ := (collinearInput Real.sqrt Real.pi).shear_run_closed_form
      collinearScratchReference (fun _ => 0) 1
    obtain ⟨hXY, hZX, hYZ⟩ := collinear_norms_reference
    rw [h3 0 (by norm_num)]
    simp only [ShearCorrectionInput.scratchBefore, hXY, hZX, hYZ, max_self, shearGuard_zero]
  · obtain ⟨_, _, h3, _⟩ := (collinearInput Real.sqrt Real.pi).shear_run_closed_form
      collinearScratchShifted (fun _ => 0) 1
    rw [h3 0 (by norm_num)]
    simp only [ShearCorrectionInput.scratchBefore, collinear_normXY_shifted]
    have hM : (2 : ℝ) ≤ max 2
        (max ((collinearInput Real.sqrt Real.pi).normZX 0 collinearScratchShifted)
          ((collinearInput Real.sqrt Real.pi).normYZ 0 collinearScratchShifted)) :=
      le_max_left _ _
    have hpos : 0 < shearReference (collinearInput Real.sqrt Real.pi).pi
        (collinearInput Real.sqrt Real.pi).horizon :=
      shearReference_pos _ _ Real.pi_pos (by simp [collinearInput])
    have hlt : shearReference (collinearInput Real.sqrt Real.pi).pi
        (collinearInput Real.sqrt Real.pi).horizon < 1 := by
      have hpi := Real.pi_le_four
      simp only [shearReference, collinearInput]
      norm_num
      linarith
    generalize max (2 : ℝ)
      (max ((collinearInput Real.sqrt Real.pi).normZX 0 collinearScratchShifted)
        ((collinearInput Real.sqrt Real.pi).normYZ 0 collinearScratchShifted)) = M at hM ⊢
    generalize shearReference (collinearInput Real.sqrt Real.pi).pi
      (collinearInput Real.sqrt Real.pi).horizon = r at hpos hlt ⊢
    have hMpos : 0 < M := by linarith
    have hnot : ¬ M / r < 1.0e-15 := by
      rw [not_lt]
      have h1 : M ≤ M / r := by
        rw [le_div_iff₀ hpos]
        nlinarith
      have h2 : (1.0e-15 : ℝ) ≤ 2 := by norm_num
      linarith
    simp only [shearGuard, hnot, if_false]
    rw [div_lt_one hMpos]
    linarith
  · simp [collinearScratchShifted, collinearInput]

/-! ## The reaction of the sparse evaluators -/

/-- C11, the code at a failing input: with `ownedIDs = [1]`, neighbour list `[1, 0]`,
`volume = [1, 2]`, point 0 at the origin and point 1 moved from `(1,0,0)` to `(2,0,0)`, the
bond of the owned point `P = 1` to `q = 0` has `F_x = -15`; the sparse linear elastic
evaluator adds `F_x * volume[0] = -15` at `P` and subtracts `F_x * volume[0]` at `q`, leaving
`f[q] = 15`, where `F_x * volume[P]` would give `30`; the volume-weighted increments do not
cancel. -/
theorem computeInternalForceLinearElastic_ownedIDs_reaction :
    computeInternalForceLinearElastic_ownedIDs Real.sqrt
        (twoPointInput Real.sqrt Real.pi).xOverlap (twoPointInput Real.sqrt Real.pi).yOverlap
        (twoPointInput Real.sqrt Real.pi).mOwned sparseVolume
        (twoPointInput Real.sqrt Real.pi).dilatationOwned
        (twoPointInput Real.sqrt Real.pi).bondDamage (fun _ => 0) sparseOwnedIDs
        sparseNeighborList 1 1 1 (3 * 1 + 0) = -15
    ∧ computeInternalForceLinearElastic_ownedIDs Real.sqrt
        (twoPointInput Real.sqrt Real.pi).xOverlap (twoPointInput Real.sqrt Real.pi).yOverlap
        (twoPointInput Real.sqrt Real.pi).mOwned sparseVolume
        (twoPointInput Real.sqrt Real.pi).dilatationOwned
        (twoPointInput Real.sqrt Real.pi).bondDamage (fun _ => 0) sparseOwnedIDs
        sparseNeighborList 1 1 1 (3 * 0 + 0) = 15
    ∧ (sparseVolume 1 : ℝ) = 2
    ∧ (sparseVolume 1 : ℝ)
          * computeInternalForceLinearElastic_ownedIDs Real.sqrt
            (twoPointInput Real.sqrt Real.pi).xOverlap
            (twoPointInput Real.sqrt Real.pi).yOverlap
            (twoPointInput Real.sqrt Real.pi).mOwned sparseVolume
            (twoPointInput Real.sqrt Real.pi).dilatationOwned
            (twoPointInput Real.sqrt Real.pi).bondDamage (fun _ => 0) sparseOwnedIDs
            sparseNeighborList 1 1 1 (3 * 1 + 0)
        + sparseVolume 0
          * computeInternalForceLinearElastic_ownedIDs Real.sqrt
            (twoPointInput Real.sqrt Real.pi).xOverlap
            (twoPointInput Real.sqrt Real.pi).yOverlap
            (twoPointInput Real.sqrt Real.pi).mOwned sparseVolume
            (twoPointInput Real.sqrt Real.pi).dilatationOwned
            (twoPointInput Real.sqrt Real.pi).bondDamage (fun _ => 0) sparseOwnedIDs
            sparseNeighborList 1 1 1 (3 * 0 + 0)
        = -15 := by
  have h4 : Real.sqrt 4 = 2 := by
    rw [show (4 : ℝ) = 2 * 2 by norm_num]
    exact Real.sqrt_mul_self (by norm_num)
  have hP : computeInternalForceLinearElastic_ownedIDs Real.sqrt
        (twoPointInput Real.sqrt Real.pi).xOverlap (twoPointInput Real.sqrt Real.pi).yOverlap
        (twoPointInput Real.sqrt Real.pi).mOwned sparseVolume
        (twoPointInput Real.sqrt Real.pi).dilatationOwned
        (twoPointInput Real.sqrt Real.pi).bondDamage (fun _ => 0) sparseOwnedIDs
        sparseNeighborList 1 1 1 (3 * 1 + 0) = -15 := by
    simp [computeInternalForceLinearElastic_ownedIDs,
      computeInternalForceLinearElastic_ownedIDs_point, computeInternalForceLinearElastic_bond,
      linearElasticBondForce, forLoop, assemblePairwiseForce_apply, pairIncrement,
      twoPointInput, sparseOwnedIDs, sparseNeighborList, sparseVolume]
    norm_num [h4]
  have hq : computeInternalForceLinearElastic_ownedIDs Real.sqrt
        (twoPointInput Real.sqrt Real.pi).xOverlap (twoPointInput Real.sqrt Real.pi).yOverlap
        (twoPointInput Real.sqrt Real.pi).mOwned sparseVolume
        (twoPointInput Real.sqrt Real.pi).dilatationOwned
        (twoPointInput Real.sqrt Real.pi).bondDamage (fun _ => 0) sparseOwnedIDs
        sparseNeighborList 1 1 1 (3 * 0 + 0) = 15 := by
    simp [computeInternalForceLinearElastic_ownedIDs,
      computeInternalForceLinearElastic_ownedIDs_point, computeInternalForceLinearElastic_bond,
      linearElasticBondForce, forLoop, assemblePairwiseForce_apply, pairIncrement,
      twoPointInput, sparseOwnedIDs, sparseNeighborList, sparseVolume]
    norm_num [h4]
  have hv1 : (sparseVolume 1 : ℝ) = 2 := by simp [sparseVolume]
  have hv0 : (sparseVolume 0 : ℝ) = 1 := by simp [sparseVolume]
  refine ⟨hP, hq, hv1, ?_⟩
  rw [hP, hq, hv1, hv0]
  norm_num

/-! ## The statements at concrete configurations, continued -/

theorem computeWeightedVolume_spec_witness :
    0 < 2
    ∧ (computeWeightedVolume (twoPointInput Real.sqrt Real.pi).xOverlap
        (twoPointInput Real.sqrt Real.pi).volumeOverlap (fun _ => 0) 2
        (twoPointInput Real.sqrt Real.pi).localNeighborList).mOwned 0
      = computeWeightedVolume_single (3 * 0) (twoPointInput Real.sqrt Real.pi).xOverlap
          (twoPointInput Real.sqrt Real.pi).volumeOverlap
          (twoPointInput Real.sqrt Real.pi).localNeighborList
          (blockStart (twoPointInput Real.sqrt Real.pi).localNeighborList 0) :=
  ⟨by norm_num,
    (computeWeightedVolume_spec (twoPointInput Real.sqrt Real.pi).xOverlap
      (twoPointInput Real.sqrt Real.pi).volumeOverlap (fun _ => 0)
      (twoPointInput Real.sqrt Real.pi).localNeighborList 2 0 (by norm_num)).2.1⟩

theorem computeShearCorrectionFactor_spec_witness :
    0 < 1
    ∧ (collinearInput Real.sqrt Real.pi).scratchBefore collinearScratchReference 0
      = ((collinearInput Real.sqrt Real.pi).run collinearScratchReference (fun _ => 0)
          0).yOverlap :=
  ⟨by norm_num,
    (computeShearCorrectionFactor_spec (collinearInput Real.sqrt Real.pi)
      collinearScratchReference (fun _ => 0) 1 0 (by norm_num)).2.1⟩

theorem set_pure_shear_axis_mapping_witness :
    0 < shearProbeNeighborList 0
    ∧ set_pure_shear shearProbeNeighborList 0 0 (shearProbeReference : ℕ → ℚ) (fun _ => 0)
          PURE_SHEAR.ZX 1 (3 * shearProbeNeighborList (0 + 1 + 0) + 2)
        = shearProbeReference (3 * shearProbeNeighborList (0 + 1 + 0) + 2)
          + 1 * (shearProbeReference (3 * shearProbeNeighborList (0 + 1 + 0) + 0)
            - shearProbeReference (0 + 0)) :=
  ⟨by decide,
    (set_pure_shear_axis_mapping shearProbeNeighborList 0 0 (shearProbeReference : ℕ → ℚ)
      (fun _ => 0) 1 0 (by decide)).2.1.2.2⟩

theorem set_pure_shear_XY_witness :
    0 < shearProbeNeighborList 0
    ∧ set_pure_shear shearProbeNeighborList 0 0 (shearProbeReference : ℕ → ℚ) (fun _ => 0)
          PURE_SHEAR.XY 1 (3 * shearProbeNeighborList (0 + 1 + 0) + 0)
        = shearProbeReference (3 * shearProbeNeighborList (0 + 1 + 0) + 0)
          + 1 * (shearProbeReference (3 * shearProbeNeighborList (0 + 1 + 0) + 1)
            - shearProbeReference (0 + 1)) :=
  ⟨by decide,
    (set_pure_shear_XY shearProbeNeighborList 0 0 (shearProbeReference : ℕ → ℚ)
      (fun _ => 0) 1 0 (by decide)).1⟩

theorem computeDilatation_single_eq_dense_witness :
    0 < 2
    ∧ (∀ j, j < numNeighOf (twoPointInput Real.sqrt Real.pi).localNeighborList 0 →
        (twoPointInput Real.sqrt Real.pi).bondDamage
          (bondStart (twoPointInput Real.sqrt Real.pi).localNeighborList 0 + j) = 0)
    ∧ computeDilatation_single Real.sqrt (twoPointInput Real.sqrt Real.pi).localNeighborList
        (blockStart (twoPointInput Real.sqrt Real.pi).localNeighborList 0) (3 * 0)
        (twoPointInput Real.sqrt Real.pi).xOverlap (3 * 0)
        (twoPointInput Real.sqrt Real.pi).yOverlap
        (twoPointInput Real.sqrt Real.pi).volumeOverlap
        ((twoPointInput Real.sqrt Real.pi).mOwned 0)
      = computeDilatation Real.sqrt (twoPointInput Real.sqrt Real.pi).xOverlap
          (twoPointInput Real.sqrt Real.pi).yOverlap (twoPointInput Real.sqrt Real.pi).mOwned
          (twoPointInput Real.sqrt Real.pi).volumeOverlap
          (twoPointInput Real.sqrt Real.pi).bondDamage (fun _ => 0)
          (twoPointInput Real.sqrt Real.pi).localNeighborList 2 0 :=
  ⟨by norm_num, fun _ _ => rfl,
    computeDilatation_single_eq_dense Real.sqrt (twoPointInput Real.sqrt Real.pi).xOverlap
      (twoPointInput Real.sqrt Real.pi).yOverlap (twoPointInput Real.sqrt Real.pi).mOwned
      (twoPointInput Real.sqrt Real.pi).volumeOverlap
      (twoPointInput Real.sqrt Real.pi).bondDamage (fun _ => 0)
      (twoPointInput Real.sqrt Real.pi).localNeighborList 2 0 (by norm_num)
      (fun _ _ => rfl)⟩

theorem updateGeometry_spec_witness :
    updateGeometry (twoPointInput Real.sqrt Real.pi).xOverlap (fun _ => 1) (fun _ => 2)
        (fun _ => 0) (3 * 2) (1 / 2) (3 * 1 + 0)
      = (twoPointInput Real.sqrt Real.pi).xOverlap (3 * 1 + 0) + 1 + 2 * (1 / 2) :=
  (updateGeometry_spec (twoPointInput Real.sqrt Real.pi).xOverlap (fun _ => 1) (fun _ => 2)
    (fun _ => 0) (3 * 2) (1 / 2)).2.2.1 2 1 0 (by norm_num) (by norm_num)

theorem computeDeviatoricForceStateNorm_spec_witness :
    (∀ x, 0 ≤ Real.sqrt x) ∧ Real.sqrt 0 = 0
    ∧ 0 ≤ computeDeviatoricForceStateNorm Real.sqrt 1 0
        (twoPointInput Real.sqrt Real.pi).localNeighborList 1
        (twoPointInput Real.sqrt Real.pi).bondDamage 0
        (twoPointInput Real.sqrt Real.pi).deviatoricPlasticExtensionStateN 0 0 0
        (twoPointInput Real.sqrt Real.pi).xOverlap (twoPointInput Real.sqrt Real.pi).yOverlap
        (twoPointInput Real.sqrt Real.pi).volumeOverlap 15 1 :=
  ⟨Real.sqrt_nonneg, Real.sqrt_zero,
    (computeDeviatoricForceStateNorm_spec Real.sqrt 1 0
      (twoPointInput Real.sqrt Real.pi).localNeighborList 1
      (twoPointInput Real.sqrt Real.pi).bondDamage 0
      (twoPointInput Real.sqrt Real.pi).deviatoricPlasticExtensionStateN 0 0 0
      (twoPointInput Real.sqrt Real.pi).xOverlap (twoPointInput Real.sqrt Real.pi).yOverlap
      (twoPointInput Real.sqrt Real.pi).volumeOverlap 15 1
      (twoPointInput Real.sqrt Real.pi) 0
      { neighPtr := 0
        bondDamagePtr := 0
        deviatoricPlasticExtensionStateNPtr := 0
        deviatoricPlasticExtensionStateNp1Ptr := 0
        deviatoricPlasticExtensionStateNp1 := fun _ => 0
        lambdaNP1 := fun _ => 0
        fInternalOverlap := fun _ => 0 }
      Real.sqrt_nonneg Real.sqrt_zero rfl rfl rfl rfl).2.1⟩

/-! ## Damage fraction -/

theorem updateConstitutiveData_bondLoop (bondDamage : ℕ → α) (n : ℕ) (s : TotalDamageState α) :
    forLoop (fun _ => updateConstitutiveData_bond bondDamage) n s
    = { bondIndex := s.bondIndex + n
        totalDamage := s.totalDamage + ∑ j ∈ Finset.range n, bondDamage (s.bondIndex + j) } := by
  induction n with
  | zero => simp [forLoop]
  | succ k ih =>
    rw [forLoop_succ, ih]
    simp only [updateConstitutiveData_bond, Finset.sum_range_succ, add_assoc]

theorem updateConstitutiveData_point_eq (bondDamage : ℕ → α)
    (ownedIDs neighborhoodList : ℕ → ℕ) (i : ℕ) (s : DamageState α)
    (h1 : s.neighborhoodListIndex = blockStart neighborhoodList i)
    (h2 : s.bondIndex = bondStart neighborhoodList i) :
    updateConstitutiveData_point bondDamage ownedIDs neighborhoodList i s
    = { neighborhoodListIndex := blockStart neighborhoodList (i + 1)
        bondIndex := bondStart neighborhoodList (i + 1)
        damage := Function.update s.damage (ownedIDs i)
          (bondDamageMean bondDamage neighborhoodList i) } := by
  simp only [updateConstitutiveData_point, updateConstitutiveData_bondLoop, h1, h2,
    bondDamageMean, numNeighOf, blockStart, bondStart, zero_add]

theorem bondDamageMean_mem_unit (bondDamage : ℕ → α) (neighborhoodList : ℕ → ℕ) (i : ℕ)
    (hd : ∀ j, j < numNeighOf neighborhoodList i →
      0 ≤ bondDamage (bondStart neighborhoodList i + j)
      ∧ bondDamage (bondStart neighborhoodList i + j) ≤ 1) :
    0 ≤ bondDamageMean bondDamage neighborhoodList i
    ∧ bondDamageMean bondDamage neighborhoodList i ≤ 1 := by
  unfold bondDamageMean
  by_cases hn : numNeighOf neighborhoodList i > 0
  · rw [if_pos hn]
    have hpos : (0 : α) < (numNeighOf neighborhoodList i : α) := Nat.cast_pos.mpr hn
    have h0 : 0 ≤ ∑ j ∈ Finset.range (numNeighOf neighborhoodList i),
        bondDamage (bondStart neighborhoodList i + j) :=
      Finset.sum_nonneg (fun j hj => (hd j (Finset.mem_range.mp hj)).1)
    have h1 : ∑ j ∈ Finset.range (numNeighOf neighborhoodList i),
        bondDamage (bondStart neighborhoodList i + j)
        ≤ ∑ _j ∈ Finset.range (numNeighOf neighborhoodList i), (1 : α) :=
      Finset.sum_le_sum (fun j hj => (hd j (Finset.mem_range.mp hj)).2)
    rw [Finset.sum_const, Finset.card_range, nsmul_eq_mul, mul_one] at h1
    exact ⟨div_nonneg h0 hpos.le, (div_le_one hpos).mpr h1⟩
  · rw [if_neg hn]
    exact ⟨le_rfl, zero_le_one⟩

/-- Closed form of the damage loop after `n` owned points. -/
theorem updateConstitutiveData_run (bondDamage damage : ℕ → α)
    (ownedIDs neighborhoodList : ℕ → ℕ) (n : ℕ) :
    (updateConstitutiveData_damageLoop bondDamage damage ownedIDs neighborhoodList n).neighborhoodListIndex
        = blockStart neighborhoodList n
    ∧ (updateConstitutiveData_damageLoop bondDamage damage ownedIDs neighborhoodList n).bondIndex
        = bondStart neighborhoodList n
    ∧ (∀ q, (∀ i, i < n → ownedIDs i ≠ q) →
        (updateConstitutiveData_damageLoop bondDamage damage ownedIDs neighborhoodList n).damage q
          = damage q)
    ∧ (∀ i, i < n → (∀ k, i < k → k < n → ownedIDs k ≠ ownedIDs i) →
        (updateConstitutiveData_damageLoop bondDamage damage ownedIDs neighborhoodList n).damage
            (ownedIDs i)
          = bondDamageMean bondDamage neighborhoodList i) := by
  unfold updateConstitutiveData_damageLoop
  induction n with
  | zero => simp [forLoop, blockStart, bondStart]
  | succ m ih =>
    obtain ⟨h1, h2, h3, h4⟩ := ih
    rw [forLoop_succ, updateConstitutiveData_point_eq bondDamage ownedIDs neighborhoodList m _
      h1 h2]
    refine ⟨rfl, rfl, ?_, ?_⟩
    · intro q hq
      have hne : q ≠ ownedIDs m := fun e => hq m (Nat.lt_succ_self m) e.symm
      simp only [Function.update_noteq hne]
      exact h3 q (fun i hi => hq i (Nat.lt_succ_of_lt hi))
    · intro i hi hlast
      by_cases him : i = m
      · subst him
        simp only [Function.update_same]
      · have hlt : i < m := by omega
        have hne : ownedIDs i ≠ ownedIDs m := fun e => hlast m hlt (Nat.lt_succ_self m) e.symm
        simp only [Function.update_noteq hne]
        exact h4 i hlt (fun k hk hkm => hlast k hk (Nat.lt_succ_of_lt hkm))

theorem updateConstitutiveData_mem_unit (bondDamage damage : ℕ → α)
    (ownedIDs neighborhoodList : ℕ → ℕ) (n : ℕ)
    (hd : ∀ k, 0 ≤ bondDamage k ∧ bondDamage k ≤ 1) (q : ℕ)
    (hq : ∃ i, i < n ∧ ownedIDs i = q) :
    0 ≤ (updateConstitutiveData_damageLoop bondDamage damage ownedIDs neighborhoodList n).damage q
    ∧ (updateConstitutiveData_damageLoop bondDamage damage ownedIDs neighborhoodList n).damage q ≤ 1 := by
  induction n with
  | zero =>
    obtain ⟨i, hi, _⟩ := hq
    exact absurd hi (Nat.not_lt_zero i)
  | succ m ih =>
    obtain ⟨h1, h2, _, _⟩ := updateConstitutiveData_run bondDamage damage ownedIDs
      neighborhoodList m
    have hstep : updateConstitutiveData_damageLoop bondDamage damage ownedIDs neighborhoodList (m + 1)
        = updateConstitutiveData_point bondDamage ownedIDs neighborhoodList m
            (updateConstitutiveData_damageLoop bondDamage damage ownedIDs neighborhoodList m) := rfl
    rw [hstep, updateConstitutiveData_point_eq bondDamage ownedIDs neighborhoodList m _ h1 h2]
    by_cases hqm : q = ownedIDs m
    · subst hqm
      simp only [Function.update_same]
      exact bondDamageMean_mem_unit bondDamage neighborhoodList m (fun j _ => hd _)
    · simp only [Function.update_noteq hqm]
      obtain ⟨i, hi, hiq⟩ := hq
      have him : i ≠ m := fun e => hqm (by rw [← hiq, e])
      exact ih ⟨i, by omega, hiq⟩

/-- C21: iteration `i` of the per-point loop of `updateConstitutiveData` writes to
`damage[ownedIDs[i]]` the arithmetic mean of the bond-damage entries of the `i`-th neighbour
block, read at the consecutive bond indices of that block, and `0` when the block is empty; the
value stays in the array after the loop unless a later owned point has the same ID; the two
counters end at the end of the last block and at the total bond count; and when every
bond-damage entry lies in `[0,1]`, the written value and the final value of every written entry
lie in `[0,1]`. -/
theorem updateConstitutiveData_damage_fraction (bondDamage damage : ℕ → α)
    (ownedIDs neighborhoodList : ℕ → ℕ) (numOwnedPoints i : ℕ) (hi : i < numOwnedPoints) :
    (updateConstitutiveData_damageLoop bondDamage damage ownedIDs neighborhoodList (i + 1)).damage
        (ownedIDs i)
      = (if numNeighOf neighborhoodList i > 0 then
          (∑ j ∈ Finset.range (numNeighOf neighborhoodList i),
            bondDamage (bondStart neighborhoodList i + j))
            / (numNeighOf neighborhoodList i : α)
        else 0)
    ∧ ((∀ k, i < k → k < numOwnedPoints → ownedIDs k ≠ ownedIDs i) →
        (updateConstitutiveData_damageLoop bondDamage damage ownedIDs neighborhoodList
            numOwnedPoints).damage (ownedIDs i)
          = (updateConstitutiveData_damageLoop bondDamage damage ownedIDs neighborhoodList (i + 1)).damage
              (ownedIDs i))
    ∧ (updateConstitutiveData_damageLoop bondDamage damage ownedIDs neighborhoodList
          numOwnedPoints).bondIndex = bondStart neighborhoodList numOwnedPoints
    ∧ (updateConstitutiveData_damageLoop bondDamage damage ownedIDs neighborhoodList
          numOwnedPoints).neighborhoodListIndex = blockStart neighborhoodList numOwnedPoints
    ∧ ((∀ k, 0 ≤ bondDamage k ∧ bondDamage k ≤ 1) →
        (0 ≤ (updateConstitutiveData_damageLoop bondDamage damage ownedIDs neighborhoodList
              (i + 1)).damage (ownedIDs i)
          ∧ (updateConstitutiveData_damageLoop bondDamage damage ownedIDs neighborhoodList
              (i + 1)).damage (ownedIDs i) ≤ 1)
        ∧ 0 ≤ (updateConstitutiveData_damageLoop bondDamage damage ownedIDs neighborhoodList
              numOwnedPoints).damage (ownedIDs i)
        ∧ (updateConstitutiveData_damageLoop bondDamage damage ownedIDs neighborhoodList
              numOwnedPoints).damage (ownedIDs i) ≤ 1) := by
  obtain ⟨h1, h2, _, h4⟩ := updateConstitutiveData_run bondDamage damage ownedIDs
    neighborhoodList numOwnedPoints
  obtain ⟨_, _, _, h4i⟩ := updateConstitutiveData_run bondDamage damage ownedIDs
    neighborhoodList (i + 1)
  have hw := h4i i (Nat.lt_succ_self i) (fun k hk hk1 => by omega)
  refine ⟨?_, ?_, h2, h1, ?_⟩
  · rw [hw]
    rfl
  · intro hlast
    rw [hw, h4 i hi hlast]
  · intro hd
    exact ⟨updateConstitutiveData_mem_unit bondDamage damage ownedIDs neighborhoodList (i + 1)
        hd (ownedIDs i) ⟨i, Nat.lt_succ_self i, rfl⟩,
      updateConstitutiveData_mem_unit bondDamage damage ownedIDs neighborhoodList
        numOwnedPoints hd (ownedIDs i) ⟨i, hi, rfl⟩⟩

theorem updateConstitutiveData_damage_fraction_witness :
    0 < 2
    ∧ (updateConstitutiveData_damageLoop (damageBondDamage : ℕ → ℚ) (fun _ => 5) damageOwnedIDs
        damageNeighborhoodList (0 + 1)).damage (damageOwnedIDs 0)
      = (if numNeighOf damageNeighborhoodList 0 > 0 then
          (∑ j ∈ Finset.range (numNeighOf damageNeighborhoodList 0),
            (damageBondDamage (bondStart damageNeighborhoodList 0 + j) : ℚ))
            / (numNeighOf damageNeighborhoodList 0 : ℚ)
        else 0) :=
  ⟨by norm_num,
    (updateConstitutiveData_damage_fraction (damageBondDamage : ℕ → ℚ) (fun _ => 5)
      damageOwnedIDs damageNeighborhoodList 2 0 (by norm_num)).1⟩

/-! ## Bond force of the viscoelastic law -/

/-- C22: `computeInternalForceViscoelasticStandardLinearSolid` adds to the force array, for
every owned point `p` and every bond `j` of its block to neighbour `q`, the pair force of
scalar magnitude `t = (1-d)*(ti + td)` with `ti = c*zeta`, `c = 3K*thetaNp1[p]/m[p]`,
`td = alpha*(edNp1 - edbNP1)`, `alpha = 15*MU/m[p]`, where `edbNP1` is the value the call
writes for that bond and `edNp1 = (1-d)*(|YNP1_q-YNP1_p| - zeta) - thetaNp1*zeta/3` already
holds the damage factor; the force vector is `t` times
`(YNP1_q - YNP1_p)/|YNP1_q - YNP1_p|`, the unit bond vector of the step-N+1 configuration. -/
theorem computeInternalForceViscoelasticStandardLinearSolid_bond_force
    (I : ViscoelasticInput α) (edbNP1 fInternalOverlap : ℕ → α) (numOwnedPoints : ℕ) :
    (∀ i, (I.run edbNP1 fInternalOverlap numOwnedPoints).fInternalOverlap i
      = fInternalOverlap i
        + ∑ p ∈ Finset.range numOwnedPoints,
            ∑ j ∈ Finset.range (numNeighOf I.localNeighborList p), I.contribution p j i)
    ∧ (∀ p j i, I.contribution p j i
      = let q := neighOf I.localNeighborList p j
        let d := I.bondDamage (bondStart I.localNeighborList p + j)
        let zeta := bondLength I.sqrt I.xOverlap (3 * p) (3 * q)
        let dYNp1 := bondLength I.sqrt I.yNP1Overlap (3 * p) (3 * q)
        let alpha := 15 * I.SHEAR_MODULUS / I.mOwned p
        let c := 3 * I.BULK_MODULUS * I.dilatationOwnedNp1 p / I.mOwned p
        let ti := c * zeta
        let td := alpha * (I.edNp1 p j - I.edbNP1 p j)
        let t := (1 - d) * (ti + td)
        pairIncrement (3 * p) q
          (t * (I.yNP1Overlap (3 * q + 0) - I.yNP1Overlap (3 * p + 0)) / dYNp1)
          (t * (I.yNP1Overlap (3 * q + 1) - I.yNP1Overlap (3 * p + 1)) / dYNp1)
          (t * (I.yNP1Overlap (3 * q + 2) - I.yNP1Overlap (3 * p + 2)) / dYNp1)
          (I.volumeOverlap q) (I.volumeOverlap p) i)
    ∧ (∀ p j, I.edNp1 p j
      = (1 - I.bondDamage (bondStart I.localNeighborList p + j))
          * (bondLength I.sqrt I.yNP1Overlap (3 * p) (3 * neighOf I.localNeighborList p j)
              - bondLength I.sqrt I.xOverlap (3 * p) (3 * neighOf I.localNeighborList p j))
        - I.dilatationOwnedNp1 p
          * bondLength I.sqrt I.xOverlap (3 * p) (3 * neighOf I.localNeighborList p j) / 3)
    ∧ (∀ p, p < numOwnedPoints → ∀ j, j < numNeighOf I.localNeighborList p →
        (I.run edbNP1 fInternalOverlap numOwnedPoints).edbNP1
            (bondStart I.localNeighborList p + j) = I.edbNP1 p j) := by
  obtain ⟨_, _, _, _, h7, _, h9⟩ :=
    I.viscoelastic_run_closed_form edbNP1 fInternalOverlap numOwnedPoints
  exact ⟨h9, fun _ _ _ => rfl, fun _ _ => rfl, h7⟩

theorem computeInternalForceViscoelasticStandardLinearSolid_bond_force_witness :
    0 < 1 ∧ 0 < numNeighOf (oneBondInput Real.sqrt Real.exp).localNeighborList 0
    ∧ ((oneBondInput Real.sqrt Real.exp).run (fun _ => 0) (fun _ => 0) 1).edbNP1
        (bondStart (oneBondInput Real.sqrt Real.exp).localNeighborList 0 + 0)
      = (oneBondInput Real.sqrt Real.exp).edbNP1 0 0 :=
  ⟨by norm_num, by decide,
    (computeInternalForceViscoelasticStandardLinearSolid_bond_force
      (oneBondInput Real.sqrt Real.exp) (fun _ => 0) (fun _ => 0) 1).2.2.2 0 (by norm_num) 0
      (by decide)⟩

/-! ## Relaxation of the back extension at a held extension -/

/-- C30: for a bond whose deviatoric extension is the same at both steps, `edN = edNp1 = e`,
and nonzero `delta_t`, `m_tau`, `m_tau_b`, the value `edbNP1` written by
`computeInternalForceViscoelasticStandardLinearSolid` satisfies
`edbNP1 - (m_tau_b/m_tau)*e = exp(-delta_t/m_tau_b) * (edbN - (m_tau_b/m_tau)*e)`; in
particular `edbN = (m_tau_b/m_tau)*e` gives `edbNP1 = (m_tau_b/m_tau)*e`. -/
theorem computeInternalForceViscoelasticStandardLinearSolid_relaxation
    (I : ViscoelasticInput α) (edbNP1 fInternalOverlap : ℕ → α) (numOwnedPoints p j : ℕ)
    (hp : p < numOwnedPoints) (hj : j < numNeighOf I.localNeighborList p)
    (hdt : I.delta_t ≠ 0) (htau : I.m_tau ≠ 0) (htaub : I.m_tau_b ≠ 0)
    (he : I.edN p j = I.edNp1 p j) :
    (I.run edbNP1 fInternalOverlap numOwnedPoints).edbNP1 (bondStart I.localNeighborList p + j)
        - I.m_tau_b / I.m_tau * I.edNp1 p j
      = I.exp (-I.delta_t / I.m_tau_b)
        * (I.edbN (bondStart I.localNeighborList p + j) - I.m_tau_b / I.m_tau * I.edNp1 p j)
    ∧ (I.edbN (bondStart I.localNeighborList p + j) = I.m_tau_b / I.m_tau * I.edNp1 p j →
        (I.run edbNP1 fInternalOverlap numOwnedPoints).edbNP1
            (bondStart I.localNeighborList p + j)
          = I.m_tau_b / I.m_tau * I.edNp1 p j) := by
  have _ := hdt
  have _ := htau
  have _ := htaub
  obtain ⟨_, _, _, _, h7, _, _⟩ :=
    I.viscoelastic_run_closed_form edbNP1 fInternalOverlap numOwnedPoints
  rw [h7 p hp j hj, I.edbNP1_eq, he]
  constructor
  · ring
  · intro hfix
    rw [hfix]
    ring

theorem computeInternalForceViscoelasticStandardLinearSolid_relaxation_witness :
    0 < 1 ∧ 0 < numNeighOf (heldBondInput Real.sqrt Real.exp).localNeighborList 0
    ∧ (heldBondInput Real.sqrt Real.exp).delta_t ≠ 0
    ∧ (heldBondInput Real.sqrt Real.exp).m_tau ≠ 0
    ∧ (heldBondInput Real.sqrt Real.exp).m_tau_b ≠ 0
    ∧ (heldBondInput Real.sqrt Real.exp).edN 0 0 = (heldBondInput Real.sqrt Real.exp).edNp1 0 0
    ∧ ((heldBondInput Real.sqrt Real.exp).run (fun _ => 0) (fun _ => 0) 1).edbNP1
          (bondStart (heldBondInput Real.sqrt Real.exp).localNeighborList 0 + 0)
        - (heldBondInput Real.sqrt Real.exp).m_tau_b / (heldBondInput Real.sqrt Real.exp).m_tau
          * (heldBondInput Real.sqrt Real.exp).edNp1 0 0
      = (heldBondInput Real.sqrt Real.exp).exp
          (-(heldBondInput Real.sqrt Real.exp).delta_t
            / (heldBondInput Real.sqrt Real.exp).m_tau_b)
        * ((heldBondInput Real.sqrt Real.exp).edbN
            (bondStart (heldBondInput Real.sqrt Real.exp).localNeighborList 0 + 0)
          - (heldBondInput Real.sqrt Real.exp).m_tau_b
            / (heldBondInput Real.sqrt Real.exp).m_tau
            * (heldBondInput Real.sqrt Real.exp).edNp1 0 0) := by
  have h1 : (heldBondInput Real.sqrt Real.exp).delta_t ≠ 0 := by
    simp [heldBondInput, oneBondInput]
  have h2 : (heldBondInput Real.sqrt Real.exp).m_tau ≠ 0 := by
    simp [heldBondInput, oneBondInput]
  have h3 : (heldBondInput Real.sqrt Real.exp).m_tau_b ≠ 0 := by
    simp [heldBondInput, oneBondInput]
  have hn : 0 < numNeighOf (heldBondInput Real.sqrt Real.exp).localNeighborList 0 := by decide
  exact ⟨by norm_num, hn, h1, h2, h3, rfl,
    (computeInternalForceViscoelasticStandardLinearSolid_relaxation
      (heldBondInput Real.sqrt Real.exp) (fun _ => 0) (fun _ => 0) 1 0 0 (by norm_num) hn
      h1 h2 h3 rfl).1⟩

/-! ## Fully broken bonds -/

theorem linearElasticIncrement_broken (sqrt : α → α) (xOverlap yOverlap volumeOverlap : ℕ → α)
    (X Y fOwned : ℕ) (alpha c1 selfCellVolume : α) (localId i : ℕ) :
    linearElasticIncrement sqrt xOverlap yOverlap volumeOverlap X Y fOwned alpha c1
      selfCellVolume localId 1 i = 0 := by
  simp [linearElasticIncrement, pairIncrement]

theorem elasticPlasticIncrement_broken (sqrt : α → α) (xOverlap yOverlap volumeOverlap : ℕ → α)
    (X Y fOwned : ℕ) (theta alpha c selfCellVolume tdNorm pointWiseYieldValue : α)
    (elastic : Bool) (localId : ℕ) (edpN : α) (i : ℕ) :
    elasticPlasticIncrement sqrt xOverlap yOverlap volumeOverlap X Y fOwned theta alpha c
      selfCellVolume tdNorm pointWiseYieldValue elastic localId 1 edpN i = 0 := by
  simp [elasticPlasticIncrement, pairIncrement]

theorem viscoelasticIncrement_broken (sqrt : α → α) (beta : ViscoelasticBetaOperator α)
    (decay : α) (xOverlap yNOverlap yNP1Overlap volumeOverlap : ℕ → α) (X YN YNP1 fOwned : ℕ)
    (dilatationN dilatationNp1 alpha c selfCellVolume : α) (localId : ℕ) (edbN : α) (i : ℕ) :
    viscoelasticIncrement sqrt beta decay xOverlap yNOverlap yNP1Overlap volumeOverlap X YN YNP1
      fOwned dilatationN dilatationNp1 alpha c selfCellVolume localId 1 edbN i = 0 := by
  simp [viscoelasticIncrement, pairIncrement]

/-! ## Bond-length-preserving motions -/

/-- C29: for every initial force array `f0`, dense `computeInternalForceLinearElastic` returns
`f0` plus the array the same call returns from the all-zero force array; and the three force
entries of a point that is neither an owned point (index below `numOwnedPoints`) nor listed as
a neighbour in the block of an owned point are unchanged. -/
theorem computeInternalForceLinearElastic_accumulates (sqrt : α → α)
    (xOverlap yOverlap mOwned volumeOverlap dilatationOwned bondDamage fInternalOverlap : ℕ → α)
    (localNeighborList : ℕ → ℕ) (numOwnedPoints : ℕ) (K MU : α) :
    (∀ i, computeInternalForceLinearElastic sqrt xOverlap yOverlap mOwned volumeOverlap
        dilatationOwned bondDamage fInternalOverlap localNeighborList numOwnedPoints K MU i
      = fInternalOverlap i
        + computeInternalForceLinearElastic sqrt xOverlap yOverlap mOwned volumeOverlap
            dilatationOwned bondDamage (fun _ => 0) localNeighborList numOwnedPoints K MU i)
    ∧ (∀ q k, k < 3 → numOwnedPoints ≤ q →
        (∀ p, p < numOwnedPoints → ∀ j, j < numNeighOf localNeighborList p →
          neighOf localNeighborList p j ≠ q) →
        computeInternalForceLinearElastic sqrt xOverlap yOverlap mOwned volumeOverlap
            dilatationOwned bondDamage fInternalOverlap localNeighborList numOwnedPoints K MU
            (3 * q + k)
          = fInternalOverlap (3 * q + k)) := by
  constructor
  · intro i
    unfold computeInternalForceLinearElastic
    rw [computeInternalForceLinearElastic_run_eq, computeInternalForceLinearElastic_run_eq]
    simp only [zero_add]
  · intro q k hk hq hn
    unfold computeInternalForceLinearElastic
    rw [computeInternalForceLinearElastic_run_eq]
    have hz : ∑ p ∈ Finset.range numOwnedPoints,
        ∑ j ∈ Finset.range (numNeighOf localNeighborList p),
          linearElasticBondContribution sqrt xOverlap yOverlap mOwned volumeOverlap
            dilatationOwned bondDamage localNeighborList K MU p j (3 * q + k) = 0 := by
      apply Finset.sum_eq_zero
      intro p hp
      apply Finset.sum_eq_zero
      intro j hj
      have hp' := Finset.mem_range.mp hp
      unfold linearElasticBondContribution linearElasticIncrement
      rw [pairIncrement_point _ _ _ _ _ _ _ _ _ hk]
      have h1 : ¬ q = p := by omega
      have h2 : ¬ q = neighOf localNeighborList p j :=
        fun e => hn p hp' j (Finset.mem_range.mp hj) e.symm
      simp only [h1, h2, if_false, sub_zero]
    simp only [hz, add_zero]

theorem computeInternalForceLinearElastic_accumulates_witness :
    2 < 3 ∧ 1 ≤ 2
    ∧ (∀ p, p < 1 → ∀ j, j < numNeighOf (twoPointInput Real.sqrt Real.pi).localNeighborList p →
        neighOf (twoPointInput Real.sqrt Real.pi).localNeighborList p j ≠ 2)
    ∧ computeInternalForceLinearElastic Real.sqrt (twoPointInput Real.sqrt Real.pi).xOverlap
        (twoPointInput Real.sqrt Real.pi).yOverlap (twoPointInput Real.sqrt Real.pi).mOwned
        (twoPointInput Real.sqrt Real.pi).volumeOverlap
        (twoPointInput Real.sqrt Real.pi).dilatationOwned
        (twoPointInput Real.sqrt Real.pi).bondDamage (fun _ => 3)
        (twoPointInput Real.sqrt Real.pi).localNeighborList 1 1 1 (3 * 2 + 2) = 3 := by
  have hn : ∀ p, p < 1 →
      ∀ j, j < numNeighOf (twoPointInput Real.sqrt Real.pi).localNeighborList p →
        neighOf (twoPointInput Real.sqrt Real.pi).localNeighborList p j ≠ 2 := by
    decide
  exact ⟨by norm_num, by norm_num, hn,
    (computeInternalForceLinearElastic_accumulates Real.sqrt
      (twoPointInput Real.sqrt Real.pi).xOverlap (twoPointInput Real.sqrt Real.pi).yOverlap
      (twoPointInput Real.sqrt Real.pi).mOwned (twoPointInput Real.sqrt Real.pi).volumeOverlap
      (twoPointInput Real.sqrt Real.pi).dilatationOwned
      (twoPointInput Real.sqrt Real.pi).bondDamage (fun _ => 3)
      (twoPointInput Real.sqrt Real.pi).localNeighborList 1 1 1).2 2 2 (by norm_num)
      (by norm_num) hn⟩

/-! ## The elastic-plastic law without damage, plasticity and shear correction -/

theorem ElasticPlasticInput.contribution_eq_linearElastic (I : ElasticPlasticInput α)
    (p j i : ℕ) (hd : I.bondDamage (bondStart I.localNeighborList p + j) = 0)
    (hdsf : I.dsfOwned p = 1)
    (hedp : I.deviatoricPlasticExtensionStateN (bondStart I.localNeighborList p + j) = 0)
    (hel : I.elastic p = true) :
    I.contribution p j i
      = linearElasticBondContribution I.sqrt I.xOverlap I.yOverlap I.mOwned I.volumeOverlap
          I.dilatationOwned I.bondDamage I.localNeighborList I.BULK_MODULUS I.SHEAR_MODULUS
          p j i := by
  have ht : (1 - I.bondDamage (bondStart I.localNeighborList p + j))
        * (I.c p * bondLength I.sqrt I.xOverlap (3 * p) (3 * neighOf I.localNeighborList p j)
          + (1 - I.bondDamage (bondStart I.localNeighborList p + j)) * I.td p j)
      = (1 - I.bondDamage (bondStart I.localNeighborList p + j))
        * (I.dilatationOwned p * (9 * I.BULK_MODULUS - 15 * I.SHEAR_MODULUS)
              / (3 * I.mOwned p)
            * bondLength I.sqrt I.xOverlap (3 * p) (3 * neighOf I.localNeighborList p j)
          + (1 - I.bondDamage (bondStart I.localNeighborList p + j))
            * (15 * I.SHEAR_MODULUS / I.mOwned p)
            * (bondLength I.sqrt I.yOverlap (3 * p) (3 * neighOf I.localNeighborList p j)
              - bondLength I.sqrt I.xOverlap (3 * p)
                  (3 * neighOf I.localNeighborList p j))) := by
    simp only [ElasticPlasticInput.td, elasticPlasticTd, hel, if_true, deviatoricExtension,
      ElasticPlasticInput.c, ElasticPlasticInput.alpha, hd, hdsf, hedp]
    ring
  rw [I.contribution_eq, ht]
  rfl

/-- C26: when every bond of every owned point has damage `0` and previous plastic extension
`0`, `dsf = 1` at every owned point and every owned point takes the elastic branch, dense
`computeInternalForceIsotropicElasticPlastic` returns the force array that dense
`computeInternalForceLinearElastic` returns from the same initial force array and the same
`x`, `y`, `m`, volume, dilatation, `K` and `MU`: bond by bond the two laws add the same pair
force, as `3K*theta/m*zeta + alpha*(dY - zeta - theta*zeta/3) = c1*zeta + alpha*(dY - zeta)`
with `c1 = theta*(9K - 15MU)/(3m)` and `alpha = 15MU/m`. -/
theorem computeInternalForceIsotropicElasticPlastic_reduces_to_linear_elastic
    (I : ElasticPlasticInput α)
    (deviatoricPlasticExtensionStateNp1 lambdaNP1 fInternalOverlap : ℕ → α)
    (numOwnedPoints : ℕ)
    (hd : ∀ p, p < numOwnedPoints → ∀ j, j < numNeighOf I.localNeighborList p →
      I.bondDamage (bondStart I.localNeighborList p + j) = 0)
    (hdsf : ∀ p, p < numOwnedPoints → I.dsfOwned p = 1)
    (hedp : ∀ p, p < numOwnedPoints → ∀ j, j < numNeighOf I.localNeighborList p →
      I.deviatoricPlasticExtensionStateN (bondStart I.localNeighborList p + j) = 0)
    (hel : ∀ p, p < numOwnedPoints → I.elastic p = true) :
    (I.run deviatoricPlasticExtensionStateNp1 lambdaNP1 fInternalOverlap
        numOwnedPoints).fInternalOverlap
      = computeInternalForceLinearElastic I.sqrt I.xOverlap I.yOverlap I.mOwned I.volumeOverlap
          I.dilatationOwned I.bondDamage fInternalOverlap I.localNeighborList numOwnedPoints
          I.BULK_MODULUS I.SHEAR_MODULUS
    ∧ (∀ p, p < numOwnedPoints → ∀ j, j < numNeighOf I.localNeighborList p → ∀ i,
        I.contribution p j i
          = linearElasticBondContribution I.sqrt I.xOverlap I.yOverlap I.mOwned
              I.volumeOverlap I.dilatationOwned I.bondDamage I.localNeighborList
              I.BULK_MODULUS I.SHEAR_MODULUS p j i)
    ∧ (∀ p, p < numOwnedPoints → ∀ j, j < numNeighOf I.localNeighborList p →
        I.c p * bondLength I.sqrt I.xOverlap (3 * p) (3 * neighOf I.localNeighborList p j)
          + I.td p j
        = I.dilatationOwned p * (9 * I.BULK_MODULUS - 15 * I.SHEAR_MODULUS)
              / (3 * I.mOwned p)
            * bondLength I.sqrt I.xOverlap (3 * p) (3 * neighOf I.localNeighborList p j)
          + 15 * I.SHEAR_MODULUS / I.mOwned p
            * (bondLength I.sqrt I.yOverlap (3 * p) (3 * neighOf I.localNeighborList p j)
              - bondLength I.sqrt I.xOverlap (3 * p)
                  (3 * neighOf I.localNeighborList p j))) := by
  have hbond : ∀ p, p < numOwnedPoints → ∀ j, j < numNeighOf I.localNeighborList p → ∀ i,
      I.contribution p j i
        = linearElasticBondContribution I.sqrt I.xOverlap I.yOverlap I.mOwned
            I.volumeOverlap I.dilatationOwned I.bondDamage I.localNeighborList
            I.BULK_MODULUS I.SHEAR_MODULUS p j i :=
    fun p hp j hj i => I.contribution_eq_linearElastic p j i (hd p hp j hj) (hdsf p hp)
      (hedp p hp j hj) (hel p hp)
  refine ⟨?_, hbond, ?_⟩
  · obtain ⟨_, _, _, _, _, _, _, _, h9⟩ := I.plastic_run_closed_form
      deviatoricPlasticExtensionStateNp1 lambdaNP1 fInternalOverlap numOwnedPoints
    funext i
    rw [h9 i]
    unfold computeInternalForceLinearElastic
    rw [computeInternalForceLinearElastic_run_eq]
    congr 1
    apply Finset.sum_congr rfl
    intro p hp
    apply Finset.sum_congr rfl
    intro j hj
    exact hbond p (Finset.mem_range.mp hp) j (Finset.mem_range.mp hj) i
  · intro p hp j hj
    simp only [ElasticPlasticInput.td, elasticPlasticTd, hel p hp, if_true, deviatoricExtension,
      ElasticPlasticInput.c, ElasticPlasticInput.alpha, hdsf p hp, hedp p hp j hj]
    ring

theorem elasticTwoPoint_elastic : (elasticTwoPointInput Real.sqrt Real.pi).elastic 0 = true := by
  have htd : (elasticTwoPointInput Real.sqrt Real.pi).tdNorm 0 = 15 := twoPoint_tdNorm
  have hpi := Real.pi_le_four
  have hpos := Real.pi_pos
  have hnot : ¬ (elasticTwoPointInput Real.sqrt Real.pi).yieldFunction 0 > 0 := by
    rw [ElasticPlasticInput.yieldFunction_eq, htd]
    simp only [elasticTwoPointInput, ElasticPlasticInput.withYieldStress, twoPointInput]
    rw [not_lt, sub_nonpos]
    have h1 : (15 : ℝ) ^ 2 / 2 ≤ 75 * 7 ^ 2 / (8 * 4 * 1 ^ 5) := by norm_num
    have h2 : (75 : ℝ) * 7 ^ 2 / (8 * 4 * 1 ^ 5) ≤ 75 * 7 ^ 2 / (8 * Real.pi * 1 ^ 5) := by
      apply div_le_div_of_nonneg_left (by norm_num) (by positivity)
      nlinarith
    calc (15 : ℝ) ^ 2 / 2 ≤ 75 * 7 ^ 2 / (8 * 4 * 1 ^ 5) := h1
      _ ≤ 75 * 7 ^ 2 / (8 * Real.pi * 1 ^ 5) := h2
      _ = 1 ^ 2 * (75 * 7 ^ 2 / (8 * Real.pi * 1 ^ 5)) := by ring
  exact ((elasticTwoPointInput Real.sqrt Real.pi).elastic_of_not_pos 0 hnot).1

theorem computeInternalForceIsotropicElasticPlastic_reduces_to_linear_elastic_witness :
    (∀ p, p < 1 →
      ∀ j, j < numNeighOf (elasticTwoPointInput Real.sqrt Real.pi).localNeighborList p →
      (elasticTwoPointInput Real.sqrt Real.pi).bondDamage
        (bondStart (elasticTwoPointInput Real.sqrt Real.pi).localNeighborList p + j) = 0)
    ∧ (∀ p, p < 1 → (elasticTwoPointInput Real.sqrt Real.pi).dsfOwned p = 1)
    ∧ (∀ p, p < 1 →
      ∀ j, j < numNeighOf (elasticTwoPointInput Real.sqrt Real.pi).localNeighborList p →
      (elasticTwoPointInput Real.sqrt Real.pi).deviatoricPlasticExtensionStateN
        (bondStart (elasticTwoPointInput Real.sqrt Real.pi).localNeighborList p + j) = 0)
    ∧ (∀ p, p < 1 → (elasticTwoPointInput Real.sqrt Real.pi).elastic p = true)
    ∧ ((elasticTwoPointInput Real.sqrt Real.pi).run (fun _ => 0) (fun _ => 0) (fun _ => 0)
        1).fInternalOverlap
      = computeInternalForceLinearElastic (elasticTwoPointInput Real.sqrt Real.pi).sqrt
          (elasticTwoPointInput Real.sqrt Real.pi).xOverlap
          (elasticTwoPointInput Real.sqrt Real.pi).yOverlap
          (elasticTwoPointInput Real.sqrt Real.pi).mOwned
          (elasticTwoPointInput Real.sqrt Real.pi).volumeOverlap
          (elasticTwoPointInput Real.sqrt Real.pi).dilatationOwned
          (elasticTwoPointInput Real.sqrt Real.pi).bondDamage (fun _ => 0)
          (elasticTwoPointInput Real.sqrt Real.pi).localNeighborList 1
          (elasticTwoPointInput Real.sqrt Real.pi).BULK_MODULUS
          (elasticTwoPointInput Real.sqrt Real.pi).SHEAR_MODULUS := by
  have hel : ∀ p, p < 1 → (elasticTwoPointInput Real.sqrt Real.pi).elastic p = true := by
    intro p hp
    have h0 : p = 0 := by omega
    subst h0
    exact elasticTwoPoint_elastic
  exact ⟨fun _ _ _ _ => rfl, fun _ _ => rfl, fun _ _ _ _ => rfl, hel,
    (computeInternalForceIsotropicElasticPlastic_reduces_to_linear_elastic
      (elasticTwoPointInput Real.sqrt Real.pi) (fun _ => 0) (fun _ => 0) (fun _ => 0) 1
      (fun _ _ _ _ => rfl) (fun _ _ => rfl) (fun _ _ _ _ => rfl) hel).1⟩

/-! ## The return mapping -/

theorem ElasticPlasticInput.tdNorm_eq_sqrt (I : ElasticPlasticInput α) (p : ℕ) :
    I.tdNorm p = I.sqrt (I.trialNormSquared p) := by
  unfold ElasticPlasticInput.tdNorm computeDeviatoricForceStateNorm
  rw [computeDeviatoricForceStateNorm_bondLoop]
  simp only [zero_add]
  congr 1
  unfold ElasticPlasticInput.trialNormSquared
  apply Finset.sum_congr rfl
  intro j _
  unfold ElasticPlasticInput.tdTrial neighOf
  ring

/-- Facts at a point that yields, for a `sqrt` that is non-negative, exact on non-negative
arguments and zero on non-positive ones, and a positive point yield value. -/
theorem ElasticPlasticInput.plastic_facts (I : ElasticPlasticInput α) (p : ℕ)
    (hsqrt0 : ∀ x, 0 ≤ I.sqrt x) (hsqrt : ∀ x, 0 ≤ x → I.sqrt x * I.sqrt x = x)
    (hneg : ∀ x, x ≤ 0 → I.sqrt x = 0)
    (hY : 0 < I.pointWiseYieldValue p) (hf : I.yieldFunction p > 0) :
    0 < I.tdNorm p ∧ I.tdNorm p * I.tdNorm p = I.trialNormSquared p
    ∧ 0 < I.sqrt (2 * I.pointWiseYieldValue p)
    ∧ I.sqrt (2 * I.pointWiseYieldValue p) * I.sqrt (2 * I.pointWiseYieldValue p)
        = 2 * I.pointWiseYieldValue p
    ∧ I.alpha p ≠ 0 := by
  have hN0 : 0 ≤ I.tdNorm p := by
    rw [I.tdNorm_eq_sqrt]
    exact hsqrt0 _
  have hf' : I.tdNorm p * I.tdNorm p / 2 - I.pointWiseYieldValue p > 0 := hf
  have hNpos : 0 < I.tdNorm p := by
    rcases hN0.lt_or_eq with h | h
    · exact h
    · rw [← h] at hf'
      simp only [mul_zero, zero_div, zero_sub] at hf'
      linarith
  have hSpos : 0 < I.trialNormSquared p := by
    by_contra hle
    have h0 := hneg _ (not_lt.mp hle)
    rw [← I.tdNorm_eq_sqrt] at h0
    rw [h0] at hNpos
    exact lt_irrefl _ hNpos
  have hNN : I.tdNorm p * I.tdNorm p = I.trialNormSquared p := by
    rw [I.tdNorm_eq_sqrt]
    exact hsqrt _ hSpos.le
  have h2Y : 0 < 2 * I.pointWiseYieldValue p := by linarith
  have hrr := hsqrt _ h2Y.le
  have hr0 := hsqrt0 (2 * I.pointWiseYieldValue p)
  have hrpos : 0 < I.sqrt (2 * I.pointWiseYieldValue p) := by
    rcases hr0.lt_or_eq with h | h
    · exact h
    · rw [← h] at hrr
      linarith
  refine ⟨hNpos, hNN, hrpos, hrr, ?_⟩
  intro ha
  have hS0 : I.trialNormSquared p = 0 := by
    unfold ElasticPlasticInput.trialNormSquared
    apply Finset.sum_eq_zero
    intro j _
    simp only [ElasticPlasticInput.tdTrial, ha, zero_mul, mul_zero, ne_eq, OfNat.ofNat_ne_zero,
      not_false_eq_true, zero_pow]
  rw [hS0] at hSpos
  exact lt_irrefl _ hSpos

theorem ElasticPlasticInput.returnedNormSquared_plastic (I : ElasticPlasticInput α) (p : ℕ)
    (hsqrt0 : ∀ x, 0 ≤ I.sqrt x) (hsqrt : ∀ x, 0 ≤ x → I.sqrt x * I.sqrt x = x)
    (hneg : ∀ x, x ≤ 0 → I.sqrt x = 0)
    (hY : 0 < I.pointWiseYieldValue p) (hf : I.yieldFunction p > 0) :
    I.returnedNormSquared p = 2 * I.pointWiseYieldValue p := by
  obtain ⟨hNpos, hNN, _, hrr, _⟩ := I.plastic_facts p hsqrt0 hsqrt hneg hY hf
  obtain ⟨_, _, _, hbond⟩ := I.plastic_of_pos p hf
  have hN : I.tdNorm p ≠ 0 := ne_of_gt hNpos
  have hterm : ∀ j, ((1 - I.bondDamage (bondStart I.localNeighborList p + j)) * I.td p j) ^ 2
        * I.volumeOverlap (neighOf I.localNeighborList p j)
      = I.sqrt (2 * I.pointWiseYieldValue p) * I.sqrt (2 * I.pointWiseYieldValue p)
          / (I.tdNorm p * I.tdNorm p)
        * (((1 - I.bondDamage (bondStart I.localNeighborList p + j)) * I.tdTrial p j) ^ 2
          * I.volumeOverlap (neighOf I.localNeighborList p j)) := by
    intro j
    rw [(hbond j).1]
    field_simp
    ring
  unfold ElasticPlasticInput.returnedNormSquared
  simp only [hterm]
  rw [← Finset.mul_sum]
  have hS : ∑ j ∈ Finset.range (numNeighOf I.localNeighborList p),
      ((1 - I.bondDamage (bondStart I.localNeighborList p + j)) * I.tdTrial p j) ^ 2
        * I.volumeOverlap (neighOf I.localNeighborList p j) = I.trialNormSquared p := rfl
  rw [hS, ← hNN, hrr]
  have hNN0 : I.tdNorm p * I.tdNorm p ≠ 0 := mul_ne_zero hN hN
  exact div_mul_cancel₀ _ hNN0

theorem ElasticPlasticInput.returnedNormSquared_elastic (I : ElasticPlasticInput α) (p : ℕ)
    (hf : ¬ I.yieldFunction p > 0) :
    I.returnedNormSquared p = I.trialNormSquared p := by
  obtain ⟨_, _, _, hbond⟩ := I.elastic_of_not_pos p hf
  unfold ElasticPlasticInput.returnedNormSquared ElasticPlasticInput.trialNormSquared
  apply Finset.sum_congr rfl
  intro j _
  rw [(hbond j).1]

/-- After a plastic step the trial deviatoric force computed from the updated plastic
extension is the returned deviatoric force: `alpha*(ed - edpNp1) = td`. -/
theorem ElasticPlasticInput.return_consistency (I : ElasticPlasticInput α) (p j : ℕ)
    (hsqrt0 : ∀ x, 0 ≤ I.sqrt x) (hsqrt : ∀ x, 0 ≤ x → I.sqrt x * I.sqrt x = x)
    (hneg : ∀ x, x ≤ 0 → I.sqrt x = 0)
    (hY : 0 < I.pointWiseYieldValue p) (hf : I.yieldFunction p > 0) :
    I.alpha p * (deviatoricExtension I.sqrt I.xOverlap I.yOverlap (3 * p) (3 * p)
        (I.dilatationOwned p) (neighOf I.localNeighborList p j) - I.edpNp1 p j)
      = I.td p j := by
  obtain ⟨hNpos, _, hrpos, _, ha⟩ := I.plastic_facts p hsqrt0 hsqrt hneg hY hf
  obtain ⟨_, hdl, _, hbond⟩ := I.plastic_of_pos p hf
  have hN : I.tdNorm p ≠ 0 := ne_of_gt hNpos
  have hr : I.sqrt (2 * I.pointWiseYieldValue p) ≠ 0 := ne_of_gt hrpos
  have htrial : I.tdTrial p j
      = I.alpha p * (deviatoricExtension I.sqrt I.xOverlap I.yOverlap (3 * p) (3 * p)
          (I.dilatationOwned p) (neighOf I.localNeighborList p j)
        - I.deviatoricPlasticExtensionStateN (bondStart I.localNeighborList p + j)) := rfl
  rw [(hbond j).2, hdl, (hbond j).1, htrial]
  field_simp
  ring

theorem ElasticPlasticInput.next_tdTrial (I : ElasticPlasticInput α)
    (e l f : ℕ → α) (n p j : ℕ) (hp : p < n) (hj : j < numNeighOf I.localNeighborList p)
    (hsqrt0 : ∀ x, 0 ≤ I.sqrt x) (hsqrt : ∀ x, 0 ≤ x → I.sqrt x * I.sqrt x = x)
    (hneg : ∀ x, x ≤ 0 → I.sqrt x = 0) (hY : 0 < I.pointWiseYieldValue p) :
    (I.next e l f n).tdTrial p j = I.td p j := by
  obtain ⟨_, _, _, _, _, _, h7, _, _⟩ := I.plastic_run_closed_form e l f n
  have hnext : (I.next e l f n).tdTrial p j
      = I.alpha p * (deviatoricExtension I.sqrt I.xOverlap I.yOverlap (3 * p) (3 * p)
          (I.dilatationOwned p) (neighOf I.localNeighborList p j)
        - (I.run e l f n).deviatoricPlasticExtensionStateNp1
            (bondStart I.localNeighborList p + j)) := rfl
  rw [hnext, h7 p hp j hj]
  by_cases hf : I.yieldFunction p > 0
  · exact I.return_consistency p j hsqrt0 hsqrt hneg hY hf
  · obtain ⟨_, _, _, hbond⟩ := I.elastic_of_not_pos p hf
    rw [(hbond j).2, (hbond j).1]
    rfl

theorem ElasticPlasticInput.next_trialNormSquared (I : ElasticPlasticInput α)
    (e l f : ℕ → α) (n p : ℕ) (hp : p < n)
    (hsqrt0 : ∀ x, 0 ≤ I.sqrt x) (hsqrt : ∀ x, 0 ≤ x → I.sqrt x * I.sqrt x = x)
    (hneg : ∀ x, x ≤ 0 → I.sqrt x = 0) (hY : 0 < I.pointWiseYieldValue p) :
    (I.next e l f n).trialNormSquared p = I.returnedNormSquared p := by
  unfold ElasticPlasticInput.trialNormSquared ElasticPlasticInput.returnedNormSquared
  apply Finset.sum_congr rfl
  intro j hj
  have hj' : j < numNeighOf I.localNeighborList p := Finset.mem_range.mp hj
  rw [I.next_tdTrial e l f n p j hp hj' hsqrt0 hsqrt hneg hY]
  rfl

theorem ElasticPlasticInput.next_tdNorm (I : ElasticPlasticInput α)
    (e l f : ℕ → α) (n p : ℕ) (hp : p < n)
    (hsqrt0 : ∀ x, 0 ≤ I.sqrt x) (hsqrt : ∀ x, 0 ≤ x → I.sqrt x * I.sqrt x = x)
    (hneg : ∀ x, x ≤ 0 → I.sqrt x = 0) (hY : 0 < I.pointWiseYieldValue p) :
    (I.next e l f n).tdNorm p = I.sqrt (I.returnedNormSquared p) := by
  rw [(I.next e l f n).tdNorm_eq_sqrt, I.next_trialNormSquared e l f n p hp hsqrt0 hsqrt hneg hY]
  rfl

theorem ElasticPlasticInput.next_yieldFunction (I : ElasticPlasticInput α)
    (e l f : ℕ → α) (n p : ℕ) (hp : p < n)
    (hsqrt0 : ∀ x, 0 ≤ I.sqrt x) (hsqrt : ∀ x, 0 ≤ x → I.sqrt x * I.sqrt x = x)
    (hneg : ∀ x, x ≤ 0 → I.sqrt x = 0) (hY : 0 < I.pointWiseYieldValue p) :
    (I.yieldFunction p > 0 → (I.next e l f n).yieldFunction p = 0)
    ∧ ¬ (I.next e l f n).yieldFunction p > 0 := by
  have hform : (I.next e l f n).yieldFunction p
      = I.sqrt (I.returnedNormSquared p) * I.sqrt (I.returnedNormSquared p) / 2
        - I.pointWiseYieldValue p := by
    rw [← I.next_tdNorm e l f n p hp hsqrt0 hsqrt hneg hY]
    rfl
  by_cases hf : I.yieldFunction p > 0
  · obtain ⟨_, _, _, hrr, _⟩ := I.plastic_facts p hsqrt0 hsqrt hneg hY hf
    have h0 : (I.next e l f n).yieldFunction p = 0 := by
      rw [hform, I.returnedNormSquared_plastic p hsqrt0 hsqrt hneg hY hf, hrr]
      ring
    exact ⟨fun _ => h0, by rw [h0]; exact lt_irrefl _⟩
  · refine ⟨fun h => absurd h hf, ?_⟩
    rw [hform, I.returnedNormSquared_elastic p hf, ← I.tdNorm_eq_sqrt]
    exact hf

theorem ElasticPlasticInput.next_contribution (I : ElasticPlasticInput α)
    (e l f : ℕ → α) (n p j i : ℕ) (hp : p < n) (hj : j < numNeighOf I.localNeighborList p)
    (hsqrt0 : ∀ x, 0 ≤ I.sqrt x) (hsqrt : ∀ x, 0 ≤ x → I.sqrt x * I.sqrt x = x)
    (hneg : ∀ x, x ≤ 0 → I.sqrt x = 0) (hY : 0 < I.pointWiseYieldValue p) :
    (I.next e l f n).contribution p j i = I.contribution p j i := by
  have hnot := (I.next_yieldFunction e l f n p hp hsqrt0 hsqrt hneg hY).2
  obtain ⟨_, _, _, hbond⟩ := (I.next e l f n).elastic_of_not_pos p hnot
  have htd : (I.next e l f n).td p j = I.td p j := by
    rw [(hbond j).1, I.next_tdTrial e l f n p j hp hj hsqrt0 hsqrt hneg hY]
  rw [(I.next e l f n).contribution_eq, I.contribution_eq, htd]
  rfl

/-- C25: at an owned point `p` where the dense elastic-plastic evaluator takes the plastic
branch, `f = tdNorm^2/2 - pointYield > 0` with `pointYield = dsf[p]^2*yieldValue > 0`, the
rescaled deviatoric forces `td_n = sqrt(2*pointYield)*tdTrial_n/tdNorm` satisfy
`Σ_n ((1-d_n)*td_n)^2 * volume[n] = 2*pointYield` over the bonds of `p`, and
`computeDeviatoricForceStateNorm` evaluated on the block of `p` with the plastic extension
state the call has written returns `sqrt(2*pointYield)`.  Here `sqrt` is non-negative, exact on
non-negative arguments and zero on non-positive ones. -/
theorem computeInternalForceIsotropicElasticPlastic_on_yield_surface
    (I : ElasticPlasticInput α)
    (deviatoricPlasticExtensionStateNp1 lambdaNP1 fInternalOverlap : ℕ → α)
    (numOwnedPoints p : ℕ) (hp : p < numOwnedPoints)
    (hsqrt0 : ∀ x, 0 ≤ I.sqrt x) (hsqrt : ∀ x, 0 ≤ x → I.sqrt x * I.sqrt x = x)
    (hneg : ∀ x, x ≤ 0 → I.sqrt x = 0)
    (hY : 0 < I.dsfOwned p * I.dsfOwned p * yieldValue3d I.pi I.HORIZON I.yieldStress)
    (hf : I.tdNorm p * I.tdNorm p / 2
      - I.dsfOwned p * I.dsfOwned p * yieldValue3d I.pi I.HORIZON I.yieldStress > 0) :
    (∀ j, j < numNeighOf I.localNeighborList p →
      I.td p j
        = I.sqrt (2 * (I.dsfOwned p * I.dsfOwned p * yieldValue3d I.pi I.HORIZON I.yieldStress))
          * I.tdTrial p j / I.tdNorm p)
    ∧ ∑ j ∈ Finset.range (numNeighOf I.localNeighborList p),
        ((1 - I.bondDamage (bondStart I.localNeighborList p + j)) * I.td p j) ^ 2
          * I.volumeOverlap (neighOf I.localNeighborList p j)
      = 2 * (I.dsfOwned p * I.dsfOwned p * yieldValue3d I.pi I.HORIZON I.yieldStress)
    ∧ computeDeviatoricForceStateNorm I.sqrt (numNeighOf I.localNeighborList p)
        (I.dilatationOwned p) I.localNeighborList (blockStart I.localNeighborList p + 1)
        I.bondDamage (bondStart I.localNeighborList p)
        (I.run deviatoricPlasticExtensionStateNp1 lambdaNP1 fInternalOverlap
          numOwnedPoints).deviatoricPlasticExtensionStateNp1
        (bondStart I.localNeighborList p) (3 * p) (3 * p) I.xOverlap I.yOverlap
        I.volumeOverlap (I.alpha p) 1
      = I.sqrt (2 * (I.dsfOwned p * I.dsfOwned p
          * yieldValue3d I.pi I.HORIZON I.yieldStress)) := by
  have hY' : 0 < I.pointWiseYieldValue p := hY
  have hf' : I.yieldFunction p > 0 := hf
  obtain ⟨_, _, _, hbond⟩ := I.plastic_of_pos p hf'
  refine ⟨fun j _ => (hbond j).1, I.returnedNormSquared_plastic p hsqrt0 hsqrt hneg hY' hf', ?_⟩
  have h := I.next_tdNorm deviatoricPlasticExtensionStateNp1 lambdaNP1 fInternalOverlap
    numOwnedPoints p hp hsqrt0 hsqrt hneg hY'
  rw [I.returnedNormSquared_plastic p hsqrt0 hsqrt hneg hY' hf'] at h
  exact h

theorem twoPoint_pointYield_pos :
    0 < (twoPointInput Real.sqrt Real.pi).dsfOwned 0
      * (twoPointInput Real.sqrt Real.pi).dsfOwned 0
      * yieldValue3d (twoPointInput Real.sqrt Real.pi).pi
          (twoPointInput Real.sqrt Real.pi).HORIZON
          (twoPointInput Real.sqrt Real.pi).yieldStress := by
  have hpi := Real.pi_pos
  simp only [twoPointInput, yieldValue3d]
  positivity

theorem twoPoint_yieldFunction_pos :
    (twoPointInput Real.sqrt Real.pi).yieldFunction 0 > 0 := by
  rw [ElasticPlasticInput.yieldFunction_eq]
  exact twoPoint_yields

theorem computeInternalForceIsotropicElasticPlastic_on_yield_surface_witness :
    (∀ x, 0 ≤ Real.sqrt x) ∧ (∀ x, 0 ≤ x → Real.sqrt x * Real.sqrt x = x)
    ∧ (∀ x, x ≤ 0 → Real.sqrt x = 0)
    ∧ 0 < (twoPointInput Real.sqrt Real.pi).dsfOwned 0
        * (twoPointInput Real.sqrt Real.pi).dsfOwned 0
        * yieldValue3d (twoPointInput Real.sqrt Real.pi).pi
            (twoPointInput Real.sqrt Real.pi).HORIZON
            (twoPointInput Real.sqrt Real.pi).yieldStress
    ∧ (twoPointInput Real.sqrt Real.pi).yieldFunction 0 > 0
    ∧ ∑ j ∈ Finset.range (numNeighOf (twoPointInput Real.sqrt Real.pi).localNeighborList 0),
        ((1 - (twoPointInput Real.sqrt Real.pi).bondDamage
              (bondStart (twoPointInput Real.sqrt Real.pi).localNeighborList 0 + j))
            * (twoPointInput Real.sqrt Real.pi).td 0 j) ^ 2
          * (twoPointInput Real.sqrt Real.pi).volumeOverlap
              (neighOf (twoPointInput Real.sqrt Real.pi).localNeighborList 0 j)
      = 2 * ((twoPointInput Real.sqrt Real.pi).dsfOwned 0
          * (twoPointInput Real.sqrt Real.pi).dsfOwned 0
          * yieldValue3d (twoPointInput Real.sqrt Real.pi).pi
              (twoPointInput Real.sqrt Real.pi).HORIZON
              (twoPointInput Real.sqrt Real.pi).yieldStress) :=
  ⟨Real.sqrt_nonneg, fun _ h => Real.mul_self_sqrt h, fun _ h => Real.sqrt_eq_zero_of_nonpos h,
    twoPoint_pointYield_pos, twoPoint_yieldFunction_pos,
    (computeInternalForceIsotropicElasticPlastic_on_yield_surface
      (twoPointInput Real.sqrt Real.pi) (fun _ => 0) (fun _ => 0) (fun _ => 0) 2 0
      (by norm_num) Real.sqrt_nonneg (fun _ h => Real.mul_self_sqrt h)
      (fun _ h => Real.sqrt_eq_zero_of_nonpos h) twoPoint_pointYield_pos
      twoPoint_yieldFunction_pos).2.1⟩

/-- For a square root that is non-negative, exact on non-negative arguments and zero on
non-positive ones, which the rounded double `sqrt` is not: with `m[p] > 0`,
`SHEAR_MODULUS > 0`, `dsf[p] > 0`, `yieldStress > 0`, `HORIZON > 0` and `M_PI > 0`, a second
call on the same kinematics whose previous-step state is the output of the first has yield
function `0` at the points that yielded, takes the elastic branch at every owned point, leaves
the same `lambdaNP1` and plastic extension state and adds the same forces. -/
theorem second_call_elastic_of_exact_sqrt
    (I : ElasticPlasticInput α)
    (deviatoricPlasticExtensionStateNp1 lambdaNP1 fInternalOverlap : ℕ → α)
    (numOwnedPoints : ℕ)
    (hsqrt0 : ∀ x, 0 ≤ I.sqrt x) (hsqrt : ∀ x, 0 ≤ x → I.sqrt x * I.sqrt x = x)
    (hneg : ∀ x, x ≤ 0 → I.sqrt x = 0) (hpi : 0 < I.pi)
    (hm : ∀ p, p < numOwnedPoints → 0 < I.mOwned p) (hMU : 0 < I.SHEAR_MODULUS)
    (hdsf : ∀ p, p < numOwnedPoints → 0 < I.dsfOwned p)
    (hys : 0 < I.yieldStress) (hH : 0 < I.HORIZON) :
    (∀ p, p < numOwnedPoints → I.yieldFunction p > 0 →
      ∀ j, j < numNeighOf I.localNeighborList p →
        I.alpha p * (deviatoricExtension I.sqrt I.xOverlap I.yOverlap (3 * p) (3 * p)
            (I.dilatationOwned p) (neighOf I.localNeighborList p j)
          - (I.run deviatoricPlasticExtensionStateNp1 lambdaNP1 fInternalOverlap
              numOwnedPoints).deviatoricPlasticExtensionStateNp1
              (bondStart I.localNeighborList p + j))
        = I.td p j)
    ∧ (∀ p, p < numOwnedPoints → I.yieldFunction p > 0 →
        (I.next deviatoricPlasticExtensionStateNp1 lambdaNP1 fInternalOverlap
          numOwnedPoints).yieldFunction p = 0)
    ∧ (∀ p, p < numOwnedPoints →
        (I.next deviatoricPlasticExtensionStateNp1 lambdaNP1 fInternalOverlap
          numOwnedPoints).elastic p = true)
    ∧ (∀ (e l g : ℕ → α) p, p < numOwnedPoints →
        ((I.next deviatoricPlasticExtensionStateNp1 lambdaNP1 fInternalOverlap
            numOwnedPoints).run e l g numOwnedPoints).lambdaNP1 p
          = (I.run deviatoricPlasticExtensionStateNp1 lambdaNP1 fInternalOverlap
              numOwnedPoints).lambdaNP1 p
        ∧ ∀ j, j < numNeighOf I.localNeighborList p →
          ((I.next deviatoricPlasticExtensionStateNp1 lambdaNP1 fInternalOverlap
              numOwnedPoints).run e l g numOwnedPoints).deviatoricPlasticExtensionStateNp1
              (bondStart I.localNeighborList p + j)
            = (I.run deviatoricPlasticExtensionStateNp1 lambdaNP1 fInternalOverlap
                numOwnedPoints).deviatoricPlasticExtensionStateNp1
                (bondStart I.localNeighborList p + j))
    ∧ (∀ (e l g : ℕ → α) i,
        ((I.next deviatoricPlasticExtensionStateNp1 lambdaNP1 fInternalOverlap
            numOwnedPoints).run e l g numOwnedPoints).fInternalOverlap i - g i
          = (I.run deviatoricPlasticExtensionStateNp1 lambdaNP1 fInternalOverlap
              numOwnedPoints).fInternalOverlap i - fInternalOverlap i) := by
  have _ := hm
  have _ := hMU
  have hY : ∀ p, p < numOwnedPoints → 0 < I.pointWiseYieldValue p := by
    intro p hp
    have := hdsf p hp
    rw [I.pointWiseYieldValue_eq]
    positivity
  have hnot : ∀ p, p < numOwnedPoints →
      ¬ (I.next deviatoricPlasticExtensionStateNp1 lambdaNP1 fInternalOverlap
        numOwnedPoints).yieldFunction p > 0 :=
    fun p hp => (I.next_yieldFunction deviatoricPlasticExtensionStateNp1 lambdaNP1
      fInternalOverlap numOwnedPoints p hp hsqrt0 hsqrt hneg (hY p hp)).2
  obtain ⟨_, _, _, _, _, _, h7, _, h9⟩ := I.plastic_run_closed_form
    deviatoricPlasticExtensionStateNp1 lambdaNP1 fInternalOverlap numOwnedPoints
  refine ⟨?_, ?_, ?_, ?_, ?_⟩
  · intro p hp hf j hj
    rw [h7 p hp j hj]
    exact I.return_consistency p j hsqrt0 hsqrt hneg (hY p hp) hf
  · intro p hp hf
    exact (I.next_yieldFunction deviatoricPlasticExtensionStateNp1 lambdaNP1 fInternalOverlap
      numOwnedPoints p hp hsqrt0 hsqrt hneg (hY p hp)).1 hf
  · intro p hp
    exact ((I.next deviatoricPlasticExtensionStateNp1 lambdaNP1 fInternalOverlap
      numOwnedPoints).elastic_of_not_pos p (hnot p hp)).1
  · intro e l g p hp
    obtain ⟨_, _, _, _, k5, _, k7, _, _⟩ :=
      (I.next deviatoricPlasticExtensionStateNp1 lambdaNP1 fInternalOverlap
        numOwnedPoints).plastic_run_closed_form e l g numOwnedPoints
    obtain ⟨_, _, hlam, hbond⟩ :=
      (I.next deviatoricPlasticExtensionStateNp1 lambdaNP1 fInternalOverlap
        numOwnedPoints).elastic_of_not_pos p (hnot p hp)
    constructor
    · rw [k5 p hp, hlam]
      rfl
    · intro j hj
      have hk := k7 p hp j hj
      rw [(hbond j).2] at hk
      exact hk
  · intro e l g i
    obtain ⟨_, _, _, _, _, _, _, _, k9⟩ :=
      (I.next deviatoricPlasticExtensionStateNp1 lambdaNP1 fInternalOverlap
        numOwnedPoints).plastic_run_closed_form e l g numOwnedPoints
    rw [k9 i, h9 i, add_sub_cancel_left, add_sub_cancel_left]
    apply Finset.sum_congr rfl
    intro p hp
    apply Finset.sum_congr rfl
    intro j hj
    exact I.next_contribution deviatoricPlasticExtensionStateNp1 lambdaNP1 fInternalOverlap
      numOwnedPoints p j i (Finset.mem_range.mp hp) (Finset.mem_range.mp hj) hsqrt0 hsqrt hneg
      (hY p (Finset.mem_range.mp hp))

/-! ## Cursor safety and lockstep of the elastic-plastic evaluator -/

theorem appendLoop_mem (f : ℕ → List Access) (n : ℕ) (a : Access) :
    a ∈ appendLoop f n ↔ ∃ j, j < n ∧ a ∈ f j := by
  induction n with
  | zero => simp [appendLoop]
  | succ k ih =>
    simp only [appendLoop, List.mem_append, ih]
    constructor
    · rintro (⟨j, hj, ha⟩ | ha)
      · exact ⟨j, Nat.lt_succ_of_lt hj, ha⟩
      · exact ⟨k, Nat.lt_succ_self k, ha⟩
    · rintro ⟨j, hj, ha⟩
      by_cases hjk : j = k
      · subst hjk
        exact Or.inr ha
      · exact Or.inl ⟨j, by omega, ha⟩

theorem blockStart_mono (localNeighborList : ℕ → ℕ) (p q : ℕ) (h : p ≤ q) :
    blockStart localNeighborList p ≤ blockStart localNeighborList q := by
  induction q with
  | zero =>
    have : p = 0 := Nat.le_zero.mp h
    subst this
    exact le_rfl
  | succ k ih =>
    by_cases hk : p = k + 1
    · subst hk; exact le_rfl
    · have := ih (by omega)
      simp only [blockStart]
      omega

theorem computeDeviatoricForceStateNorm_log_bondLoop (localNeighborList : ℕ → ℕ) (X Y : ℕ)
    (n : ℕ) (s : NormAccessState) :
    forLoop (fun _ => computeDeviatoricForceStateNorm_bond_log localNeighborList X Y) n s
    = { neighPtr := s.neighPtr + n
        bondDamagePtr := s.bondDamagePtr + n
        deviatoricPlasticExtensionStatePtr := s.deviatoricPlasticExtensionStatePtr + n
        log := s.log ++ appendLoop (fun j =>
          computeDeviatoricForceStateNorm_bond_accesses localNeighborList X Y (s.neighPtr + j)
            (s.bondDamagePtr + j) (s.deviatoricPlasticExtensionStatePtr + j)) n } := by
  induction n with
  | zero => simp [forLoop, appendLoop]
  | succ k ih =>
    rw [forLoop_succ, ih]
    simp only [computeDeviatoricForceStateNorm_bond_log, appendLoop, List.append_assoc,
      add_assoc]

theorem computeInternalForceIsotropicElasticPlastic_log_bondLoop (localNeighborList : ℕ → ℕ)
    (X Y fOwned p : ℕ) (elastic : Bool) (n : ℕ) (s : ElasticPlasticAccessState) :
    forLoop (fun _ => computeInternalForceIsotropicElasticPlastic_bond_log localNeighborList
      X Y fOwned p elastic) n s
    = { neighPtr := s.neighPtr + n
        bondDamagePtr := s.bondDamagePtr + n
        deviatoricPlasticExtensionStateNPtr := s.deviatoricPlasticExtensionStateNPtr + n
        deviatoricPlasticExtensionStateNp1Ptr := s.deviatoricPlasticExtensionStateNp1Ptr + n
        log := s.log ++ appendLoop (fun j =>
          computeInternalForceIsotropicElasticPlastic_bond_accesses localNeighborList X Y
            fOwned p elastic (s.neighPtr + j) (s.bondDamagePtr + j)
            (s.deviatoricPlasticExtensionStateNPtr + j)
            (s.deviatoricPlasticExtensionStateNp1Ptr + j)) n } := by
  induction n with
  | zero => simp [forLoop, appendLoop]
  | succ k ih =>
    rw [forLoop_succ, ih]
    simp only [computeInternalForceIsotropicElasticPlastic_bond_log, appendLoop,
      List.append_assoc, add_assoc]

theorem computeInternalForceIsotropicElasticPlastic_point_log_eq (localNeighborList : ℕ → ℕ)
    (elastic : ℕ → Bool) (p : ℕ) (s : ElasticPlasticAccessState)
    (h1 : s.neighPtr = blockStart localNeighborList p)
    (h2 : s.bondDamagePtr = bondStart localNeighborList p)
    (h3 : s.deviatoricPlasticExtensionStateNPtr = bondStart localNeighborList p)
    (h4 : s.deviatoricPlasticExtensionStateNp1Ptr = bondStart localNeighborList p) :
    computeInternalForceIsotropicElasticPlastic_point_log localNeighborList elastic p s
    = { neighPtr := blockStart localNeighborList (p + 1)
        bondDamagePtr := bondStart localNeighborList (p + 1)
        deviatoricPlasticExtensionStateNPtr := bondStart localNeighborList (p + 1)
        deviatoricPlasticExtensionStateNp1Ptr := bondStart localNeighborList (p + 1)
        log := s.log ++ pointAccesses localNeighborList elastic p } := by
  simp only [computeInternalForceIsotropicElasticPlastic_point_log,
    computeInternalForceIsotropicElasticPlastic_log_bondLoop,
    computeDeviatoricForceStateNorm_log, computeDeviatoricForceStateNorm_log_bondLoop,
    h1, h2, h3, h4, pointAccesses, numNeighOf, blockStart, bondStart, List.append_assoc,
    List.nil_append]

/-- Closed form of the cursors and of the access log after `n` owned points. -/
theorem computeInternalForceIsotropicElasticPlastic_log_eq (localNeighborList : ℕ → ℕ)
    (elastic : ℕ → Bool) (n : ℕ) :
    computeInternalForceIsotropicElasticPlastic_log localNeighborList elastic n
    = { neighPtr := blockStart localNeighborList n
        bondDamagePtr := bondStart localNeighborList n
        deviatoricPlasticExtensionStateNPtr := bondStart localNeighborList n
        deviatoricPlasticExtensionStateNp1Ptr := bondStart localNeighborList n
        log := appendLoop (pointAccesses localNeighborList elastic) n } := by
  unfold computeInternalForceIsotropicElasticPlastic_log
  induction n with
  | zero => simp [forLoop, blockStart, bondStart, appendLoop]
  | succ k ih =>
    rw [forLoop_succ, ih, computeInternalForceIsotropicElasticPlastic_point_log_eq _ _ _ _
      rfl rfl rfl rfl]
    simp only [appendLoop]

theorem head_accesses_inRange (localNeighborList : ℕ → ℕ) (n N p : ℕ) (hN : n ≤ N)
    (hp : p < n) :
    ∀ a ∈ computeInternalForceIsotropicElasticPlastic_head_accesses p
        (blockStart localNeighborList p),
      a.index < arrayLength localNeighborList n N a.array := by
  have h1 := blockStart_mono localNeighborList (p + 1) n (by omega)
  simp only [blockStart] at h1
  simp [computeInternalForceIsotropicElasticPlastic_head_accesses, Access.read, arrayLength]
  omega

theorem yield_accesses_inRange (localNeighborList : ℕ → ℕ) (n N p : ℕ) (hp : p < n) :
    ∀ a ∈ computeInternalForceIsotropicElasticPlastic_yield_accesses p,
      a.index < arrayLength localNeighborList n N a.array := by
  simp [computeInternalForceIsotropicElasticPlastic_yield_accesses, Access.read, Access.write,
    arrayLength]
  omega

theorem norm_bond_accesses_inRange (localNeighborList : ℕ → ℕ) (n N p j : ℕ) (hN : n ≤ N)
    (hnb : NeighboursInRange localNeighborList n N) (hp : p < n)
    (hj : j < numNeighOf localNeighborList p) :
    ∀ a ∈ computeDeviatoricForceStateNorm_bond_accesses localNeighborList (3 * p) (3 * p)
        (blockStart localNeighborList p + 1 + j) (bondStart localNeighborList p + j)
        (bondStart localNeighborList p + j),
      a.index < arrayLength localNeighborList n N a.array := by
  have h1 := blockStart_mono localNeighborList (p + 1) n (by omega)
  have h2 := bondStart_mono localNeighborList (p + 1) n (by omega)
  have h3 : localNeighborList (blockStart localNeighborList p + 1 + j) < N := hnb p hp j hj
  simp only [blockStart, bondStart] at h1 h2
  have hj' : j < localNeighborList (blockStart localNeighborList p) := hj
  have hnn : numNeighOf localNeighborList p
      = localNeighborList (blockStart localNeighborList p) := rfl
  simp [computeDeviatoricForceStateNorm_bond_accesses, bondCoordinateAccesses, Access.read,
    arrayLength]
  omega

theorem force_bond_accesses_inRange (localNeighborList : ℕ → ℕ) (n N p j : ℕ) (hN : n ≤ N)
    (hnb : NeighboursInRange localNeighborList n N) (hp : p < n)
    (hj : j < numNeighOf localNeighborList p) (elastic : Bool) :
    ∀ a ∈ computeInternalForceIsotropicElasticPlastic_bond_accesses localNeighborList (3 * p)
        (3 * p) (3 * p) p elastic (blockStart localNeighborList p + 1 + j)
        (bondStart localNeighborList p + j) (bondStart localNeighborList p + j)
        (bondStart localNeighborList p + j),
      a.index < arrayLength localNeighborList n N a.array := by
  have h1 := blockStart_mono localNeighborList (p + 1) n (by omega)
  have h2 := bondStart_mono localNeighborList (p + 1) n (by omega)
  have h3 : localNeighborList (blockStart localNeighborList p + 1 + j) < N := hnb p hp j hj
  simp only [blockStart, bondStart] at h1 h2
  have hj' : j < localNeighborList (blockStart localNeighborList p) := hj
  have hnn : numNeighOf localNeighborList p
      = localNeighborList (blockStart localNeighborList p) := rfl
  cases elastic <;>
    simp [computeInternalForceIsotropicElasticPlastic_bond_accesses, bondCoordinateAccesses,
      Access.read, Access.write, arrayLength] <;>
    omega

theorem pointAccesses_inRange (localNeighborList : ℕ → ℕ) (elastic : ℕ → Bool) (n N p : ℕ)
    (hN : n ≤ N) (hnb : NeighboursInRange localNeighborList n N) (hp : p < n) :
    ∀ a ∈ pointAccesses localNeighborList elastic p,
      a.index < arrayLength localNeighborList n N a.array := by
  intro a ha
  simp only [pointAccesses, List.mem_append, appendLoop_mem] at ha
  rcases ha with ((h | ⟨j, hj, h⟩) | h) | ⟨j, hj, h⟩
  · exact head_accesses_inRange localNeighborList n N p hN hp a h
  · exact norm_bond_accesses_inRange localNeighborList n N p j hN hnb hp hj a h
  · exact yield_accesses_inRange localNeighborList n N p hp a h
  · exact force_bond_accesses_inRange localNeighborList n N p j hN hnb hp hj (elastic p) a h

theorem filter_appendLoop_nil (f : ℕ → List Access) (n : ℕ)
    (h : ∀ j, j < n → storesNp1 (f j) = []) : storesNp1 (appendLoop f n) = [] := by
  induction n with
  | zero => rfl
  | succ k ih =>
    have hk := h k (Nat.lt_succ_self k)
    have ih' := ih (fun j hj => h j (Nat.lt_succ_of_lt hj))
    unfold storesNp1 at hk ih' ⊢
    simp only [appendLoop, List.filter_append, List.map_append, hk, ih', List.append_nil]

theorem storesNp1_append (l₁ l₂ : List Access) :
    storesNp1 (l₁ ++ l₂) = storesNp1 l₁ ++ storesNp1 l₂ := by
  simp only [storesNp1, List.filter_append, List.map_append]

theorem storesNp1_force_loop (localNeighborList : ℕ → ℕ) (X Y fOwned p : ℕ) (elastic : Bool)
    (neighPtr start : ℕ) (n : ℕ) :
    storesNp1 (appendLoop (fun j => computeInternalForceIsotropicElasticPlastic_bond_accesses
      localNeighborList X Y fOwned p elastic (neighPtr + j) (start + j) (start + j)
      (start + j)) n)
    = (List.range n).map (fun j => start + j) := by
  induction n with
  | zero => rfl
  | succ k ih =>
    have hk : storesNp1 (computeInternalForceIsotropicElasticPlastic_bond_accesses
        localNeighborList X Y fOwned p elastic (neighPtr + k) (start + k) (start + k)
        (start + k)) = [start + k] := by
      cases elastic <;> rfl
    rw [appendLoop, storesNp1_append, ih, hk, List.range_succ, List.map_append]
    rfl

theorem storesNp1_pointAccesses (localNeighborList : ℕ → ℕ) (elastic : ℕ → Bool) (p : ℕ) :
    storesNp1 (pointAccesses localNeighborList elastic p)
    = (List.range (numNeighOf localNeighborList p)).map
        (fun j => bondStart localNeighborList p + j) := by
  unfold pointAccesses
  rw [storesNp1_append, storesNp1_append, storesNp1_append, storesNp1_force_loop]
  have h1 : storesNp1 (computeInternalForceIsotropicElasticPlastic_head_accesses p
      (blockStart localNeighborList p)) = [] := rfl
  have h2 : storesNp1 (computeInternalForceIsotropicElasticPlastic_yield_accesses p) = [] := rfl
  have h3 : storesNp1 (appendLoop (fun j =>
      computeDeviatoricForceStateNorm_bond_accesses localNeighborList (3 * p) (3 * p)
        (blockStart localNeighborList p + 1 + j) (bondStart localNeighborList p + j)
        (bondStart localNeighborList p + j)) (numNeighOf localNeighborList p)) = [] :=
    filter_appendLoop_nil _ _ (fun _ _ => rfl)
  rw [h1, h2, h3]
  rfl

theorem storesNp1_run (localNeighborList : ℕ → ℕ) (elastic : ℕ → Bool) (n : ℕ) :
    storesNp1 (appendLoop (pointAccesses localNeighborList elastic) n)
    = List.range (bondStart localNeighborList n) := by
  induction n with
  | zero => rfl
  | succ k ih =>
    rw [appendLoop, storesNp1_append, ih, storesNp1_pointAccesses]
    simp only [bondStart]
    rw [List.range_add]

/-- C23: let the neighbour list consist of `numOwnedPoints` well-formed blocks, every
neighbour index of these blocks lie below `N`, `numOwnedPoints <= N`, the overlap arrays hold
`N` points and the bond-indexed arrays the total bond count (`arrayLength`).  Then every array
access of the dense elastic-plastic evaluator is in range; the accesses are, block by block,
those of `pointAccesses`, in which the norm pre-pass and the force loop visit bond `j` of
block `p` with every bond cursor at `k = (bonds in blocks 0..p-1) + j`; the stores to
`deviatoricPlasticExtensionStateNp1` are the indices `0, 1, ..., total-1` in this order, each
once; the four cursors of the evaluator stand at the start of block `p` and at its first bond
at the top of iteration `p`; the value stored at `k` is computed from
`deviatoricPlasticExtensionStateN[k]`, and the norm of point `p` from the damage and plastic
extension entries `k` of its bonds. -/
theorem computeInternalForceIsotropicElasticPlastic_cursor_safety (I : ElasticPlasticInput α)
    (deviatoricPlasticExtensionStateNp1 lambdaNP1 fInternalOverlap : ℕ → α)
    (numOwnedPoints N : ℕ) (hN : numOwnedPoints ≤ N)
    (hnb : NeighboursInRange I.localNeighborList numOwnedPoints N) :
    (∀ a ∈ I.accesses numOwnedPoints,
      a.index < arrayLength I.localNeighborList numOwnedPoints N a.array)
    ∧ I.accesses numOwnedPoints
        = appendLoop (pointAccesses I.localNeighborList (fun p => I.elastic p)) numOwnedPoints
    ∧ storesNp1 (I.accesses numOwnedPoints)
        = List.range (bondStart I.localNeighborList numOwnedPoints)
    ∧ (storesNp1 (I.accesses numOwnedPoints)).Nodup
    ∧ (∀ p, p ≤ numOwnedPoints →
        (I.run deviatoricPlasticExtensionStateNp1 lambdaNP1 fInternalOverlap p).neighPtr
            = blockStart I.localNeighborList p
        ∧ (I.run deviatoricPlasticExtensionStateNp1 lambdaNP1 fInternalOverlap p).bondDamagePtr
            = bondStart I.localNeighborList p
        ∧ (I.run deviatoricPlasticExtensionStateNp1 lambdaNP1 fInternalOverlap
            p).deviatoricPlasticExtensionStateNPtr = bondStart I.localNeighborList p
        ∧ (I.run deviatoricPlasticExtensionStateNp1 lambdaNP1 fInternalOverlap
            p).deviatoricPlasticExtensionStateNp1Ptr = bondStart I.localNeighborList p
        ∧ (computeInternalForceIsotropicElasticPlastic_log I.localNeighborList
            (fun q => I.elastic q) p).neighPtr = blockStart I.localNeighborList p
        ∧ (computeInternalForceIsotropicElasticPlastic_log I.localNeighborList
            (fun q => I.elastic q) p).bondDamagePtr = bondStart I.localNeighborList p
        ∧ (computeInternalForceIsotropicElasticPlastic_log I.localNeighborList
            (fun q => I.elastic q) p).deviatoricPlasticExtensionStateNPtr
            = bondStart I.localNeighborList p
        ∧ (computeInternalForceIsotropicElasticPlastic_log I.localNeighborList
            (fun q => I.elastic q) p).deviatoricPlasticExtensionStateNp1Ptr
            = bondStart I.localNeighborList p)
    ∧ (∀ p, p < numOwnedPoints → ∀ j, j < numNeighOf I.localNeighborList p →
        (I.run deviatoricPlasticExtensionStateNp1 lambdaNP1 fInternalOverlap
            numOwnedPoints).deviatoricPlasticExtensionStateNp1
            (bondStart I.localNeighborList p + j)
          = elasticPlasticEdpNp1 I.sqrt I.xOverlap I.yOverlap (3 * p) (3 * p)
              (I.dilatationOwned p) (I.alpha p) (I.tdNorm p) (I.pointWiseYieldValue p)
              (I.deltaLambda p) (I.elastic p) (neighOf I.localNeighborList p j)
              (I.deviatoricPlasticExtensionStateN (bondStart I.localNeighborList p + j)))
    ∧ (∀ p, I.tdNorm p
        = I.sqrt (∑ j ∈ Finset.range (numNeighOf I.localNeighborList p),
            ((1 - I.bondDamage (bondStart I.localNeighborList p + j)) * I.alpha p * 1
                * (deviatoricExtension I.sqrt I.xOverlap I.yOverlap (3 * p) (3 * p)
                      (I.dilatationOwned p) (neighOf I.localNeighborList p j)
                    - I.deviatoricPlasticExtensionStateN
                        (bondStart I.localNeighborList p + j))) ^ 2
              * I.volumeOverlap (neighOf I.localNeighborList p j))) := by
  have hlog : I.accesses numOwnedPoints
      = appendLoop (pointAccesses I.localNeighborList (fun p => I.elastic p))
          numOwnedPoints := by
    unfold ElasticPlasticInput.accesses
    rw [computeInternalForceIsotropicElasticPlastic_log_eq]
  have hstores : storesNp1 (I.accesses numOwnedPoints)
      = List.range (bondStart I.localNeighborList numOwnedPoints) := by
    rw [hlog, storesNp1_run]
  refine ⟨?_, hlog, hstores, ?_, ?_, ?_, ?_⟩
  · intro a ha
    rw [hlog, appendLoop_mem] at ha
    obtain ⟨p, hp, hmem⟩ := ha
    exact pointAccesses_inRange I.localNeighborList (fun p => I.elastic p) numOwnedPoints N p
      hN hnb hp a hmem
  · rw [hstores]
    exact List.nodup_range _
  · intro p _
    obtain ⟨h1, h2, h3, h4, _⟩ := I.plastic_run_closed_form
      deviatoricPlasticExtensionStateNp1 lambdaNP1 fInternalOverlap p
    rw [computeInternalForceIsotropicElasticPlastic_log_eq]
    exact ⟨h1, h2, h3, h4, rfl, rfl, rfl, rfl⟩
  · intro p hp j hj
    obtain ⟨_, _, _, _, _, _, h7, _, _⟩ := I.plastic_run_closed_form
      deviatoricPlasticExtensionStateNp1 lambdaNP1 fInternalOverlap numOwnedPoints
    rw [h7 p hp j hj]
    rfl
  · intro p
    unfold ElasticPlasticInput.tdNorm computeDeviatoricForceStateNorm
    rw [computeDeviatoricForceStateNorm_bondLoop]
    simp only [zero_add]
    rfl

theorem computeInternalForceIsotropicElasticPlastic_cursor_safety_witness :
    2 ≤ 2 ∧ NeighboursInRange (twoPointInput Real.sqrt Real.pi).localNeighborList 2 2
    ∧ (∀ a ∈ (twoPointInput Real.sqrt Real.pi).accesses 2,
        a.index < arrayLength (twoPointInput Real.sqrt Real.pi).localNeighborList 2 2 a.array)
    ∧ storesNp1 ((twoPointInput Real.sqrt Real.pi).accesses 2)
        = List.range (bondStart (twoPointInput Real.sqrt Real.pi).localNeighborList 2) :=
  ⟨le_rfl, twoPoint_neighboursInRange,
    (computeInternalForceIsotropicElasticPlastic_cursor_safety
      (twoPointInput Real.sqrt Real.pi) (fun _ => 0) (fun _ => 0) (fun _ => 0) 2 2 le_rfl
      twoPoint_neighboursInRange).1,
    (computeInternalForceIsotropicElasticPlastic_cursor_safety
      (twoPointInput Real.sqrt Real.pi) (fun _ => 0) (fun _ => 0) (fun _ => 0) 2 2 le_rfl
      twoPoint_neighboursInRange).2.2.1⟩

/-! ## Bounds of the shear correction factor -/

theorem shearGuard_bounds (reference max_dsf : α) (href : 0 < reference) :
    0 < shearGuard reference max_dsf ∧ shearGuard reference max_dsf ≤ 1.0e15
    ∧ (¬ max_dsf / reference < 1.0e-15 → 0 < max_dsf) := by
  have hpos : ¬ max_dsf / reference < 1.0e-15 → 0 < max_dsf := by
    intro h
    have hge : (1.0e-15 : α) ≤ max_dsf / reference := not_lt.mp h
    have hq : 0 < max_dsf / reference := lt_of_lt_of_le (by norm_num) hge
    have hm := mul_pos hq href
    rwa [div_mul_cancel₀ _ (ne_of_gt href)] at hm
  unfold shearGuard
  by_cases h : max_dsf / reference < 1.0e-15
  · simp only [h, if_true]
    exact ⟨by norm_num, by norm_num, fun hn => absurd trivial hn⟩
  · simp only [h, if_false]
    have hM := hpos h
    have hge : (1.0e-15 : α) ≤ max_dsf / reference := not_lt.mp h
    have hmul := (le_div_iff₀ href).mp hge
    refine ⟨div_pos href hM, ?_, fun _ => hM⟩
    rw [div_le_iff₀ hM]
    have hscale : (1.0e15 : α) * (1.0e-15 * reference) ≤ 1.0e15 * max_dsf :=
      mul_le_mul_of_nonneg_left hmul (by norm_num)
    have hone : (1.0e15 : α) * (1.0e-15 * reference) = reference := by
      rw [← mul_assoc]
      norm_num
    rw [hone] at hscale
    exact hscale

/-! ## Division by zero in the linear elastic evaluator -/

theorem checkedDiv_of_ne (a b : α) (h : b ≠ 0) : checkedDiv a b = some (a / b) := by
  simp [checkedDiv, h]

theorem checkedDiv_zero (a : α) : checkedDiv a 0 = none := by
  simp [checkedDiv]

theorem forLoopChecked_succ {σ : Type} (body : ℕ → σ → Option σ) (n : ℕ) (s : σ) :
    forLoopChecked body (n + 1) s = (forLoopChecked body n s).bind (body n) := rfl

/-- A checked loop whose every iteration is defined and agrees with an unchecked body is
defined and returns what the unchecked loop returns. -/
theorem forLoopChecked_eq_some {σ : Type} (body : ℕ → σ → Option σ) (body' : ℕ → σ → σ)
    (n : ℕ) (s : σ)
    (h : ∀ k, k < n → body k (forLoop body' k s) = some (body' k (forLoop body' k s))) :
    forLoopChecked body n s = some (forLoop body' n s) := by
  induction n with
  | zero => rfl
  | succ k ih =>
    rw [forLoopChecked_succ, ih (fun i hi => h i (Nat.lt_succ_of_lt hi)), Option.some_bind,
      h k (Nat.lt_succ_self k)]
    rfl

/-- A checked loop that is `none` after `k` iterations is `none` after any larger number. -/
theorem forLoopChecked_none {σ : Type} (body : ℕ → σ → Option σ) (k n : ℕ) (s : σ)
    (hk : k ≤ n) (h : forLoopChecked body k s = none) : forLoopChecked body n s = none := by
  induction n with
  | zero =>
    have : k = 0 := Nat.le_zero.mp hk
    subst this
    exact h
  | succ m ih =>
    by_cases hkm : k = m + 1
    · subst hkm; exact h
    · rw [forLoopChecked_succ, ih (by omega)]
      rfl

theorem computeInternalForceLinearElastic_bond_checked_eq (sqrt : α → α)
    (xOverlap yOverlap volumeOverlap bondDamage : ℕ → α) (localNeighborList : ℕ → ℕ)
    (X Y fOwned : ℕ) (alpha c1 selfCellVolume : α) (s : LinearElasticState α) :
    computeInternalForceLinearElastic_bond_checked sqrt xOverlap yOverlap volumeOverlap
      bondDamage localNeighborList X Y fOwned alpha c1 selfCellVolume s
    = if bondLength sqrt yOverlap Y (3 * localNeighborList s.neighPtr) = 0 then none
      else some (computeInternalForceLinearElastic_bond sqrt xOverlap yOverlap volumeOverlap
        bondDamage localNeighborList X Y fOwned alpha c1 selfCellVolume s) := by
  by_cases h : bondLength sqrt yOverlap Y (3 * localNeighborList s.neighPtr) = 0
  · rw [if_pos h]
    simp only [bondLength, Nat.add_zero] at h
    simp [computeInternalForceLinearElastic_bond_checked, checkedDiv, h]
  · rw [if_neg h]
    simp only [bondLength, Nat.add_zero] at h
    simp [computeInternalForceLinearElastic_bond_checked,
      computeInternalForceLinearElastic_bond, checkedDiv, h]

theorem computeInternalForceLinearElastic_point_checked_eq (sqrt : α → α)
    (xOverlap yOverlap mOwned volumeOverlap dilatationOwned bondDamage : ℕ → α)
    (localNeighborList : ℕ → ℕ) (K MU : α) (p : ℕ) (s : LinearElasticState α)
    (hm : mOwned p ≠ 0)
    (hdY : ∀ j, j < localNeighborList s.neighPtr →
      bondLength sqrt yOverlap (3 * p) (3 * localNeighborList (s.neighPtr + 1 + j)) ≠ 0) :
    computeInternalForceLinearElastic_point_checked sqrt xOverlap yOverlap mOwned volumeOverlap
      dilatationOwned bondDamage localNeighborList K MU p s
    = some (computeInternalForceLinearElastic_point sqrt xOverlap yOverlap mOwned volumeOverlap
        dilatationOwned bondDamage localNeighborList K MU p s) := by
  have h3 : 3 * mOwned p ≠ 0 := mul_ne_zero (by norm_num) hm
  unfold computeInternalForceLinearElastic_point_checked computeInternalForceLinearElastic_point
  simp only [checkedDiv_of_ne _ _ hm, checkedDiv_of_ne _ _ h3, Option.bind_eq_bind,
    Option.some_bind]
  apply forLoopChecked_eq_some
  intro k hk
  rw [computeInternalForceLinearElastic_bond_checked_eq,
    computeInternalForceLinearElastic_bondLoop]
  exact if_neg (hdY k hk)

/-- When the weighted volume of every owned point and the current length of every bond are
nonzero, the dense linear elastic evaluator divides by no zero, and the checked evaluator
returns the force array of the unchecked one. -/
theorem computeInternalForceLinearElastic_checked_eq (sqrt : α → α)
    (xOverlap yOverlap mOwned volumeOverlap dilatationOwned bondDamage fInternalOverlap : ℕ → α)
    (localNeighborList : ℕ → ℕ) (n : ℕ) (K MU : α)
    (hm : ∀ p, p < n → mOwned p ≠ 0)
    (hdY : ∀ p, p < n → ∀ j, j < numNeighOf localNeighborList p →
      bondLength sqrt yOverlap (3 * p) (3 * neighOf localNeighborList p j) ≠ 0) :
    computeInternalForceLinearElastic_checked sqrt xOverlap yOverlap mOwned volumeOverlap
      dilatationOwned bondDamage fInternalOverlap localNeighborList n K MU
    = some (computeInternalForceLinearElastic sqrt xOverlap yOverlap mOwned volumeOverlap
        dilatationOwned bondDamage fInternalOverlap localNeighborList n K MU) := by
  unfold computeInternalForceLinearElastic_checked computeInternalForceLinearElastic
    computeInternalForceLinearElastic_run
  rw [forLoopChecked_eq_some _ (computeInternalForceLinearElastic_point sqrt xOverlap yOverlap
    mOwned volumeOverlap dilatationOwned bondDamage localNeighborList K MU)]
  · rfl
  · intro k hk
    have hrun := computeInternalForceLinearElastic_run_eq sqrt xOverlap yOverlap mOwned
      volumeOverlap dilatationOwned bondDamage fInternalOverlap localNeighborList k K MU
    unfold computeInternalForceLinearElastic_run at hrun
    apply computeInternalForceLinearElastic_point_checked_eq _ _ _ _ _ _ _ _ _ _ _ _ (hm k hk)
    rw [hrun]
    intro j hj
    exact hdY k hk j hj

/-- In the coincident two-point configuration the first bond of the linear elastic evaluator
divides by the current bond length `0`, whatever the bond damage is. -/
theorem coincident_point_checked (sqrt : α → α) (pi : α) (h0 : sqrt 0 = 0)
    (bondDamage fInternalOverlap : ℕ → α) (K MU : α) :
    forLoopChecked (computeInternalForceLinearElastic_point_checked sqrt
      (coincidentInput sqrt pi).xOverlap (coincidentInput sqrt pi).yOverlap
      (coincidentInput sqrt pi).mOwned (coincidentInput sqrt pi).volumeOverlap
      (coincidentInput sqrt pi).dilatationOwned bondDamage
      (coincidentInput sqrt pi).localNeighborList K MU) 1
      { neighPtr := 0, bondDamagePtr := 0, fInternalOverlap := fInternalOverlap } = none := by
  have hL : (coincidentInput sqrt pi).localNeighborList 0 = 1 := rfl
  have hm : (coincidentInput sqrt pi).mOwned 0 ≠ 0 := by
    simp [coincidentInput, twoPointInput]
  have h3 : 3 * (coincidentInput sqrt pi).mOwned 0 ≠ 0 := mul_ne_zero (by norm_num) hm
  have hlen : ∀ q, bondLength sqrt (coincidentInput sqrt pi).yOverlap (3 * 0) q = 0 := by
    intro q
    simp [bondLength, coincidentInput, h0]
  simp only [forLoopChecked, Option.some_bind, computeInternalForceLinearElastic_point_checked,
    checkedDiv_of_ne _ _ hm, checkedDiv_of_ne _ _ h3, Option.bind_eq_bind, hL,
    computeInternalForceLinearElastic_bond_checked_eq, hlen, if_true]

/-- C1, as amended: take an input whose neighbour indices are in range, whose owned points
have nonzero weighted volume `m[p]` and whose bonds have nonzero current length
`|Y_q - Y_p|` (for the viscoelastic law `Y` is the step-N+1 configuration), with `HORIZON > 0`
(and `M_PI > 0`) for the elastic-plastic evaluator and `delta_t`, `m_tau` nonzero for the
viscoelastic one.  In the three dense force evaluators a bond `(p, q)` of nonzero current
length changes the force array only by adding `F * volume[q]` at `p` and subtracting
`F * volume[p]` at `q`, for one vector `F = t * (Y_q - Y_p) / |Y_q - Y_p|`; the two
volume-weighted increments of a bond cancel; the linear elastic evaluator divides by no zero;
and with `numOwnedPoints ≤ N` each coordinate of `Σ_{i<N} volume[i] * f[i]` is the same after
the call as before it.  The conditions on `HORIZON`, `delta_t` and `m_tau` keep the square
root of the point yield value and the beta operator of the double computation finite; the
proof in exact arithmetic does not need them. -/
theorem pairwise_force_balance (sqrt exp : α → α) (pi : α)
    (xOverlap yOverlap yNOverlap mOwned volumeOverlap dilatationOwned dilatationOwnedN bondDamage
      dsfOwned deviatoricPlasticExtensionStateN deviatoricPlasticExtensionStateNp1 lambdaN
      lambdaNP1 edbN edbNP1 fInternalOverlap : ℕ → α)
    (localNeighborList : ℕ → ℕ) (numOwnedPoints N : ℕ)
    (BULK_MODULUS SHEAR_MODULUS HORIZON yieldStress delta_t m_tau m_tau_b : α)
    (hN : numOwnedPoints ≤ N) (hr : NeighboursInRange localNeighborList numOwnedPoints N)
    (hm : ∀ p, p < numOwnedPoints → mOwned p ≠ 0)
    (hdY : ∀ p, p < numOwnedPoints → ∀ j, j < numNeighOf localNeighborList p →
      bondLength sqrt yOverlap (3 * p) (3 * neighOf localNeighborList p j) ≠ 0)
    (hpi : 0 < pi) (hH : 0 < HORIZON) (hdt : delta_t ≠ 0) (htau : m_tau ≠ 0) :
    (∀ (p : ℕ) (alpha c1 : α) (s : LinearElasticState α),
      bondLength sqrt yOverlap (3 * p) (3 * localNeighborList s.neighPtr) ≠ 0 →
      PairwiseUpdate sqrt yOverlap volumeOverlap p (localNeighborList s.neighPtr)
        s.fInternalOverlap
        (computeInternalForceLinearElastic_bond sqrt xOverlap yOverlap volumeOverlap bondDamage
          localNeighborList (3 * p) (3 * p) (3 * p) alpha c1 (volumeOverlap p)
          s).fInternalOverlap)
    ∧ (∀ (p : ℕ) (theta alpha c tdNorm pointWiseYieldValue deltaLambda : α) (elastic : Bool)
        (s : ElasticPlasticState α),
      bondLength sqrt yOverlap (3 * p) (3 * localNeighborList s.neighPtr) ≠ 0 →
      PairwiseUpdate sqrt yOverlap volumeOverlap p (localNeighborList s.neighPtr)
        s.fInternalOverlap
        (computeInternalForceIsotropicElasticPlastic_bond sqrt xOverlap yOverlap volumeOverlap
          bondDamage deviatoricPlasticExtensionStateN localNeighborList (3 * p) (3 * p) (3 * p)
          theta alpha c (volumeOverlap p) tdNorm pointWiseYieldValue deltaLambda elastic
          s).fInternalOverlap)
    ∧ (∀ (p : ℕ) (beta : ViscoelasticBetaOperator α)
        (decay dilatationN dilatationNp1 alpha c : α) (s : ViscoelasticState α),
      bondLength sqrt yOverlap (3 * p) (3 * localNeighborList s.neighPtr) ≠ 0 →
      PairwiseUpdate sqrt yOverlap volumeOverlap p (localNeighborList s.neighPtr)
        s.fInternalOverlap
        (computeInternalForceViscoelasticStandardLinearSolid_bond sqrt beta decay xOverlap
          yNOverlap yOverlap volumeOverlap bondDamage edbN localNeighborList
          (3 * p) (3 * p) (3 * p) (3 * p) dilatationN dilatationNp1 alpha c (volumeOverlap p)
          s).fInternalOverlap)
    ∧ (∀ (p q k : ℕ) (fx fy fz : α), k < 3 →
      volumeOverlap p
          * pairIncrement (3 * p) q fx fy fz (volumeOverlap q) (volumeOverlap p) (3 * p + k)
        + volumeOverlap q
          * pairIncrement (3 * p) q fx fy fz (volumeOverlap q) (volumeOverlap p) (3 * q + k)
        = 0)
    ∧ computeInternalForceLinearElastic_checked sqrt xOverlap yOverlap mOwned volumeOverlap
          dilatationOwned bondDamage fInternalOverlap localNeighborList numOwnedPoints
          BULK_MODULUS SHEAR_MODULUS
        = some (computeInternalForceLinearElastic sqrt xOverlap yOverlap mOwned volumeOverlap
          dilatationOwned bondDamage fInternalOverlap localNeighborList numOwnedPoints
          BULK_MODULUS SHEAR_MODULUS)
    ∧ (∀ k, k < 3 →
      weightedForceSum volumeOverlap
          (computeInternalForceLinearElastic sqrt xOverlap yOverlap mOwned volumeOverlap
            dilatationOwned bondDamage fInternalOverlap localNeighborList numOwnedPoints
            BULK_MODULUS SHEAR_MODULUS) N k
        = weightedForceSum volumeOverlap fInternalOverlap N k
      ∧ weightedForceSum volumeOverlap
          (computeInternalForceIsotropicElasticPlastic sqrt pi xOverlap yOverlap mOwned
            volumeOverlap dilatationOwned bondDamage dsfOwned deviatoricPlasticExtensionStateN
            deviatoricPlasticExtensionStateNp1 lambdaN lambdaNP1 fInternalOverlap
            localNeighborList numOwnedPoints BULK_MODULUS SHEAR_MODULUS HORIZON
            yieldStress).fInternalOverlap N k
        = weightedForceSum volumeOverlap fInternalOverlap N k
      ∧ weightedForceSum volumeOverlap
          (computeInternalForceViscoelasticStandardLinearSolid sqrt exp delta_t xOverlap
            yNOverlap yOverlap mOwned volumeOverlap dilatationOwnedN dilatationOwned bondDamage
            edbN edbNP1 fInternalOverlap localNeighborList numOwnedPoints BULK_MODULUS
            SHEAR_MODULUS m_tau m_tau_b).fInternalOverlap N k
        = weightedForceSum volumeOverlap fInternalOverlap N k) := by
  have _ := hpi
  have _ := hH
  have _ := hdt
  have _ := htau
  refine ⟨?_, ?_, ?_, ?_, ?_, ?_⟩
  · intro p alpha c1 s _
    exact ⟨_, fun i => assemblePairwiseForce_apply _ _ _ _ _ _ _ _ i⟩
  · intro p theta alpha c tdNorm pointWiseYieldValue deltaLambda elastic s _
    exact ⟨_, fun i => assemblePairwiseForce_apply _ _ _ _ _ _ _ _ i⟩
  · intro p beta decay dilatationN dilatationNp1 alpha c s _
    exact ⟨_, fun i => assemblePairwiseForce_apply _ _ _ _ _ _ _ _ i⟩
  · intro p q k fx fy fz hk
    exact pairIncrement_balance volumeOverlap p q k hk fx fy fz
  · exact computeInternalForceLinearElastic_checked_eq sqrt xOverlap yOverlap mOwned
      volumeOverlap dilatationOwned bondDamage fInternalOverlap localNeighborList numOwnedPoints
      BULK_MODULUS SHEAR_MODULUS hm hdY
  · intro k hk
    refine ⟨?_, ?_, ?_⟩
    · exact pointLoop_weightedForceSum _ LinearElasticState.neighPtr
        LinearElasticState.fInternalOverlap volumeOverlap localNeighborList N k
        (fun p s hp h1 hb => computeInternalForceLinearElastic_point_balance sqrt xOverlap
          yOverlap mOwned volumeOverlap dilatationOwned bondDamage localNeighborList
          BULK_MODULUS SHEAR_MODULUS N k hk p s hp h1 hb)
        numOwnedPoints hN hr _ rfl
    · exact pointLoop_weightedForceSum _ ElasticPlasticState.neighPtr
        ElasticPlasticState.fInternalOverlap volumeOverlap localNeighborList N k
        (fun p s hp h1 hb => computeInternalForceIsotropicElasticPlastic_point_balance sqrt
          xOverlap yOverlap mOwned volumeOverlap dilatationOwned bondDamage dsfOwned
          deviatoricPlasticExtensionStateN lambdaN localNeighborList BULK_MODULUS SHEAR_MODULUS
          (yieldValue3d pi HORIZON yieldStress) N k hk p s hp h1 hb)
        numOwnedPoints hN hr _ rfl
    · exact pointLoop_weightedForceSum _ ViscoelasticState.neighPtr
        ViscoelasticState.fInternalOverlap volumeOverlap localNeighborList N k
        (fun p s hp h1 hb => computeInternalForceViscoelasticStandardLinearSolid_point_balance
          sqrt _ _ xOverlap yNOverlap yOverlap mOwned volumeOverlap dilatationOwnedN
          dilatationOwned bondDamage edbN localNeighborList BULK_MODULUS SHEAR_MODULUS N k hk
          p s hp h1 hb)
        numOwnedPoints hN hr _ rfl

theorem twoPoint_weightedVolume_ne_zero :
    ∀ p, p < 2 → (twoPointInput Real.sqrt Real.pi).mOwned p ≠ 0 := by
  intro p _
  simp [twoPointInput]

theorem twoPoint_bondLength_ne_zero :
    ∀ p, p < 2 → ∀ j, j < numNeighOf (twoPointInput Real.sqrt Real.pi).localNeighborList p →
      bondLength Real.sqrt (twoPointInput Real.sqrt Real.pi).yOverlap (3 * p)
        (3 * neighOf (twoPointInput Real.sqrt Real.pi).localNeighborList p j) ≠ 0 := by
  intro p hp j hj
  have hpos : ∀ x : ℝ, 0 < x → Real.sqrt x ≠ 0 := fun x hx => ne_of_gt (Real.sqrt_pos.mpr hx)
  interval_cases p
  · have hn : numNeighOf (twoPointInput Real.sqrt Real.pi).localNeighborList 0 = 1 := rfl
    rw [hn] at hj
    interval_cases j
    apply hpos
    simp [bondLength, neighOf, blockStart, twoPointInput]
  · have hn : numNeighOf (twoPointInput Real.sqrt Real.pi).localNeighborList 1 = 1 := rfl
    rw [hn] at hj
    interval_cases j
    apply hpos
    simp [bondLength, neighOf, blockStart, twoPointInput]

theorem pairwise_force_balance_witness :
    2 ≤ 2
    ∧ NeighboursInRange (twoPointInput Real.sqrt Real.pi).localNeighborList 2 2
    ∧ (∀ p, p < 2 → (twoPointInput Real.sqrt Real.pi).mOwned p ≠ 0)
    ∧ (∀ p, p < 2 → ∀ j,
        j < numNeighOf (twoPointInput Real.sqrt Real.pi).localNeighborList p →
        bondLength Real.sqrt (twoPointInput Real.sqrt Real.pi).yOverlap (3 * p)
          (3 * neighOf (twoPointInput Real.sqrt Real.pi).localNeighborList p j) ≠ 0)
    ∧ 0 < Real.pi ∧ (0 : ℝ) < 1 ∧ (1 : ℝ) ≠ 0 ∧ (2 : ℝ) ≠ 0
    ∧ weightedForceSum (twoPointInput Real.sqrt Real.pi).volumeOverlap
        (computeInternalForceLinearElastic Real.sqrt
          (twoPointInput Real.sqrt Real.pi).xOverlap (twoPointInput Real.sqrt Real.pi).yOverlap
          (twoPointInput Real.sqrt Real.pi).mOwned
          (twoPointInput Real.sqrt Real.pi).volumeOverlap
          (twoPointInput Real.sqrt Real.pi).dilatationOwned
          (twoPointInput Real.sqrt Real.pi).bondDamage (fun _ => 0)
          (twoPointInput Real.sqrt Real.pi).localNeighborList 2 1 1) 2 0
      = weightedForceSum (twoPointInput Real.sqrt Real.pi).volumeOverlap (fun _ => 0) 2 0 :=
  ⟨le_rfl, twoPoint_neighboursInRange, twoPoint_weightedVolume_ne_zero,
    twoPoint_bondLength_ne_zero, Real.pi_pos, one_pos, one_ne_zero, two_ne_zero,
    ((pairwise_force_balance Real.sqrt Real.exp Real.pi
      (twoPointInput Real.sqrt Real.pi).xOverlap (twoPointInput Real.sqrt Real.pi).yOverlap
      (twoPointInput Real.sqrt Real.pi).xOverlap (twoPointInput Real.sqrt Real.pi).mOwned
      (twoPointInput Real.sqrt Real.pi).volumeOverlap
      (twoPointInput Real.sqrt Real.pi).dilatationOwned
      (twoPointInput Real.sqrt Real.pi).dilatationOwned
      (twoPointInput Real.sqrt Real.pi).bondDamage
      (twoPointInput Real.sqrt Real.pi).dsfOwned
      (twoPointInput Real.sqrt Real.pi).deviatoricPlasticExtensionStateN (fun _ => 0)
      (twoPointInput Real.sqrt Real.pi).lambdaN (fun _ => 0) (fun _ => 0) (fun _ => 0)
      (fun _ => 0) (twoPointInput Real.sqrt Real.pi).localNeighborList 2 2 1 1 1 1 1 2 1
      le_rfl twoPoint_neighboursInRange twoPoint_weightedVolume_ne_zero
      twoPoint_bondLength_ne_zero Real.pi_pos one_pos one_ne_zero two_ne_zero).2.2.2.2.2 0
      (by norm_num)).1⟩

theorem coincident_neighboursInRange :
    NeighboursInRange (coincidentInput Real.sqrt Real.pi).localNeighborList 2 2 := by
  unfold NeighboursInRange
  decide

/-- C1, counterexample to the statement for every input with neighbour indices in range: in
the two-point configuration with both points at the origin in the current configuration (unit
weighted volumes, no damage) the neighbour indices are in range, the bond of point 0 has
current length `0`, and the dense linear elastic evaluator divides by it at lines 255-257:
`t * dx / dY` is `0 / 0`, so no number is added to the force array and no weighted total is
defined after the call. -/
theorem coincident_bond_has_no_direction :
    2 ≤ 2
    ∧ NeighboursInRange (coincidentInput Real.sqrt Real.pi).localNeighborList 2 2
    ∧ bondLength Real.sqrt (coincidentInput Real.sqrt Real.pi).yOverlap (3 * 0)
        (3 * neighOf (coincidentInput Real.sqrt Real.pi).localNeighborList 0 0) = 0
    ∧ computeInternalForceLinearElastic_checked Real.sqrt
        (coincidentInput Real.sqrt Real.pi).xOverlap (coincidentInput Real.sqrt Real.pi).yOverlap
        (coincidentInput Real.sqrt Real.pi).mOwned
        (coincidentInput Real.sqrt Real.pi).volumeOverlap
        (coincidentInput Real.sqrt Real.pi).dilatationOwned
        (coincidentInput Real.sqrt Real.pi).bondDamage (fun _ => 0)
        (coincidentInput Real.sqrt Real.pi).localNeighborList 2 1 1 = none := by
  refine ⟨le_rfl, coincident_neighboursInRange, ?_, ?_⟩
  · simp [bondLength, coincidentInput]
  · unfold computeInternalForceLinearElastic_checked
    rw [forLoopChecked_none _ 1 2 _ (by norm_num)
      (coincident_point_checked Real.sqrt Real.pi Real.sqrt_zero _ _ 1 1)]
    rfl

/-- C27, as amended: in each of the three force evaluators a bond whose `bondDamage` entry
is `1` has scalar bond force `t = 0` (the linear elastic `t` is `linearElasticBondForce`), and
when the current length of the bond is not zero the body of the bond loop leaves the force
array as it was, without dividing by zero in the linear elastic evaluator.  A call in which
the damage entry of every bond of every owned point is `1`, every owned point has nonzero
weighted volume and every bond nonzero current length (with `HORIZON > 0`, `M_PI > 0` for the
elastic-plastic evaluator and `delta_t`, `m_tau` nonzero for the viscoelastic one) returns the
force array it was given.  The conditions on `HORIZON`, `delta_t` and `m_tau` keep the double
computation finite; the proof in exact arithmetic does not need them, nor the nonzero bond
lengths in the elastic-plastic and viscoelastic evaluators. -/
theorem broken_bond_carries_no_force (sqrt : α → α)
    (xOverlap yOverlap mOwned volumeOverlap dilatationOwned bondDamage fInternalOverlap : ℕ → α)
    (localNeighborList : ℕ → ℕ) (numOwnedPoints : ℕ) (K MU : α)
    (I : ElasticPlasticInput α) (deviatoricPlasticExtensionStateNp1 lambdaNP1 : ℕ → α)
    (V : ViscoelasticInput α) (edbNP1 : ℕ → α) :
    (∀ c1 alpha zeta dY : α, linearElasticBondForce c1 alpha zeta dY 1 = 0)
    ∧ (∀ (X Y fOwned : ℕ) (alpha c1 selfCellVolume : α) (s : LinearElasticState α),
        bondDamage s.bondDamagePtr = 1 →
        bondLength sqrt yOverlap Y (3 * localNeighborList s.neighPtr) ≠ 0 →
        (computeInternalForceLinearElastic_bond sqrt xOverlap yOverlap volumeOverlap bondDamage
          localNeighborList X Y fOwned alpha c1 selfCellVolume s).fInternalOverlap
          = s.fInternalOverlap
        ∧ computeInternalForceLinearElastic_bond_checked sqrt xOverlap yOverlap volumeOverlap
            bondDamage localNeighborList X Y fOwned alpha c1 selfCellVolume s
          = some { neighPtr := s.neighPtr + 1
                   bondDamagePtr := s.bondDamagePtr + 1
                   fInternalOverlap := s.fInternalOverlap })
    ∧ (∀ (X Y fOwned : ℕ)
        (theta alpha c selfCellVolume tdNorm pointWiseYieldValue deltaLambda : α)
        (elastic : Bool) (s : ElasticPlasticState α),
        I.bondDamage s.bondDamagePtr = 1 →
        bondLength I.sqrt I.yOverlap Y (3 * I.localNeighborList s.neighPtr) ≠ 0 →
        (computeInternalForceIsotropicElasticPlastic_bond I.sqrt I.xOverlap I.yOverlap
          I.volumeOverlap I.bondDamage I.deviatoricPlasticExtensionStateN I.localNeighborList
          X Y fOwned theta alpha c selfCellVolume tdNorm pointWiseYieldValue deltaLambda
          elastic s).fInternalOverlap = s.fInternalOverlap)
    ∧ (∀ (X YN YNP1 fOwned : ℕ) (dilatationN dilatationNp1 alpha c selfCellVolume : α)
        (s : ViscoelasticState α),
        V.bondDamage s.bondDamagePtr = 1 →
        bondLength V.sqrt V.yNP1Overlap YNP1 (3 * V.localNeighborList s.neighPtr) ≠ 0 →
        (computeInternalForceViscoelasticStandardLinearSolid_bond V.sqrt V.beta V.decay
          V.xOverlap V.yNOverlap V.yNP1Overlap V.volumeOverlap V.bondDamage V.edbN
          V.localNeighborList X YN YNP1 fOwned dilatationN dilatationNp1 alpha c
          selfCellVolume s).fInternalOverlap = s.fInternalOverlap)
    ∧ ((∀ p, p < numOwnedPoints → ∀ j, j < numNeighOf localNeighborList p →
          bondDamage (bondStart localNeighborList p + j) = 1) →
        (∀ p, p < numOwnedPoints → mOwned p ≠ 0) →
        (∀ p, p < numOwnedPoints → ∀ j, j < numNeighOf localNeighborList p →
          bondLength sqrt yOverlap (3 * p) (3 * neighOf localNeighborList p j) ≠ 0) →
        computeInternalForceLinearElastic sqrt xOverlap yOverlap mOwned volumeOverlap
          dilatationOwned bondDamage fInternalOverlap localNeighborList numOwnedPoints K MU
          = fInternalOverlap
        ∧ computeInternalForceLinearElastic_checked sqrt xOverlap yOverlap mOwned volumeOverlap
            dilatationOwned bondDamage fInternalOverlap localNeighborList numOwnedPoints K MU
          = some fInternalOverlap)
    ∧ ((∀ p, p < numOwnedPoints → ∀ j, j < numNeighOf I.localNeighborList p →
          I.bondDamage (bondStart I.localNeighborList p + j) = 1) →
        (∀ p, p < numOwnedPoints → I.mOwned p ≠ 0) →
        (∀ p, p < numOwnedPoints → ∀ j, j < numNeighOf I.localNeighborList p →
          bondLength I.sqrt I.yOverlap (3 * p) (3 * neighOf I.localNeighborList p j) ≠ 0) →
        0 < I.pi → 0 < I.HORIZON →
        (I.run deviatoricPlasticExtensionStateNp1 lambdaNP1 fInternalOverlap
          numOwnedPoints).fInternalOverlap = fInternalOverlap)
    ∧ ((∀ p, p < numOwnedPoints → ∀ j, j < numNeighOf V.localNeighborList p →
          V.bondDamage (bondStart V.localNeighborList p + j) = 1) →
        (∀ p, p < numOwnedPoints → V.mOwned p ≠ 0) →
        (∀ p, p < numOwnedPoints → ∀ j, j < numNeighOf V.localNeighborList p →
          bondLength V.sqrt V.yNP1Overlap (3 * p) (3 * neighOf V.localNeighborList p j) ≠ 0) →
        V.delta_t ≠ 0 → V.m_tau ≠ 0 →
        (V.run edbNP1 fInternalOverlap numOwnedPoints).fInternalOverlap
          = fInternalOverlap) := by
  have hLEbond : ∀ (X Y fOwned : ℕ) (alpha c1 selfCellVolume : α) (s : LinearElasticState α),
      bondDamage s.bondDamagePtr = 1 →
      computeInternalForceLinearElastic_bond sqrt xOverlap yOverlap volumeOverlap bondDamage
        localNeighborList X Y fOwned alpha c1 selfCellVolume s
      = { neighPtr := s.neighPtr + 1
          bondDamagePtr := s.bondDamagePtr + 1
          fInternalOverlap := s.fInternalOverlap } := by
    intro X Y fOwned alpha c1 selfCellVolume s hd
    rw [computeInternalForceLinearElastic_bond_eq]
    congr 1
    funext i
    simp only [hd, linearElasticIncrement_broken, add_zero]
  have hLE : (∀ p, p < numOwnedPoints → ∀ j, j < numNeighOf localNeighborList p →
        bondDamage (bondStart localNeighborList p + j) = 1) →
      computeInternalForceLinearElastic sqrt xOverlap yOverlap mOwned volumeOverlap
        dilatationOwned bondDamage fInternalOverlap localNeighborList numOwnedPoints K MU
        = fInternalOverlap := by
    intro hd
    unfold computeInternalForceLinearElastic
    rw [computeInternalForceLinearElastic_run_eq]
    funext i
    have hz : ∑ p ∈ Finset.range numOwnedPoints,
        ∑ j ∈ Finset.range (numNeighOf localNeighborList p),
          linearElasticBondContribution sqrt xOverlap yOverlap mOwned volumeOverlap
            dilatationOwned bondDamage localNeighborList K MU p j i = 0 := by
      apply Finset.sum_eq_zero
      intro p hp
      apply Finset.sum_eq_zero
      intro j hj
      unfold linearElasticBondContribution
      rw [hd p (Finset.mem_range.mp hp) j (Finset.mem_range.mp hj)]
      exact linearElasticIncrement_broken _ _ _ _ _ _ _ _ _ _ _ _
    simp only [hz, add_zero]
  refine ⟨?_, ?_, ?_, ?_, ?_, ?_, ?_⟩
  · intro c1 alpha zeta dY
    simp [linearElasticBondForce]
  · intro X Y fOwned alpha c1 selfCellVolume s hd hY
    refine ⟨by rw [hLEbond X Y fOwned alpha c1 selfCellVolume s hd], ?_⟩
    rw [computeInternalForceLinearElastic_bond_checked_eq, if_neg hY,
      hLEbond X Y fOwned alpha c1 selfCellVolume s hd]
  · intro X Y fOwned theta alpha c selfCellVolume tdNorm pointWiseYieldValue deltaLambda
      elastic s hd _
    rw [computeInternalForceIsotropicElasticPlastic_bond_eq]
    funext i
    simp only [hd, elasticPlasticIncrement_broken, add_zero]
  · intro X YN YNP1 fOwned dilatationN dilatationNp1 alpha c selfCellVolume s hd _
    rw [computeInternalForceViscoelasticStandardLinearSolid_bond_eq]
    funext i
    simp only [hd, viscoelasticIncrement_broken, add_zero]
  · intro hd hm hdY
    refine ⟨hLE hd, ?_⟩
    rw [computeInternalForceLinearElastic_checked_eq sqrt xOverlap yOverlap mOwned volumeOverlap
      dilatationOwned bondDamage fInternalOverlap localNeighborList numOwnedPoints K MU hm hdY,
      hLE hd]
  · intro hd _ _ _ _
    obtain ⟨_, _, _, _, _, _, _, _, h9⟩ := I.plastic_run_closed_form
      deviatoricPlasticExtensionStateNp1 lambdaNP1 fInternalOverlap numOwnedPoints
    funext i
    rw [h9 i]
    have hz : ∑ p ∈ Finset.range numOwnedPoints,
        ∑ j ∈ Finset.range (numNeighOf I.localNeighborList p), I.contribution p j i = 0 := by
      apply Finset.sum_eq_zero
      intro p hp
      apply Finset.sum_eq_zero
      intro j hj
      unfold ElasticPlasticInput.contribution
      rw [hd p (Finset.mem_range.mp hp) j (Finset.mem_range.mp hj)]
      exact elasticPlasticIncrement_broken _ _ _ _ _ _ _ _ _ _ _ _ _ _ _ _ _
    rw [hz, add_zero]
  · intro hd _ _ _ _
    obtain ⟨_, _, _, _, _, _, h9⟩ :=
      V.viscoelastic_run_closed_form edbNP1 fInternalOverlap numOwnedPoints
    funext i
    rw [h9 i]
    have hz : ∑ p ∈ Finset.range numOwnedPoints,
        ∑ j ∈ Finset.range (numNeighOf V.localNeighborList p), V.contribution p j i = 0 := by
      apply Finset.sum_eq_zero
      intro p hp
      apply Finset.sum_eq_zero
      intro j hj
      unfold ViscoelasticInput.contribution
      rw [hd p (Finset.mem_range.mp hp) j (Finset.mem_range.mp hj)]
      exact viscoelasticIncrement_broken _ _ _ _ _ _ _ _ _ _ _ _ _ _ _ _ _ _ _
    rw [hz, add_zero]

theorem brokenTwoPoint_bondLength_ne_zero :
    ∀ p, p < 2 → ∀ j,
      j < numNeighOf (brokenTwoPointInput Real.sqrt Real.pi).localNeighborList p →
      bondLength (brokenTwoPointInput Real.sqrt Real.pi).sqrt
        (brokenTwoPointInput Real.sqrt Real.pi).yOverlap (3 * p)
        (3 * neighOf (brokenTwoPointInput Real.sqrt Real.pi).localNeighborList p j) ≠ 0 :=
  twoPoint_bondLength_ne_zero

theorem broken_bond_carries_no_force_witness :
    (∀ p, p < 2 → ∀ j, j < numNeighOf (brokenTwoPointInput Real.sqrt Real.pi).localNeighborList p →
        (brokenTwoPointInput Real.sqrt Real.pi).bondDamage
          (bondStart (brokenTwoPointInput Real.sqrt Real.pi).localNeighborList p + j) = 1)
    ∧ (∀ p, p < 2 → (brokenTwoPointInput Real.sqrt Real.pi).mOwned p ≠ 0)
    ∧ (∀ p, p < 2 → ∀ j,
        j < numNeighOf (brokenTwoPointInput Real.sqrt Real.pi).localNeighborList p →
        bondLength (brokenTwoPointInput Real.sqrt Real.pi).sqrt
          (brokenTwoPointInput Real.sqrt Real.pi).yOverlap (3 * p)
          (3 * neighOf (brokenTwoPointInput Real.sqrt Real.pi).localNeighborList p j) ≠ 0)
    ∧ 0 < (brokenTwoPointInput Real.sqrt Real.pi).pi
    ∧ 0 < (brokenTwoPointInput Real.sqrt Real.pi).HORIZON
    ∧ ((brokenTwoPointInput Real.sqrt Real.pi).run (fun _ => 0) (fun _ => 0) (fun _ => 3)
        2).fInternalOverlap = fun _ => 3 :=
  ⟨fun _ _ _ _ => rfl, twoPoint_weightedVolume_ne_zero, brokenTwoPoint_bondLength_ne_zero,
    Real.pi_pos, by simp [brokenTwoPointInput, twoPointInput],
    (broken_bond_carries_no_force Real.sqrt (brokenTwoPointInput Real.sqrt Real.pi).xOverlap
      (brokenTwoPointInput Real.sqrt Real.pi).yOverlap
      (brokenTwoPointInput Real.sqrt Real.pi).mOwned
      (brokenTwoPointInput Real.sqrt Real.pi).volumeOverlap
      (brokenTwoPointInput Real.sqrt Real.pi).dilatationOwned
      (brokenTwoPointInput Real.sqrt Real.pi).bondDamage (fun _ => 3)
      (brokenTwoPointInput Real.sqrt Real.pi).localNeighborList 2 1 1
      (brokenTwoPointInput Real.sqrt Real.pi) (fun _ => 0) (fun _ => 0)
      (brokenOneBondInput Real.sqrt Real.exp) (fun _ => 0)).2.2.2.2.2.1 (fun _ _ _ _ => rfl)
      twoPoint_weightedVolume_ne_zero brokenTwoPoint_bondLength_ne_zero Real.pi_pos
      (by simp [brokenTwoPointInput, twoPointInput])⟩

/-- C27, counterexample to the statement for every fully broken bond: in the two-point
configuration with both points at the origin in the current configuration and damage `1` on
every bond, the scalar bond force of the bond of point 0 is `t = 0` and its current length is
`0`, so lines 255-257 of the dense linear elastic evaluator evaluate `0 * 0 / 0`: the call
divides by zero and does not leave the force array unchanged. -/
theorem broken_coincident_bond_divides_by_zero :
    (∀ p, p < 2 → ∀ j,
        j < numNeighOf (brokenCoincidentInput Real.sqrt Real.pi).localNeighborList p →
        (brokenCoincidentInput Real.sqrt Real.pi).bondDamage
          (bondStart (brokenCoincidentInput Real.sqrt Real.pi).localNeighborList p + j) = 1)
    ∧ linearElasticBondForce (0 : ℝ) 15 1 0
        ((brokenCoincidentInput Real.sqrt Real.pi).bondDamage 0) = 0
    ∧ bondLength Real.sqrt (brokenCoincidentInput Real.sqrt Real.pi).yOverlap (3 * 0)
        (3 * neighOf (brokenCoincidentInput Real.sqrt Real.pi).localNeighborList 0 0) = 0
    ∧ computeInternalForceLinearElastic_checked Real.sqrt
        (brokenCoincidentInput Real.sqrt Real.pi).xOverlap
        (brokenCoincidentInput Real.sqrt Real.pi).yOverlap
        (brokenCoincidentInput Real.sqrt Real.pi).mOwned
        (brokenCoincidentInput Real.sqrt Real.pi).volumeOverlap
        (brokenCoincidentInput Real.sqrt Real.pi).dilatationOwned
        (brokenCoincidentInput Real.sqrt Real.pi).bondDamage (fun _ => 0)
        (brokenCoincidentInput Real.sqrt Real.pi).localNeighborList 2 1 1 = none := by
  refine ⟨fun _ _ _ _ => rfl, ?_, ?_, ?_⟩
  · simp [linearElasticBondForce, brokenCoincidentInput]
  · simp [bondLength, brokenCoincidentInput, coincidentInput]
  · exact congrArg (Option.map LinearElasticState.fInternalOverlap)
      (forLoopChecked_none _ 1 2 _ (by norm_num)
        (coincident_point_checked Real.sqrt Real.pi Real.sqrt_zero
          (brokenCoincidentInput Real.sqrt Real.pi).bondDamage (fun _ => 0) 1 1))

/-! ## The plastic multiplier under a rounding square root -/

theorem roundedSqrt_sq (k n : ℕ) :
    roundedSqrt Real.sqrt k ((n : ℝ) * (n : ℝ)) = (n : ℝ) := by
  unfold roundedSqrt
  rw [Real.sqrt_mul_self (Nat.cast_nonneg n)]
  have h : (n : ℝ) * 2 ^ k = ((n * 2 ^ k : ℕ) : ℝ) := by push_cast; ring
  rw [h, round_natCast]
  push_cast
  field_simp

theorem roundedSqrt_one (k : ℕ) : roundedSqrt Real.sqrt k 1 = 1 := by
  have h := roundedSqrt_sq k 1
  simpa using h

theorem roundedSqrt_four (k : ℕ) : roundedSqrt Real.sqrt k 4 = 2 := by
  have h := roundedSqrt_sq k 2
  norm_num at h
  exact h

theorem roundedSqrt_5625 (k : ℕ) : roundedSqrt Real.sqrt k 5625 = 75 := by
  have h := roundedSqrt_sq k 75
  norm_num at h
  exact h

theorem nearlyYielding_tdNorm :
    (nearlyYieldingInput (roundedSqrt Real.sqrt 46) Real.pi).tdNorm 0 = 75 := by
  simp [ElasticPlasticInput.tdNorm, ElasticPlasticInput.alpha, computeDeviatoricForceStateNorm,
    computeDeviatoricForceStateNorm_bond, forLoop, numNeighOf, blockStart, bondStart,
    nearlyYieldingInput, twoPointInput, roundedSqrt_one, roundedSqrt_four]
  norm_num [roundedSqrt_four]
  norm_num [roundedSqrt_5625]

theorem nearlyYielding_pointYield :
    (nearlyYieldingInput (roundedSqrt Real.sqrt 46) Real.pi).pointWiseYieldValue 0
      = 75 * (8641225838598903 / 2 ^ 48) ^ 2 / 8 / Real.pi := by
  simp only [ElasticPlasticInput.pointWiseYieldValue, yieldValue3d, nearlyYieldingInput,
    twoPointInput]
  ring

theorem nearlyYielding_window :
    (75 - 1 / 2 ^ 47 : ℝ) ^ 2
        < 2 * (nearlyYieldingInput (roundedSqrt Real.sqrt 46) Real.pi).pointWiseYieldValue 0
    ∧ 2 * (nearlyYieldingInput (roundedSqrt Real.sqrt 46) Real.pi).pointWiseYieldValue 0
        < 5625 := by
  rw [nearlyYielding_pointYield]
  have hlo := Real.pi_gt_d20
  have hhi := Real.pi_lt_d20
  have hpi := Real.pi_pos
  constructor
  · rw [← mul_div_assoc, lt_div_iff₀ hpi]
    have h : (75 - 1 / 2 ^ 47 : ℝ) ^ 2 * Real.pi
        < (75 - 1 / 2 ^ 47 : ℝ) ^ 2 * 3.14159265358979323847 :=
      mul_lt_mul_of_pos_left hhi (by norm_num)
    refine lt_trans h ?_
    norm_num
  · rw [← mul_div_assoc, div_lt_iff₀ hpi]
    have h : (5625 : ℝ) * 3.14159265358979323846 < 5625 * Real.pi :=
      mul_lt_mul_of_pos_left hlo (by norm_num)
    refine lt_trans ?_ h
    norm_num

theorem nearlyYielding_sqrt :
    roundedSqrt Real.sqrt 46
        (2 * (nearlyYieldingInput (roundedSqrt Real.sqrt 46) Real.pi).pointWiseYieldValue 0)
      = 75 := by
  obtain ⟨hlo, hhi⟩ := nearlyYielding_window
  have h1 : (75 - 1 / 2 ^ 47 : ℝ)
      < Real.sqrt (2 * (nearlyYieldingInput (roundedSqrt Real.sqrt 46)
          Real.pi).pointWiseYieldValue 0) :=
    (Real.lt_sqrt (by norm_num)).mpr hlo
  have h2 : Real.sqrt (2 * (nearlyYieldingInput (roundedSqrt Real.sqrt 46)
      Real.pi).pointWiseYieldValue 0) < 75 :=
    (Real.sqrt_lt' (by norm_num)).mpr (by norm_num; linarith)
  have hr : round (Real.sqrt (2 * (nearlyYieldingInput (roundedSqrt Real.sqrt 46)
      Real.pi).pointWiseYieldValue 0) * 2 ^ 46) = (75 * 2 ^ 46 : ℤ) := by
    rw [round_eq, Int.floor_eq_iff]
    push_cast
    constructor
    · norm_num at h1 ⊢
      linarith
    · norm_num at h2 ⊢
      linarith
  have hdef : ∀ x : ℝ, roundedSqrt Real.sqrt 46 x
      = (round (Real.sqrt x * 2 ^ 46) : ℝ) / 2 ^ 46 := fun _ => rfl
  rw [hdef, hr]
  push_cast
  norm_num

theorem nearlyYielding_yields :
    (nearlyYieldingInput (roundedSqrt Real.sqrt 46) Real.pi).yieldFunction 0 > 0 := by
  unfold ElasticPlasticInput.yieldFunction
  rw [nearlyYielding_tdNorm]
  have h := nearlyYielding_window.2
  linarith

/-- At a point that yields, with a positive point yield value and positive `alpha`, the
increment of the plastic multiplier is non-negative for every square root that is positive on
positive arguments and monotone to its own values. -/
theorem ElasticPlasticInput.deltaLambda_nonneg (I : ElasticPlasticInput α) (p : ℕ)
    (hsqrtpos : ∀ x, 0 < x → 0 < I.sqrt x)
    (hsqrtmono : ∀ x z, 0 ≤ x → x ≤ I.sqrt z * I.sqrt z → I.sqrt x ≤ I.sqrt z)
    (hY : 0 < I.pointWiseYieldValue p) (ha : 0 < I.alpha p) (hf : I.yieldFunction p > 0) :
    I.sqrt (2 * I.pointWiseYieldValue p) ≤ I.tdNorm p
    ∧ 0 ≤ (I.tdNorm p / I.sqrt (2 * I.pointWiseYieldValue p) - 1) / I.alpha p := by
  have h2Y : 0 < 2 * I.pointWiseYieldValue p := by linarith
  have hrpos := hsqrtpos _ h2Y
  have hf' : I.tdNorm p * I.tdNorm p / 2 - I.pointWiseYieldValue p > 0 := hf
  have hle : I.sqrt (2 * I.pointWiseYieldValue p) ≤ I.tdNorm p := by
    rw [I.tdNorm_eq_sqrt] at hf' ⊢
    apply hsqrtmono _ _ h2Y.le
    linarith
  refine ⟨hle, div_nonneg ?_ ha.le⟩
  have : 1 ≤ I.tdNorm p / I.sqrt (2 * I.pointWiseYieldValue p) := (one_le_div hrpos).mpr hle
  linarith

/-- C5, as amended: with `m[p] > 0`, `SHEAR_MODULUS > 0`, `yieldStress > 0`, `HORIZON > 0`
and `dsf[p] > 0` (and `M_PI > 0`, `sqrt` positive on positive arguments and monotone to its
own values: `x <= sqrt(z)^2` gives `sqrt(x) <= sqrt(z)`, as a correctly rounded square root
is), the dense elastic-plastic evaluator leaves `lambdaNP1[p] >= lambdaN[p]` at every owned
point; `lambdaNP1[p] = lambdaN[p]` where the yield function `f = tdNorm^2/2 - pointYield` is
not positive; and where `f > 0` the increase is
`deltaLambda = (tdNorm/sqrt(2*pointYield) - 1)/alpha >= 0` with
`sqrt(2*pointYield) <= tdNorm`.  So the multiplier increases strictly only at points where
`f` is positive. -/
theorem computeInternalForceIsotropicElasticPlastic_lambda_monotone
    (I : ElasticPlasticInput α)
    (deviatoricPlasticExtensionStateNp1 lambdaNP1 fInternalOverlap : ℕ → α)
    (numOwnedPoints p : ℕ) (hp : p < numOwnedPoints)
    (hsqrtpos : ∀ x, 0 < x → 0 < I.sqrt x)
    (hsqrtmono : ∀ x z, 0 ≤ x → x ≤ I.sqrt z * I.sqrt z → I.sqrt x ≤ I.sqrt z)
    (hpi : 0 < I.pi) (hm : 0 < I.mOwned p) (hMU : 0 < I.SHEAR_MODULUS)
    (hys : 0 < I.yieldStress) (hH : 0 < I.HORIZON) (hdsf : 0 < I.dsfOwned p) :
    (I.run deviatoricPlasticExtensionStateNp1 lambdaNP1 fInternalOverlap
        numOwnedPoints).lambdaNP1 p ≥ I.lambdaN p
    ∧ (¬ I.tdNorm p ^ 2 / 2
          - I.dsfOwned p ^ 2 * (75 * I.yieldStress ^ 2 / (8 * I.pi * I.HORIZON ^ 5)) > 0 →
        (I.run deviatoricPlasticExtensionStateNp1 lambdaNP1 fInternalOverlap
          numOwnedPoints).lambdaNP1 p = I.lambdaN p)
    ∧ (I.tdNorm p ^ 2 / 2
          - I.dsfOwned p ^ 2 * (75 * I.yieldStress ^ 2 / (8 * I.pi * I.HORIZON ^ 5)) > 0 →
        (I.run deviatoricPlasticExtensionStateNp1 lambdaNP1 fInternalOverlap
            numOwnedPoints).lambdaNP1 p
          = I.lambdaN p
            + (I.tdNorm p / I.sqrt (2 * I.pointWiseYieldValue p) - 1) / I.alpha p
        ∧ I.sqrt (2 * I.pointWiseYieldValue p) ≤ I.tdNorm p
        ∧ 0 ≤ (I.tdNorm p / I.sqrt (2 * I.pointWiseYieldValue p) - 1) / I.alpha p)
    ∧ ((I.run deviatoricPlasticExtensionStateNp1 lambdaNP1 fInternalOverlap
          numOwnedPoints).lambdaNP1 p > I.lambdaN p →
        I.tdNorm p ^ 2 / 2
          - I.dsfOwned p ^ 2 * (75 * I.yieldStress ^ 2 / (8 * I.pi * I.HORIZON ^ 5)) > 0) := by
  obtain ⟨_, _, _, _, h5, _, _, _, _⟩ := I.plastic_run_closed_form
    deviatoricPlasticExtensionStateNp1 lambdaNP1 fInternalOverlap numOwnedPoints
  rw [h5 p hp, ← I.yieldFunction_eq p]
  have hY : 0 < I.pointWiseYieldValue p := by
    rw [I.pointWiseYieldValue_eq]
    positivity
  have halpha : 0 < I.alpha p := by
    unfold ElasticPlasticInput.alpha
    positivity
  by_cases hf : I.yieldFunction p > 0
  · obtain ⟨_, hdl, hlam, _⟩ := I.plastic_of_pos p hf
    obtain ⟨hle, hnn⟩ := I.deltaLambda_nonneg p hsqrtpos hsqrtmono hY halpha hf
    rw [hlam, hdl]
    refine ⟨by linarith, fun h => absurd hf h, fun _ => ⟨rfl, hle, hnn⟩, fun _ => hf⟩
  · obtain ⟨_, _, hlam, _⟩ := I.elastic_of_not_pos p hf
    rw [hlam]
    exact ⟨le_rfl, fun _ => rfl, fun h => absurd h hf, fun h => absurd h (lt_irrefl _)⟩

theorem computeInternalForceIsotropicElasticPlastic_lambda_monotone_witness :
    (∀ x, 0 < x → 0 < Real.sqrt x)
    ∧ (∀ x z, 0 ≤ x → x ≤ Real.sqrt z * Real.sqrt z → Real.sqrt x ≤ Real.sqrt z)
    ∧ 0 < (twoPointInput Real.sqrt Real.pi).pi
    ∧ 0 < (twoPointInput Real.sqrt Real.pi).mOwned 0
    ∧ 0 < (twoPointInput Real.sqrt Real.pi).SHEAR_MODULUS
    ∧ 0 < (twoPointInput Real.sqrt Real.pi).yieldStress
    ∧ 0 < (twoPointInput Real.sqrt Real.pi).HORIZON
    ∧ 0 < (twoPointInput Real.sqrt Real.pi).dsfOwned 0
    ∧ ((twoPointInput Real.sqrt Real.pi).run (fun _ => 0) (fun _ => 0) (fun _ => 0)
          2).lambdaNP1 0 ≥ (twoPointInput Real.sqrt Real.pi).lambdaN 0
    ∧ Real.sqrt (2 * (twoPointInput Real.sqrt Real.pi).pointWiseYieldValue 0)
        ≤ (twoPointInput Real.sqrt Real.pi).tdNorm 0 := by
  have h0 : ∀ x : ℝ, 0 < x → 0 < Real.sqrt x := fun x hx => Real.sqrt_pos.mpr hx
  have hmono : ∀ x z : ℝ, 0 ≤ x → x ≤ Real.sqrt z * Real.sqrt z → Real.sqrt x ≤ Real.sqrt z :=
    fun x z _ h => Real.sqrt_le_iff.mpr ⟨Real.sqrt_nonneg z, by rw [sq]; exact h⟩
  have h1 : 0 < (twoPointInput Real.sqrt Real.pi).mOwned 0 := by simp [twoPointInput]
  have h2 : 0 < (twoPointInput Real.sqrt Real.pi).SHEAR_MODULUS := by simp [twoPointInput]
  have h3 : 0 < (twoPointInput Real.sqrt Real.pi).yieldStress := by simp [twoPointInput]
  have h4 : 0 < (twoPointInput Real.sqrt Real.pi).HORIZON := by simp [twoPointInput]
  have h5 : 0 < (twoPointInput Real.sqrt Real.pi).dsfOwned 0 := by simp [twoPointInput]
  have h := computeInternalForceIsotropicElasticPlastic_lambda_monotone
    (twoPointInput Real.sqrt Real.pi) (fun _ => 0) (fun _ => 0) (fun _ => 0) 2 0 (by norm_num)
    h0 hmono Real.pi_pos h1 h2 h3 h4 h5
  exact ⟨h0, hmono, Real.pi_pos, h1, h2, h3, h4, h5, h.1, (h.2.2.1 twoPoint_yields).2.1⟩

/-- C5, counterexample to the strict increase at every point with `f > 0`: in the two-point
configuration with `SHEAR_MODULUS = 5` and `yieldStress = 30.699801238394652` (all other
conditions of the claim hold), with the square root rounded to the doubles of `[64, 128)`,
`tdNorm = 75` and `2*pointYield` lies less than `1.1e-12` below `5625`, so the yield function
is positive, but `sqrt(2*pointYield)` rounds to `75`: `deltaLambda = (75/75 - 1)/alpha = 0` and
`lambdaNP1[0] = lambdaN[0]`. -/
theorem lambda_unchanged_at_positive_yield_function :
    0 < (nearlyYieldingInput (roundedSqrt Real.sqrt 46) Real.pi).mOwned 0
    ∧ 0 < (nearlyYieldingInput (roundedSqrt Real.sqrt 46) Real.pi).SHEAR_MODULUS
    ∧ 0 < (nearlyYieldingInput (roundedSqrt Real.sqrt 46) Real.pi).yieldStress
    ∧ 0 < (nearlyYieldingInput (roundedSqrt Real.sqrt 46) Real.pi).HORIZON
    ∧ 0 < (nearlyYieldingInput (roundedSqrt Real.sqrt 46) Real.pi).dsfOwned 0
    ∧ (nearlyYieldingInput (roundedSqrt Real.sqrt 46) Real.pi).tdNorm 0 ^ 2 / 2
        - (nearlyYieldingInput (roundedSqrt Real.sqrt 46) Real.pi).dsfOwned 0 ^ 2
          * (75 * (nearlyYieldingInput (roundedSqrt Real.sqrt 46) Real.pi).yieldStress ^ 2
            / (8 * (nearlyYieldingInput (roundedSqrt Real.sqrt 46) Real.pi).pi
              * (nearlyYieldingInput (roundedSqrt Real.sqrt 46) Real.pi).HORIZON ^ 5)) > 0
    ∧ ((nearlyYieldingInput (roundedSqrt Real.sqrt 46) Real.pi).run (fun _ => 0) (fun _ => 0)
        (fun _ => 0) 2).lambdaNP1 0
      = (nearlyYieldingInput (roundedSqrt Real.sqrt 46) Real.pi).lambdaN 0 := by
  have hf := nearlyYielding_yields
  obtain ⟨_, _, _, _, h5, _, _, _, _⟩ :=
    (nearlyYieldingInput (roundedSqrt Real.sqrt 46) Real.pi).plastic_run_closed_form
      (fun _ => 0) (fun _ => 0) (fun _ => 0) 2
  obtain ⟨_, hdl, hlam, _⟩ :=
    (nearlyYieldingInput (roundedSqrt Real.sqrt 46) Real.pi).plastic_of_pos 0 hf
  refine ⟨by simp [nearlyYieldingInput, twoPointInput],
    by simp [nearlyYieldingInput, twoPointInput],
    by simp [nearlyYieldingInput, twoPointInput],
    by simp [nearlyYieldingInput, twoPointInput],
    by simp [nearlyYieldingInput, twoPointInput], ?_, ?_⟩
  · rw [← ElasticPlasticInput.yieldFunction_eq]
    exact hf
  · rw [h5 0 (by norm_num), hlam, hdl]
    have hs : (nearlyYieldingInput (roundedSqrt Real.sqrt 46) Real.pi).sqrt
        = roundedSqrt Real.sqrt 46 := rfl
    rw [hs, nearlyYielding_sqrt, nearlyYielding_tdNorm]
    norm_num

/-- After a plastic step the trial deviatoric force computed from the updated plastic
extension is the returned deviatoric force, `alpha*(ed - edpNp1) = td`, as soon as the three
divisors `tdNorm`, `sqrt(2*pointYield)` and `alpha` are nonzero. -/
theorem ElasticPlasticInput.return_consistency_of_ne (I : ElasticPlasticInput α) (p j : ℕ)
    (hf : I.yieldFunction p > 0) (hN : I.tdNorm p ≠ 0)
    (hr : I.sqrt (2 * I.pointWiseYieldValue p) ≠ 0) (ha : I.alpha p ≠ 0) :
    I.alpha p * (deviatoricExtension I.sqrt I.xOverlap I.yOverlap (3 * p) (3 * p)
        (I.dilatationOwned p) (neighOf I.localNeighborList p j) - I.edpNp1 p j)
      = I.td p j := by
  obtain ⟨_, hdl, _, hbond⟩ := I.plastic_of_pos p hf
  have htrial : I.tdTrial p j
      = I.alpha p * (deviatoricExtension I.sqrt I.xOverlap I.yOverlap (3 * p) (3 * p)
          (I.dilatationOwned p) (neighOf I.localNeighborList p j)
        - I.deviatoricPlasticExtensionStateN (bondStart I.localNeighborList p + j)) := rfl
  rw [(hbond j).2, hdl, (hbond j).1, htrial]
  field_simp
  ring

theorem ElasticPlasticInput.next_tdTrial_of_ne (I : ElasticPlasticInput α)
    (e l f : ℕ → α) (n p j : ℕ) (hp : p < n) (hj : j < numNeighOf I.localNeighborList p)
    (hne : I.yieldFunction p > 0 → I.tdNorm p ≠ 0
      ∧ I.sqrt (2 * I.pointWiseYieldValue p) ≠ 0 ∧ I.alpha p ≠ 0) :
    (I.next e l f n).tdTrial p j = I.td p j := by
  obtain ⟨_, _, _, _, _, _, h7, _, _⟩ := I.plastic_run_closed_form e l f n
  have hnext : (I.next e l f n).tdTrial p j
      = I.alpha p * (deviatoricExtension I.sqrt I.xOverlap I.yOverlap (3 * p) (3 * p)
          (I.dilatationOwned p) (neighOf I.localNeighborList p j)
        - (I.run e l f n).deviatoricPlasticExtensionStateNp1
            (bondStart I.localNeighborList p + j)) := rfl
  rw [hnext, h7 p hp j hj]
  by_cases hf : I.yieldFunction p > 0
  · obtain ⟨hN, hr, ha⟩ := hne hf
    exact I.return_consistency_of_ne p j hf hN hr ha
  · obtain ⟨_, _, _, hbond⟩ := I.elastic_of_not_pos p hf
    rw [(hbond j).2, (hbond j).1]
    rfl

theorem ElasticPlasticInput.next_tdNorm_of_ne (I : ElasticPlasticInput α)
    (e l f : ℕ → α) (n p : ℕ) (hp : p < n)
    (hne : I.yieldFunction p > 0 → I.tdNorm p ≠ 0
      ∧ I.sqrt (2 * I.pointWiseYieldValue p) ≠ 0 ∧ I.alpha p ≠ 0) :
    (I.next e l f n).tdNorm p = I.sqrt (I.returnedNormSquared p) := by
  rw [(I.next e l f n).tdNorm_eq_sqrt]
  have hS : (I.next e l f n).trialNormSquared p = I.returnedNormSquared p := by
    unfold ElasticPlasticInput.trialNormSquared ElasticPlasticInput.returnedNormSquared
    apply Finset.sum_congr rfl
    intro j hj
    rw [I.next_tdTrial_of_ne e l f n p j hp (Finset.mem_range.mp hj) hne]
    rfl
  rw [hS]
  rfl

theorem ElasticPlasticInput.next_contribution_of_elastic (I : ElasticPlasticInput α)
    (e l f : ℕ → α) (n p j i : ℕ) (hp : p < n) (hj : j < numNeighOf I.localNeighborList p)
    (hne : I.yieldFunction p > 0 → I.tdNorm p ≠ 0
      ∧ I.sqrt (2 * I.pointWiseYieldValue p) ≠ 0 ∧ I.alpha p ≠ 0)
    (hel : (I.next e l f n).elastic p = true) :
    (I.next e l f n).contribution p j i = I.contribution p j i := by
  have hnot : ¬ (I.next e l f n).yieldFunction p > 0 := by
    intro h
    rw [((I.next e l f n).plastic_of_pos p h).1] at hel
    exact Bool.false_ne_true hel
  obtain ⟨_, _, _, hbond⟩ := (I.next e l f n).elastic_of_not_pos p hnot
  have htd : (I.next e l f n).td p j = I.td p j := by
    rw [(hbond j).1, I.next_tdTrial_of_ne e l f n p j hp hj hne]
  rw [(I.next e l f n).contribution_eq, I.contribution_eq, htd]
  rfl

/-- C24, as amended: with `m[p] > 0`, `SHEAR_MODULUS > 0`, `dsf[p] > 0`, `yieldStress > 0`,
`HORIZON > 0` (and `M_PI > 0`, `sqrt` positive on positive arguments), let a first call of the
dense elastic-plastic evaluator leave `lambdaNP1` and `deviatoricPlasticExtensionStateNp1`.
At every owned point that yielded each bond satisfies `alpha*(ed - edpNp1) = td`.  In a second
call on the same kinematics whose previous-step state is that output, the trial deviatoric
force of every bond is the `td` of the first call, so `tdNorm` is
`sqrt(Σ ((1-d)*td)^2 * volume)` and the yield function is `tdNorm^2/2 - pointYield`; a point
that did not yield in the first call has the same yield function and is elastic again; and at
every owned point where the second call takes the elastic branch it leaves the same
`lambdaNP1` and plastic extension state and its bonds add the same forces as in the first
call, so that a second call that is elastic at every owned point adds to its force array what
the first call added. -/
theorem computeInternalForceIsotropicElasticPlastic_return_idempotent
    (I : ElasticPlasticInput α)
    (deviatoricPlasticExtensionStateNp1 lambdaNP1 fInternalOverlap : ℕ → α)
    (numOwnedPoints : ℕ)
    (hsqrtpos : ∀ x, 0 < x → 0 < I.sqrt x) (hpi : 0 < I.pi)
    (hm : ∀ p, p < numOwnedPoints → 0 < I.mOwned p) (hMU : 0 < I.SHEAR_MODULUS)
    (hdsf : ∀ p, p < numOwnedPoints → 0 < I.dsfOwned p)
    (hys : 0 < I.yieldStress) (hH : 0 < I.HORIZON) :
    (∀ p, p < numOwnedPoints → I.yieldFunction p > 0 →
      ∀ j, j < numNeighOf I.localNeighborList p →
        I.alpha p * (deviatoricExtension I.sqrt I.xOverlap I.yOverlap (3 * p) (3 * p)
            (I.dilatationOwned p) (neighOf I.localNeighborList p j)
          - (I.run deviatoricPlasticExtensionStateNp1 lambdaNP1 fInternalOverlap
              numOwnedPoints).deviatoricPlasticExtensionStateNp1
              (bondStart I.localNeighborList p + j))
        = I.td p j)
    ∧ (∀ p, p < numOwnedPoints →
        (∀ j, j < numNeighOf I.localNeighborList p →
          (I.next deviatoricPlasticExtensionStateNp1 lambdaNP1 fInternalOverlap
            numOwnedPoints).tdTrial p j = I.td p j)
        ∧ (I.next deviatoricPlasticExtensionStateNp1 lambdaNP1 fInternalOverlap
            numOwnedPoints).tdNorm p
          = I.sqrt (∑ j ∈ Finset.range (numNeighOf I.localNeighborList p),
              ((1 - I.bondDamage (bondStart I.localNeighborList p + j)) * I.td p j) ^ 2
                * I.volumeOverlap (neighOf I.localNeighborList p j))
        ∧ (I.next deviatoricPlasticExtensionStateNp1 lambdaNP1 fInternalOverlap
            numOwnedPoints).yieldFunction p
          = (I.next deviatoricPlasticExtensionStateNp1 lambdaNP1 fInternalOverlap
                numOwnedPoints).tdNorm p
              * (I.next deviatoricPlasticExtensionStateNp1 lambdaNP1 fInternalOverlap
                numOwnedPoints).tdNorm p / 2
            - I.pointWiseYieldValue p)
    ∧ (∀ p, p < numOwnedPoints → ¬ I.yieldFunction p > 0 →
        (I.next deviatoricPlasticExtensionStateNp1 lambdaNP1 fInternalOverlap
          numOwnedPoints).yieldFunction p = I.yieldFunction p
        ∧ (I.next deviatoricPlasticExtensionStateNp1 lambdaNP1 fInternalOverlap
          numOwnedPoints).elastic p = true)
    ∧ (∀ p, p < numOwnedPoints →
        (I.next deviatoricPlasticExtensionStateNp1 lambdaNP1 fInternalOverlap
          numOwnedPoints).elastic p = true →
        ∀ e l g : ℕ → α,
          ((I.next deviatoricPlasticExtensionStateNp1 lambdaNP1 fInternalOverlap
              numOwnedPoints).run e l g numOwnedPoints).lambdaNP1 p
            = (I.run deviatoricPlasticExtensionStateNp1 lambdaNP1 fInternalOverlap
                numOwnedPoints).lambdaNP1 p
          ∧ ∀ j, j < numNeighOf I.localNeighborList p →
            ((I.next deviatoricPlasticExtensionStateNp1 lambdaNP1 fInternalOverlap
                numOwnedPoints).run e l g numOwnedPoints).deviatoricPlasticExtensionStateNp1
                (bondStart I.localNeighborList p + j)
              = (I.run deviatoricPlasticExtensionStateNp1 lambdaNP1 fInternalOverlap
                  numOwnedPoints).deviatoricPlasticExtensionStateNp1
                  (bondStart I.localNeighborList p + j)
            ∧ ∀ i, (I.next deviatoricPlasticExtensionStateNp1 lambdaNP1 fInternalOverlap
                numOwnedPoints).contribution p j i = I.contribution p j i)
    ∧ ((∀ p, p < numOwnedPoints →
          (I.next deviatoricPlasticExtensionStateNp1 lambdaNP1 fInternalOverlap
            numOwnedPoints).elastic p = true) →
        ∀ (e l g : ℕ → α) i,
          ((I.next deviatoricPlasticExtensionStateNp1 lambdaNP1 fInternalOverlap
              numOwnedPoints).run e l g numOwnedPoints).fInternalOverlap i - g i
            = (I.run deviatoricPlasticExtensionStateNp1 lambdaNP1 fInternalOverlap
                numOwnedPoints).fInternalOverlap i - fInternalOverlap i) := by
  have hY : ∀ p, p < numOwnedPoints → 0 < I.pointWiseYieldValue p := by
    intro p hp
    have := hdsf p hp
    rw [I.pointWiseYieldValue_eq]
    positivity
  have hne : ∀ p, p < numOwnedPoints → I.yieldFunction p > 0 → I.tdNorm p ≠ 0
      ∧ I.sqrt (2 * I.pointWiseYieldValue p) ≠ 0 ∧ I.alpha p ≠ 0 := by
    intro p hp hf
    have hYp := hY p hp
    refine ⟨?_, ne_of_gt (hsqrtpos _ (by linarith)), ?_⟩
    · intro h0
      have hf' : I.tdNorm p * I.tdNorm p / 2 - I.pointWiseYieldValue p > 0 := hf
      rw [h0] at hf'
      simp only [mul_zero, zero_div, zero_sub] at hf'
      linarith
    · have h1 := hm p hp
      have h2 := hdsf p hp
      unfold ElasticPlasticInput.alpha
      positivity
  obtain ⟨_, _, _, _, h5, _, h7, _, h9⟩ := I.plastic_run_closed_form
    deviatoricPlasticExtensionStateNp1 lambdaNP1 fInternalOverlap numOwnedPoints
  refine ⟨?_, ?_, ?_, ?_, ?_⟩
  · intro p hp hf j hj
    rw [h7 p hp j hj]
    obtain ⟨hN, hr, ha⟩ := hne p hp hf
    exact I.return_consistency_of_ne p j hf hN hr ha
  · intro p hp
    refine ⟨fun j hj => I.next_tdTrial_of_ne _ _ _ numOwnedPoints p j hp hj (hne p hp),
      I.next_tdNorm_of_ne _ _ _ numOwnedPoints p hp (hne p hp), rfl⟩
  · intro p hp hf
    have hform : (I.next deviatoricPlasticExtensionStateNp1 lambdaNP1 fInternalOverlap
        numOwnedPoints).yieldFunction p = I.yieldFunction p := by
      have h1 : (I.next deviatoricPlasticExtensionStateNp1 lambdaNP1 fInternalOverlap
          numOwnedPoints).yieldFunction p
          = (I.next deviatoricPlasticExtensionStateNp1 lambdaNP1 fInternalOverlap
                numOwnedPoints).tdNorm p
              * (I.next deviatoricPlasticExtensionStateNp1 lambdaNP1 fInternalOverlap
                numOwnedPoints).tdNorm p / 2
            - I.pointWiseYieldValue p := rfl
      rw [h1, I.next_tdNorm_of_ne _ _ _ numOwnedPoints p hp (hne p hp),
        I.returnedNormSquared_elastic p hf, ← I.tdNorm_eq_sqrt]
      rfl
    refine ⟨hform, ?_⟩
    have hnot : ¬ (I.next deviatoricPlasticExtensionStateNp1 lambdaNP1 fInternalOverlap
        numOwnedPoints).yieldFunction p > 0 := by
      rw [hform]
      exact hf
    exact ((I.next deviatoricPlasticExtensionStateNp1 lambdaNP1 fInternalOverlap
      numOwnedPoints).elastic_of_not_pos p hnot).1
  · intro p hp hel e l g
    have hnot : ¬ (I.next deviatoricPlasticExtensionStateNp1 lambdaNP1 fInternalOverlap
        numOwnedPoints).yieldFunction p > 0 := by
      intro h
      rw [((I.next deviatoricPlasticExtensionStateNp1 lambdaNP1 fInternalOverlap
        numOwnedPoints).plastic_of_pos p h).1] at hel
      exact Bool.false_ne_true hel
    obtain ⟨_, _, _, _, k5, _, k7, _, _⟩ :=
      (I.next deviatoricPlasticExtensionStateNp1 lambdaNP1 fInternalOverlap
        numOwnedPoints).plastic_run_closed_form e l g numOwnedPoints
    obtain ⟨_, _, hlam, hbond⟩ :=
      (I.next deviatoricPlasticExtensionStateNp1 lambdaNP1 fInternalOverlap
        numOwnedPoints).elastic_of_not_pos p hnot
    constructor
    · rw [k5 p hp, hlam]
      rfl
    · intro j hj
      constructor
      · have hk := k7 p hp j hj
        rw [(hbond j).2] at hk
        exact hk
      · intro i
        exact I.next_contribution_of_elastic _ _ _ numOwnedPoints p j i hp hj (hne p hp) hel
  · intro hall e l g i
    obtain ⟨_, _, _, _, _, _, _, _, k9⟩ :=
      (I.next deviatoricPlasticExtensionStateNp1 lambdaNP1 fInternalOverlap
        numOwnedPoints).plastic_run_closed_form e l g numOwnedPoints
    rw [k9 i, h9 i, add_sub_cancel_left, add_sub_cancel_left]
    apply Finset.sum_congr rfl
    intro p hp
    apply Finset.sum_congr rfl
    intro j hj
    exact I.next_contribution_of_elastic _ _ _ numOwnedPoints p j i (Finset.mem_range.mp hp)
      (Finset.mem_range.mp hj) (hne p (Finset.mem_range.mp hp)) (hall p (Finset.mem_range.mp hp))

theorem computeInternalForceIsotropicElasticPlastic_return_idempotent_witness :
    (∀ x, 0 < x → 0 < Real.sqrt x)
    ∧ 0 < (twoPointInput Real.sqrt Real.pi).pi
    ∧ (∀ p, p < 2 → 0 < (twoPointInput Real.sqrt Real.pi).mOwned p)
    ∧ 0 < (twoPointInput Real.sqrt Real.pi).SHEAR_MODULUS
    ∧ (∀ p, p < 2 → 0 < (twoPointInput Real.sqrt Real.pi).dsfOwned p)
    ∧ 0 < (twoPointInput Real.sqrt Real.pi).yieldStress
    ∧ 0 < (twoPointInput Real.sqrt Real.pi).HORIZON
    ∧ (twoPointInput Real.sqrt Real.pi).yieldFunction 0 > 0
    ∧ (twoPointInput Real.sqrt Real.pi).alpha 0
        * (deviatoricExtension Real.sqrt (twoPointInput Real.sqrt Real.pi).xOverlap
            (twoPointInput Real.sqrt Real.pi).yOverlap (3 * 0) (3 * 0)
            ((twoPointInput Real.sqrt Real.pi).dilatationOwned 0)
            (neighOf (twoPointInput Real.sqrt Real.pi).localNeighborList 0 0)
          - ((twoPointInput Real.sqrt Real.pi).run (fun _ => 0) (fun _ => 0) (fun _ => 0)
              2).deviatoricPlasticExtensionStateNp1
              (bondStart (twoPointInput Real.sqrt Real.pi).localNeighborList 0 + 0))
      = (twoPointInput Real.sqrt Real.pi).td 0 0
    ∧ ((twoPointInput Real.sqrt Real.pi).next (fun _ => 0) (fun _ => 0) (fun _ => 0)
        2).tdTrial 0 0 = (twoPointInput Real.sqrt Real.pi).td 0 0 := by
  have h0 : ∀ x : ℝ, 0 < x → 0 < Real.sqrt x := fun x hx => Real.sqrt_pos.mpr hx
  have hpi : 0 < (twoPointInput Real.sqrt Real.pi).pi := Real.pi_pos
  have hm : ∀ p, p < 2 → 0 < (twoPointInput Real.sqrt Real.pi).mOwned p := by
    intro p _
    simp [twoPointInput]
  have hMU : 0 < (twoPointInput Real.sqrt Real.pi).SHEAR_MODULUS := by simp [twoPointInput]
  have hdsf : ∀ p, p < 2 → 0 < (twoPointInput Real.sqrt Real.pi).dsfOwned p := by
    intro p _
    simp [twoPointInput]
  have hys : 0 < (twoPointInput Real.sqrt Real.pi).yieldStress := by simp [twoPointInput]
  have hH : 0 < (twoPointInput Real.sqrt Real.pi).HORIZON := by simp [twoPointInput]
  have hn : 0 < numNeighOf (twoPointInput Real.sqrt Real.pi).localNeighborList 0 := by decide
  exact ⟨h0, hpi, hm, hMU, hdsf, hys, hH, twoPoint_yieldFunction_pos,
    (computeInternalForceIsotropicElasticPlastic_return_idempotent
      (twoPointInput Real.sqrt Real.pi) (fun _ => 0) (fun _ => 0) (fun _ => 0) 2
      h0 hpi hm hMU hdsf hys hH).1 0 (by norm_num) twoPoint_yieldFunction_pos 0 hn,
    ((computeInternalForceIsotropicElasticPlastic_return_idempotent
      (twoPointInput Real.sqrt Real.pi) (fun _ => 0) (fun _ => 0) (fun _ => 0) 2
      h0 hpi hm hMU hdsf hys hH).2.1 0 (by norm_num)).1 0 hn⟩

theorem nearlyYielding_tdTrial :
    (nearlyYieldingInput (roundedSqrt Real.sqrt 46) Real.pi).tdTrial 0 0 = 75 := by
  simp [ElasticPlasticInput.tdTrial, ElasticPlasticInput.alpha, deviatoricExtension, bondLength,
    neighOf, numNeighOf, blockStart, bondStart, nearlyYieldingInput, twoPointInput,
    roundedSqrt_one]
  norm_num [roundedSqrt_four]

theorem nearlyYielding_returnedNormSquared :
    (nearlyYieldingInput (roundedSqrt Real.sqrt 46) Real.pi).returnedNormSquared 0 = 5625 := by
  obtain ⟨_, _, _, hbond⟩ :=
    (nearlyYieldingInput (roundedSqrt Real.sqrt 46) Real.pi).plastic_of_pos 0
      nearlyYielding_yields
  have hn : numNeighOf (nearlyYieldingInput (roundedSqrt Real.sqrt 46)
      Real.pi).localNeighborList 0 = 1 := rfl
  have hs : (nearlyYieldingInput (roundedSqrt Real.sqrt 46) Real.pi).sqrt
      = roundedSqrt Real.sqrt 46 := rfl
  unfold ElasticPlasticInput.returnedNormSquared
  rw [hn, Finset.sum_range_one, (hbond 0).1, hs, nearlyYielding_sqrt, nearlyYielding_tdTrial,
    nearlyYielding_tdNorm]
  simp [nearlyYieldingInput, twoPointInput]
  norm_num

/-- C24, counterexample to the elastic second call: in the two-point configuration with
`SHEAR_MODULUS = 5` and `yieldStress = 30.699801238394652` (all conditions of the claim
hold), with the square root rounded to the doubles of `[64, 128)`, point 0 yields in the first
call, and in the second call its yield function is positive again, not `0`, and the plastic
branch is taken. -/
theorem second_call_yields_again :
    (∀ p, p < 2 → 0 < (nearlyYieldingInput (roundedSqrt Real.sqrt 46) Real.pi).mOwned p)
    ∧ 0 < (nearlyYieldingInput (roundedSqrt Real.sqrt 46) Real.pi).SHEAR_MODULUS
    ∧ (∀ p, p < 2 → 0 < (nearlyYieldingInput (roundedSqrt Real.sqrt 46) Real.pi).dsfOwned p)
    ∧ 0 < (nearlyYieldingInput (roundedSqrt Real.sqrt 46) Real.pi).yieldStress
    ∧ 0 < (nearlyYieldingInput (roundedSqrt Real.sqrt 46) Real.pi).HORIZON
    ∧ (nearlyYieldingInput (roundedSqrt Real.sqrt 46) Real.pi).yieldFunction 0 > 0
    ∧ ((nearlyYieldingInput (roundedSqrt Real.sqrt 46) Real.pi).next (fun _ => 0) (fun _ => 0)
        (fun _ => 0) 2).yieldFunction 0 > 0
    ∧ ((nearlyYieldingInput (roundedSqrt Real.sqrt 46) Real.pi).next (fun _ => 0) (fun _ => 0)
        (fun _ => 0) 2).elastic 0 = false := by
  have hf := nearlyYielding_yields
  have hne : (nearlyYieldingInput (roundedSqrt Real.sqrt 46) Real.pi).yieldFunction 0 > 0 →
      (nearlyYieldingInput (roundedSqrt Real.sqrt 46) Real.pi).tdNorm 0 ≠ 0
      ∧ (nearlyYieldingInput (roundedSqrt Real.sqrt 46) Real.pi).sqrt
          (2 * (nearlyYieldingInput (roundedSqrt Real.sqrt 46) Real.pi).pointWiseYieldValue 0)
        ≠ 0
      ∧ (nearlyYieldingInput (roundedSqrt Real.sqrt 46) Real.pi).alpha 0 ≠ 0 := by
    intro _
    have hs : (nearlyYieldingInput (roundedSqrt Real.sqrt 46) Real.pi).sqrt
        = roundedSqrt Real.sqrt 46 := rfl
    rw [nearlyYielding_tdNorm, hs, nearlyYielding_sqrt]
    refine ⟨by norm_num, by norm_num, ?_⟩
    simp [ElasticPlasticInput.alpha, nearlyYieldingInput, twoPointInput]
  have hN := (nearlyYieldingInput (roundedSqrt Real.sqrt 46) Real.pi).next_tdNorm_of_ne
    (fun _ => 0) (fun _ => 0) (fun _ => 0) 2 0 (by norm_num) hne
  have hs : (nearlyYieldingInput (roundedSqrt Real.sqrt 46) Real.pi).sqrt
      = roundedSqrt Real.sqrt 46 := rfl
  rw [nearlyYielding_returnedNormSquared, hs, roundedSqrt_5625] at hN
  have hf2 : ((nearlyYieldingInput (roundedSqrt Real.sqrt 46) Real.pi).next (fun _ => 0)
      (fun _ => 0) (fun _ => 0) 2).yieldFunction 0 > 0 := by
    have hform : ((nearlyYieldingInput (roundedSqrt Real.sqrt 46) Real.pi).next (fun _ => 0)
        (fun _ => 0) (fun _ => 0) 2).yieldFunction 0
        = ((nearlyYieldingInput (roundedSqrt Real.sqrt 46) Real.pi).next (fun _ => 0)
              (fun _ => 0) (fun _ => 0) 2).tdNorm 0
            * ((nearlyYieldingInput (roundedSqrt Real.sqrt 46) Real.pi).next (fun _ => 0)
              (fun _ => 0) (fun _ => 0) 2).tdNorm 0 / 2
          - (nearlyYieldingInput (roundedSqrt Real.sqrt 46) Real.pi).pointWiseYieldValue 0 :=
      rfl
    rw [hform, hN]
    have h := nearlyYielding_window.2
    linarith
  refine ⟨fun p _ => by simp [nearlyYieldingInput, twoPointInput],
    by simp [nearlyYieldingInput, twoPointInput],
    fun p _ => by simp [nearlyYieldingInput, twoPointInput],
    by simp [nearlyYieldingInput, twoPointInput],
    by simp [nearlyYieldingInput, twoPointInput], hf, hf2, ?_⟩
  exact (((nearlyYieldingInput (roundedSqrt Real.sqrt 46) Real.pi).next (fun _ => 0)
    (fun _ => 0) (fun _ => 0) 2).plastic_of_pos 0 hf2).1

/-! ## Division by zero in the shear-correction calibrator -/

theorem computeDilatation_single_bond_checked_eq (sqrt : α → α) (X : ℕ) (xOverlap : ℕ → α)
    (Y : ℕ) (yOverlap : ℕ → α) (volumeOverlap : ℕ → α) (m : α) (localNeighborList : ℕ → ℕ)
    (s : DilatationSingleState α) :
    computeDilatation_single_bond_checked sqrt X xOverlap Y yOverlap volumeOverlap m
      localNeighborList s
    = if m = 0 then none
      else some (computeDilatation_single_bond sqrt X xOverlap Y yOverlap volumeOverlap m
        localNeighborList s) := by
  by_cases h : m = 0
  · simp [computeDilatation_single_bond_checked, checkedDiv, h]
  · simp [computeDilatation_single_bond_checked, computeDilatation_single_bond, checkedDiv, h]

/-- The checked single-point dilatation is defined, and is the unchecked one, when the
weighted volume is nonzero or the block is empty; otherwise it divides by zero. -/
theorem computeDilatation_single_checked_eq (sqrt : α → α) (localNeighborList : ℕ → ℕ)
    (neighPtr : ℕ) (X : ℕ) (xOverlap : ℕ → α) (Y : ℕ) (yOverlap : ℕ → α)
    (volumeOverlap : ℕ → α) (m : α) :
    computeDilatation_single_checked sqrt localNeighborList neighPtr X xOverlap Y yOverlap
      volumeOverlap m
    = if m = 0 ∧ localNeighborList neighPtr ≠ 0 then none
      else some (computeDilatation_single sqrt localNeighborList neighPtr X xOverlap Y yOverlap
        volumeOverlap m) := by
  simp only [computeDilatation_single_checked, computeDilatation_single]
  by_cases h : m = 0 ∧ localNeighborList neighPtr ≠ 0
  · rw [if_pos h]
    have h1 : forLoopChecked (fun _ => computeDilatation_single_bond_checked sqrt X xOverlap Y
        yOverlap volumeOverlap m localNeighborList) 1
        { neighPtr := neighPtr + 1, theta := 0 } = none := by
      simp [forLoopChecked, computeDilatation_single_bond_checked_eq, h.1]
    rw [forLoopChecked_none _ 1 _ _ (Nat.one_le_iff_ne_zero.mpr h.2) h1]
    rfl
  · rw [if_neg h]
    rw [forLoopChecked_eq_some _ (fun _ => computeDilatation_single_bond sqrt X xOverlap Y
      yOverlap volumeOverlap m localNeighborList)]
    · rfl
    · intro k hk
      rw [computeDilatation_single_bond_checked_eq]
      have hm : m ≠ 0 := by
        intro hm0
        exact h ⟨hm0, by omega⟩
      exact if_neg hm

theorem compute_norm_2_deviatoric_extension_checked_eq (sqrt : α → α)
    (localNeighborList : ℕ → ℕ) (neighPtr : ℕ) (X : ℕ) (xOverlap : ℕ → α) (Y : ℕ)
    (yOverlap : ℕ → α) (volumeOverlap : ℕ → α) (m : α) :
    compute_norm_2_deviatoric_extension_checked sqrt localNeighborList neighPtr X xOverlap Y
      yOverlap volumeOverlap m
    = if m = 0 ∧ localNeighborList neighPtr ≠ 0 then none
      else some (compute_norm_2_deviatoric_extension sqrt localNeighborList neighPtr X xOverlap
        Y yOverlap volumeOverlap m) := by
  simp only [compute_norm_2_deviatoric_extension_checked, compute_norm_2_deviatoric_extension,
    computeDilatation_single_checked_eq]
  by_cases h : m = 0 ∧ localNeighborList neighPtr ≠ 0
  · simp only [if_pos h]
    rfl
  · simp only [if_neg h]
    rfl

theorem ShearCorrectionInput.probes_checked_eq (I : ShearCorrectionInput α) (p : ℕ)
    (yOverlap : ℕ → α) :
    computeShearCorrectionFactor_probes_checked I.sqrt I.xOverlap I.volumeOverlap
        I.owned_weighted_volume I.localNeighborList p (blockStart I.localNeighborList p)
        yOverlap
      = (I.probe p (I.probe p (I.probe p yOverlap PURE_SHEAR.XY) PURE_SHEAR.ZX) PURE_SHEAR.YZ,
          if I.owned_weighted_volume p = 0 ∧ numNeighOf I.localNeighborList p ≠ 0 then none
          else some (I.maxNorm p yOverlap)) := by
  have hp := I.probes_eq p yOverlap
  simp only [computeShearCorrectionFactor_probes] at hp
  have h1 := congrArg Prod.fst hp
  have h2 := congrArg Prod.snd hp
  simp only at h1 h2
  simp only [computeShearCorrectionFactor_probes_checked,
    compute_norm_2_deviatoric_extension_checked_eq]
  by_cases h : I.owned_weighted_volume p = 0 ∧ numNeighOf I.localNeighborList p ≠ 0
  · have h' : I.owned_weighted_volume p = 0
        ∧ I.localNeighborList (blockStart I.localNeighborList p) ≠ 0 := h
    simp only [if_pos h, if_pos h']
    rfl
  · have h' : ¬ (I.owned_weighted_volume p = 0
        ∧ I.localNeighborList (blockStart I.localNeighborList p) ≠ 0) := h
    simp only [if_neg h, if_neg h', Option.bind_eq_bind, Option.some_bind, Option.pure_def]
    rw [Prod.mk.injEq]
    refine ⟨rfl, ?_⟩
    rw [Option.some.injEq]
    exact h2

theorem shearGuard_checked_of_ne (reference max_dsf : α) (href : reference ≠ 0)
    (hM : ¬ max_dsf / reference < 1.0e-15 → max_dsf ≠ 0) :
    shearGuard_checked reference max_dsf = some (shearGuard reference max_dsf) := by
  unfold shearGuard_checked shearGuard
  simp only [checkedDiv_of_ne _ _ href, Option.bind_eq_bind, Option.some_bind, Option.pure_def]
  by_cases h : max_dsf / reference < 1.0e-15
  · simp only [if_pos h]
  · simp only [if_neg h]
    exact checkedDiv_of_ne _ _ (hM h)

theorem shearGuard_checked_zero_reference (max_dsf : α) :
    shearGuard_checked 0 max_dsf = none := by
  simp [shearGuard_checked, checkedDiv_zero]

theorem ShearCorrectionInput.shear_point_checked_eq (I : ShearCorrectionInput α) (reference : α)
    (p : ℕ) (s : ShearCorrectionCheckedState α)
    (h1 : s.neighPtr = blockStart I.localNeighborList p) :
    computeShearCorrectionFactor_point_checked I.sqrt reference I.xOverlap
        I.volumeOverlap I.owned_weighted_volume I.localNeighborList p s
      = { neighPtr := blockStart I.localNeighborList (p + 1)
          yOverlap :=
            I.probe p (I.probe p (I.probe p s.yOverlap PURE_SHEAR.XY) PURE_SHEAR.ZX)
              PURE_SHEAR.YZ
          shearCorrectionFactorOwned := Function.update s.shearCorrectionFactorOwned p
            ((if I.owned_weighted_volume p = 0 ∧ numNeighOf I.localNeighborList p ≠ 0 then none
              else some (I.maxNorm p s.yOverlap)).bind (shearGuard_checked reference)) } := by
  simp only [computeShearCorrectionFactor_point_checked, h1, I.probes_checked_eq, blockStart]
  congr 1
  omega

/-- Closed form of the checked `computeShearCorrectionFactor` after `n` owned points: cursor
and scratch array are those of the unchecked evaluator; the entry of an owned point is `none`
when its weighted volume is zero and its block is not empty, and the checked guard applied to
`max_dsf` otherwise. -/
theorem ShearCorrectionInput.shear_checked_run_closed_form (I : ShearCorrectionInput α)
    (pow : α → ℕ → α) (yOverlap shearCorrectionFactorOwned : ℕ → α) (n : ℕ) :
    (I.runChecked pow yOverlap shearCorrectionFactorOwned n).neighPtr
        = blockStart I.localNeighborList n
    ∧ (I.runChecked pow yOverlap shearCorrectionFactorOwned n).yOverlap
        = I.scratchBefore yOverlap n
    ∧ (∀ p, p < n →
        (I.runChecked pow yOverlap shearCorrectionFactorOwned n).shearCorrectionFactorOwned p
          = (if I.owned_weighted_volume p = 0 ∧ numNeighOf I.localNeighborList p ≠ 0 then none
              else some (I.maxNorm p (I.scratchBefore yOverlap p))).bind
              (shearGuard_checked (shearReferenceOf pow I.pi I.horizon)))
    ∧ (∀ p, n ≤ p →
        (I.runChecked pow yOverlap shearCorrectionFactorOwned n).shearCorrectionFactorOwned p
          = some (shearCorrectionFactorOwned p)) := by
  unfold ShearCorrectionInput.runChecked computeShearCorrectionFactor_checked
  induction n with
  | zero => simp [forLoop, blockStart, ShearCorrectionInput.scratchBefore]
  | succ k ih =>
    obtain ⟨h1, h2, h3, h4⟩ := ih
    rw [forLoop_succ, I.shear_point_checked_eq _ k _ h1, h2]
    refine ⟨rfl, rfl, ?_, ?_⟩
    · intro p hp
      by_cases hpk : p = k
      · subst hpk; simp
      · simp only [Function.update_noteq hpk]
        exact h3 p (by omega)
    · intro p hp
      have hpk : p ≠ k := by omega
      simp only [Function.update_noteq hpk]
      exact h4 p (by omega)

theorem ShearCorrectionInput.maxNorm_empty (I : ShearCorrectionInput α) (p : ℕ)
    (h0 : numNeighOf I.localNeighborList p = 0) (y : ℕ → α) : I.maxNorm p y = 0 := by
  simp only [ShearCorrectionInput.maxNorm, ShearCorrectionInput.normXY,
    ShearCorrectionInput.normZX, ShearCorrectionInput.normYZ, I.probeNorm_empty p h0, max_self]

/-- C14, as amended: when the value `reference = 4*M_PI*gamma^2*pow(horizon,5)/75` computed
at line 1095 is not zero, for every owned point `p` with an empty neighbour block
`computeShearCorrectionFactor` writes exactly `1` to `shearCorrectionFactorOwned[p]`, whatever
the scratch array and the weighted volumes hold, and no division by zero is evaluated while
`p` is processed: the three probes return `max_dsf = 0` without a quotient and the guard
evaluates only `0/reference`. -/
theorem computeShearCorrectionFactor_empty_block (I : ShearCorrectionInput α)
    (pow : α → ℕ → α) (yOverlap shearCorrectionFactorOwned : ℕ → α) (numOwnedPoints p : ℕ)
    (hp : p < numOwnedPoints) (href : shearReferenceOf pow I.pi I.horizon ≠ 0)
    (h0 : numNeighOf I.localNeighborList p = 0) :
    (I.runChecked pow yOverlap shearCorrectionFactorOwned
        numOwnedPoints).shearCorrectionFactorOwned p = some 1
    ∧ computeShearCorrectionFactor_probes_checked I.sqrt I.xOverlap I.volumeOverlap
        I.owned_weighted_volume I.localNeighborList p
        (I.runChecked pow yOverlap shearCorrectionFactorOwned p).neighPtr
        (I.runChecked pow yOverlap shearCorrectionFactorOwned p).yOverlap
      = (I.scratchBefore yOverlap (p + 1), some 0)
    ∧ shearGuard_checked (shearReferenceOf pow I.pi I.horizon) 0 = some 1 := by
  obtain ⟨_, _, h3, _⟩ := I.shear_checked_run_closed_form pow yOverlap
    shearCorrectionFactorOwned numOwnedPoints
  obtain ⟨k1, k2, _, _⟩ := I.shear_checked_run_closed_form pow yOverlap
    shearCorrectionFactorOwned p
  have hne : ¬ (I.owned_weighted_volume p = 0 ∧ numNeighOf I.localNeighborList p ≠ 0) :=
    fun h => h.2 h0
  have hg : shearGuard_checked (shearReferenceOf pow I.pi I.horizon) 0 = some 1 := by
    rw [shearGuard_checked_of_ne _ _ href (fun h => absurd (by rw [zero_div]; norm_num) h),
      shearGuard_zero]
  refine ⟨?_, ?_, hg⟩
  · rw [h3 p hp, if_neg hne, I.maxNorm_empty p h0, Option.some_bind, hg]
  · rw [k1, k2, I.probes_checked_eq, if_neg hne, I.maxNorm_empty p h0]
    rfl

theorem collinear_reference_pos :
    0 < shearReferenceOf exactPow (collinearInput Real.sqrt Real.pi).pi
      (collinearInput Real.sqrt Real.pi).horizon := by
  have hpi : 0 < (collinearInput Real.sqrt Real.pi).pi := Real.pi_pos
  simp only [shearReferenceOf, exactPow, collinearInput] at hpi ⊢
  positivity

theorem computeShearCorrectionFactor_empty_block_witness :
    1 < 2
    ∧ shearReferenceOf exactPow (collinearInput Real.sqrt Real.pi).pi
        (collinearInput Real.sqrt Real.pi).horizon ≠ 0
    ∧ numNeighOf (collinearInput Real.sqrt Real.pi).localNeighborList 1 = 0
    ∧ ((collinearInput Real.sqrt Real.pi).runChecked exactPow collinearScratchShifted
        (fun _ => 0) 2).shearCorrectionFactorOwned 1 = some 1 := by
  have h0 : numNeighOf (collinearInput Real.sqrt Real.pi).localNeighborList 1 = 0 := by decide
  exact ⟨by norm_num, ne_of_gt collinear_reference_pos, h0,
    (computeShearCorrectionFactor_empty_block (collinearInput Real.sqrt Real.pi) exactPow
      collinearScratchShifted (fun _ => 0) 2 1 (by norm_num)
      (ne_of_gt collinear_reference_pos) h0).1⟩

theorem tinyHorizon_reference :
    shearReferenceOf underflowingPow (tinyHorizonInput Real.sqrt Real.pi).pi
      (tinyHorizonInput Real.sqrt Real.pi).horizon = 0 := by
  have h : underflowingPow (1.0e-70 : ℝ) 5 = 0 := by
    unfold underflowingPow
    rw [if_pos]
    rw [abs_of_nonneg (by positivity)]
    norm_num
  simp only [shearReferenceOf, tinyHorizonInput, h, mul_zero, zero_div]

/-- With the reference value `0` every owned point divides by zero in the guard. -/
theorem ShearCorrectionInput.runChecked_zero_reference (I : ShearCorrectionInput α)
    (pow : α → ℕ → α) (yOverlap shearCorrectionFactorOwned : ℕ → α) (n p : ℕ) (hp : p < n)
    (href : shearReferenceOf pow I.pi I.horizon = 0) :
    (I.runChecked pow yOverlap shearCorrectionFactorOwned n).shearCorrectionFactorOwned p
      = none := by
  obtain ⟨_, _, h3, _⟩ := I.shear_checked_run_closed_form pow yOverlap
    shearCorrectionFactorOwned n
  rw [h3 p hp, href]
  by_cases h : I.owned_weighted_volume p = 0 ∧ numNeighOf I.localNeighborList p ≠ 0
  · rw [if_pos h]
    rfl
  · rw [if_neg h, Option.some_bind, shearGuard_checked_zero_reference]

/-- C14, counterexample to the statement for every positive horizon: for `horizon = 1.0e-70`
the power `pow(horizon, 5)` underflows to `0`, so `reference = 0`, and at the owned point 1 of
the collinear configuration, whose block is empty, the guard of line 1129 divides `0` by `0`:
the value written is not `1`. -/
theorem empty_block_underflowing_horizon :
    1 < 2
    ∧ 0 < (tinyHorizonInput Real.sqrt Real.pi).horizon
    ∧ numNeighOf (tinyHorizonInput Real.sqrt Real.pi).localNeighborList 1 = 0
    ∧ underflowingPow (tinyHorizonInput Real.sqrt Real.pi).horizon 5 = 0
    ∧ ((tinyHorizonInput Real.sqrt Real.pi).runChecked underflowingPow collinearScratchReference
        (fun _ => 0) 2).shearCorrectionFactorOwned 1 = none := by
  have h0 : numNeighOf (tinyHorizonInput Real.sqrt Real.pi).localNeighborList 1 = 0 := by decide
  have hpow : underflowingPow (tinyHorizonInput Real.sqrt Real.pi).horizon 5 = 0 := by
    simp only [tinyHorizonInput]
    unfold underflowingPow
    rw [if_pos]
    rw [abs_of_nonneg (by positivity)]
    norm_num
  refine ⟨by norm_num, by simp only [tinyHorizonInput]; norm_num, h0, hpow, ?_⟩
  exact (tinyHorizonInput Real.sqrt Real.pi).runChecked_zero_reference underflowingPow
    collinearScratchReference (fun _ => 0) 2 1 (by norm_num) tinyHorizon_reference

/-- C31, as amended: when the value `reference` computed at line 1095 is positive and the
owned point `p` has nonzero weighted volume or an empty block, `computeShearCorrectionFactor`
evaluates no division by zero for `p` and the value written to `shearCorrectionFactorOwned[p]`
satisfies `0 <= dsf <= 1e15`: it is `1`, or `max_dsf > 0` and it is the quotient
`reference/max_dsf`. -/
theorem computeShearCorrectionFactor_bounds (I : ShearCorrectionInput α)
    (pow : α → ℕ → α) (yOverlap shearCorrectionFactorOwned : ℕ → α) (numOwnedPoints p : ℕ)
    (hp : p < numOwnedPoints) (href : 0 < shearReferenceOf pow I.pi I.horizon)
    (hm : I.owned_weighted_volume p ≠ 0 ∨ numNeighOf I.localNeighborList p = 0) :
    ∃ v : α,
      (I.runChecked pow yOverlap shearCorrectionFactorOwned
          numOwnedPoints).shearCorrectionFactorOwned p = some v
      ∧ 0 ≤ v ∧ v ≤ 1.0e15
      ∧ (v = 1
        ∨ (0 < I.maxNorm p (I.scratchBefore yOverlap p)
          ∧ v = shearReferenceOf pow I.pi I.horizon
              / I.maxNorm p (I.scratchBefore yOverlap p))) := by
  obtain ⟨_, _, h3, _⟩ := I.shear_checked_run_closed_form pow yOverlap
    shearCorrectionFactorOwned numOwnedPoints
  have hne : ¬ (I.owned_weighted_volume p = 0 ∧ numNeighOf I.localNeighborList p ≠ 0) := by
    rintro ⟨h1, h2⟩
    rcases hm with h | h
    · exact h h1
    · exact h2 h
  have hb := shearGuard_bounds (shearReferenceOf pow I.pi I.horizon)
    (I.maxNorm p (I.scratchBefore yOverlap p)) href
  refine ⟨shearGuard (shearReferenceOf pow I.pi I.horizon)
    (I.maxNorm p (I.scratchBefore yOverlap p)), ?_, hb.1.le, hb.2.1, ?_⟩
  · rw [h3 p hp, if_neg hne, Option.some_bind]
    exact shearGuard_checked_of_ne _ _ (ne_of_gt href) (fun h => ne_of_gt (hb.2.2 h))
  · unfold shearGuard
    by_cases h : I.maxNorm p (I.scratchBefore yOverlap p)
        / shearReferenceOf pow I.pi I.horizon < 1.0e-15
    · left
      rw [if_pos h]
    · right
      rw [if_neg h]
      exact ⟨hb.2.2 h, rfl⟩

theorem computeShearCorrectionFactor_bounds_witness :
    0 < 1
    ∧ 0 < shearReferenceOf exactPow (collinearInput Real.sqrt Real.pi).pi
        (collinearInput Real.sqrt Real.pi).horizon
    ∧ ((collinearInput Real.sqrt Real.pi).owned_weighted_volume 0 ≠ 0
      ∨ numNeighOf (collinearInput Real.sqrt Real.pi).localNeighborList 0 = 0)
    ∧ ∃ v : ℝ,
      ((collinearInput Real.sqrt Real.pi).runChecked exactPow collinearScratchShifted
          (fun _ => 0) 1).shearCorrectionFactorOwned 0 = some v
      ∧ 0 ≤ v ∧ v ≤ 1.0e15 := by
  have hm : (collinearInput Real.sqrt Real.pi).owned_weighted_volume 0 ≠ 0
      ∨ numNeighOf (collinearInput Real.sqrt Real.pi).localNeighborList 0 = 0 := by
    left
    simp [collinearInput]
  obtain ⟨v, h1, h2, h3, _⟩ := computeShearCorrectionFactor_bounds
    (collinearInput Real.sqrt Real.pi) exactPow collinearScratchShifted (fun _ => 0) 1 0
    (by norm_num) collinear_reference_pos hm
  exact ⟨by norm_num, collinear_reference_pos, hm, v, h1, h2, h3⟩

/-- C31, counterexample to the bound for every call with positive horizon: for the three
collinear points with `horizon = 1` and weighted volume `0` at the owned point 0, whose block
holds two neighbours, the single-point `computeDilatation` divides by `m = 0` at line 1076;
and for `horizon = 1.0e-70`, where the power `pow(horizon, 5)` underflows to `0`, the guard of
line 1129 divides by `reference = 0`.  In both calls no number in `(0, 1e15]` is written for
point 0. -/
theorem shear_factor_divides_by_zero :
    (0 < (zeroWeightedVolumeInput Real.sqrt Real.pi).horizon
      ∧ numNeighOf (zeroWeightedVolumeInput Real.sqrt Real.pi).localNeighborList 0 = 2
      ∧ (zeroWeightedVolumeInput Real.sqrt Real.pi).owned_weighted_volume 0 = 0
      ∧ 0 < shearReferenceOf exactPow (zeroWeightedVolumeInput Real.sqrt Real.pi).pi
          (zeroWeightedVolumeInput Real.sqrt Real.pi).horizon
      ∧ ((zeroWeightedVolumeInput Real.sqrt Real.pi).runChecked exactPow
          collinearScratchReference (fun _ => 0) 1).shearCorrectionFactorOwned 0 = none)
    ∧ (0 < (tinyHorizonInput Real.sqrt Real.pi).horizon
      ∧ (tinyHorizonInput Real.sqrt Real.pi).owned_weighted_volume 0 ≠ 0
      ∧ underflowingPow (tinyHorizonInput Real.sqrt Real.pi).horizon 5 = 0
      ∧ ((tinyHorizonInput Real.sqrt Real.pi).runChecked underflowingPow
          collinearScratchReference (fun _ => 0) 1).shearCorrectionFactorOwned 0 = none) := by
  have hn : numNeighOf (zeroWeightedVolumeInput Real.sqrt Real.pi).localNeighborList 0 = 2 :=
    rfl
  have hm : (zeroWeightedVolumeInput Real.sqrt Real.pi).owned_weighted_volume 0 = 0 := rfl
  have hpow : underflowingPow (tinyHorizonInput Real.sqrt Real.pi).horizon 5 = 0 := by
    simp only [tinyHorizonInput]
    unfold underflowingPow
    rw [if_pos]
    rw [abs_of_nonneg (by positivity)]
    norm_num
  refine ⟨⟨by simp [zeroWeightedVolumeInput, collinearInput], hn, hm,
      collinear_reference_pos, ?_⟩,
    ⟨by simp only [tinyHorizonInput]; norm_num, by simp [tinyHorizonInput, collinearInput],
      hpow, ?_⟩⟩
  · obtain ⟨_, _, h3, _⟩ :=
      (zeroWeightedVolumeInput Real.sqrt Real.pi).shear_checked_run_closed_form exactPow
        collinearScratchReference (fun _ => 0) 1
    rw [h3 0 (by norm_num), if_pos ⟨hm, by rw [hn]; norm_num⟩]
    rfl
  · exact (tinyHorizonInput Real.sqrt Real.pi).runChecked_zero_reference underflowingPow
      collinearScratchReference (fun _ => 0) 1 0 (by norm_num) tinyHorizon_reference

theorem shearGuard_checked_eq_some (reference max_dsf v : α)
    (h : shearGuard_checked reference max_dsf = some v) : v = shearGuard reference max_dsf := by
  by_cases href : reference = 0
  · rw [href, shearGuard_checked_zero_reference] at h
    exact absurd h (by simp)
  · by_cases hM : ¬ max_dsf / reference < 1.0e-15 → max_dsf ≠ 0
    · rw [shearGuard_checked_of_ne _ _ href hM] at h
      exact (Option.some.inj h).symm
    · have hlt : ¬ max_dsf / reference < 1.0e-15 := fun hl => hM (fun hn => absurd hl hn)
      have h0 : max_dsf = 0 := by
        by_contra hne
        exact hM (fun _ => hne)
      rw [h0, zero_div] at hlt
      exact absurd (by norm_num) hlt

/-- The checked evaluator refines the unchecked one: with the exact power, a number the
checked call stores for an owned point is the number the unchecked call stores. -/
theorem ShearCorrectionInput.runChecked_refines (I : ShearCorrectionInput α)
    (yOverlap shearCorrectionFactorOwned : ℕ → α) (n p : ℕ) (hp : p < n) (v : α)
    (h : (I.runChecked exactPow yOverlap shearCorrectionFactorOwned
      n).shearCorrectionFactorOwned p = some v) :
    (I.run yOverlap shearCorrectionFactorOwned n).shearCorrectionFactorOwned p = v := by
  obtain ⟨_, _, h3, _⟩ := I.shear_checked_run_closed_form exactPow yOverlap
    shearCorrectionFactorOwned n
  obtain ⟨_, _, k3, _⟩ := I.shear_run_closed_form yOverlap shearCorrectionFactorOwned n
  rw [h3 p hp] at h
  rw [k3 p hp]
  by_cases hc : I.owned_weighted_volume p = 0 ∧ numNeighOf I.localNeighborList p ≠ 0
  · rw [if_pos hc] at h
    exact absurd h (by simp)
  · rw [if_neg hc, Option.some_bind] at h
    exact (shearGuard_checked_eq_some _ _ _ h).symm

end PdMaterialUtilities
